import Mathlib

/-!
Credential provisioning of lothone.delivery, verified against the Go source

A shallow embedding of `internal/utils` (shadowsocks.go, vmess.go, utils.go,
firewall.go, account.go, sstp.go) and theorems about it.

Conventions of the embedding

* Go `int` is `Int`.  The only arithmetic on it is `nextPort++` in
  `getNextPort`, starting from 10000 and executed at most once per inbound, so
  the value stays below `10000 + len(inbounds)` (`getNextPort_le`) and never
  reaches the 64-bit limit for a slice that fits in memory.
* Go slices are `List`s.  The encoder writes a nil slice as `null` and an
  empty one as `[]`: the field `InboundSettings.Clients`, which is written back
  as it was read, is an `Option` with `none` for nil; the slices `inbounds` and
  `users` are never nil where an operation writes them (an element was just
  appended, indexed or deleted), so they are plain lists written as arrays.
* vmess.go decodes with `goccy/go-json`, taken to follow `encoding/json`.
* Go strings are `String`s.  Where the code slices a string or hands it to an
  encoder, its UTF-8 bytes are a `List Nat` (`utf8`).
* Library calls (`strconv.Atoi`, `time.Parse`, `Time.String`, base64,
  `url.QueryEscape`) are embedded from the Go standard library; the network,
  `uuid.NewString`, `ufw` and the outcome of a file write are parameters.
* A file is the JSON value it holds, or `none` when it cannot be read or is
  not JSON.  Whitespace, indentation and the position of a member inside an
  object are not represented; member names are spelled as in the struct tags.
* A Go panic (index or slice bound out of range) is the outcome `panicked`.
* A descriptor is a text.  `json.Marshal` on the struct `vmessConfig` is
  embedded byte by byte: the members in the order of the fields, `omitempty`,
  and the escapes of `encoding/json` with HTML escaping, which `goccy/go-json`
  applies by default.  The code only generates descriptors; the readers
  (`base64Decode`, `queryUnescape`, `readObject`, the cuts of a text at `@`, `:`
  and `#`) are written from the specification.
-/

namespace Lothone

/-! ## JSON values and the decoding rules of `encoding/json` -/

/-- A JSON value.  `num` carries an integer literal in the range of Go `int`. -/
inductive JSON where
  | null
  | bool (b : Bool)
  | num (n : Int)
  | str (s : String)
  | arr (items : List JSON)
  | obj (members : List (String × JSON))
deriving Repr, Inhabited

/-- Value of member `key` of an object; of several members of that name the
last one counts, as in a Go map filled member by member. -/
def getField : List (String × JSON) → String → Option JSON
  | [], _ => none
  | (k, v) :: rest, key =>
    match getField rest key with
    | some later => some later
    | none => if k = key then some v else none

/-- The members of an object without those named `key`. -/
def removeKey (key : String) : List (String × JSON) → List (String × JSON)
  | [] => []
  | (k, v) :: rest => if k = key then removeKey key rest else (k, v) :: removeKey key rest

/-- The Go map assignment `m[key] = value`. -/
def mapSet (m : List (String × JSON)) (key : String) (value : JSON) : List (String × JSON) :=
  removeKey key m ++ [(key, value)]

/-- Decoding into a Go `string` field: an absent member and `null` leave the
zero value, a JSON string is stored, anything else is a type error. -/
def decodeString : Option JSON → Option String
  | none => some ""
  | some .null => some ""
  | some (.str s) => some s
  | some _ => none

/-- Decoding into a Go `int` field. -/
def decodeInt : Option JSON → Option Int
  | none => some 0
  | some .null => some 0
  | some (.num n) => some n
  | some _ => none

/-- Decoding into a Go `bool` field. -/
def decodeBool : Option JSON → Option Bool
  | none => some false
  | some .null => some false
  | some (.bool b) => some b
  | some _ => none

/-- Decoding into a `json.RawMessage` field: the value is kept as it is; an
absent member leaves the nil message, which is written back as `null`. -/
def decodeRaw : Option JSON → JSON
  | none => .null
  | some v => v

/-- Decoding every element of a JSON array with `elem`; one failing element
fails the whole call. -/
def decodeAll {α : Type} (elem : JSON → Option α) : List JSON → Option (List α)
  | [] => some []
  | j :: rest =>
    match elem j with
    | none => none
    | some a =>
      match decodeAll elem rest with
      | none => none
      | some as => some (a :: as)

/-- Decoding into a slice: `null` and an absent member give the nil slice, an
array is decoded element by element, anything else is a type error. -/
def decodeSlice {α : Type} (elem : JSON → Option α) : Option JSON → Option (List α)
  | none => some []
  | some .null => some []
  | some (.arr items) => decodeAll elem items
  | some _ => none

/-- Decoding into a slice field, keeping apart the nil slice (`none`, from
`null` or an absent member) and a slice read from an array. -/
def decodeSliceField {α : Type} (elem : JSON → Option α) :
    Option JSON → Option (Option (List α))
  | none => some none
  | some .null => some none
  | some (.arr items) =>
    match decodeAll elem items with
    | none => none
    | some xs => some (some xs)
  | some _ => none

/-- The call `json.Unmarshal(raw, &slice)` on a `json.RawMessage` taken from the
top-level map: a key that is not in the map gives empty input, which is an
error. -/
def unmarshalSlice {α : Type} (elem : JSON → Option α) : Option JSON → Option (List α)
  | none => none
  | some v => decodeSlice elem (some v)

/-! ## Records of utils.go (lines 23-59) -/

/-- The Go struct `V2rayClient`. -/
structure V2rayClient where
  Id : String
  AlterId : Int
deriving DecidableEq, Repr

/-- The Go struct `Client`. -/
structure Client where
  Id : String
  AlterId : Int
  Username : String
  DeviceId : String
  StartDate : String
  ExpireDate : String
  Password : String
  Port : Int
deriving DecidableEq, Repr

/-- The Go struct `InboundSettings`; `Clients` is `none` for the nil slice. -/
structure InboundSettings where
  Clients : Option (List V2rayClient)
deriving DecidableEq, Repr

/-- The elements of a slice that may be nil, as `range` and `len` see them. -/
def elems {α : Type} : Option (List α) → List α
  | none => []
  | some xs => xs

/-- The Go struct `Inbound`; `StreamSettings` is a `json.RawMessage`. -/
structure Inbound where
  Port : Int
  Listen : String
  Protocol : String
  Settings : InboundSettings
  StreamSettings : JSON
deriving Repr

/-- The Go constant `DefaultAlterID`. -/
def DefaultAlterID : Int := 1

/-- The zero value of `Client`. -/
def Client.zero : Client :=
  { Id := "", AlterId := 0, Username := "", DeviceId := "", StartDate := "",
    ExpireDate := "", Password := "", Port := 0 }

/-! ## Shadowsocks inbound records (shadowsocks.go, lines 21-36) -/

/-- The Go struct `ShadowsocksSettings`. -/
structure ShadowsocksSettings where
  Method : String
  Password : String
  Network : String
  Level : Int
  Ota : Bool
deriving DecidableEq, Repr

/-- The Go struct `ShadowsocksInbound`. -/
structure ShadowsocksInbound where
  Port : Int
  Listen : String
  Protocol : String
  Settings : ShadowsocksSettings
deriving DecidableEq, Repr

/-! ## Port allocation (shadowsocks.go, lines 174-201) -/

/-- The `for _, port := range ports` loop of `getNextPort`, entered with the
current value of `nextPort` and the ports still to visit. -/
def scanPorts : Int → List Int → Int
  | nextPort, [] => nextPort
  | nextPort, port :: rest =>
    if port > nextPort then nextPort
    else if port = nextPort then scanPorts (nextPort + 1) rest
    else scanPorts nextPort rest

/-- The Go function `getNextPort`: `sort.Ints` is the ascending sort of the
collected ports. -/
def getNextPort (inbounds : List ShadowsocksInbound) : Int :=
  if inbounds.length = 0 then 10000
  else
    let ports := inbounds.map (fun inbound => inbound.Port)
    scanPorts 10000 (ports.insertionSort (fun a b => a ≤ b))

/-- An inbound listening on `port`, with the settings `CreateShadowsocksUser`
writes. -/
def inboundOn (port : Int) (password : String) : ShadowsocksInbound :=
  { Port := port, Listen := "0.0.0.0", Protocol := "shadowsocks",
    Settings := { Method := "aes-128-gcm", Password := password,
                  Network := "tcp,udp", Level := 1, Ota := false } }

/-! ## Decoders and encoders of the records -/

/-- Decoding one array element into a `V2rayClient`: `null` leaves the zero
value, an object fills the tagged fields, anything else is a type error. -/
def decodeV2rayClient : JSON → Option V2rayClient
  | .null => some { Id := "", AlterId := 0 }
  | .obj m => do
    let id ← decodeString (getField m "id")
    let alterId ← decodeInt (getField m "alterId")
    pure { Id := id, AlterId := alterId }
  | _ => none

/-- What `json.Marshal` writes for a `V2rayClient`. -/
def encodeV2rayClient (c : V2rayClient) : JSON :=
  .obj [("id", .str c.Id), ("alterId", .num c.AlterId)]

/-- Decoding one array element into a `Client`. -/
def decodeClient : JSON → Option Client
  | .null => some Client.zero
  | .obj m => do
    let id ← decodeString (getField m "id")
    let alterId ← decodeInt (getField m "alterId")
    let username ← decodeString (getField m "username")
    let deviceId ← decodeString (getField m "deviceId")
    let startDate ← decodeString (getField m "startDate")
    let expireDate ← decodeString (getField m "expireDate")
    let password ← decodeString (getField m "password")
    let port ← decodeInt (getField m "port")
    pure { Id := id, AlterId := alterId, Username := username, DeviceId := deviceId,
           StartDate := startDate, ExpireDate := expireDate, Password := password,
           Port := port }
  | _ => none

/-- What `json.Marshal` writes for a `Client`. -/
def encodeClient (c : Client) : JSON :=
  .obj [("id", .str c.Id), ("alterId", .num c.AlterId), ("username", .str c.Username),
        ("deviceId", .str c.DeviceId), ("startDate", .str c.StartDate),
        ("expireDate", .str c.ExpireDate), ("password", .str c.Password),
        ("port", .num c.Port)]

/-- Decoding the `settings` member into `InboundSettings`: only `clients` is
read, every other member of the object is ignored. -/
def decodeInboundSettings : Option JSON → Option InboundSettings
  | none => some { Clients := none }
  | some .null => some { Clients := none }
  | some (.obj m) => do
    let clients ← decodeSliceField decodeV2rayClient (getField m "clients")
    pure { Clients := clients }
  | some _ => none

/-- What `json.Marshal` writes for `InboundSettings`. -/
def encodeInboundSettings (s : InboundSettings) : JSON :=
  match s.Clients with
  | none => .obj [("clients", .null)]
  | some clients => .obj [("clients", .arr (clients.map encodeV2rayClient))]

/-- Decoding one array element into an `Inbound`. -/
def decodeInbound : JSON → Option Inbound
  | .null => some { Port := 0, Listen := "", Protocol := "", Settings := { Clients := none },
                    StreamSettings := .null }
  | .obj m => do
    let port ← decodeInt (getField m "port")
    let listen ← decodeString (getField m "listen")
    let protocol ← decodeString (getField m "protocol")
    let settings ← decodeInboundSettings (getField m "settings")
    pure { Port := port, Listen := listen, Protocol := protocol, Settings := settings,
           StreamSettings := decodeRaw (getField m "streamSettings") }
  | _ => none

/-- What `json.Marshal` writes for an `Inbound`. -/
def encodeInbound (i : Inbound) : JSON :=
  .obj [("port", .num i.Port), ("listen", .str i.Listen), ("protocol", .str i.Protocol),
        ("settings", encodeInboundSettings i.Settings),
        ("streamSettings", i.StreamSettings)]

/-- Decoding the `settings` member into `ShadowsocksSettings`. -/
def decodeShadowsocksSettings : Option JSON → Option ShadowsocksSettings
  | none => some { Method := "", Password := "", Network := "", Level := 0, Ota := false }
  | some .null => some { Method := "", Password := "", Network := "", Level := 0, Ota := false }
  | some (.obj m) => do
    let method ← decodeString (getField m "method")
    let password ← decodeString (getField m "password")
    let network ← decodeString (getField m "network")
    let level ← decodeInt (getField m "level")
    let ota ← decodeBool (getField m "ota")
    pure { Method := method, Password := password, Network := network, Level := level,
           Ota := ota }
  | some _ => none

/-- What `json.Marshal` writes for `ShadowsocksSettings`. -/
def encodeShadowsocksSettings (s : ShadowsocksSettings) : JSON :=
  .obj [("method", .str s.Method), ("password", .str s.Password),
        ("network", .str s.Network), ("level", .num s.Level), ("ota", .bool s.Ota)]

/-- Decoding one array element into a `ShadowsocksInbound`. -/
def decodeShadowsocksInbound : JSON → Option ShadowsocksInbound
  | .null => some { Port := 0, Listen := "", Protocol := "",
                    Settings := { Method := "", Password := "", Network := "", Level := 0,
                                  Ota := false } }
  | .obj m => do
    let port ← decodeInt (getField m "port")
    let listen ← decodeString (getField m "listen")
    let protocol ← decodeString (getField m "protocol")
    let settings ← decodeShadowsocksSettings (getField m "settings")
    pure { Port := port, Listen := listen, Protocol := protocol, Settings := settings }
  | _ => none

/-- What `json.Marshal` writes for a `ShadowsocksInbound`; `listen` is tagged
`omitempty`. -/
def encodeShadowsocksInbound (i : ShadowsocksInbound) : JSON :=
  .obj ([("port", .num i.Port)] ++
        (if i.Listen = "" then [] else [("listen", .str i.Listen)]) ++
        [("protocol", .str i.Protocol), ("settings", encodeShadowsocksSettings i.Settings)])

/-! ## The world the operations run in -/

/-- Transport of a firewall rule. -/
inductive Transport where
  | tcp
  | udp
deriving DecidableEq, Repr

/-- A `ufw` command line: `ufw allow <port>/<transport>` or
`ufw delete allow <port>/<transport>`. -/
inductive UfwCmd where
  | allow (port : Int) (transport : Transport)
  | deleteAllow (port : Int) (transport : Transport)
deriving DecidableEq, Repr

/-- Result of one `os.WriteFile`: it succeeds, or it fails and leaves the file
holding `left`. -/
inductive WriteOutcome where
  | ok
  | failed (left : Option JSON)

/-- What the surroundings decide during one call: whether a `ufw` command
exits with success, how the two writes end, and the flag `config.V2rayPort`. -/
structure Env where
  ufwRuns : UfwCmd → Bool
  writeConfig : WriteOutcome
  writeUsers : WriteOutcome
  V2rayPort : String

/-- The state the operations read and change: the configuration document, the
roster document, and the `ufw` commands run so far. -/
structure World where
  configFile : Option JSON
  usersFile : Option JSON
  ufw : List UfwCmd

/-- Outcome of a Go call: it returns its results or it panics. -/
inductive Outcome (α : Type) where
  | returned (value : α)
  | panicked
deriving Repr

/-- The results `(*Client, int, error)` of Edit and Delete. -/
structure Reply where
  client : Option Client
  status : Int
  err : Option String
deriving DecidableEq, Repr

/-- The Go variable `InternalServerErr`. -/
def InternalServerErr : String := "Internal Server Error"

/-! ## Firewall (firewall.go) -/

/-- The Go function `AllowPort`: the returned flag is `err != nil`. -/
def AllowPort (env : Env) (port : Int) (ufw : List UfwCmd) : Bool × List UfwCmd :=
  if port < 1 ∨ port > 65535 then (true, ufw)
  else if env.ufwRuns (.allow port .tcp) = false then (true, ufw ++ [.allow port .tcp])
  else if env.ufwRuns (.allow port .udp) = false then
    (true, ufw ++ [.allow port .tcp, .allow port .udp])
  else (false, ufw ++ [.allow port .tcp, .allow port .udp])

/-- The Go function `DeletePort`: the returned flag is `err != nil`. -/
def DeletePort (env : Env) (port : Int) (ufw : List UfwCmd) : Bool × List UfwCmd :=
  if port < 1 ∨ port > 65535 then (true, ufw)
  else if env.ufwRuns (.deleteAllow port .tcp) = false then
    (true, ufw ++ [.deleteAllow port .tcp])
  else if env.ufwRuns (.deleteAllow port .udp) = false then
    (true, ufw ++ [.deleteAllow port .tcp, .deleteAllow port .udp])
  else (false, ufw ++ [.deleteAllow port .tcp, .deleteAllow port .udp])

/-! ## Reading and writing the document pair -/

/-- `os.ReadFile` followed by `json.Unmarshal` into `map[string]json.RawMessage`:
an object gives its members, `null` the nil map, anything else an error. -/
def readDocument : Option JSON → Option (List (String × JSON))
  | some (.obj members) => some members
  | some .null => some []
  | _ => none

/-- What an operation holds after its reading phase. -/
structure Loaded (ι : Type) where
  configResult : List (String × JSON)
  userResult : List (String × JSON)
  inbounds : List ι
  users : List Client

/-- The reading phase, the same in all six operations up to the inbound type
(shadowsocks.go 47-90, 205-243, 327-365; vmess.go 27-66, 130-168, 230-268):
both files are read and parsed, then `inbounds` and `clients` are decoded.
Every failure makes the operation return the same error, so they are one
`none` here. -/
def load {ι : Type} (elem : JSON → Option ι) (w : World) : Option (Loaded ι) :=
  match readDocument w.configFile with
  | none => none
  | some configResult =>
    match readDocument w.usersFile with
    | none => none
    | some userResult =>
      match unmarshalSlice elem (getField configResult "inbounds") with
      | none => none
      | some inbounds =>
        match unmarshalSlice decodeClient (getField userResult "clients") with
        | none => none
        | some users =>
          some { configResult := configResult, userResult := userResult,
                 inbounds := inbounds, users := users }

/-- The writing phase, the same in all six operations: the two maps are
marshalled and written, the configuration document first.  The flag is true
when both writes succeeded.  (Marshalling these values cannot fail.) -/
def writeBack (env : Env) (configResult userResult : List (String × JSON)) (w : World) :
    Bool × World :=
  match env.writeConfig with
  | .failed left => (false, { w with configFile := left })
  | .ok =>
    match env.writeUsers with
    | .failed left =>
      (false, { w with configFile := some (.obj configResult), usersFile := left })
    | .ok =>
      (true, { w with configFile := some (.obj configResult),
                      usersFile := some (.obj userResult) })

/-! ## Loops over the slices -/

/-- Index found by `for i, c := range xs { if p(c) { found, index = true, i; break } }`:
the first index whose element satisfies `p`, `none` when `found` stays false. -/
def findIndex {α : Type} (p : α → Bool) : List α → Option Nat
  | [] => none
  | x :: rest => if p x then some 0 else (findIndex p rest).map (fun i => i + 1)

/-- Value of `index` after `for index, user = range xs { if p(user) { break } }`,
entered at position `i` with `index` holding `index`: every iteration assigns
the position to `index` before the test. -/
def rangeBreakFrom {α : Type} (p : α → Bool) (index i : Nat) : List α → Nat
  | [] => index
  | x :: rest => if p x then i else rangeBreakFrom p i (i + 1) rest

/-- Value of `index` after the search loop of the Delete operations: the first
matching position, the last position when nothing matches, 0 on an empty
slice. -/
def rangeBreak {α : Type} (p : α → Bool) (xs : List α) : Nat :=
  rangeBreakFrom p 0 0 xs

/-! ## strconv.Atoi -/

/-- Value of a run of decimal digits. -/
def digitsValue (ds : List Char) : Int :=
  ds.foldl (fun n ch => n * 10 + ((ch.toNat : Int) - 48)) 0

/-- The Go function `strconv.Atoi` on a 64-bit platform, as `(value, err != nil)`:
an optional sign and at least one decimal digit; a syntax error gives 0, a
value out of range gives the nearest bound. -/
def Atoi (s : String) : Int × Bool :=
  let cs := s.toList
  let neg := cs.head? = some '-'
  let ds := if cs.head? = some '-' ∨ cs.head? = some '+' then cs.tail else cs
  if ds = [] ∨ ds.all Char.isDigit = false then (0, true)
  else
    let v := if neg then - digitsValue ds else digitsValue ds
    if v > 9223372036854775807 then (9223372036854775807, true)
    else if v < -9223372036854775808 then (-9223372036854775808, true)
    else (v, false)

/-! ## Shadowsocks operations (shadowsocks.go) -/

/-- The Go function `CreateShadowsocksUser` (lines 45-172); the result is the
returned `error`, `none` for nil. -/
def CreateShadowsocksUser (env : Env) (c : Client) (w : World) :
    Outcome (Option String) × World :=
  match load decodeShadowsocksInbound w with
  | none => (.returned (some InternalServerErr), w)
  | some d =>
    if d.inbounds.any (fun inbound => inbound.Settings.Password = c.Password) then
      (.returned (some InternalServerErr), w)
    else
      let port := getNextPort d.inbounds
      let newInbound : ShadowsocksInbound :=
        { Port := port, Listen := "0.0.0.0", Protocol := "shadowsocks",
          Settings := { Method := "aes-128-gcm", Password := c.Password,
                        Network := "tcp,udp", Level := 1, Ota := false } }
      let c : Client := { c with Port := port }
      let inbounds := d.inbounds ++ [newInbound]
      let users := d.users ++ [c]
      let configResult :=
        mapSet d.configResult "inbounds" (.arr (inbounds.map encodeShadowsocksInbound))
      let userResult := mapSet d.userResult "clients" (.arr (users.map encodeClient))
      match writeBack env configResult userResult w with
      | (false, w1) => (.returned (some InternalServerErr), w1)
      | (true, w1) =>
        match AllowPort env c.Port w1.ufw with
        | (true, ufw) => (.returned (some InternalServerErr), { w1 with ufw := ufw })
        | (false, ufw) => (.returned none, { w1 with ufw := ufw })

/-- The Go function `EditShadowsocksUser` (lines 204-324). -/
def EditShadowsocksUser (env : Env) (client : Client) (w : World) : Outcome Reply × World :=
  match load decodeShadowsocksInbound w with
  | none => (.returned { client := none, status := 500, err := some InternalServerErr }, w)
  | some d =>
    match findIndex (fun c => client.Password = c.Password) d.users with
    | none => (.returned { client := none, status := 400, err := some "Bad Request" }, w)
    | some index =>
      match d.inbounds[index]? with
      | none => (.panicked, w)
      | some inbound =>
        let modifiedInbound : ShadowsocksInbound :=
          { Port := inbound.Port, Listen := "0.0.0.0", Protocol := "shadowsocks",
            Settings := { Method := "aes-128-gcm", Password := client.Password,
                          Network := "tcp,udp", Level := 1, Ota := false } }
        let modifiedClient : Client :=
          { Id := "", AlterId := DefaultAlterID, Username := client.Username,
            DeviceId := client.DeviceId, StartDate := client.StartDate,
            ExpireDate := client.ExpireDate, Password := client.Password, Port := 0 }
        match d.users[index]? with
        | none => (.panicked, w)
        | some oldClient =>
          let inbounds := d.inbounds.set index modifiedInbound
          let users := d.users.set index modifiedClient
          let configResult :=
            mapSet d.configResult "inbounds" (.arr (inbounds.map encodeShadowsocksInbound))
          let userResult := mapSet d.userResult "clients" (.arr (users.map encodeClient))
          match writeBack env configResult userResult w with
          | (false, w1) =>
            (.returned { client := none, status := 500, err := some InternalServerErr }, w1)
          | (true, w1) =>
            (.returned { client := some oldClient, status := 200, err := none }, w1)

/-- The Go function `DeleteShadowsocksUser` (lines 326-429).  It decodes the
inbounds as `[]Inbound`. -/
def DeleteShadowsocksUser (env : Env) (password deviceId : String) (w : World) :
    Outcome Reply × World :=
  match load decodeInbound w with
  | none => (.returned { client := none, status := 500, err := some "Internal server error" }, w)
  | some d =>
    let index := rangeBreak (fun user : Client => user.Password = password) d.users
    match d.users[index]? with
    | none => (.panicked, w)
    | some user =>
      if user.Password ≠ password ∧ user.DeviceId ≠ deviceId then
        (.returned { client := none, status := 403, err := some "User's not found" }, w)
      else
        let deletedUser := user
        if index + 1 > d.inbounds.length then (.panicked, w)
        else
          let inbounds := d.inbounds.eraseIdx index
          let users := d.users.eraseIdx index
          let configResult :=
            mapSet d.configResult "inbounds" (.arr (inbounds.map encodeInbound))
          let userResult := mapSet d.userResult "clients" (.arr (users.map encodeClient))
          match writeBack env configResult userResult w with
          | (false, w1) =>
            (.returned { client := none, status := 500, err := some "Internal server error" },
             w1)
          | (true, w1) =>
            match DeletePort env deletedUser.Port w1.ufw with
            | (true, ufw) =>
              (.returned { client := none, status := 0, err := some InternalServerErr },
               { w1 with ufw := ufw })
            | (false, ufw) =>
              (.returned { client := some deletedUser, status := 200, err := none },
               { w1 with ufw := ufw })

/-! ## Vmess operations (vmess.go) -/

/-- The Go function `CreateVmessUser` (lines 26-126). -/
def CreateVmessUser (env : Env) (c : Client) (w : World) : Outcome (Option String) × World :=
  match load decodeInbound w with
  | none => (.returned (some InternalServerErr), w)
  | some d =>
    match d.inbounds with
    | [] => (.panicked, w)
    | first :: others =>
      if (elems first.Settings.Clients).any (fun client => client.Id = c.Id) then
        (.returned (some "Internal Server Error, Server ID already exists."), w)
      else
        let newV2rayClient : V2rayClient := { Id := c.Id, AlterId := DefaultAlterID }
        let c : Client := { c with Port := (Atoi env.V2rayPort).1 }
        let first : Inbound :=
          { first with
            Settings := { Clients := some (elems first.Settings.Clients ++ [newV2rayClient]) } }
        let inbounds := first :: others
        let users := d.users ++ [c]
        let configResult := mapSet d.configResult "inbounds" (.arr (inbounds.map encodeInbound))
        let userResult := mapSet d.userResult "clients" (.arr (users.map encodeClient))
        match writeBack env configResult userResult w with
        | (false, w1) => (.returned (some InternalServerErr), w1)
        | (true, w1) => (.returned none, w1)

/-- The Go function `DeleteVmessUser` (lines 129-226). -/
def DeleteVmessUser (env : Env) (serverId deviceId : String) (w : World) :
    Outcome Reply × World :=
  match load decodeInbound w with
  | none => (.returned { client := none, status := 500, err := some "Internal server error" }, w)
  | some d =>
    match d.inbounds with
    | [] => (.panicked, w)
    | first :: others =>
      let index := rangeBreak (fun user : V2rayClient => user.Id = serverId)
        (elems first.Settings.Clients)
      match d.users[index]? with
      | none => (.panicked, w)
      | some user =>
        if user.Id ≠ serverId ∧ user.DeviceId ≠ deviceId then
          (.returned { client := none, status := 403, err := some "User's not found" }, w)
        else
          let deletedUser := user
          if index + 1 > (elems first.Settings.Clients).length then (.panicked, w)
          else
            let first : Inbound :=
              { first with
                Settings := { Clients := some ((elems first.Settings.Clients).eraseIdx index) } }
            let inbounds := first :: others
            let users := d.users.eraseIdx index
            let configResult :=
              mapSet d.configResult "inbounds" (.arr (inbounds.map encodeInbound))
            let userResult := mapSet d.userResult "clients" (.arr (users.map encodeClient))
            match writeBack env configResult userResult w with
            | (false, w1) =>
              (.returned { client := none, status := 500,
                           err := some "Internal server error" }, w1)
            | (true, w1) =>
              (.returned { client := some deletedUser, status := 200, err := none }, w1)

/-- The Go function `EditVmessUser` (lines 229-339). -/
def EditVmessUser (env : Env) (client : Client) (w : World) : Outcome Reply × World :=
  match load decodeInbound w with
  | none => (.returned { client := none, status := 500, err := some InternalServerErr }, w)
  | some d =>
    match d.inbounds with
    | [] => (.panicked, w)
    | first :: others =>
      match findIndex (fun c : V2rayClient => client.Id = c.Id) (elems first.Settings.Clients) with
      | none => (.returned { client := none, status := 400, err := some "Bad Request" }, w)
      | some index =>
        let modifiedV2rayClient : V2rayClient := { Id := client.Id, AlterId := DefaultAlterID }
        let modifiedClient : Client :=
          { Id := client.Id, AlterId := DefaultAlterID, Username := client.Username,
            DeviceId := client.DeviceId, StartDate := client.StartDate,
            ExpireDate := client.ExpireDate, Password := "", Port := 0 }
        match d.users[index]? with
        | none => (.panicked, w)
        | some oldClient =>
          let first : Inbound :=
            { first with
              Settings :=
                { Clients := some ((elems first.Settings.Clients).set index modifiedV2rayClient) } }
          let inbounds := first :: others
          let users := d.users.set index modifiedClient
          let configResult :=
            mapSet d.configResult "inbounds" (.arr (inbounds.map encodeInbound))
          let userResult := mapSet d.userResult "clients" (.arr (users.map encodeClient))
          match writeBack env configResult userResult w with
          | (false, w1) =>
            (.returned { client := none, status := 500, err := some InternalServerErr }, w1)
          | (true, w1) =>
            (.returned { client := some oldClient, status := 200, err := none }, w1)

/-- The roster entry `EditShadowsocksUser` writes (`modifiedClient`, lines 273-280). -/
def shadowsocksModifiedClient (client : Client) : Client :=
  { Id := "", AlterId := DefaultAlterID, Username := client.Username,
    DeviceId := client.DeviceId, StartDate := client.StartDate,
    ExpireDate := client.ExpireDate, Password := client.Password, Port := 0 }

/-- The roster entry `EditVmessUser` writes (`modifiedClient`, lines 288-295). -/
def vmessModifiedClient (client : Client) : Client :=
  { Id := client.Id, AlterId := DefaultAlterID, Username := client.Username,
    DeviceId := client.DeviceId, StartDate := client.StartDate,
    ExpireDate := client.ExpireDate, Password := "", Port := 0 }

/-- An `Inbound` with its client list replaced. -/
def withClients (first : Inbound) (clients : List V2rayClient) : Inbound :=
  { first with Settings := { Clients := some clients } }

/-! ## Observations on a world -/

/-- The inbounds of the configuration document read as `[]ShadowsocksInbound`,
the way Create and Edit read them. -/
def shadowsocksInboundsOf (w : World) : Option (List ShadowsocksInbound) :=
  match readDocument w.configFile with
  | none => none
  | some configResult => unmarshalSlice decodeShadowsocksInbound (getField configResult "inbounds")

/-- The inbounds of the configuration document read as `[]Inbound`. -/
def inboundsOf (w : World) : Option (List Inbound) :=
  match readDocument w.configFile with
  | none => none
  | some configResult => unmarshalSlice decodeInbound (getField configResult "inbounds")

/-- The client list of `inbounds[0]` of the configuration document. -/
def vmessClientsOf (w : World) : Option (List V2rayClient) :=
  match inboundsOf w with
  | some (first :: _) => some (elems first.Settings.Clients)
  | _ => none

/-- The entries of the roster document. -/
def rosterOf (w : World) : Option (List Client) :=
  match readDocument w.usersFile with
  | none => none
  | some userResult => unmarshalSlice decodeClient (getField userResult "clients")

/-! ## Cardinality of the two documents and sequences of calls -/

/-- Number of elements of an array taken from a top-level map (`null` is the
empty array). -/
def arrayLength : Option JSON → Option Nat
  | some (.arr items) => some items.length
  | some .null => some 0
  | _ => none

/-- Number of entries of the `inbounds` array of the configuration document. -/
def inboundCount (w : World) : Option Nat :=
  match readDocument w.configFile with
  | none => none
  | some configResult => arrayLength (getField configResult "inbounds")

/-- Number of entries of the roster document. -/
def rosterCount (w : World) : Option Nat :=
  (rosterOf w).map List.length

/-- Number of clients of `inbounds[0]` of the configuration document. -/
def vmessClientCount (w : World) : Option Nat :=
  (vmessClientsOf w).map List.length

/-- The Shadowsocks pair has as many inbounds as roster entries. -/
def ShadowsocksBalanced (w : World) : Prop :=
  ∃ n, inboundCount w = some n ∧ rosterCount w = some n

/-- The vmess pair has as many clients in `inbounds[0]` as roster entries. -/
def VmessBalanced (w : World) : Prop :=
  ∃ n, vmessClientCount w = some n ∧ rosterCount w = some n

/-- A call of one of the three operations of a local protocol. -/
inductive Call where
  | create (c : Client)
  | edit (c : Client)
  | delete (identity deviceId : String)

/-- One Shadowsocks call: the world it leaves when it succeeded (nil error),
`none` otherwise. -/
def shadowsocksCall (env : Env) (call : Call) (w : World) : Option World :=
  match call with
  | .create c =>
    match CreateShadowsocksUser env c w with
    | (.returned none, w1) => some w1
    | _ => none
  | .edit c =>
    match EditShadowsocksUser env c w with
    | (.returned r, w1) => if r.err = none then some w1 else none
    | _ => none
  | .delete identity deviceId =>
    match DeleteShadowsocksUser env identity deviceId w with
    | (.returned r, w1) => if r.err = none then some w1 else none
    | _ => none

/-- One vmess call: the world it leaves when it succeeded, `none` otherwise. -/
def vmessCall (env : Env) (call : Call) (w : World) : Option World :=
  match call with
  | .create c =>
    match CreateVmessUser env c w with
    | (.returned none, w1) => some w1
    | _ => none
  | .edit c =>
    match EditVmessUser env c w with
    | (.returned r, w1) => if r.err = none then some w1 else none
    | _ => none
  | .delete identity deviceId =>
    match DeleteVmessUser env identity deviceId w with
    | (.returned r, w1) => if r.err = none then some w1 else none
    | _ => none

/-- A serialized sequence of calls, each in its own surroundings: the world
after the last call when every call succeeded, `none` otherwise. -/
def runCalls (step : Env → Call → World → Option World) :
    List (Env × Call) → World → Option World
  | [], w => some w
  | (env, call) :: rest, w =>
    match step env call w with
    | none => none
    | some w1 => runCalls step rest w1

/-! ## Concrete documents for the witnesses and the failing inputs -/

/-- Surroundings in which every write and every `ufw` command succeeds. -/
def calmEnv : Env :=
  { ufwRuns := fun _ => true, writeConfig := .ok, writeUsers := .ok, V2rayPort := "443" }

/-- A Shadowsocks document pair without entries. -/
def emptyShadowsocksWorld : World :=
  { configFile := some (.obj [("log", .obj [("loglevel", .str "warning")]),
                              ("inbounds", .arr [])]),
    usersFile := some (.obj [("clients", .arr [])]),
    ufw := [] }

/-- A credential with password `abc123` bound to device `device-a`. -/
def alice : Client :=
  { Id := "", AlterId := 0, Username := "alice", DeviceId := "device-a",
    StartDate := "2025-01-01", ExpireDate := "2025-02-01", Password := "abc123", Port := 0 }

/-- A credential with password `zzz999` bound to device `device-b`. -/
def bob : Client :=
  { Id := "", AlterId := 0, Username := "bob", DeviceId := "device-b",
    StartDate := "2025-01-01", ExpireDate := "2025-03-01", Password := "zzz999", Port := 0 }

/-- The JSON of the inbound `CreateShadowsocksUser` writes for `port` and
`password`. -/
def shadowsocksInboundJSON (port : Int) (password : String) : JSON :=
  .obj [("port", .num port), ("listen", .str "0.0.0.0"), ("protocol", .str "shadowsocks"),
        ("settings", .obj [("method", .str "aes-128-gcm"), ("password", .str password),
                           ("network", .str "tcp,udp"), ("level", .num 1),
                           ("ota", .bool false)])]

/-- A Shadowsocks document pair holding `alice` on port 10000, as one Create
call leaves it. -/
def oneShadowsocksWorld : World :=
  { configFile := some (.obj [("log", .obj [("loglevel", .str "warning")]),
      ("inbounds", .arr [shadowsocksInboundJSON 10000 "abc123"])]),
    usersFile := some (.obj [("clients", .arr [encodeClient { alice with Port := 10000 }])]),
    ufw := [.allow 10000 .tcp, .allow 10000 .udp] }

/-- A Shadowsocks document pair holding `alice` on port 10000 and `bob` on
port 10001, as two Create calls leave it. -/
def twoShadowsocksWorld : World :=
  { configFile := some (.obj [("log", .obj [("loglevel", .str "warning")]),
      ("inbounds", .arr [shadowsocksInboundJSON 10000 "abc123",
                         shadowsocksInboundJSON 10001 "zzz999"])]),
    usersFile := some (.obj [("clients",
      .arr [encodeClient { alice with Port := 10000 },
            encodeClient { bob with Port := 10001 }])]),
    ufw := [.allow 10000 .tcp, .allow 10000 .udp, .allow 10001 .tcp, .allow 10001 .udp] }

/-- A vmess credential with id `uuid-1` bound to device `device-a`. -/
def carol : Client :=
  { Id := "uuid-1", AlterId := 1, Username := "carol", DeviceId := "device-a",
    StartDate := "2025-01-01", ExpireDate := "2025-02-01", Password := "", Port := 443 }

/-- A vmess credential with id `uuid-2` bound to device `device-b`. -/
def dave : Client :=
  { Id := "uuid-2", AlterId := 1, Username := "dave", DeviceId := "device-b",
    StartDate := "2025-01-01", ExpireDate := "2025-03-01", Password := "", Port := 443 }

/-- A vmess credential with id `uuid-3` bound to device `device-c`. -/
def erin : Client :=
  { Id := "uuid-3", AlterId := 1, Username := "erin", DeviceId := "device-c",
    StartDate := "2025-01-01", ExpireDate := "2025-04-01", Password := "", Port := 0 }

/-- A vmess document pair: one inbound on port 443 with the clients `uuid-1`
and `uuid-2`, and the roster entries `carol` and `dave`. -/
def twoVmessWorld : World :=
  { configFile := some (.obj [("log", .obj [("loglevel", .str "warning")]),
      ("inbounds", .arr [.obj [("port", .num 443), ("listen", .str "0.0.0.0"),
        ("protocol", .str "vmess"),
        ("settings", .obj [("clients", .arr [.obj [("id", .str "uuid-1"), ("alterId", .num 1)],
                                             .obj [("id", .str "uuid-2"), ("alterId", .num 1)]])]),
        ("streamSettings", .obj [("network", .str "tcp")])]])]),
    usersFile := some (.obj [("clients", .arr [encodeClient carol, encodeClient dave])]),
    ufw := [] }

/-- Four Shadowsocks calls, each in calm surroundings. -/
def shadowsocksSession : List (Env × Call) :=
  [(calmEnv, .create alice), (calmEnv, .create bob), (calmEnv, .delete "zzz999" "device-b"),
   (calmEnv, .edit { alice with Username := "alice2" })]

/-- Three vmess calls, each in calm surroundings. -/
def vmessSession : List (Env × Call) :=
  [(calmEnv, .create erin), (calmEnv, .edit { dave with Username := "dave2" }),
   (calmEnv, .delete "uuid-1" "device-a")]

/-! ## Top-level members of the two documents -/

/-- Value of the top-level member `key` of the configuration document. -/
def configValue (w : World) (key : String) : Option JSON :=
  match readDocument w.configFile with
  | none => none
  | some configResult => getField configResult key

/-- Value of the top-level member `key` of the roster document. -/
def rosterValue (w : World) (key : String) : Option JSON :=
  match readDocument w.usersFile with
  | none => none
  | some userResult => getField userResult key

/-- From `w` to `w1` every top-level member other than `inbounds` of the
configuration document and other than `clients` of the roster document has
kept its value (an absent member is still absent), and `inbounds` and
`clients` are members before and after. -/
def KeepsOtherKeys (w w1 : World) : Prop :=
  (∀ key, key ≠ "inbounds" → configValue w1 key = configValue w key) ∧
  (∀ key, key ≠ "clients" → rosterValue w1 key = rosterValue w key) ∧
  (configValue w "inbounds").isSome = true ∧ (configValue w1 "inbounds").isSome = true ∧
  (rosterValue w "clients").isSome = true ∧ (rosterValue w1 "clients").isSome = true

/-! ## More concrete documents -/

/-- Surroundings in which the writes succeed and every `ufw` command fails. -/
def stormEnv : Env :=
  { ufwRuns := fun _ => false, writeConfig := .ok, writeUsers := .ok, V2rayPort := "443" }

/-- A vmess document pair that parses and has no inbound and no roster entry. -/
def emptyVmessWorld : World :=
  { configFile := some (.obj [("log", .obj [("loglevel", .str "warning")]),
                              ("inbounds", .arr [])]),
    usersFile := some (.obj [("clients", .arr [])]),
    ufw := [] }

/-- A Shadowsocks document pair that parses, with one roster entry and no
inbound. -/
def rosterOnlyShadowsocksWorld : World :=
  { configFile := some (.obj [("inbounds", .arr [])]),
    usersFile := some (.obj [("clients", .arr [encodeClient { alice with Port := 10000 }])]),
    ufw := [] }

/-! ## Ports of the two documents -/

/-- Every roster entry of the Shadowsocks pair carries the port of the inbound
at the same index, or port 0; the two lists have the same length. -/
def PortsAgree (w : World) : Prop :=
  ∃ (inbounds : List ShadowsocksInbound) (users : List Client),
    shadowsocksInboundsOf w = some inbounds ∧ rosterOf w = some users ∧
    inbounds.length = users.length ∧
    ∀ (i : Nat) (x : ShadowsocksInbound) (u : Client),
      inbounds[i]? = some x → users[i]? = some u → u.Port = x.Port ∨ u.Port = 0

/-- The call is a Create or an Edit. -/
def Call.isCreateOrEdit : Call → Bool
  | .create _ => true
  | .edit _ => true
  | .delete _ _ => false

/-- Three Shadowsocks calls, each in calm surroundings: two Creates and an
Edit of the first credential. -/
def createEditSession : List (Env × Call) :=
  [(calmEnv, .create alice), (calmEnv, .create bob),
   (calmEnv, .edit { alice with Username := "alice2" })]

/-! ## Account types (account.go) -/

/-- The Go type `AccountType`, an `int`. -/
abbrev AccountType := Int

/-- The Go constant `VmessAccountType` (`iota + 1`). -/
def VmessAccountType : AccountType := 1

/-- The Go constant `ShadowsocksAccountType`. -/
def ShadowsocksAccountType : AccountType := 2

/-- The Go constant `SstpAccountType`. -/
def SstpAccountType : AccountType := 3

/-- What `%d` prints for a Go `int`. -/
def formatInt : Int → String
  | .ofNat m => String.mk (Nat.toDigits 10 m)
  | .negSucc m => String.mk ('-' :: Nat.toDigits 10 (m + 1))

/-- The Go function `ParseAccountType`, as `(AccountType, error)` with `none`
for the nil error. -/
def ParseAccountType (s : String) : AccountType × Option String :=
  match Atoi s with
  | (_, true) => (0, some ("invalid account type: " ++ s))
  | (val, false) =>
    if val = VmessAccountType ∨ val = ShadowsocksAccountType ∨ val = SstpAccountType then
      (val, none)
    else (0, some ("unknown account type: " ++ formatInt val))

/-- Value of a non-empty run of decimal digits read as a numeral in base ten,
`none` for anything else. -/
def decimalDigitsValue (ds : List Char) : Option Nat :=
  if ds ≠ [] ∧ ds.all Char.isDigit = true then
    some (Nat.ofDigits 10 (ds.reverse.map (fun ch => ch.toNat - 48)))
  else none

/-- Value of a decimal integer string, written from the words of the
specification and not from the code: an optional sign `+` or `-` followed by
one or more decimal digits; `none` when the string has another form. -/
def decimalIntegerValue (s : String) : Option Int :=
  match s.toList with
  | '-' :: ds => (decimalDigitsValue ds).map (fun n => - (n : Int))
  | '+' :: ds => (decimalDigitsValue ds).map (fun n => (n : Int))
  | ds => (decimalDigitsValue ds).map (fun n => (n : Int))

/-! ## `time.Parse` with the layout RFC3339 and `Time.String` (Go package time)

The general parser of package time (Go 1.20 and later) run on the layout
`2006-01-02T15:04:05Z07:00`, chunk by chunk.  All the bytes it accepts are
ASCII, so reading characters is reading bytes. -/

/-- The fields `time.Parse` has read from an accepted string. -/
structure ParsedTime where
  year : Nat
  month : Nat
  day : Nat
  hour : Nat
  minute : Nat
  second : Nat
  fraction : List Char
  utc : Bool
  zoneOffset : Int
deriving DecidableEq, Repr

/-- Value of a decimal digit, `c - '0'`. -/
def digitOf (c : Char) : Nat := c.toNat - 48

/-- The character of a decimal digit. -/
def digitChar (n : Nat) : Char := Char.ofNat (48 + n)

/-- The function `getnum` of package time: a one or two digit number, two
digits exactly when `fixed`. -/
def getnum (cs : List Char) (fixed : Bool) : Option (Nat × List Char) :=
  match cs with
  | [] => none
  | [a] => if a.isDigit = true ∧ fixed = false then some (digitOf a, []) else none
  | a :: b :: rest =>
    if a.isDigit = true then
      if b.isDigit = true then some (digitOf a * 10 + digitOf b, rest)
      else if fixed = true then none
      else some (digitOf a, b :: rest)
    else none

/-- The chunk `2006`: four digits. -/
def getYear (cs : List Char) : Option (Nat × List Char) :=
  match cs with
  | a :: b :: c :: d :: rest =>
    if a.isDigit = true ∧ b.isDigit = true ∧ c.isDigit = true ∧ d.isDigit = true then
      some (((digitOf a * 10 + digitOf b) * 10 + digitOf c) * 10 + digitOf d, rest)
    else none
  | _ => none

/-- A literal character of the layout. -/
def expectChar (c : Char) (cs : List Char) : Option (List Char) :=
  match cs with
  | [] => none
  | x :: rest => if x = c then some rest else none

/-- A fractional second in the input though the layout has none: a comma or
period followed by at least one digit; all the digits that follow are taken. -/
def getFraction (cs : List Char) : List Char × List Char :=
  match cs with
  | m :: d :: rest =>
    if (m = '.' ∨ m = ',') ∧ d.isDigit = true then
      ((d :: rest).takeWhile Char.isDigit, (d :: rest).dropWhile Char.isDigit)
    else ([], cs)
  | _ => ([], cs)

/-- The chunk `Z07:00`: `Z`, or a sign, two digits, a colon and two digits,
with at most 24 hours and 60 minutes.  The result is `(utc, offset in
seconds, rest)`. -/
def getZone (cs : List Char) : Option (Bool × Int × List Char) :=
  match cs with
  | [] => none
  | z :: rest =>
    if z = 'Z' then some (true, 0, rest)
    else
      match rest with
      | h1 :: h2 :: colon :: m1 :: m2 :: rest2 =>
        if colon = ':' then
          match getnum [h1, h2] true, getnum [m1, m2] true with
          | some (hr, _), some (mm, _) =>
            if hr > 24 ∨ mm > 60 then none
            else if z = '+' then some (false, ((hr * 60 + mm) * 60 : Nat), rest2)
            else if z = '-' then some (false, - (((hr * 60 + mm) * 60 : Nat) : Int), rest2)
            else none
          | _, _ => none
        else none
      | _ => none

/-- The function `isLeap` of package time. -/
def isLeap (year : Nat) : Bool :=
  year % 4 = 0 ∧ (year % 100 ≠ 0 ∨ year % 400 = 0)

/-- The function `daysIn` of package time. -/
def daysIn (month year : Nat) : Nat :=
  if month = 2 then (if isLeap year = true then 29 else 28)
  else if month = 4 ∨ month = 6 ∨ month = 9 ∨ month = 11 then 30
  else 31

/-- The chunks `2006-01-02`: year, month between 1 and 12, day of two digits. -/
def parseDate (cs : List Char) : Option ((Nat × Nat × Nat) × List Char) := do
  let (year, cs) ← getYear cs
  let cs ← expectChar '-' cs
  let (month, cs) ← getnum cs true
  if month = 0 ∨ 12 < month then none
  let cs ← expectChar '-' cs
  let (day, cs) ← getnum cs true
  pure ((year, month, day), cs)

/-- The chunks `T15:04:05Z07:00` and the end of the input: hour below 24 of
one or two digits, minute and second below 60, an optional fractional second,
the zone, and nothing after it.  The result is `(hour, minute, second,
fraction, utc, offset in seconds)`. -/
def parseClock (cs : List Char) :
    Option (Nat × Nat × Nat × List Char × Bool × Int) := do
  let cs ← expectChar 'T' cs
  let (hour, cs) ← getnum cs false
  if 24 ≤ hour then none
  let cs ← expectChar ':' cs
  let (minute, cs) ← getnum cs true
  if 60 ≤ minute then none
  let cs ← expectChar ':' cs
  let (second, cs) ← getnum cs true
  if 60 ≤ second then none
  let (fraction, cs) := getFraction cs
  let (utc, zoneOffset, cs) ← getZone cs
  if cs ≠ [] then none
  pure (hour, minute, second, fraction, utc, zoneOffset)

/-- The call `time.Parse(time.RFC3339, s)`: the fields read, `none` for an
error.  The day is checked against the month once the layout is consumed. -/
def parseRFC3339 (s : String) : Option ParsedTime :=
  match parseDate s.toList with
  | none => none
  | some ((year, month, day), cs) =>
    match parseClock cs with
    | none => none
    | some (hour, minute, second, fraction, utc, zoneOffset) =>
      if day < 1 ∨ day > daysIn month year then none
      else
        some { year := year, month := month, day := day, hour := hour, minute := minute,
               second := second, fraction := fraction, utc := utc,
               zoneOffset := zoneOffset }

/-- The function `appendInt` of package time for a number that is not
negative: decimal, padded with zeros to `width`. -/
def appendInt (x width : Nat) : List Char :=
  if width = 2 ∧ x < 100 then [digitChar (x / 10), digitChar (x % 10)]
  else if width = 4 ∧ x < 10000 then
    [digitChar (x / 1000), digitChar (x / 100 % 10), digitChar (x / 10 % 10), digitChar (x % 10)]
  else List.replicate (width - (Nat.toDigits 10 x).length) '0' ++ Nat.toDigits 10 x

/-- A list of digits without its trailing zeros. -/
def trimZeros (ds : List Char) : List Char :=
  (ds.reverse.dropWhile (fun c => c = '0')).reverse

/-- What the layout chunk `.999999999` prints: nothing for zero nanoseconds,
else a period and the nanoseconds without trailing zeros. -/
def fractionText (fraction : List Char) : List Char :=
  match trimZeros (fraction.take 9) with
  | [] => []
  | ds => '.' :: ds

/-- What the layout chunk `-0700` prints: the sign of the offset in whole
minutes (Go divides towards zero), then hours and minutes. -/
def offsetText (zoneOffset : Int) : List Char :=
  (if zoneOffset ≤ -60 then '-' else '+') ::
    (appendInt (zoneOffset.natAbs / 60 / 60) 2 ++ appendInt (zoneOffset.natAbs / 60 % 60) 2)

/-- The text of `t.String()` for a time returned by `time.Parse`, layout
`2006-01-02 15:04:05.999999999 -0700 MST`.  `localZone` is the abbreviation of
the local zone when `Parse` has chosen it (its offset at that instant is the
parsed one); a zone without a name is printed as its offset. -/
def timeString (localZone : Option String) (t : ParsedTime) : List Char :=
  appendInt t.year 4 ++ '-' :: appendInt t.month 2 ++ '-' :: appendInt t.day 2 ++
  ' ' :: appendInt t.hour 2 ++ ':' :: appendInt t.minute 2 ++ ':' :: appendInt t.second 2 ++
  fractionText t.fraction ++
  ' ' :: offsetText t.zoneOffset ++
  ' ' :: (if t.utc = true then "UTC".toList
          else match localZone with
            | some name => if name = "" then offsetText t.zoneOffset else name.toList
            | none => offsetText t.zoneOffset)

/-- First element of `strings.Split(x, " ")`: the text before the first blank. -/
def firstField (cs : List Char) : List Char :=
  cs.takeWhile (fun c => c ≠ ' ')

/-- The Go function `parseSSTPDate` (sstp.go, lines 257-264). -/
def parseSSTPDate (localZone : ParsedTime → Option String) (s : String) : String :=
  match parseRFC3339 s with
  | none => s
  | some t => String.mk (firstField (timeString (localZone t) t))

/-! ## The remote store (sstp.go) -/

/-- Decoding into a Go `uint32` field. -/
def decodeUint32 : Option JSON → Option Nat
  | none => some 0
  | some .null => some 0
  | some (.num n) => if 0 ≤ n ∧ n < 4294967296 then some n.toNat else none
  | some _ => none

/-- The Go struct `createUserParams`. -/
structure createUserParams where
  HubName : String
  Name : String
  Note : String
  ExpireTime : String
  AuthType : Nat
  AuthPassword : String
  UsePolicy : Bool
  PolicyAccess : Bool
  PolicyCheckMac : Bool
  PolicyCheckIP : Bool
  PolicyMaxMac : Nat
  PolicyMaxIP : Nat
  PolicyMaxUpload : Nat
  PolicyMaxDown : Nat
deriving DecidableEq, Repr

/-- The Go struct `CreateUserResponse`. -/
structure CreateUserResponse where
  JSONRPC : String
  ID : String
  Result : createUserParams
deriving DecidableEq, Repr

/-- The Go struct `deleteUserParams`. -/
structure deleteUserParams where
  HubName : String
  Name : String
deriving DecidableEq, Repr

/-- The Go struct `DeleteUserResponse`. -/
structure DeleteUserResponse where
  JSONRPC : String
  ID : String
  Result : deleteUserParams
deriving DecidableEq, Repr

/-- The Go struct `UserInfo`. -/
structure UserInfo where
  Name : String
  Note : String
  Expires : String
  IsExpires : Bool
deriving DecidableEq, Repr

/-- The anonymous struct in the field `Result` of `EnumUserResponse`. -/
structure EnumUserResult where
  HubName : String
  UserList : List UserInfo
deriving DecidableEq, Repr

/-- The Go struct `EnumUserResponse`. -/
structure EnumUserResponse where
  JSONRPC : String
  ID : String
  Result : EnumUserResult
deriving DecidableEq, Repr

/-- What `json.Marshal` writes for `createUserParams`. -/
def encodeCreateUserParams (p : createUserParams) : JSON :=
  .obj [("HubName_str", .str p.HubName), ("Name_str", .str p.Name), ("Note_utf", .str p.Note),
        ("ExpireTime_dt", .str p.ExpireTime), ("AuthType_u32", .num p.AuthType),
        ("Auth_Password_str", .str p.AuthPassword), ("UsePolicy_bool", .bool p.UsePolicy),
        ("policy:Access_bool", .bool p.PolicyAccess),
        ("policy:CheckMac_bool", .bool p.PolicyCheckMac),
        ("policy:CheckIP_bool", .bool p.PolicyCheckIP),
        ("policy:MaxMac_u32", .num p.PolicyMaxMac), ("policy:MaxIP_u32", .num p.PolicyMaxIP),
        ("policy:MaxUpload_u32", .num p.PolicyMaxUpload),
        ("policy:MaxDownload_u32", .num p.PolicyMaxDown)]

/-- The zero value of `createUserParams`. -/
def createUserParams.zero : createUserParams :=
  { HubName := "", Name := "", Note := "", ExpireTime := "", AuthType := 0,
    AuthPassword := "", UsePolicy := false, PolicyAccess := false,
    PolicyCheckMac := false, PolicyCheckIP := false, PolicyMaxMac := 0,
    PolicyMaxIP := 0, PolicyMaxUpload := 0, PolicyMaxDown := 0 }

/-- Decoding the member `result` into `createUserParams`. -/
def decodeCreateUserParams : Option JSON → Option createUserParams
  | none => some createUserParams.zero
  | some .null => some createUserParams.zero
  | some (.obj m) => do
    let hubName ← decodeString (getField m "HubName_str")
    let name ← decodeString (getField m "Name_str")
    let note ← decodeString (getField m "Note_utf")
    let expireTime ← decodeString (getField m "ExpireTime_dt")
    let authType ← decodeUint32 (getField m "AuthType_u32")
    let authPassword ← decodeString (getField m "Auth_Password_str")
    let usePolicy ← decodeBool (getField m "UsePolicy_bool")
    let policyAccess ← decodeBool (getField m "policy:Access_bool")
    let policyCheckMac ← decodeBool (getField m "policy:CheckMac_bool")
    let policyCheckIP ← decodeBool (getField m "policy:CheckIP_bool")
    let policyMaxMac ← decodeUint32 (getField m "policy:MaxMac_u32")
    let policyMaxIP ← decodeUint32 (getField m "policy:MaxIP_u32")
    let policyMaxUpload ← decodeUint32 (getField m "policy:MaxUpload_u32")
    let policyMaxDown ← decodeUint32 (getField m "policy:MaxDownload_u32")
    pure { HubName := hubName, Name := name, Note := note, ExpireTime := expireTime,
           AuthType := authType, AuthPassword := authPassword, UsePolicy := usePolicy,
           PolicyAccess := policyAccess, PolicyCheckMac := policyCheckMac,
           PolicyCheckIP := policyCheckIP, PolicyMaxMac := policyMaxMac,
           PolicyMaxIP := policyMaxIP, PolicyMaxUpload := policyMaxUpload,
           PolicyMaxDown := policyMaxDown }
  | some _ => none

/-- Decoding a response body into `CreateUserResponse`: `null` leaves the zero
value, an object fills the tagged fields, anything else is an error. -/
def decodeCreateUserResponse : JSON → Option CreateUserResponse
  | .null => some { JSONRPC := "", ID := "", Result := createUserParams.zero }
  | .obj m => do
    let jsonrpc ← decodeString (getField m "jsonrpc")
    let id ← decodeString (getField m "id")
    let result ← decodeCreateUserParams (getField m "result")
    pure { JSONRPC := jsonrpc, ID := id, Result := result }
  | _ => none

/-- What `json.Marshal` writes for `deleteUserParams`. -/
def encodeDeleteUserParams (p : deleteUserParams) : JSON :=
  .obj [("HubName_str", .str p.HubName), ("Name_str", .str p.Name)]

/-- Decoding the member `result` into `deleteUserParams`. -/
def decodeDeleteUserParams : Option JSON → Option deleteUserParams
  | none => some { HubName := "", Name := "" }
  | some .null => some { HubName := "", Name := "" }
  | some (.obj m) => do
    let hubName ← decodeString (getField m "HubName_str")
    let name ← decodeString (getField m "Name_str")
    pure { HubName := hubName, Name := name }
  | some _ => none

/-- Decoding a response body into `DeleteUserResponse`. -/
def decodeDeleteUserResponse : JSON → Option DeleteUserResponse
  | .null => some { JSONRPC := "", ID := "", Result := { HubName := "", Name := "" } }
  | .obj m => do
    let jsonrpc ← decodeString (getField m "jsonrpc")
    let id ← decodeString (getField m "id")
    let result ← decodeDeleteUserParams (getField m "result")
    pure { JSONRPC := jsonrpc, ID := id, Result := result }
  | _ => none

/-- Decoding one array element into a `UserInfo`. -/
def decodeUserInfo : JSON → Option UserInfo
  | .null => some { Name := "", Note := "", Expires := "", IsExpires := false }
  | .obj m => do
    let name ← decodeString (getField m "Name_str")
    let note ← decodeString (getField m "Note_utf")
    let expires ← decodeString (getField m "Expires_dt")
    let isExpires ← decodeBool (getField m "IsExpiresFilled_bool")
    pure { Name := name, Note := note, Expires := expires, IsExpires := isExpires }
  | _ => none

/-- Decoding the member `result` of an `EnumUserResponse`. -/
def decodeEnumUserResult : Option JSON → Option EnumUserResult
  | none => some { HubName := "", UserList := [] }
  | some .null => some { HubName := "", UserList := [] }
  | some (.obj m) => do
    let hubName ← decodeString (getField m "HubName_str")
    let userList ← decodeSlice decodeUserInfo (getField m "UserList")
    pure { HubName := hubName, UserList := userList }
  | some _ => none

/-- Decoding a response body into `EnumUserResponse`. -/
def decodeEnumUserResponse : JSON → Option EnumUserResponse
  | .null => some { JSONRPC := "", ID := "", Result := { HubName := "", UserList := [] } }
  | .obj m => do
    let jsonrpc ← decodeString (getField m "jsonrpc")
    let id ← decodeString (getField m "id")
    let result ← decodeEnumUserResult (getField m "result")
    pure { JSONRPC := jsonrpc, ID := id, Result := result }
  | _ => none

/-- What `json.Marshal` writes for a `JSONRPCRequest` whose `Params` marshal to
`params`. -/
def encodeRequest (id method : String) (params : JSON) : JSON :=
  .obj [("jsonrpc", .str "2.0"), ("id", .str id), ("method", .str method), ("params", params)]

/-- What the network does with one POST: building or sending the request
fails with an error, or a response arrives whose body is a JSON value (`none`
when the body is empty or not JSON).  The status code is not looked at by the
code. -/
inductive HttpOutcome where
  | failed (err : String)
  | answered (body : Option JSON)

/-- What the surroundings decide during one remote call: the flags of package
config, the identifier `uuid.NewString()` returns, the answer to the POST of a
body to a URL with the header `X-VPNADMIN-PASSWORD`, and the abbreviation of
the local zone where `time.Parse` chooses it. -/
structure Remote where
  SSTPHub : String
  SSTPServerURL : String
  SSTPAdminPassword : String
  newId : String
  post : String → String → JSON → HttpOutcome
  localZone : ParsedTime → Option String

/-- The error a JSON decoder returns; its text is not represented. -/
def decodingError : String := "json: cannot decode the response body"

/-- The request body `CreateSSTPUser` marshals (lines 55-80); `expire` is the
text `expire.Format(time.RFC3339)`. -/
def createUserRequest (env : Remote) (name desc password expire : String) : JSON :=
  let params : createUserParams :=
    { HubName := env.SSTPHub, Name := name, Note := desc, ExpireTime := expire,
      AuthType := 1, AuthPassword := password, UsePolicy := true, PolicyAccess := true,
      PolicyCheckMac := true, PolicyCheckIP := true, PolicyMaxMac := 1, PolicyMaxIP := 1,
      PolicyMaxUpload := 10000000, PolicyMaxDown := 10000000 }
  encodeRequest env.newId "CreateUser" (encodeCreateUserParams params)

/-- The request body `DeleteSSTPUser` marshals (lines 126-139). -/
def deleteUserRequest (env : Remote) (username : String) : JSON :=
  let params : deleteUserParams := { HubName := env.SSTPHub, Name := username }
  encodeRequest env.newId "DeleteUser" (encodeDeleteUserParams params)

/-- The request body `GetSSTPUsers` marshals (lines 197-209). -/
def enumUserRequest (env : Remote) : JSON :=
  encodeRequest env.newId "EnumUser" (.obj [("HubName_str", .str env.SSTPHub)])

/-- The Go function `CreateSSTPUser` (lines 54-111), as `(*CreateUserResponse,
error)`. -/
def CreateSSTPUser (env : Remote) (name desc password expire : String) :
    Option CreateUserResponse × Option String :=
  let id := env.newId
  match env.post env.SSTPServerURL env.SSTPAdminPassword
      (createUserRequest env name desc password expire) with
  | .failed err => (none, some err)
  | .answered body =>
    match body.bind decodeCreateUserResponse with
    | none => (none, some decodingError)
    | some response =>
      if response.ID ≠ id then (none, some "Different Request IDs.")
      else (some response, none)

/-- The Go function `DeleteSSTPUser` (lines 125-170). -/
def DeleteSSTPUser (env : Remote) (username : String) :
    Option DeleteUserResponse × Option String :=
  let id := env.newId
  match env.post env.SSTPServerURL env.SSTPAdminPassword (deleteUserRequest env username) with
  | .failed err => (none, some err)
  | .answered body =>
    match body.bind decodeDeleteUserResponse with
    | none => (none, some decodingError)
    | some response =>
      if response.ID ≠ id then (none, some "Different Request IDs.")
      else (some response, none)

/-- The Go function `GetSSTPUsers` (lines 196-255), as `([]UserInfo, error)`
with `none` for the nil slice returned with an error. -/
def GetSSTPUsers (env : Remote) : Option (List UserInfo) × Option String :=
  let id := env.newId
  match env.post env.SSTPServerURL env.SSTPAdminPassword (enumUserRequest env) with
  | .failed err => (none, some err)
  | .answered body =>
    match body.bind decodeEnumUserResponse with
    | none => (none, some decodingError)
    | some response =>
      if response.ID ≠ id then (none, some "Different Request IDs.")
      else
        (some (response.Result.UserList.map
          (fun user => { user with Expires := parseSSTPDate env.localZone user.Expires })),
         none)

/-- A remote store that answers every POST with `body`, and hands out the
identifier `req-1`. -/
def answering (body : JSON) : Remote :=
  { SSTPHub := "default", SSTPServerURL := "https://localhost:992/api",
    SSTPAdminPassword := "password", newId := "req-1",
    post := fun _ _ _ => .answered (some body), localZone := fun _ => none }

/-- A well-formed answer to `EnumUser` with two users, under the identifier
`id`. -/
def enumAnswer (id : String) : JSON :=
  .obj [("jsonrpc", .str "2.0"), ("id", .str id),
        ("result", .obj [("HubName_str", .str "default"),
          ("UserList", .arr [
            .obj [("Name_str", .str "u1"), ("Note_utf", .str ""),
                  ("Expires_dt", .str "2025-03-09T23:59:59.000Z"),
                  ("IsExpiresFilled_bool", .bool true)],
            .obj [("Name_str", .str "u2"), ("Note_utf", .str ""),
                  ("Expires_dt", .str "never"),
                  ("IsExpiresFilled_bool", .bool false)]])])]

/-- A well-formed answer to `CreateUser` or `DeleteUser` under the identifier
`id`. -/
def userAnswer (id : String) : JSON :=
  .obj [("jsonrpc", .str "2.0"), ("id", .str id),
        ("result", .obj [("HubName_str", .str "default"), ("Name_str", .str "u1")])]

/-! ## Bytes of a Go string, base64, query escaping (Go packages encoding/base64, net/url) -/

/-- The UTF-8 bytes of a character. -/
def utf8EncodeChar (c : Char) : List Nat :=
  if c.toNat < 128 then [c.toNat]
  else if c.toNat < 2048 then [192 + c.toNat / 64, 128 + c.toNat % 64]
  else if c.toNat < 65536 then
    [224 + c.toNat / 4096, 128 + c.toNat / 64 % 64, 128 + c.toNat % 64]
  else
    [240 + c.toNat / 262144, 128 + c.toNat / 4096 % 64, 128 + c.toNat / 64 % 64,
     128 + c.toNat % 64]

/-- The bytes of a Go string whose text is `s`. -/
def utf8 (s : String) : List Nat :=
  s.toList.foldr (fun c bytes => utf8EncodeChar c ++ bytes) []

/-- Character number `i` of the standard base64 alphabet. -/
def base64Char (i : Nat) : Char :=
  if i < 26 then Char.ofNat (65 + i)
  else if i < 52 then Char.ofNat (97 + (i - 26))
  else if i < 62 then Char.ofNat (48 + (i - 52))
  else if i = 62 then '+'
  else '/'

/-- The call `base64.StdEncoding.EncodeToString`: three bytes give four
characters, a rest of one or two bytes is padded with `=`. -/
def base64Encode : List Nat → List Char
  | a :: b :: c :: rest =>
    base64Char (a / 4) :: base64Char (a % 4 * 16 + b / 16) ::
      base64Char (b % 16 * 4 + c / 64) :: base64Char (c % 64) :: base64Encode rest
  | [a, b] => [base64Char (a / 4), base64Char (a % 4 * 16 + b / 16), base64Char (b % 16 * 4), '=']
  | [a] => [base64Char (a / 4), base64Char (a % 4 * 16), '=', '=']
  | [] => []

/-- Upper-case hexadecimal digit number `i`. -/
def hexChar (i : Nat) : Char :=
  if i < 10 then Char.ofNat (48 + i) else Char.ofNat (55 + i)

/-- The bytes `url.QueryEscape` leaves as they are: letters, digits, `-`, `_`,
`.` and `~`. -/
def isUnreserved (b : Nat) : Bool :=
  (65 ≤ b ∧ b ≤ 90) ∨ (97 ≤ b ∧ b ≤ 122) ∨ (48 ≤ b ∧ b ≤ 57) ∨
    b = 45 ∨ b = 95 ∨ b = 46 ∨ b = 126

/-- The call `url.QueryEscape` on the bytes of a string: a blank becomes `+`,
every other byte that is not unreserved becomes `%XX`. -/
def queryEscape : List Nat → List Char
  | [] => []
  | b :: rest =>
    if isUnreserved b = true then Char.ofNat b :: queryEscape rest
    else if b = 32 then '+' :: queryEscape rest
    else '%' :: hexChar (b / 16) :: hexChar (b % 16) :: queryEscape rest

/-! ## Descriptors of Shadowsocks credentials (shadowsocks.go, lines 479-514) -/

/-- The flags of package config the descriptors read. -/
structure Config where
  WebHost : String
  WebHostRegion : String
  V2rayPort : String

/-- The Go constant `ShadowsocksPrefix`. -/
def ShadowsocksPrefix : String := "ss://"

/-- First element of `strings.Split(host, ".")`: the text before the first
period. -/
def firstLabel (host : String) : String :=
  String.mk (host.toList.takeWhile (fun c => c ≠ '.'))

/-- The bytes of the field `Ps` that `GenerateShadowsocksURI` formats:
`valid before (<expire>) <subDomain>-<region>-<tail>`. -/
def shadowsocksLabel (expireDate subDomain region : String) (tail : List Nat) : List Nat :=
  utf8 "valid before (" ++ utf8 expireDate ++ utf8 ") " ++ utf8 subDomain ++ utf8 "-" ++
    utf8 region ++ utf8 "-" ++ tail

/-- The Go function `GenerateShadowsocksURI`, as `(string, error)`.  Slicing
`data.Password[len(data.Password)-4:]` panics on a password shorter than four
bytes, before the check for an empty password. -/
def GenerateShadowsocksURI (cfg : Config) (data : Client) : Outcome (String × Option String) :=
  let subDomain := firstLabel cfg.WebHost
  if (utf8 data.Password).length < 4 then .panicked
  else
    let ps := shadowsocksLabel data.ExpireDate subDomain cfg.WebHostRegion
      ((utf8 data.Password).drop ((utf8 data.Password).length - 4))
    if data.Password = "" then
      .returned ("", some "password is required for Shadowsocks URI")
    else
      let basePart := "aes-128-gcm" ++ ":" ++ data.Password
      let encodedBase := String.mk (base64Encode (utf8 basePart))
      .returned (ShadowsocksPrefix ++ encodedBase ++ "@" ++ cfg.WebHost ++ ":" ++
        formatInt data.Port ++ "#" ++ String.mk (queryEscape ps), none)

/-- The flags of a server `sg1.example.com` in region `sg`. -/
def exampleConfig : Config :=
  { WebHost := "sg1.example.com", WebHostRegion := "sg", V2rayPort := "443" }

/-! ## The located index of Delete, in the words of the specification -/

/-- The located index as the specification words it: the first index whose
element matches and, when none matches, the last index (0 on an empty list). -/
def locatedIndex {α : Type} (p : α → Bool) (xs : List α) : Nat :=
  match findIndex p xs with
  | some i => i
  | none => xs.length - 1

/-- The reply of Delete when its guard rejects the call (shadowsocks.go:378,
vmess.go:181). -/
def forbiddenReply : Reply :=
  { client := none, status := 403, err := some "User's not found" }

/-- The inbound of `twoVmessWorld` as Delete decodes it. -/
def vmessFirstInbound : Inbound :=
  { Port := 443, Listen := "0.0.0.0", Protocol := "vmess",
    Settings := { Clients := some [{ Id := "uuid-1", AlterId := 1 },
                                   { Id := "uuid-2", AlterId := 1 }] },
    StreamSettings := .obj [("network", .str "tcp")] }

/-- A Shadowsocks inbound as `DeleteShadowsocksUser` decodes it, into the struct
`Inbound`: the settings are read for a `clients` member that is not there. -/
def shadowsocksAsInbound (port : Int) : Inbound :=
  { Port := port, Listen := "0.0.0.0", Protocol := "shadowsocks",
    Settings := { Clients := none }, StreamSettings := .null }

/-! ## Reading a descriptor back (written from the specification, not from the code)

The code base only generates descriptors.  The readers below are the decoding
the specification speaks of: standard base64 with padding, the inverse of
`url.QueryEscape`, and the cuts of a descriptor at its separators. -/

/-- Value of a character of the standard base64 alphabet. -/
def base64Value (c : Char) : Option Nat :=
  if 65 ≤ c.toNat ∧ c.toNat ≤ 90 then some (c.toNat - 65)
  else if 97 ≤ c.toNat ∧ c.toNat ≤ 122 then some (c.toNat - 71)
  else if 48 ≤ c.toNat ∧ c.toNat ≤ 57 then some (c.toNat + 4)
  else if c = '+' then some 62
  else if c = '/' then some 63
  else none

/-- Standard base64 decoding with padding: four characters give three bytes,
a last group ending in `=` or `==` gives two bytes or one. -/
def base64Decode : List Char → Option (List Nat)
  | [] => some []
  | a :: b :: c :: d :: rest =>
    match base64Value a, base64Value b with
    | some va, some vb =>
      if c = '=' ∧ d = '=' ∧ rest = [] then some [va * 4 + vb / 16]
      else
        match base64Value c with
        | some vc =>
          if d = '=' ∧ rest = [] then some [va * 4 + vb / 16, vb % 16 * 16 + vc / 4]
          else
            match base64Value d, base64Decode rest with
            | some vd, some bytes =>
              some ((va * 4 + vb / 16) :: (vb % 16 * 16 + vc / 4) :: (vc % 4 * 64 + vd) :: bytes)
            | _, _ => none
        | none => none
    | _, _ => none
  | _ => none

/-- Value of a hexadecimal digit. -/
def hexValue (c : Char) : Option Nat :=
  if 48 ≤ c.toNat ∧ c.toNat ≤ 57 then some (c.toNat - 48)
  else if 65 ≤ c.toNat ∧ c.toNat ≤ 70 then some (c.toNat - 55)
  else if 97 ≤ c.toNat ∧ c.toNat ≤ 102 then some (c.toNat - 87)
  else none

/-- The inverse of `url.QueryEscape`: `+` is a blank, `%XX` is the byte with
that hexadecimal value, any other character below 128 stands for itself. -/
def queryUnescape : List Char → Option (List Nat)
  | [] => some []
  | c :: rest =>
    if c = '+' then (queryUnescape rest).map (fun bytes => 32 :: bytes)
    else if c = '%' then
      match rest with
      | h :: l :: rest2 =>
        match hexValue h, hexValue l, queryUnescape rest2 with
        | some vh, some vl, some bytes => some ((vh * 16 + vl) :: bytes)
        | _, _, _ => none
      | _ => none
    else if c.toNat < 128 then (queryUnescape rest).map (fun bytes => c.toNat :: bytes)
    else none

/-- The text after the prefix `start`, `none` when the text does not start
with it. -/
def stripStart (start : String) (s : String) : Option (List Char) :=
  if start.toList.isPrefixOf s.toList = true then some (s.toList.drop start.toList.length)
  else none

/-- The part of a list before the first occurrence of `x` (the whole list when
`x` does not occur). -/
def beforeFirst {α : Type} [DecidableEq α] (x : α) (xs : List α) : List α :=
  xs.takeWhile (fun y => decide (y ≠ x))

/-- The part of a list after the first occurrence of `x` (empty when `x` does
not occur). -/
def afterFirst {α : Type} [DecidableEq α] (x : α) (xs : List α) : List α :=
  (xs.dropWhile (fun y => decide (y ≠ x))).drop 1

/-- The part of a list before the last occurrence of `x` (empty when `x` does
not occur). -/
def beforeLast {α : Type} [DecidableEq α] (x : α) (xs : List α) : List α :=
  (afterFirst x xs.reverse).reverse

/-- The part of a list after the last occurrence of `x` (the whole list when
`x` does not occur). -/
def afterLast {α : Type} [DecidableEq α] (x : α) (xs : List α) : List α :=
  (beforeFirst x xs.reverse).reverse

/-- The secret a plain Shadowsocks descriptor carries: after `ss://`, the text
before `@` is base64-decoded and the bytes after the first `:` are taken. -/
def shadowsocksSecretOf (uri : String) : Option (List Nat) :=
  match stripStart "ss://" uri with
  | none => none
  | some body => (base64Decode (beforeFirst '@' body)).map (afterFirst 58)

/-- The port a plain Shadowsocks descriptor carries: the decimal number between
the last `:` before the `#` that starts the label and that `#`. -/
def shadowsocksPortOf (uri : String) : Option Int :=
  match stripStart "ss://" uri with
  | none => none
  | some body => decimalIntegerValue (String.mk (afterLast ':' (beforeLast '#' body)))

/-- The display label a Shadowsocks descriptor carries: the URL-unescaped text
after the `#`. -/
def shadowsocksLabelOf (uri : String) : Option (List Nat) :=
  queryUnescape (afterLast '#' uri.toList)

/-! ## `json.Marshal` on a struct of strings (vmess.go, lines 341-358)

The struct `vmessConfig` holds strings only.  `json.Marshal` writes its members
in the order of the fields, without white space, leaving out the two
`omitempty` members when they are empty.  A Go string is a sequence of bytes:
the fields are modelled as bytes, because the label is built from a byte slice
of the id that may cut a character in two. -/

/-- Lower-case hexadecimal digit number `i`, as a byte. -/
def hexLower (i : Nat) : Nat :=
  if i < 10 then 48 + i else 87 + i

/-- What `json.Marshal` writes for a byte below 128 inside a string: `"` and
`\` get a backslash, line feed, carriage return and tab their short escape,
the other control bytes and `<`, `>`, `&` the escape `\u00XX`. -/
def marshalAscii (b : Nat) : List Nat :=
  if b = 34 ∨ b = 92 then [92, b]
  else if b = 10 then [92, 110]
  else if b = 13 then [92, 114]
  else if b = 9 then [92, 116]
  else if b < 32 ∨ b = 60 ∨ b = 62 ∨ b = 38 then
    [92, 117, 48, 48, hexLower (b / 16), hexLower (b % 16)]
  else [b]

/-- Number of bytes of the character a first byte announces (`utf8.DecodeRune`):
2 for C2..DF, 3 for E0..EF, 4 for F0..F4, 0 for a byte that starts nothing. -/
def runeLength (b : Nat) : Nat :=
  if 194 ≤ b ∧ b ≤ 223 then 2
  else if 224 ≤ b ∧ b ≤ 239 then 3
  else if 240 ≤ b ∧ b ≤ 244 then 4
  else 0

/-- The second bytes `utf8.DecodeRune` accepts after the first byte `b`. -/
def acceptsSecond (b b1 : Nat) : Bool :=
  if b = 224 then 160 ≤ b1 ∧ b1 ≤ 191
  else if b = 237 then 128 ≤ b1 ∧ b1 ≤ 159
  else if b = 240 then 144 ≤ b1 ∧ b1 ≤ 191
  else if b = 244 then 128 ≤ b1 ∧ b1 ≤ 143
  else 128 ≤ b1 ∧ b1 ≤ 191

/-- A continuation byte, 80..BF. -/
def isContinuation (b : Nat) : Bool :=
  128 ≤ b ∧ b ≤ 191

/-- The escape of U+FFFD (backslash, `ufffd`) that `json.Marshal` writes for a
byte that is not part of a well-formed UTF-8 sequence. -/
def replacementEscape : List Nat := [92, 117, 102, 102, 102, 100]

/-- What `json.Marshal` writes between the quotes for the bytes of a string:
bytes below 128 by `marshalAscii`, a well-formed multi-byte character as it
is, except U+2028 and U+2029 which become their escapes (backslash, `u2028`
or `u2029`), and the escape of U+FFFD for every byte that starts no
well-formed character. -/
def marshalStringBody : List Nat → List Nat
  | [] => []
  | b :: rest =>
    let invalid := replacementEscape ++ marshalStringBody rest
    if b < 128 then marshalAscii b ++ marshalStringBody rest
    else
      match rest with
      | [] => invalid
      | b1 :: rest1 =>
        if runeLength b = 2 ∧ acceptsSecond b b1 = true then b :: b1 :: marshalStringBody rest1
        else
          match rest1 with
          | [] => invalid
          | b2 :: rest2 =>
            if runeLength b = 3 ∧ acceptsSecond b b1 = true ∧ isContinuation b2 = true then
              (if b = 226 ∧ b1 = 128 ∧ (b2 = 168 ∨ b2 = 169) then
                [92, 117, 50, 48, 50, hexLower (b2 % 16)]
               else [b, b1, b2]) ++ marshalStringBody rest2
            else
              match rest2 with
              | [] => invalid
              | b3 :: rest3 =>
                if runeLength b = 4 ∧ acceptsSecond b b1 = true ∧ isContinuation b2 = true ∧
                    isContinuation b3 = true then
                  b :: b1 :: b2 :: b3 :: marshalStringBody rest3
                else invalid

/-- The bytes a Go string is read back as after `json.Marshal`: the bytes
themselves, with U+FFFD (EF BF BD) in place of every byte that starts no
well-formed character. -/
def toValidUTF8 : List Nat → List Nat
  | [] => []
  | b :: rest =>
    let invalid := [239, 191, 189] ++ toValidUTF8 rest
    if b < 128 then b :: toValidUTF8 rest
    else
      match rest with
      | [] => invalid
      | b1 :: rest1 =>
        if runeLength b = 2 ∧ acceptsSecond b b1 = true then b :: b1 :: toValidUTF8 rest1
        else
          match rest1 with
          | [] => invalid
          | b2 :: rest2 =>
            if runeLength b = 3 ∧ acceptsSecond b b1 = true ∧ isContinuation b2 = true then
              b :: b1 :: b2 :: toValidUTF8 rest2
            else
              match rest2 with
              | [] => invalid
              | b3 :: rest3 =>
                if runeLength b = 4 ∧ acceptsSecond b b1 = true ∧ isContinuation b2 = true ∧
                    isContinuation b3 = true then
                  b :: b1 :: b2 :: b3 :: toValidUTF8 rest3
                else invalid

/-- What `json.Marshal` writes for a string: the escaped bytes between two
quotes. -/
def marshalString (bs : List Nat) : List Nat :=
  34 :: (marshalStringBody bs ++ [34])

/-- One member, `"key":"value"`. -/
def marshalMember (m : List Nat × List Nat) : List Nat :=
  marshalString m.1 ++ 58 :: marshalString m.2

/-- The members separated by commas, and the closing brace. -/
def marshalMembers : List (List Nat × List Nat) → List Nat
  | [] => [125]
  | [m] => marshalMember m ++ [125]
  | m :: rest => marshalMember m ++ 44 :: marshalMembers rest

/-- An object whose members are strings, as `json.Marshal` writes it. -/
def marshalObject (ms : List (List Nat × List Nat)) : List Nat :=
  123 :: marshalMembers ms

/-- The Go struct `vmessConfig` (the field `Type` is named `Typ` here). -/
structure vmessConfig where
  Add : List Nat
  Aid : List Nat
  Alpn : List Nat
  DeviceID : List Nat
  Fp : List Nat
  Host : List Nat
  ID : List Nat
  Net : List Nat
  Path : List Nat
  Port : List Nat
  Ps : List Nat
  Scy : List Nat
  Sni : List Nat
  Tls : List Nat
  Typ : List Nat
  V : List Nat

/-- The members `json.Marshal` writes for a `vmessConfig`, by the tags of the
struct: `deviceID` and `id` are `omitempty`. -/
def vmessMembers (v : vmessConfig) : List (List Nat × List Nat) :=
  [(utf8 "add", v.Add), (utf8 "aid", v.Aid), (utf8 "alpn", v.Alpn)] ++
  (if v.DeviceID = [] then [] else [(utf8 "deviceID", v.DeviceID)]) ++
  [(utf8 "fp", v.Fp), (utf8 "host", v.Host)] ++
  (if v.ID = [] then [] else [(utf8 "id", v.ID)]) ++
  [(utf8 "net", v.Net), (utf8 "path", v.Path), (utf8 "port", v.Port), (utf8 "ps", v.Ps),
   (utf8 "scy", v.Scy), (utf8 "sni", v.Sni), (utf8 "tls", v.Tls), (utf8 "type", v.Typ),
   (utf8 "v", v.V)]

/-! ## Descriptors of vmess credentials and locked descriptors
(vmess.go, lines 360-434; shadowsocks.go, lines 440-477) -/

/-- The Go constant `VmessPrefix`. -/
def VmessPrefix : String := "vmess://"

/-- The Go constant `V2boxLockedPrefix`. -/
def V2boxLockedPrefix : String := "v2box://locked="

/-- The bytes of the field `Ps` of both vmess generators:
`valid before (<expire>) <subDomain>-<region>-<tail>`. -/
def vmessLabel (expireDate subDomain region : String) (tail : List Nat) : List Nat :=
  utf8 "valid before (" ++ utf8 expireDate ++ utf8 ") " ++ utf8 subDomain ++ utf8 "-" ++
    utf8 region ++ utf8 "-" ++ tail

/-- The struct both vmess generators fill in; `deviceId` is empty for the plain
descriptor. -/
def vmessTemplate (cfg : Config) (data : Client) (deviceId : String) : vmessConfig :=
  { Add := utf8 cfg.WebHost, Aid := utf8 "1", Alpn := [], DeviceID := utf8 deviceId, Fp := [],
    Host := utf8 "www.youtube.com", ID := utf8 data.Id, Net := utf8 "tcp", Path := utf8 "/",
    Port := utf8 cfg.V2rayPort,
    Ps := vmessLabel data.ExpireDate (firstLabel cfg.WebHost) cfg.WebHostRegion
      ((utf8 data.Id).drop ((utf8 data.Id).length - 4)),
    Scy := utf8 "none", Sni := [], Tls := [], Typ := utf8 "http", V := utf8 "2" }

/-- The Go function `GenerateVmessURI`, as `(string, error)`.  Slicing
`data.Id[len(data.Id)-4:]` panics on an id shorter than four bytes;
`json.Marshal` cannot fail on a struct of strings. -/
def GenerateVmessURI (cfg : Config) (data : Client) : Outcome (String × Option String) :=
  if (utf8 data.Id).length < 4 then .panicked
  else
    let jsonData := marshalObject (vmessMembers (vmessTemplate cfg data ""))
    let encoded := String.mk (base64Encode jsonData)
    .returned (VmessPrefix ++ encoded, none)

/-- The Go function `GenerateVmessLockedURI`, as `(string, error)`. -/
def GenerateVmessLockedURI (cfg : Config) (data : Client) : Outcome (String × Option String) :=
  if data.DeviceId = "" then
    .returned ("", some "unable to generate locked QR without device id")
  else if (utf8 data.Id).length < 4 then .panicked
  else
    let jsonData := marshalObject (vmessMembers (vmessTemplate cfg data data.DeviceId))
    let unlockedQR := VmessPrefix ++ String.mk (base64Encode jsonData)
    let lockedQR := String.mk (base64Encode (utf8 unlockedQR))
    .returned (V2boxLockedPrefix ++ lockedQR, none)

/-- The Go function `GenerateShadowsocksLockedURI`, as `(string, error)`. -/
def GenerateShadowsocksLockedURI (cfg : Config) (data : Client) :
    Outcome (String × Option String) :=
  if data.DeviceId = "" then
    .returned ("", some "unable to generate locked URI without device id")
  else if (utf8 data.Password).length < 4 then .panicked
  else
    let ps := shadowsocksLabel data.ExpireDate (firstLabel cfg.WebHost) cfg.WebHostRegion
      ((utf8 data.Password).drop ((utf8 data.Password).length - 4)) ++
      utf8 " [locked:" ++ utf8 data.DeviceId ++ utf8 "]"
    let basePart := "aes-128-gcm" ++ ":" ++ data.Password
    let encodedBase := String.mk (base64Encode (utf8 basePart))
    let standardURI := ShadowsocksPrefix ++ encodedBase ++ "@" ++ cfg.WebHost ++ ":" ++
      formatInt data.Port ++ "#" ++ String.mk (queryEscape ps)
    let lockedURI := String.mk (base64Encode (utf8 standardURI))
    .returned (V2boxLockedPrefix ++ lockedURI, none)

/-! ## Reading a JSON object of strings and a locked descriptor (written from
the specification, not from the code) -/

/-- Value of a hexadecimal digit given as a byte. -/
def hexDigitValue (b : Nat) : Option Nat :=
  if 48 ≤ b ∧ b ≤ 57 then some (b - 48)
  else if 65 ≤ b ∧ b ≤ 70 then some (b - 55)
  else if 97 ≤ b ∧ b ≤ 102 then some (b - 87)
  else none

/-- The byte a one-letter escape stands for. -/
def shortEscape (e : Nat) : Option Nat :=
  if e = 34 then some 34
  else if e = 92 then some 92
  else if e = 47 then some 47
  else if e = 98 then some 8
  else if e = 102 then some 12
  else if e = 110 then some 10
  else if e = 114 then some 13
  else if e = 116 then some 9
  else none

/-- The UTF-8 bytes of the character a four-digit escape names; a surrogate
alone is read as U+FFFD. -/
def escapedRune (n : Nat) : List Nat :=
  if 55296 ≤ n ∧ n ≤ 57343 then [239, 191, 189] else utf8EncodeChar (Char.ofNat n)

/-- Reading a JSON string after its opening quote: the bytes it stands for and
the input after the closing quote. -/
def readStringBody : List Nat → Option (List Nat × List Nat)
  | [] => none
  | b :: rest =>
    if b = 34 then some ([], rest)
    else if b = 92 then
      match rest with
      | [] => none
      | e :: rest1 =>
        if e = 117 then
          match rest1 with
          | h1 :: h2 :: h3 :: h4 :: rest2 =>
            match hexDigitValue h1, hexDigitValue h2, hexDigitValue h3, hexDigitValue h4,
                readStringBody rest2 with
            | some v1, some v2, some v3, some v4, some (text, after) =>
              some (escapedRune (((v1 * 16 + v2) * 16 + v3) * 16 + v4) ++ text, after)
            | _, _, _, _, _ => none
          | _ => none
        else
          match shortEscape e, readStringBody rest1 with
          | some v, some (text, after) => some (v :: text, after)
          | _, _ => none
    else if b < 32 then none
    else
      match readStringBody rest with
      | some (text, after) => some (b :: text, after)
      | none => none

/-- Reading a JSON string with its quotes. -/
def readString : List Nat → Option (List Nat × List Nat)
  | 34 :: rest => readStringBody rest
  | _ => none

/-- Reading the members of an object whose values are strings, up to the
closing brace that ends the input; `fuel` bounds the number of members. -/
def readMembers : Nat → List Nat → Option (List (List Nat × List Nat))
  | 0, _ => none
  | fuel + 1, input =>
    match readString input with
    | some (key, 58 :: afterColon) =>
      match readString afterColon with
      | some (value, [125]) => some [(key, value)]
      | some (value, 44 :: more) =>
        match readMembers fuel more with
        | some members => some ((key, value) :: members)
        | none => none
      | _ => none
    | _ => none

/-- Reading a JSON object whose members are strings, written without white
space. -/
def readObject (input : List Nat) : Option (List (List Nat × List Nat)) :=
  match input with
  | [123, 125] => some []
  | 123 :: rest => readMembers input.length rest
  | _ => none

/-- The member `key` of an object read by `readObject` (the last one when the
key is repeated). -/
def memberOf (key : String) : List (List Nat × List Nat) → Option (List Nat)
  | [] => none
  | (k, v) :: rest =>
    match memberOf key rest with
    | some later => some later
    | none => if k = utf8 key then some v else none

/-- The JSON object a plain vmess descriptor carries: after `vmess://`, the
text is base64-decoded and read as an object. -/
def vmessObjectOf (uri : String) : Option (List (List Nat × List Nat)) :=
  match stripStart "vmess://" uri with
  | none => none
  | some body => (base64Decode body).bind readObject

/-- The member `key` of the object a plain vmess descriptor carries. -/
def vmessMemberOf (uri : String) (key : String) : Option (List Nat) :=
  (vmessObjectOf uri).bind (memberOf key)

/-- The bytes of the inner descriptor of a locked descriptor: after
`v2box://locked=`, the text is base64-decoded. -/
def lockedInnerOf (uri : String) : Option (List Nat) :=
  match stripStart "v2box://locked=" uri with
  | none => none
  | some body => base64Decode body

/-- The bytes `needle` occur in `hay` as a contiguous run. -/
def containsBytes (needle hay : List Nat) : Bool :=
  hay.tails.any (fun t => needle.isPrefixOf t)

/-- A vmess credential with the three-byte id `abc`. -/
def shortIdClient : Client :=
  { carol with Id := "abc" }

/-- A Shadowsocks credential with the three-byte password `abc`. -/
def shortPasswordClient : Client :=
  { alice with Password := "abc" }

/-- The decimal integer a run of bytes spells, each byte read as the character
of that number. -/
def decimalOfBytes (bs : List Nat) : Option Int :=
  decimalIntegerValue (String.mk (bs.map Char.ofNat))

/-- The port a plain vmess descriptor carries: the decimal value of the member
`port` of its object. -/
def vmessPortOf (uri : String) : Option Int :=
  (vmessMemberOf uri "port").bind decimalOfBytes

/-- The roster entry `EditVmessUser` leaves for `dave`: the same id, port 0. -/
def editedDave : Client :=
  vmessModifiedClient dave

/-! ## The inbound entries as they stand in the configuration document -/

/-- The entries of the `inbounds` array of the configuration document, as the
JSON values that stand in the file (`null` is the empty array). -/
def rawInboundsOf (w : World) : Option (List JSON) :=
  match configValue w "inbounds" with
  | some (.arr items) => some items
  | some .null => some []
  | _ => none

/-- The entry at position `j` of the `inbounds` array of the configuration
document. -/
def rawInboundAt (w : World) (j : Nat) : Option JSON :=
  (rawInboundsOf w).bind (fun items => items[j]?)

/-- Whether a JSON value is an object with a member named `key`. -/
def hasMember (key : String) : JSON → Bool
  | .obj m => (getField m key).isSome
  | _ => false

/-- A credential with password `ccc333` bound to device `device-c`. -/
def frank : Client :=
  { Id := "", AlterId := 0, Username := "frank", DeviceId := "device-c",
    StartDate := "2025-01-01", ExpireDate := "2025-04-01", Password := "ccc333", Port := 0 }

/-- Four Shadowsocks calls, each in calm surroundings: three Creates and the
Delete of the second credential. -/
def createDeleteSession : List (Env × Call) :=
  [(calmEnv, .create alice), (calmEnv, .create bob), (calmEnv, .create frank),
   (calmEnv, .delete "zzz999" "device-b")]

/-- The Shadowsocks document pair `createDeleteSession` leaves when it starts
from `emptyShadowsocksWorld`: the two remaining inbounds stand in the file the
way `DeleteShadowsocksUser` writes them, from the struct `Inbound`. -/
def afterDeleteWorld : World :=
  { configFile := some (.obj [("log", .obj [("loglevel", .str "warning")]),
      ("inbounds", .arr [encodeInbound (shadowsocksAsInbound 10000),
                         encodeInbound (shadowsocksAsInbound 10002)])]),
    usersFile := some (.obj [("clients",
      .arr [encodeClient { alice with Port := 10000 },
            encodeClient { frank with Port := 10002 }])]),
    ufw := [.allow 10000 .tcp, .allow 10000 .udp, .allow 10001 .tcp, .allow 10001 .udp,
            .allow 10002 .tcp, .allow 10002 .udp, .deleteAllow 10001 .tcp,
            .deleteAllow 10001 .udp] }

/-- An inbound on `port` whose Shadowsocks settings are all zero values: what
`EditShadowsocksUser` decodes from an entry written by `DeleteShadowsocksUser`. -/
def bareInbound (port : Int) : ShadowsocksInbound :=
  { Port := port, Listen := "0.0.0.0", Protocol := "shadowsocks",
    Settings := { Method := "", Password := "", Network := "", Level := 0, Ota := false } }

/-! ## Calls that run at the same time

Every operation reads the two files, computes, writes the two files and then
runs the firewall (shadowsocks.go 47, 54, 153, 159, 165; 205, 211, 312, 318;
327, 333, 410, 416, 422; vmess.go 27, 33, 113, 119; 130, 136, 213, 219; 230,
236, 327, 333).  No function of the repository takes a lock, so two calls in
two goroutines of the HTTP server may take these steps in any order.  Below,
one `os.ReadFile`, one `os.WriteFile` and one firewall call are one step each,
and a schedule says which of two calls takes the next step. -/

/-- The firewall call an operation makes after its two writes. -/
inductive Firewall where
  | nothing
  | allow (port : Int)
  | delete (port : Int)
deriving Repr

/-- What a call that has read both files is going to do: the two maps it
writes, the configuration document first, and its firewall call. -/
structure Plan where
  configResult : List (String × JSON)
  userResult : List (String × JSON)
  firewall : Firewall

/-- The computation of a Shadowsocks operation between its reads and its
writes, on the two files as the call has read them (`read`): `none` when the
call returns or panics without writing (shadowsocks.go 61-150, 218-309,
340-407). -/
def shadowsocksPlan (call : Call) (read : World) : Option Plan :=
  match call with
  | .create c =>
    match load decodeShadowsocksInbound read with
    | none => none
    | some d =>
      if d.inbounds.any (fun inbound => inbound.Settings.Password = c.Password) then none
      else
        let port := getNextPort d.inbounds
        let newInbound : ShadowsocksInbound :=
          { Port := port, Listen := "0.0.0.0", Protocol := "shadowsocks",
            Settings := { Method := "aes-128-gcm", Password := c.Password,
                          Network := "tcp,udp", Level := 1, Ota := false } }
        let c : Client := { c with Port := port }
        let inbounds := d.inbounds ++ [newInbound]
        let users := d.users ++ [c]
        some { configResult :=
                 mapSet d.configResult "inbounds" (.arr (inbounds.map encodeShadowsocksInbound)),
               userResult := mapSet d.userResult "clients" (.arr (users.map encodeClient)),
               firewall := .allow c.Port }
  | .edit client =>
    match load decodeShadowsocksInbound read with
    | none => none
    | some d =>
      match findIndex (fun c => client.Password = c.Password) d.users with
      | none => none
      | some index =>
        match d.inbounds[index]? with
        | none => none
        | some inbound =>
          let modifiedInbound : ShadowsocksInbound :=
            { Port := inbound.Port, Listen := "0.0.0.0", Protocol := "shadowsocks",
              Settings := { Method := "aes-128-gcm", Password := client.Password,
                            Network := "tcp,udp", Level := 1, Ota := false } }
          let modifiedClient : Client :=
            { Id := "", AlterId := DefaultAlterID, Username := client.Username,
              DeviceId := client.DeviceId, StartDate := client.StartDate,
              ExpireDate := client.ExpireDate, Password := client.Password, Port := 0 }
          match d.users[index]? with
          | none => none
          | some _ =>
            let inbounds := d.inbounds.set index modifiedInbound
            let users := d.users.set index modifiedClient
            some { configResult :=
                     mapSet d.configResult "inbounds"
                       (.arr (inbounds.map encodeShadowsocksInbound)),
                   userResult := mapSet d.userResult "clients" (.arr (users.map encodeClient)),
                   firewall := .nothing }
  | .delete password deviceId =>
    match load decodeInbound read with
    | none => none
    | some d =>
      let index := rangeBreak (fun user : Client => user.Password = password) d.users
      match d.users[index]? with
      | none => none
      | some user =>
        if user.Password ≠ password ∧ user.DeviceId ≠ deviceId then none
        else
          let deletedUser := user
          if index + 1 > d.inbounds.length then none
          else
            let inbounds := d.inbounds.eraseIdx index
            let users := d.users.eraseIdx index
            some { configResult :=
                     mapSet d.configResult "inbounds" (.arr (inbounds.map encodeInbound)),
                   userResult := mapSet d.userResult "clients" (.arr (users.map encodeClient)),
                   firewall := .delete deletedUser.Port }

/-- The computation of a vmess operation between its reads and its writes
(vmess.go 40-110, 143-210, 243-324); `v2rayPort` is the flag
`config.V2rayPort`. -/
def vmessPlan (v2rayPort : String) (call : Call) (read : World) : Option Plan :=
  match call with
  | .create c =>
    match load decodeInbound read with
    | none => none
    | some d =>
      match d.inbounds with
      | [] => none
      | first :: others =>
        if (elems first.Settings.Clients).any (fun client => client.Id = c.Id) then none
        else
          let newV2rayClient : V2rayClient := { Id := c.Id, AlterId := DefaultAlterID }
          let c : Client := { c with Port := (Atoi v2rayPort).1 }
          let first : Inbound :=
            { first with
              Settings := { Clients := some (elems first.Settings.Clients ++ [newV2rayClient]) } }
          let inbounds := first :: others
          let users := d.users ++ [c]
          some { configResult :=
                   mapSet d.configResult "inbounds" (.arr (inbounds.map encodeInbound)),
                 userResult := mapSet d.userResult "clients" (.arr (users.map encodeClient)),
                 firewall := .nothing }
  | .edit client =>
    match load decodeInbound read with
    | none => none
    | some d =>
      match d.inbounds with
      | [] => none
      | first :: others =>
        match findIndex (fun c : V2rayClient => client.Id = c.Id)
            (elems first.Settings.Clients) with
        | none => none
        | some index =>
          let modifiedV2rayClient : V2rayClient := { Id := client.Id, AlterId := DefaultAlterID }
          let modifiedClient : Client :=
            { Id := client.Id, AlterId := DefaultAlterID, Username := client.Username,
              DeviceId := client.DeviceId, StartDate := client.StartDate,
              ExpireDate := client.ExpireDate, Password := "", Port := 0 }
          match d.users[index]? with
          | none => none
          | some _ =>
            let first : Inbound :=
              { first with
                Settings :=
                  { Clients :=
                      some ((elems first.Settings.Clients).set index modifiedV2rayClient) } }
            let inbounds := first :: others
            let users := d.users.set index modifiedClient
            some { configResult :=
                     mapSet d.configResult "inbounds" (.arr (inbounds.map encodeInbound)),
                   userResult := mapSet d.userResult "clients" (.arr (users.map encodeClient)),
                   firewall := .nothing }
  | .delete serverId deviceId =>
    match load decodeInbound read with
    | none => none
    | some d =>
      match d.inbounds with
      | [] => none
      | first :: others =>
        let index := rangeBreak (fun user : V2rayClient => user.Id = serverId)
          (elems first.Settings.Clients)
        match d.users[index]? with
        | none => none
        | some user =>
          if user.Id ≠ serverId ∧ user.DeviceId ≠ deviceId then none
          else
            if index + 1 > (elems first.Settings.Clients).length then none
            else
              let first : Inbound :=
                { first with
                  Settings :=
                    { Clients := some ((elems first.Settings.Clients).eraseIdx index) } }
              let inbounds := first :: others
              let users := d.users.eraseIdx index
              some { configResult :=
                       mapSet d.configResult "inbounds" (.arr (inbounds.map encodeInbound)),
                     userResult := mapSet d.userResult "clients" (.arr (users.map encodeClient)),
                     firewall := .nothing }

/-- Where a call stands: before its first read, after the read of the
configuration document (holding what it read), after the read of the roster
(holding its plan), after each of its two writes, and after its return. -/
inductive Thread where
  | start (env : Env) (call : Call)
  | configRead (env : Env) (call : Call) (configFile : Option JSON)
  | planned (env : Env) (plan : Plan)
  | configWritten (env : Env) (plan : Plan)
  | usersWritten (env : Env) (plan : Plan)
  | done

/-- One step of a call on the shared files: the read of the configuration
document, the read of the roster followed by the computation, the write of the
configuration document, the write of the roster, the firewall call.  A failed
write ends the call; a call that has returned takes no step. -/
def stepThread (planOf : Env → Call → World → Option Plan) (t : Thread) (w : World) :
    Thread × World :=
  match t with
  | .start env call => (.configRead env call w.configFile, w)
  | .configRead env call configFile =>
    match planOf env call { configFile := configFile, usersFile := w.usersFile, ufw := [] } with
    | none => (.done, w)
    | some plan => (.planned env plan, w)
  | .planned env plan =>
    match env.writeConfig with
    | .failed left => (.done, { w with configFile := left })
    | .ok => (.configWritten env plan, { w with configFile := some (.obj plan.configResult) })
  | .configWritten env plan =>
    match env.writeUsers with
    | .failed left => (.done, { w with usersFile := left })
    | .ok => (.usersWritten env plan, { w with usersFile := some (.obj plan.userResult) })
  | .usersWritten env plan =>
    match plan.firewall with
    | .nothing => (.done, w)
    | .allow port => (.done, { w with ufw := (AllowPort env port w.ufw).2 })
    | .delete port => (.done, { w with ufw := (DeletePort env port w.ufw).2 })
  | .done => (.done, w)

/-- The plan of a Shadowsocks call. -/
def shadowsocksPlanOf (_ : Env) (call : Call) (read : World) : Option Plan :=
  shadowsocksPlan call read

/-- The plan of a vmess call, under the flag of its surroundings. -/
def vmessPlanOf (env : Env) (call : Call) (read : World) : Option Plan :=
  vmessPlan env.V2rayPort call read

/-- Which of the two calls takes the next step. -/
inductive Turn where
  | first
  | second
deriving DecidableEq, Repr

/-- Two calls and the files they share. -/
structure Race where
  first : Thread
  second : Thread
  world : World

/-- Two calls run under a schedule. -/
def runSchedule (planOf : Env → Call → World → Option Plan) : List Turn → Race → Race
  | [], race => race
  | .first :: rest, race =>
    runSchedule planOf rest
      { race with first := (stepThread planOf race.first race.world).1,
                  world := (stepThread planOf race.first race.world).2 }
  | .second :: rest, race =>
    runSchedule planOf rest
      { race with second := (stepThread planOf race.second race.world).1,
                  world := (stepThread planOf race.second race.world).2 }

/-- The schedule that runs the first call to its end and then the second:
five steps each. -/
def serialSchedule : List Turn :=
  [.first, .first, .first, .first, .first, .second, .second, .second, .second, .second]

/-- A schedule in which both calls read before either writes, and the second
call makes both its writes between the two writes of the first. -/
def interleavedSchedule : List Turn :=
  [.first, .first, .second, .second, .first, .second, .second, .first, .second, .first]

/-- Whether a call has returned. -/
def Thread.isDone : Thread → Bool
  | .done => true
  | _ => false

/-- The world a Shadowsocks call leaves, whatever it returns. -/
def shadowsocksWorldAfter (env : Env) (call : Call) (w : World) : World :=
  match call with
  | .create c => (CreateShadowsocksUser env c w).2
  | .edit c => (EditShadowsocksUser env c w).2
  | .delete identity deviceId => (DeleteShadowsocksUser env identity deviceId w).2

/-- The world a vmess call leaves, whatever it returns. -/
def vmessWorldAfter (env : Env) (call : Call) (w : World) : World :=
  match call with
  | .create c => (CreateVmessUser env c w).2
  | .edit c => (EditVmessUser env c w).2
  | .delete identity deviceId => (DeleteVmessUser env identity deviceId w).2

/-- The world a call with the plan `plan` leaves when no other call takes a
step between its steps: the two writes, the configuration document first, and
then the firewall call when both writes succeeded. -/
def worldAfterPlan (env : Env) (plan : Option Plan) (w : World) : World :=
  match plan with
  | none => w
  | some plan =>
    match writeBack env plan.configResult plan.userResult w with
    | (false, w1) => w1
    | (true, w1) =>
      match plan.firewall with
      | .nothing => w1
      | .allow port => { w1 with ufw := (AllowPort env port w1.ufw).2 }
      | .delete port => { w1 with ufw := (DeletePort env port w1.ufw).2 }

/-- The first call of `interleavedSchedule` and of `serialSchedule` in the
Shadowsocks counterexample: the Create of `frank`; the second call is the Delete
of `bob`.  Both start on `twoShadowsocksWorld`. -/
def shadowsocksRace : Race :=
  { first := .start calmEnv (.create frank),
    second := .start calmEnv (.delete "zzz999" "device-b"),
    world := twoShadowsocksWorld }

/-- The two calls of the vmess counterexample: the Create of `erin` and the
Delete of `dave`, both starting on `twoVmessWorld`. -/
def vmessRace : Race :=
  { first := .start calmEnv (.create erin),
    second := .start calmEnv (.delete "uuid-2" "device-b"),
    world := twoVmessWorld }

/-! ## RFC 3339 timestamps (written from RFC 3339, sections 5.6 and 5.7, not from the code)

The grammar of section 5.6:
`date-time = full-date "T" full-time`, `full-date = 4DIGIT "-" 2DIGIT "-" 2DIGIT`,
`full-time = partial-time time-offset`,
`partial-time = 2DIGIT ":" 2DIGIT ":" 2DIGIT [ "." 1*DIGIT ]`,
`time-offset = "Z" / ("+" / "-") 2DIGIT ":" 2DIGIT`, where `T` and `Z` may be in
lower case, with the ranges of section 5.7: month 01-12, day 01 up to the
length of the month, hour 00-23, minute 00-59, second 00-60 (60 for a leap
second). -/

/-- Value of a field of two digits. -/
def fieldValue (a b : Char) : Nat := digitOf a * 10 + digitOf b

/-- Value of a field of four digits. -/
def yearValue (a b c d : Char) : Nat :=
  ((digitOf a * 10 + digitOf b) * 10 + digitOf c) * 10 + digitOf d

/-- Leap years, RFC 3339 appendix C. -/
def rfcLeapYear (year : Nat) : Bool :=
  year % 4 = 0 ∧ (year % 100 ≠ 0 ∨ year % 400 = 0)

/-- Maximum value of `date-mday`, the table of RFC 3339 section 5.7. -/
def rfcMonthDays (year month : Nat) : Nat :=
  match month with
  | 1 => 31
  | 2 => if rfcLeapYear year = true then 29 else 28
  | 3 => 31
  | 4 => 30
  | 5 => 31
  | 6 => 30
  | 7 => 31
  | 8 => 31
  | 9 => 30
  | 10 => 31
  | 11 => 30
  | 12 => 31
  | _ => 0

/-- The production `full-date` on ten characters, with the ranges of month and
day. -/
def isFullDate (y1 y2 y3 y4 dash1 m1 m2 dash2 d1 d2 : Char) : Bool :=
  y1.isDigit && y2.isDigit && y3.isDigit && y4.isDigit && decide (dash1 = '-') &&
  m1.isDigit && m2.isDigit && decide (dash2 = '-') && d1.isDigit && d2.isDigit &&
  decide (1 ≤ fieldValue m1 m2) && decide (fieldValue m1 m2 ≤ 12) &&
  decide (1 ≤ fieldValue d1 d2) &&
  decide (fieldValue d1 d2 ≤ rfcMonthDays (yearValue y1 y2 y3 y4) (fieldValue m1 m2))

/-- The production `time-offset`: `Z` or `z`, or a sign, an hour 00-23, a colon
and a minute 00-59. -/
def isTimeOffset (cs : List Char) : Bool :=
  match cs with
  | [z] => decide (z = 'Z') || decide (z = 'z')
  | [sign, h1, h2, colon, m1, m2] =>
    (decide (sign = '+') || decide (sign = '-')) && h1.isDigit && h2.isDigit &&
    decide (colon = ':') && m1.isDigit && m2.isDigit &&
    decide (fieldValue h1 h2 ≤ 23) && decide (fieldValue m1 m2 ≤ 59)
  | _ => false

/-- The productions `[time-secfrac] time-offset`: an optional period with one
or more digits, then the offset, which starts with a character that is no
digit. -/
def isSecfracOffset (cs : List Char) : Bool :=
  match cs with
  | mark :: rest =>
    if mark = '.' then
      (match rest with
       | d :: _ => d.isDigit && isTimeOffset (rest.dropWhile Char.isDigit)
       | [] => false)
    else isTimeOffset cs
  | [] => false

/-- The production `full-time`: hour 00-23, minute 00-59, second 00-60, each of
two digits, then the optional fraction and the offset. -/
def isFullTime (cs : List Char) : Bool :=
  match cs with
  | h1 :: h2 :: colon1 :: n1 :: n2 :: colon2 :: s1 :: s2 :: rest =>
    h1.isDigit && h2.isDigit && decide (colon1 = ':') && n1.isDigit && n2.isDigit &&
    decide (colon2 = ':') && s1.isDigit && s2.isDigit &&
    decide (fieldValue h1 h2 ≤ 23) && decide (fieldValue n1 n2 ≤ 59) &&
    decide (fieldValue s1 s2 ≤ 60) && isSecfracOffset rest
  | _ => false

/-- The production `date-time` of RFC 3339: whether `s` is a valid RFC 3339
timestamp. -/
def isRFC3339 (s : String) : Bool :=
  match s.toList with
  | y1 :: y2 :: y3 :: y4 :: dash1 :: m1 :: m2 :: dash2 :: d1 :: d2 :: t :: rest =>
    isFullDate y1 y2 y3 y4 dash1 m1 m2 dash2 d1 d2 &&
    (decide (t = 'T') || decide (t = 't')) && isFullTime rest
  | _ => false

/-! ## The timestamps `time.Parse` takes under the layout RFC3339, in words

What the amended claim on `parseSSTPDate` speaks of: the timestamps of RFC 3339
written with the capitals `T` and `Z` and a second below 60, and besides them
the same form with an hour of one digit, with a comma for the period before the
fraction, or with an offset of up to 24 hours and up to 60 minutes. -/

/-- The offset: `Z`, or a sign, an hour 00-24, a colon and a minute 00-60. -/
def isLayoutOffset (cs : List Char) : Bool :=
  match cs with
  | [z] => decide (z = 'Z')
  | [sign, h1, h2, colon, m1, m2] =>
    (decide (sign = '+') || decide (sign = '-')) && h1.isDigit && h2.isDigit &&
    decide (colon = ':') && m1.isDigit && m2.isDigit &&
    decide (fieldValue h1 h2 ≤ 24) && decide (fieldValue m1 m2 ≤ 60)
  | _ => false

/-- The optional fraction, a period or a comma with one or more digits, then the
offset. -/
def isLayoutSecfracOffset (cs : List Char) : Bool :=
  match cs with
  | mark :: rest =>
    if mark = '.' ∨ mark = ',' then
      (match rest with
       | d :: _ => d.isDigit && isLayoutOffset (rest.dropWhile Char.isDigit)
       | [] => false)
    else isLayoutOffset cs
  | [] => false

/-- From the colon after the hour on: minute 00-59 and second 00-59 of two
digits each, the optional fraction and the offset. -/
def isLayoutMinuteOn (cs : List Char) : Bool :=
  match cs with
  | colon1 :: n1 :: n2 :: colon2 :: s1 :: s2 :: rest =>
    decide (colon1 = ':') && n1.isDigit && n2.isDigit && decide (colon2 = ':') &&
    s1.isDigit && s2.isDigit && decide (fieldValue n1 n2 ≤ 59) &&
    decide (fieldValue s1 s2 ≤ 59) && isLayoutSecfracOffset rest
  | _ => false

/-- The time of day: an hour of two digits 00-23 or of one digit, then the
rest. -/
def isLayoutTime (cs : List Char) : Bool :=
  match cs with
  | h1 :: h2 :: rest =>
    h1.isDigit &&
    (if h2.isDigit = true then decide (fieldValue h1 h2 ≤ 23) && isLayoutMinuteOn rest
     else isLayoutMinuteOn (h2 :: rest))
  | _ => false

/-- Whether `s` is a timestamp of the form just described. -/
def isLayoutTimestamp (s : String) : Bool :=
  match s.toList with
  | y1 :: y2 :: y3 :: y4 :: dash1 :: m1 :: m2 :: dash2 :: d1 :: d2 :: t :: rest =>
    isFullDate y1 y2 y3 y4 dash1 m1 m2 dash2 d1 d2 && decide (t = 'T') && isLayoutTime rest
  | _ => false

/-- The characters of the seconds field of a timestamp, at positions 17 and
18. -/
def secondsField (s : String) : List Char :=
  (s.toList.drop 17).take 2

/-! ## Lemmas on JSON maps and on decoding what was encoded -/

theorem elems_some {α : Type} (xs : List α) : elems (some xs) = xs := rfl

theorem getField_append_single (m : List (String × JSON)) (k key : String) (v : JSON) :
    getField (m ++ [(k, v)]) key = if k = key then some v else getField m key := by
  induction m with
  | nil => simp [getField]
  | cons kv rest ih =>
    obtain ⟨k0, v0⟩ := kv
    show getField ((k0, v0) :: (rest ++ [(k, v)])) key = _
    simp only [getField]
    rw [ih]
    by_cases h : k = key <;> simp [h]

theorem getField_removeKey_other (m : List (String × JSON)) (key other : String)
    (h : other ≠ key) : getField (removeKey key m) other = getField m other := by
  induction m with
  | nil => simp [removeKey]
  | cons kv rest ih =>
    obtain ⟨k0, v0⟩ := kv
    by_cases hk : k0 = key
    · have hne : ¬ (k0 = other) := fun e => h (e.symm.trans hk)
      simp only [removeKey, hk, if_true, getField]
      rw [ih]
      have hne2 : ¬ (key = other) := fun e => h e.symm
      simp [hne2]
      cases getField rest other <;> rfl
    · simp only [removeKey, hk, if_false, getField]
      rw [ih]

theorem getField_mapSet_same (m : List (String × JSON)) (key : String) (v : JSON) :
    getField (mapSet m key v) key = some v := by
  simp [mapSet, getField_append_single]

theorem getField_mapSet_other (m : List (String × JSON)) (key other : String) (v : JSON)
    (h : other ≠ key) : getField (mapSet m key v) other = getField m other := by
  have h2 : ¬ (key = other) := fun e => h e.symm
  simp [mapSet, getField_append_single, h2, getField_removeKey_other m key other h]

theorem decodeAll_map {α : Type} (elem : JSON → Option α) (enc : α → JSON)
    (h : ∀ a, elem (enc a) = some a) (xs : List α) :
    decodeAll elem (xs.map enc) = some xs := by
  induction xs with
  | nil => rfl
  | cons x rest ih => simp [decodeAll, h, ih]

theorem decodeAll_length {α : Type} (elem : JSON → Option α) :
    ∀ (items : List JSON) (xs : List α), decodeAll elem items = some xs →
      xs.length = items.length := by
  intro items
  induction items with
  | nil => intro xs h; simp [decodeAll] at h; subst h; rfl
  | cons j rest ih =>
    intro xs h
    simp only [decodeAll] at h
    split at h
    · cases h
    · split at h
      · cases h
      · rename_i a _ as has
        cases h
        simp [ih as has]

theorem decodeClient_encodeClient (c : Client) : decodeClient (encodeClient c) = some c := by
  simp [decodeClient, encodeClient, getField, decodeString, decodeInt]

theorem decodeV2rayClient_encode (c : V2rayClient) :
    decodeV2rayClient (encodeV2rayClient c) = some c := by
  simp [decodeV2rayClient, encodeV2rayClient, getField, decodeString, decodeInt]

theorem decodeShadowsocksInbound_encode (i : ShadowsocksInbound) :
    decodeShadowsocksInbound (encodeShadowsocksInbound i) = some i := by
  by_cases h : i.Listen = ""
  · cases i with
    | mk p l pr st =>
      simp at h
      subst h
      simp [decodeShadowsocksInbound, encodeShadowsocksInbound, encodeShadowsocksSettings,
        decodeShadowsocksSettings, getField, decodeString, decodeInt, decodeBool]
  · simp [decodeShadowsocksInbound, encodeShadowsocksInbound, encodeShadowsocksSettings,
      decodeShadowsocksSettings, getField, decodeString, decodeInt, decodeBool, h]

theorem decodeInboundSettings_encode (s : InboundSettings) :
    decodeInboundSettings (some (encodeInboundSettings s)) = some s := by
  cases s with
  | mk clients =>
    cases clients with
    | none => simp [encodeInboundSettings, decodeInboundSettings, getField, decodeSliceField]
    | some cs =>
      simp [encodeInboundSettings, decodeInboundSettings, getField, decodeSliceField,
        decodeAll_map decodeV2rayClient encodeV2rayClient decodeV2rayClient_encode]

theorem decodeInbound_encode (i : Inbound) : decodeInbound (encodeInbound i) = some i := by
  simp [decodeInbound, encodeInbound, decodeInboundSettings_encode, getField,
    decodeString, decodeInt, decodeRaw]

/-! ## Lemmas on the phases of an operation -/

theorem load_some {ι : Type} (elem : JSON → Option ι) (w : World) (d : Loaded ι)
    (h : load elem w = some d) :
    readDocument w.configFile = some d.configResult ∧
    readDocument w.usersFile = some d.userResult ∧
    unmarshalSlice elem (getField d.configResult "inbounds") = some d.inbounds ∧
    unmarshalSlice decodeClient (getField d.userResult "clients") = some d.users := by
  unfold load at h
  split at h
  · cases h
  · split at h
    · cases h
    · split at h
      · cases h
      · split at h
        · cases h
        · cases h
          simp_all

theorem load_of {ι : Type} (elem : JSON → Option ι) (w : World)
    (configResult userResult : List (String × JSON)) (inbounds : List ι) (users : List Client)
    (h1 : readDocument w.configFile = some configResult)
    (h2 : readDocument w.usersFile = some userResult)
    (h3 : unmarshalSlice elem (getField configResult "inbounds") = some inbounds)
    (h4 : unmarshalSlice decodeClient (getField userResult "clients") = some users) :
    load elem w = some { configResult := configResult, userResult := userResult,
                         inbounds := inbounds, users := users } := by
  simp [load, h1, h2, h3, h4]

theorem writeBack_true (env : Env) (configResult userResult : List (String × JSON))
    (w w1 : World) (h : writeBack env configResult userResult w = (true, w1)) :
    w1 = { configFile := some (.obj configResult), usersFile := some (.obj userResult),
           ufw := w.ufw } := by
  unfold writeBack at h
  split at h
  · simp at h
  · split at h
    · simp at h
    · simp at h
      exact h.symm

theorem AllowPort_false (env : Env) (port : Int) (ufw ufw1 : List UfwCmd)
    (h : AllowPort env port ufw = (false, ufw1)) :
    1 ≤ port ∧ port ≤ 65535 ∧ ufw1 = ufw ++ [.allow port .tcp, .allow port .udp] := by
  unfold AllowPort at h
  split_ifs at h with h1 h2 h3
  · simp at h
  · simp at h
  · simp at h
  · simp at h
    refine ⟨by omega, by omega, h.symm⟩

theorem DeletePort_false (env : Env) (port : Int) (ufw ufw1 : List UfwCmd)
    (h : DeletePort env port ufw = (false, ufw1)) :
    1 ≤ port ∧ port ≤ 65535 ∧
      ufw1 = ufw ++ [.deleteAllow port .tcp, .deleteAllow port .udp] := by
  unfold DeletePort at h
  split_ifs at h with h1 h2 h3
  · simp at h
  · simp at h
  · simp at h
  · simp at h
    refine ⟨by omega, by omega, h.symm⟩

theorem CreateShadowsocksUser_ok (env : Env) (c : Client) (w w1 : World)
    (h : CreateShadowsocksUser env c w = (.returned none, w1)) :
    ∃ d, load decodeShadowsocksInbound w = some d ∧
      (∀ i ∈ d.inbounds, i.Settings.Password ≠ c.Password) ∧
      1 ≤ getNextPort d.inbounds ∧ getNextPort d.inbounds ≤ 65535 ∧
      w1 = { configFile := some (.obj (mapSet d.configResult "inbounds"
               (.arr ((d.inbounds ++ [inboundOn (getNextPort d.inbounds) c.Password]).map
                 encodeShadowsocksInbound)))),
             usersFile := some (.obj (mapSet d.userResult "clients"
               (.arr ((d.users ++ [{ c with Port := getNextPort d.inbounds }]).map
                 encodeClient)))),
             ufw := w.ufw ++ [.allow (getNextPort d.inbounds) .tcp,
                              .allow (getNextPort d.inbounds) .udp] } := by
  unfold CreateShadowsocksUser at h
  split at h
  · simp [InternalServerErr] at h
  · rename_i d hd
    refine ⟨d, hd, ?_⟩
    split_ifs at h with hdup
    · simp [InternalServerErr] at h
    · simp only at h
      split at h
      · simp [InternalServerErr] at h
      · rename_i w2 hw
        have hw2 := writeBack_true _ _ _ _ _ hw
        split at h
        · simp [InternalServerErr] at h
        · rename_i ufw1 hufw
          obtain ⟨p1, p2, p3⟩ := AllowPort_false _ _ _ _ hufw
          simp only [Prod.mk.injEq, true_and] at h
          refine ⟨?_, p1, p2, ?_⟩
          · intro i hi heq
            apply hdup
            simp only [List.any_eq_true, decide_eq_true_eq]
            exact ⟨i, hi, heq⟩
          · rw [← h, p3, hw2]
            rfl

theorem EditShadowsocksUser_ok (env : Env) (client : Client) (w w1 : World) (r : Reply)
    (h : EditShadowsocksUser env client w = (.returned r, w1)) (hr : r.err = none) :
    ∃ d index inbound oldClient, load decodeShadowsocksInbound w = some d ∧
      findIndex (fun c : Client => client.Password = c.Password) d.users = some index ∧
      d.inbounds[index]? = some inbound ∧ d.users[index]? = some oldClient ∧
      r = { client := some oldClient, status := 200, err := none } ∧
      w1 = { configFile := some (.obj (mapSet d.configResult "inbounds"
               (.arr ((d.inbounds.set index (inboundOn inbound.Port client.Password)).map
                 encodeShadowsocksInbound)))),
             usersFile := some (.obj (mapSet d.userResult "clients"
               (.arr ((d.users.set index (shadowsocksModifiedClient client)).map
                 encodeClient)))),
             ufw := w.ufw } := by
  unfold EditShadowsocksUser at h
  split at h
  · simp only [Prod.mk.injEq, Outcome.returned.injEq] at h
    rw [← h.1] at hr
    simp at hr
  · rename_i d hd
    split at h
    · simp only [Prod.mk.injEq, Outcome.returned.injEq] at h
      rw [← h.1] at hr
      simp at hr
    · rename_i index hidx
      split at h
      · simp at h
      · rename_i inbound hin
        split at h
        · simp at h
        · rename_i oldClient hold
          simp only at h
          split at h
          · simp only [Prod.mk.injEq, Outcome.returned.injEq] at h
            rw [← h.1] at hr
            simp at hr
          · rename_i w2 hw
            have hw2 := writeBack_true _ _ _ _ _ hw
            simp only [Prod.mk.injEq, Outcome.returned.injEq] at h
            refine ⟨d, index, inbound, oldClient, hd, hidx, hin, hold, h.1.symm, ?_⟩
            rw [← h.2, hw2]
            rfl

theorem DeleteShadowsocksUser_ok (env : Env) (password deviceId : String) (w w1 : World)
    (r : Reply) (h : DeleteShadowsocksUser env password deviceId w = (.returned r, w1))
    (hr : r.err = none) :
    ∃ d user, load decodeInbound w = some d ∧
      d.users[rangeBreak (fun user : Client => user.Password = password) d.users]? = some user ∧
      ¬ (user.Password ≠ password ∧ user.DeviceId ≠ deviceId) ∧
      rangeBreak (fun user : Client => user.Password = password) d.users < d.inbounds.length ∧
      1 ≤ user.Port ∧ user.Port ≤ 65535 ∧
      r = { client := some user, status := 200, err := none } ∧
      w1 = { configFile := some (.obj (mapSet d.configResult "inbounds"
               (.arr ((d.inbounds.eraseIdx
                 (rangeBreak (fun user : Client => user.Password = password) d.users)).map
                 encodeInbound)))),
             usersFile := some (.obj (mapSet d.userResult "clients"
               (.arr ((d.users.eraseIdx
                 (rangeBreak (fun user : Client => user.Password = password) d.users)).map
                 encodeClient)))),
             ufw := w.ufw ++ [.deleteAllow user.Port .tcp, .deleteAllow user.Port .udp] } := by
  unfold DeleteShadowsocksUser at h
  split at h
  · simp only [Prod.mk.injEq, Outcome.returned.injEq] at h
    rw [← h.1] at hr
    simp at hr
  · rename_i d hd
    simp only at h
    split at h
    · simp at h
    · rename_i user huser
      split_ifs at h with hguard hlen
      · simp only [Prod.mk.injEq, Outcome.returned.injEq] at h
        rw [← h.1] at hr
        simp at hr
      · simp at h
      · split at h
        · simp only [Prod.mk.injEq, Outcome.returned.injEq] at h
          rw [← h.1] at hr
          simp at hr
        · rename_i w2 hw
          have hw2 := writeBack_true _ _ _ _ _ hw
          split at h
          · simp only [Prod.mk.injEq, Outcome.returned.injEq] at h
            rw [← h.1] at hr
            simp [InternalServerErr] at hr
          · rename_i ufw1 hufw
            obtain ⟨p1, p2, p3⟩ := DeletePort_false _ _ _ _ hufw
            simp only [Prod.mk.injEq, Outcome.returned.injEq] at h
            refine ⟨d, user, hd, huser, hguard, by omega, p1, p2, h.1.symm, ?_⟩
            rw [← h.2, p3, hw2]

theorem CreateVmessUser_ok (env : Env) (c : Client) (w w1 : World)
    (h : CreateVmessUser env c w = (.returned none, w1)) :
    ∃ d first others, load decodeInbound w = some d ∧ d.inbounds = first :: others ∧
      (∀ client ∈ (elems first.Settings.Clients), client.Id ≠ c.Id) ∧
      w1 = { configFile := some (.obj (mapSet d.configResult "inbounds"
               (.arr ((withClients first ((elems first.Settings.Clients) ++
                   [{ Id := c.Id, AlterId := DefaultAlterID }]) :: others).map encodeInbound)))),
             usersFile := some (.obj (mapSet d.userResult "clients"
               (.arr ((d.users ++ [{ c with Port := (Atoi env.V2rayPort).1 }]).map
                 encodeClient)))),
             ufw := w.ufw } := by
  unfold CreateVmessUser at h
  split at h
  · simp [InternalServerErr] at h
  · rename_i d hd
    split at h
    · simp at h
    · rename_i first others hinb
      split_ifs at h with hdup
      · simp at h
      · simp only at h
        split at h
        · simp [InternalServerErr] at h
        · rename_i w2 hw
          have hw2 := writeBack_true _ _ _ _ _ hw
          simp only [Prod.mk.injEq, true_and] at h
          refine ⟨d, first, others, hd, hinb, ?_, ?_⟩
          · intro i hi heq
            apply hdup
            simp only [List.any_eq_true, decide_eq_true_eq]
            exact ⟨i, hi, heq⟩
          · rw [← h, hw2]
            rfl

theorem DeleteVmessUser_ok (env : Env) (serverId deviceId : String) (w w1 : World)
    (r : Reply) (h : DeleteVmessUser env serverId deviceId w = (.returned r, w1))
    (hr : r.err = none) :
    ∃ d first others user, load decodeInbound w = some d ∧ d.inbounds = first :: others ∧
      d.users[rangeBreak (fun user : V2rayClient => user.Id = serverId)
        (elems first.Settings.Clients)]? = some user ∧
      ¬ (user.Id ≠ serverId ∧ user.DeviceId ≠ deviceId) ∧
      rangeBreak (fun user : V2rayClient => user.Id = serverId) (elems first.Settings.Clients)
        < (elems first.Settings.Clients).length ∧
      r = { client := some user, status := 200, err := none } ∧
      w1 = { configFile := some (.obj (mapSet d.configResult "inbounds"
               (.arr ((withClients first ((elems first.Settings.Clients).eraseIdx
                   (rangeBreak (fun user : V2rayClient => user.Id = serverId)
                     (elems first.Settings.Clients))) :: others).map encodeInbound)))),
             usersFile := some (.obj (mapSet d.userResult "clients"
               (.arr ((d.users.eraseIdx
                   (rangeBreak (fun user : V2rayClient => user.Id = serverId)
                     (elems first.Settings.Clients))).map encodeClient)))),
             ufw := w.ufw } := by
  unfold DeleteVmessUser at h
  split at h
  · simp only [Prod.mk.injEq, Outcome.returned.injEq] at h
    rw [← h.1] at hr
    simp at hr
  · rename_i d hd
    split at h
    · simp at h
    · rename_i first others hinb
      simp only at h
      split at h
      · simp at h
      · rename_i user huser
        split_ifs at h with hguard hlen
        · simp only [Prod.mk.injEq, Outcome.returned.injEq] at h
          rw [← h.1] at hr
          simp at hr
        · simp at h
        · split at h
          · simp only [Prod.mk.injEq, Outcome.returned.injEq] at h
            rw [← h.1] at hr
            simp at hr
          · rename_i w2 hw
            have hw2 := writeBack_true _ _ _ _ _ hw
            simp only [Prod.mk.injEq, Outcome.returned.injEq] at h
            refine ⟨d, first, others, user, hd, hinb, huser, hguard, by omega, h.1.symm, ?_⟩
            rw [← h.2, hw2]
            rfl

theorem EditVmessUser_ok (env : Env) (client : Client) (w w1 : World) (r : Reply)
    (h : EditVmessUser env client w = (.returned r, w1)) (hr : r.err = none) :
    ∃ d first others index oldClient, load decodeInbound w = some d ∧
      d.inbounds = first :: others ∧
      findIndex (fun c : V2rayClient => client.Id = c.Id) (elems first.Settings.Clients)
        = some index ∧
      d.users[index]? = some oldClient ∧
      r = { client := some oldClient, status := 200, err := none } ∧
      w1 = { configFile := some (.obj (mapSet d.configResult "inbounds"
               (.arr ((withClients first ((elems first.Settings.Clients).set index
                   { Id := client.Id, AlterId := DefaultAlterID }) :: others).map
                 encodeInbound)))),
             usersFile := some (.obj (mapSet d.userResult "clients"
               (.arr ((d.users.set index (vmessModifiedClient client)).map encodeClient)))),
             ufw := w.ufw } := by
  unfold EditVmessUser at h
  split at h
  · simp only [Prod.mk.injEq, Outcome.returned.injEq] at h
    rw [← h.1] at hr
    simp at hr
  · rename_i d hd
    split at h
    · simp at h
    · rename_i first others hinb
      split at h
      · simp only [Prod.mk.injEq, Outcome.returned.injEq] at h
        rw [← h.1] at hr
        simp at hr
      · rename_i index hidx
        split at h
        · simp at h
        · rename_i oldClient hold
          simp only at h
          split at h
          · simp only [Prod.mk.injEq, Outcome.returned.injEq] at h
            rw [← h.1] at hr
            simp at hr
          · rename_i w2 hw
            have hw2 := writeBack_true _ _ _ _ _ hw
            simp only [Prod.mk.injEq, Outcome.returned.injEq] at h
            refine ⟨d, first, others, index, oldClient, hd, hinb, hidx, hold, h.1.symm, ?_⟩
            rw [← h.2, hw2]
            rfl

/-! ## Lemmas on the scan -/

theorem scanPorts_spec (l : List Int) :
    ∀ n : Int, l.Sorted (fun a b => a ≤ b) →
      n ≤ scanPorts n l ∧ scanPorts n l ∉ l ∧
        ∀ v : Int, n ≤ v → v < scanPorts n l → v ∈ l := by
  induction l with
  | nil =>
    intro n _
    simp [scanPorts]
  | cons port rest ih =>
    intro n hs
    have hrest : rest.Sorted (fun a b => a ≤ b) := hs.of_cons
    have hle : ∀ x ∈ rest, port ≤ x := fun x hx => List.rel_of_sorted_cons hs x hx
    by_cases h1 : port > n
    · have hr : scanPorts n (port :: rest) = n := by simp [scanPorts, h1]
      rw [hr]
      refine ⟨le_refl _, ?_, ?_⟩
      · intro hmem
        rcases List.mem_cons.mp hmem with h | h
        · omega
        · have := hle n h
          omega
      · intro v h2 h3
        omega
    · by_cases h2 : port = n
      · have hr : scanPorts n (port :: rest) = scanPorts (n + 1) rest := by
          simp [scanPorts, h2]
        rw [hr]
        obtain ⟨a, b, c⟩ := ih (n + 1) hrest
        refine ⟨by omega, ?_, ?_⟩
        · intro hmem
          rcases List.mem_cons.mp hmem with h | h
          · omega
          · exact b h
        · intro v hv1 hv2
          by_cases hvn : v = n
          · subst hvn
            exact List.mem_cons.mpr (Or.inl h2.symm)
          · exact List.mem_cons_of_mem _ (c v (by omega) hv2)
      · have hr : scanPorts n (port :: rest) = scanPorts n rest := by
          simp [scanPorts, h1, h2]
        rw [hr]
        obtain ⟨a, b, c⟩ := ih n hrest
        refine ⟨a, ?_, ?_⟩
        · intro hmem
          rcases List.mem_cons.mp hmem with h | h
          · omega
          · exact b h
        · intro v hv1 hv2
          exact List.mem_cons_of_mem _ (c v hv1 hv2)

theorem scanPorts_le (l : List Int) : ∀ n : Int, scanPorts n l ≤ n + l.length := by
  induction l with
  | nil => intro n; simp [scanPorts]
  | cons port rest ih =>
    intro n
    simp only [scanPorts, List.length_cons]
    have h1 := ih n
    have h2 := ih (n + 1)
    split_ifs <;> push_cast <;> omega

theorem mem_sortedPorts (inbounds : List ShadowsocksInbound) (v : Int) :
    v ∈ (inbounds.map (fun inbound => inbound.Port)).insertionSort (fun a b => a ≤ b) ↔
      ∃ inbound ∈ inbounds, inbound.Port = v := by
  rw [(List.perm_insertionSort _ _).mem_iff]
  simp

theorem getNextPort_spec (inbounds : List ShadowsocksInbound) :
    10000 ≤ getNextPort inbounds ∧
      (∀ inbound ∈ inbounds, inbound.Port ≠ getNextPort inbounds) ∧
      ∀ v : Int, 10000 ≤ v → v < getNextPort inbounds →
        ∃ inbound ∈ inbounds, inbound.Port = v := by
  unfold getNextPort
  by_cases h0 : inbounds.length = 0
  · have : inbounds = [] := List.length_eq_zero.mp h0
    subst this
    simp
  · simp only [h0, if_false]
    obtain ⟨a, b, c⟩ := scanPorts_spec
      ((inbounds.map (fun inbound => inbound.Port)).insertionSort (fun a b => a ≤ b)) 10000
      (List.sorted_insertionSort _ _)
    refine ⟨a, ?_, ?_⟩
    · intro inbound hin heq
      exact b ((mem_sortedPorts inbounds _).mpr ⟨inbound, hin, heq⟩)
    · intro v hv1 hv2
      exact (mem_sortedPorts inbounds v).mp (c v hv1 hv2)

/-- The allocated port never exceeds `10000 + len(inbounds)`: `nextPort++`
cannot overflow a 64-bit `int`. -/
theorem getNextPort_le (inbounds : List ShadowsocksInbound) :
    getNextPort inbounds ≤ 10000 + inbounds.length := by
  unfold getNextPort
  split_ifs with h0
  · omega
  · have := scanPorts_le
      ((inbounds.map (fun inbound => inbound.Port)).insertionSort (fun a b => a ≤ b)) 10000
    simpa using this

/-! ## Lemmas on what a written world holds -/

theorem unmarshalSlice_written {α : Type} (elem : JSON → Option α) (enc : α → JSON)
    (h : ∀ a, elem (enc a) = some a) (m : List (String × JSON)) (key : String) (xs : List α) :
    unmarshalSlice elem (getField (mapSet m key (.arr (xs.map enc))) key) = some xs := by
  rw [getField_mapSet_same]
  simp [unmarshalSlice, decodeSlice, decodeAll_map elem enc h]

theorem shadowsocksInboundsOf_written (m : List (String × JSON)) (u : Option JSON)
    (ufw : List UfwCmd) (xs : List ShadowsocksInbound) :
    shadowsocksInboundsOf
      { configFile := some (.obj (mapSet m "inbounds" (.arr (xs.map encodeShadowsocksInbound)))),
        usersFile := u, ufw := ufw } = some xs := by
  simp only [shadowsocksInboundsOf, readDocument]
  exact unmarshalSlice_written _ _ decodeShadowsocksInbound_encode m "inbounds" xs

theorem inboundsOf_written (m : List (String × JSON)) (u : Option JSON)
    (ufw : List UfwCmd) (xs : List Inbound) :
    inboundsOf
      { configFile := some (.obj (mapSet m "inbounds" (.arr (xs.map encodeInbound)))),
        usersFile := u, ufw := ufw } = some xs := by
  simp only [inboundsOf, readDocument]
  exact unmarshalSlice_written _ _ decodeInbound_encode m "inbounds" xs

theorem rosterOf_written (m : List (String × JSON)) (c : Option JSON)
    (ufw : List UfwCmd) (xs : List Client) :
    rosterOf
      { configFile := c,
        usersFile := some (.obj (mapSet m "clients" (.arr (xs.map encodeClient)))),
        ufw := ufw } = some xs := by
  simp only [rosterOf, readDocument]
  exact unmarshalSlice_written _ _ decodeClient_encodeClient m "clients" xs

theorem load_shadowsocksInboundsOf (w : World) (d : Loaded ShadowsocksInbound)
    (h : load decodeShadowsocksInbound w = some d) :
    shadowsocksInboundsOf w = some d.inbounds := by
  obtain ⟨h1, _, h3, _⟩ := load_some _ _ _ h
  simp [shadowsocksInboundsOf, h1, h3]

theorem load_inboundsOf (w : World) (d : Loaded Inbound)
    (h : load decodeInbound w = some d) : inboundsOf w = some d.inbounds := by
  obtain ⟨h1, _, h3, _⟩ := load_some _ _ _ h
  simp [inboundsOf, h1, h3]

theorem load_rosterOf {ι : Type} (elem : JSON → Option ι) (w : World) (d : Loaded ι)
    (h : load elem w = some d) : rosterOf w = some d.users := by
  obtain ⟨_, h2, _, h4⟩ := load_some _ _ _ h
  simp [rosterOf, h2, h4]

theorem load_of_shadowsocks (w : World) (inbounds : List ShadowsocksInbound)
    (users : List Client) (h1 : shadowsocksInboundsOf w = some inbounds)
    (h2 : rosterOf w = some users) :
    ∃ d, load decodeShadowsocksInbound w = some d ∧ d.inbounds = inbounds ∧ d.users = users := by
  unfold shadowsocksInboundsOf at h1
  unfold rosterOf at h2
  split at h1
  · cases h1
  · rename_i cfg hcfg
    split at h2
    · cases h2
    · rename_i usr husr
      exact ⟨_, load_of _ w cfg usr inbounds users hcfg husr h1 h2, rfl, rfl⟩

theorem load_of_inbounds (w : World) (inbounds : List Inbound)
    (users : List Client) (h1 : inboundsOf w = some inbounds)
    (h2 : rosterOf w = some users) :
    ∃ d, load decodeInbound w = some d ∧ d.inbounds = inbounds ∧ d.users = users := by
  unfold inboundsOf at h1
  unfold rosterOf at h2
  split at h1
  · cases h1
  · rename_i cfg hcfg
    split at h2
    · cases h2
    · rename_i usr husr
      exact ⟨_, load_of _ w cfg usr inbounds users hcfg husr h1 h2, rfl, rfl⟩

theorem CreateShadowsocksUser_succeeds (env : Env) (c : Client) (w : World)
    (d : Loaded ShadowsocksInbound) (hd : load decodeShadowsocksInbound w = some d)
    (hfree : ∀ i ∈ d.inbounds, i.Settings.Password ≠ c.Password)
    (hwc : env.writeConfig = .ok) (hwu : env.writeUsers = .ok)
    (hhi : getNextPort d.inbounds ≤ 65535)
    (htcp : env.ufwRuns (.allow (getNextPort d.inbounds) .tcp) = true)
    (hudp : env.ufwRuns (.allow (getNextPort d.inbounds) .udp) = true) :
    CreateShadowsocksUser env c w = (.returned none,
      { configFile := some (.obj (mapSet d.configResult "inbounds"
               (.arr ((d.inbounds ++ [inboundOn (getNextPort d.inbounds) c.Password]).map
                 encodeShadowsocksInbound)))),
        usersFile := some (.obj (mapSet d.userResult "clients"
               (.arr ((d.users ++ [{ c with Port := getNextPort d.inbounds }]).map
                 encodeClient)))),
        ufw := w.ufw ++ [.allow (getNextPort d.inbounds) .tcp,
                         .allow (getNextPort d.inbounds) .udp] }) := by
  have hany : d.inbounds.any (fun inbound => decide (inbound.Settings.Password = c.Password))
      = false := by
    rw [List.any_eq_false]
    intro i hi
    simpa using hfree i hi
  have hlo : ¬ (getNextPort d.inbounds < 1) := by
    have := (getNextPort_spec d.inbounds).1
    omega
  have hhi2 : ¬ (getNextPort d.inbounds > 65535) := by omega
  simp [CreateShadowsocksUser, hd, hany, writeBack, hwc, hwu, AllowPort, hlo, hhi2, htcp, hudp,
    inboundOn]

/-! ## Lemmas on the cardinality of the two documents -/

theorem unmarshalSlice_arrayLength {α : Type} (elem : JSON → Option α) (raw : Option JSON)
    (xs : List α) (h : unmarshalSlice elem raw = some xs) :
    arrayLength raw = some xs.length := by
  cases raw with
  | none => simp [unmarshalSlice] at h
  | some v =>
    cases v with
    | null =>
      simp [unmarshalSlice, decodeSlice] at h
      subst h
      rfl
    | arr items =>
      simp only [unmarshalSlice, decodeSlice] at h
      simp [arrayLength, decodeAll_length elem items xs h]
    | bool b => simp [unmarshalSlice, decodeSlice] at h
    | num n => simp [unmarshalSlice, decodeSlice] at h
    | str s => simp [unmarshalSlice, decodeSlice] at h
    | obj m => simp [unmarshalSlice, decodeSlice] at h

theorem load_inboundCount {ι : Type} (elem : JSON → Option ι) (w : World) (d : Loaded ι)
    (h : load elem w = some d) : inboundCount w = some d.inbounds.length := by
  obtain ⟨h1, _, h3, _⟩ := load_some _ _ _ h
  simp [inboundCount, h1, unmarshalSlice_arrayLength _ _ _ h3]

theorem load_rosterCount {ι : Type} (elem : JSON → Option ι) (w : World) (d : Loaded ι)
    (h : load elem w = some d) : rosterCount w = some d.users.length := by
  simp [rosterCount, load_rosterOf elem w d h]

theorem inboundCount_written {α : Type} (enc : α → JSON) (m : List (String × JSON))
    (u : Option JSON) (ufw : List UfwCmd) (xs : List α) :
    inboundCount { configFile := some (.obj (mapSet m "inbounds" (.arr (xs.map enc)))),
                   usersFile := u, ufw := ufw } = some xs.length := by
  simp [inboundCount, readDocument, getField_mapSet_same, arrayLength]

theorem rosterCount_written (m : List (String × JSON)) (c : Option JSON)
    (ufw : List UfwCmd) (xs : List Client) :
    rosterCount { configFile := c,
                  usersFile := some (.obj (mapSet m "clients" (.arr (xs.map encodeClient)))),
                  ufw := ufw } = some xs.length := by
  simp [rosterCount, rosterOf_written]

theorem vmessClientCount_written (m : List (String × JSON)) (u : Option JSON)
    (ufw : List UfwCmd) (first : Inbound) (others : List Inbound) :
    vmessClientCount
      { configFile := some (.obj (mapSet m "inbounds"
          (.arr ((first :: others).map encodeInbound)))),
        usersFile := u, ufw := ufw } = some (elems first.Settings.Clients).length := by
  unfold vmessClientCount vmessClientsOf
  rw [inboundsOf_written]
  rfl

theorem load_vmessClientCount (w : World) (d : Loaded Inbound) (first : Inbound)
    (others : List Inbound) (h : load decodeInbound w = some d)
    (hi : d.inbounds = first :: others) :
    vmessClientCount w = some (elems first.Settings.Clients).length := by
  simp [vmessClientCount, vmessClientsOf, load_inboundsOf w d h, hi]

theorem findIndex_lt {α : Type} (p : α → Bool) :
    ∀ (xs : List α) (i : Nat), findIndex p xs = some i → i < xs.length := by
  intro xs
  induction xs with
  | nil => intro i h; simp [findIndex] at h
  | cons x rest ih =>
    intro i h
    simp only [findIndex] at h
    split_ifs at h with hp
    · simp at h
      subst h
      simp
    · cases hr : findIndex p rest with
      | none => simp [hr] at h
      | some j =>
        simp [hr] at h
        subst h
        have := ih j hr
        simp
        omega

theorem findIndex_none {α : Type} (p : α → Bool) :
    ∀ xs : List α, (∀ x ∈ xs, p x = false) → findIndex p xs = none := by
  intro xs
  induction xs with
  | nil => intro _; rfl
  | cons x rest ih =>
    intro h
    have hx : p x = false := h x (List.mem_cons_self _ _)
    have hr := ih (fun y hy => h y (List.mem_cons_of_mem _ hy))
    simp [findIndex, hx, hr]

theorem shadowsocks_create_balanced (env : Env) (c : Client) (w w1 : World)
    (hb : ShadowsocksBalanced w) (h : CreateShadowsocksUser env c w = (.returned none, w1)) :
    ShadowsocksBalanced w1 := by
  obtain ⟨d, hd, _, _, _, hw1⟩ := CreateShadowsocksUser_ok env c w w1 h
  obtain ⟨n, h1, h2⟩ := hb
  rw [load_inboundCount _ w d hd] at h1
  rw [load_rosterCount _ w d hd] at h2
  simp only [Option.some.injEq] at h1 h2
  subst hw1
  refine ⟨n + 1, ?_, ?_⟩
  · rw [inboundCount_written]; simp [h1]
  · rw [rosterCount_written]; simp [h2]

theorem shadowsocks_edit_balanced (env : Env) (c : Client) (w w1 : World) (r : Reply)
    (hb : ShadowsocksBalanced w) (h : EditShadowsocksUser env c w = (.returned r, w1))
    (hr : r.err = none) : ShadowsocksBalanced w1 := by
  obtain ⟨d, index, inbound, oldClient, hd, _, _, _, _, hw1⟩ :=
    EditShadowsocksUser_ok env c w w1 r h hr
  obtain ⟨n, h1, h2⟩ := hb
  rw [load_inboundCount _ w d hd] at h1
  rw [load_rosterCount _ w d hd] at h2
  simp only [Option.some.injEq] at h1 h2
  subst hw1
  refine ⟨n, ?_, ?_⟩
  · rw [inboundCount_written]; simp [h1]
  · rw [rosterCount_written]; simp [h2]

theorem shadowsocks_delete_balanced (env : Env) (password deviceId : String) (w w1 : World)
    (r : Reply) (hb : ShadowsocksBalanced w)
    (h : DeleteShadowsocksUser env password deviceId w = (.returned r, w1))
    (hr : r.err = none) : ShadowsocksBalanced w1 := by
  obtain ⟨d, user, hd, hu, _, hlt, _, _, _, hw1⟩ :=
    DeleteShadowsocksUser_ok env password deviceId w w1 r h hr
  obtain ⟨n, h1, h2⟩ := hb
  rw [load_inboundCount _ w d hd] at h1
  rw [load_rosterCount _ w d hd] at h2
  simp only [Option.some.injEq] at h1 h2
  subst hw1
  refine ⟨n - 1, ?_, ?_⟩
  · rw [inboundCount_written, List.length_eraseIdx, if_pos hlt, h1]
  · rw [rosterCount_written, List.length_eraseIdx, if_pos (by omega), h2]

theorem vmess_create_balanced (env : Env) (c : Client) (w w1 : World)
    (hb : VmessBalanced w) (h : CreateVmessUser env c w = (.returned none, w1)) :
    VmessBalanced w1 := by
  obtain ⟨d, first, others, hd, hi, _, hw1⟩ := CreateVmessUser_ok env c w w1 h
  obtain ⟨n, h1, h2⟩ := hb
  rw [load_vmessClientCount w d first others hd hi] at h1
  rw [load_rosterCount _ w d hd] at h2
  simp only [Option.some.injEq] at h1 h2
  subst hw1
  refine ⟨n + 1, ?_, ?_⟩
  · rw [vmessClientCount_written]; simp [withClients, elems_some, h1]
  · rw [rosterCount_written]; simp [h2]

theorem vmess_edit_balanced (env : Env) (c : Client) (w w1 : World) (r : Reply)
    (hb : VmessBalanced w) (h : EditVmessUser env c w = (.returned r, w1))
    (hr : r.err = none) : VmessBalanced w1 := by
  obtain ⟨d, first, others, index, oldClient, hd, hi, _, _, _, hw1⟩ :=
    EditVmessUser_ok env c w w1 r h hr
  obtain ⟨n, h1, h2⟩ := hb
  rw [load_vmessClientCount w d first others hd hi] at h1
  rw [load_rosterCount _ w d hd] at h2
  simp only [Option.some.injEq] at h1 h2
  subst hw1
  refine ⟨n, ?_, ?_⟩
  · rw [vmessClientCount_written]; simp [withClients, elems_some, h1]
  · rw [rosterCount_written]; simp [h2]

theorem vmess_delete_balanced (env : Env) (serverId deviceId : String) (w w1 : World)
    (r : Reply) (hb : VmessBalanced w)
    (h : DeleteVmessUser env serverId deviceId w = (.returned r, w1))
    (hr : r.err = none) : VmessBalanced w1 := by
  obtain ⟨d, first, others, user, hd, hi, hu, _, hlt, _, hw1⟩ :=
    DeleteVmessUser_ok env serverId deviceId w w1 r h hr
  obtain ⟨n, h1, h2⟩ := hb
  rw [load_vmessClientCount w d first others hd hi] at h1
  rw [load_rosterCount _ w d hd] at h2
  simp only [Option.some.injEq] at h1 h2
  subst hw1
  refine ⟨n - 1, ?_, ?_⟩
  · rw [vmessClientCount_written]
    simp only [withClients, elems_some]
    rw [List.length_eraseIdx, if_pos hlt, h1]
  · rw [rosterCount_written, List.length_eraseIdx, if_pos (by omega), h2]

theorem shadowsocksCall_balanced (env : Env) (call : Call) (w w1 : World)
    (hb : ShadowsocksBalanced w) (h : shadowsocksCall env call w = some w1) :
    ShadowsocksBalanced w1 := by
  cases call with
  | create c =>
    simp only [shadowsocksCall] at h
    split at h
    · rename_i w2 heq
      cases h
      exact shadowsocks_create_balanced env c w _ hb heq
    · cases h
  | edit c =>
    simp only [shadowsocksCall] at h
    split at h
    · rename_i r w2 heq
      split_ifs at h with hr
      cases h
      exact shadowsocks_edit_balanced env c w _ r hb heq hr
    · cases h
  | delete identity deviceId =>
    simp only [shadowsocksCall] at h
    split at h
    · rename_i r w2 heq
      split_ifs at h with hr
      cases h
      exact shadowsocks_delete_balanced env identity deviceId w _ r hb heq hr
    · cases h

theorem vmessCall_balanced (env : Env) (call : Call) (w w1 : World)
    (hb : VmessBalanced w) (h : vmessCall env call w = some w1) :
    VmessBalanced w1 := by
  cases call with
  | create c =>
    simp only [vmessCall] at h
    split at h
    · rename_i w2 heq
      cases h
      exact vmess_create_balanced env c w _ hb heq
    · cases h
  | edit c =>
    simp only [vmessCall] at h
    split at h
    · rename_i r w2 heq
      split_ifs at h with hr
      cases h
      exact vmess_edit_balanced env c w _ r hb heq hr
    · cases h
  | delete identity deviceId =>
    simp only [vmessCall] at h
    split at h
    · rename_i r w2 heq
      split_ifs at h with hr
      cases h
      exact vmess_delete_balanced env identity deviceId w _ r hb heq hr
    · cases h

theorem runCalls_invariant (step : Env → Call → World → Option World) (P : World → Prop)
    (hstep : ∀ env call w w1, P w → step env call w = some w1 → P w1) :
    ∀ (calls : List (Env × Call)) (w w1 : World), P w → runCalls step calls w = some w1 →
      P w1 := by
  intro calls
  induction calls with
  | nil =>
    intro w w1 hp h
    simp only [runCalls, Option.some.injEq] at h
    exact h ▸ hp
  | cons ec rest ih =>
    intro w w1 hp h
    obtain ⟨env, call⟩ := ec
    simp only [runCalls] at h
    split at h
    · cases h
    · rename_i w2 hw2
      exact ih w2 w1 (hstep env call w w2 hp hw2) h

/-! ## Port allocation: claims -/

/-- C1: for every list of existing Shadowsocks inbounds (any order, with
duplicates and ports below 10000 allowed) the port returned by `getNextPort`
is the port of no inbound of the list. -/
theorem getNextPort_not_occupied (inbounds : List ShadowsocksInbound) :
    ∀ inbound ∈ inbounds, inbound.Port ≠ getNextPort inbounds :=
  (getNextPort_spec inbounds).2.1

/-- Witness of C1: ports out of order, one twice, one below 10000; the
allocated port 10002 is not the port 10001 of the first inbound. -/
theorem getNextPort_not_occupied_witness :
    (inboundOn 10001 "a").Port ≠
      getNextPort [inboundOn 10001 "a", inboundOn 80 "b", inboundOn 10000 "c",
                   inboundOn 10000 "d", inboundOn 10003 "e"] :=
  getNextPort_not_occupied
    [inboundOn 10001 "a", inboundOn 80 "b", inboundOn 10000 "c", inboundOn 10000 "d",
     inboundOn 10003 "e"]
    (inboundOn 10001 "a") (by simp)

/-- C2: `getNextPort` returns the least integer `p ≥ 10000` that is not an
occupied port: `p ≥ 10000`, no inbound has port `p`, every `v` with
`10000 ≤ v < p` is the port of some inbound; the empty list gives 10000 and the
occupied ports 10000, 10001, 10003 give 10002. -/
theorem getNextPort_least_free :
    (∀ inbounds : List ShadowsocksInbound,
      10000 ≤ getNextPort inbounds ∧
      (∀ inbound ∈ inbounds, inbound.Port ≠ getNextPort inbounds) ∧
      (∀ v : Int, 10000 ≤ v → v < getNextPort inbounds →
        ∃ inbound ∈ inbounds, inbound.Port = v)) ∧
    getNextPort [] = 10000 ∧
    getNextPort [inboundOn 10000 "a", inboundOn 10001 "b", inboundOn 10003 "c"] = 10002 := by
  refine ⟨getNextPort_spec, by decide, by decide⟩

/-- Witness of C2: with the ports 10000, 10001 and 10003 occupied the allocated
port is 10002, and the smaller candidate 10001 is the port of an inbound. -/
theorem getNextPort_least_free_witness :
    ∃ inbound ∈ [inboundOn 10000 "a", inboundOn 10001 "b", inboundOn 10003 "c"],
      inbound.Port = 10001 :=
  (getNextPort_least_free.1
    [inboundOn 10000 "a", inboundOn 10001 "b", inboundOn 10003 "c"]).2.2 10001
    (by decide) (by decide)

/-! ## Create: claims -/

/-- C3: for either locally hosted protocol, when an existing inbound entry
already carries the identity of the new credential (vmess: a client of
`inbounds[0]` has the same id; shadowsocks: an inbound has the same settings
password), Create returns an error and the world, both documents included, is
the one before the call. -/
theorem create_duplicate_rejected :
    (∀ (env : Env) (c : Client) (w : World) (clients : List V2rayClient),
      vmessClientsOf w = some clients → (∃ client ∈ clients, client.Id = c.Id) →
      ∃ e, CreateVmessUser env c w = (.returned (some e), w)) ∧
    (∀ (env : Env) (c : Client) (w : World) (inbounds : List ShadowsocksInbound),
      shadowsocksInboundsOf w = some inbounds →
      (∃ inbound ∈ inbounds, inbound.Settings.Password = c.Password) →
      ∃ e, CreateShadowsocksUser env c w = (.returned (some e), w)) := by
  constructor
  · intro env c w clients hc hdup
    unfold CreateVmessUser
    cases hl : load decodeInbound w with
    | none => exact ⟨_, rfl⟩
    | some d =>
      have hi := load_inboundsOf w d hl
      simp only [vmessClientsOf, hi] at hc
      cases hinb : d.inbounds with
      | nil => simp [hinb] at hc
      | cons first others =>
        simp only [hinb, Option.some.injEq] at hc
        have hany : (elems first.Settings.Clients).any (fun client => decide (client.Id = c.Id))
            = true := by
          obtain ⟨client, hmem, hid⟩ := hdup
          rw [List.any_eq_true]
          exact ⟨client, hc ▸ hmem, by simpa using hid⟩
        simp only [hl, hinb, hany, if_true]
        exact ⟨_, rfl⟩
  · intro env c w inbounds hc hdup
    unfold CreateShadowsocksUser
    cases hl : load decodeShadowsocksInbound w with
    | none => exact ⟨_, rfl⟩
    | some d =>
      have hi := load_shadowsocksInboundsOf w d hl
      rw [hi] at hc
      simp only [Option.some.injEq] at hc
      have hany : d.inbounds.any (fun inbound => decide (inbound.Settings.Password = c.Password))
          = true := by
        obtain ⟨inbound, hmem, hid⟩ := hdup
        rw [List.any_eq_true]
        exact ⟨inbound, hc ▸ hmem, by simpa using hid⟩
      simp only [hany, if_true]
      exact ⟨_, rfl⟩

/-- Witness of C3: `uuid-1` is a client of `twoVmessWorld` and `abc123` the
password of an inbound of `twoShadowsocksWorld`; both Create calls are
rejected. -/
theorem create_duplicate_rejected_witness :
    (∃ e, CreateVmessUser calmEnv carol twoVmessWorld = (.returned (some e), twoVmessWorld)) ∧
    (∃ e, CreateShadowsocksUser calmEnv alice twoShadowsocksWorld
      = (.returned (some e), twoShadowsocksWorld)) :=
  ⟨create_duplicate_rejected.1 calmEnv carol twoVmessWorld
      [{ Id := "uuid-1", AlterId := 1 }, { Id := "uuid-2", AlterId := 1 }] (by rfl)
      ⟨{ Id := "uuid-1", AlterId := 1 }, by simp, by rfl⟩,
   create_duplicate_rejected.2 calmEnv alice twoShadowsocksWorld
      [inboundOn 10000 "abc123", inboundOn 10001 "zzz999"] (by rfl)
      ⟨inboundOn 10000 "abc123", by simp, by rfl⟩⟩

/-- C4: for a credential whose password no existing inbound uses, a
successful `CreateShadowsocksUser` appends exactly one inbound, on port
`getNextPort` of the prior inbounds and with the credential's password, appends
exactly one roster entry, the credential with that port, and runs `ufw allow`
for exactly that port (tcp and udp); on a pair without entries and with
password `abc123` the call succeeds when the writes and `ufw` succeed, and the
port is 10000 in both documents. -/
theorem create_shadowsocks_appends :
    (∀ (env : Env) (c : Client) (w w1 : World) (inbounds : List ShadowsocksInbound)
        (users : List Client),
      shadowsocksInboundsOf w = some inbounds → rosterOf w = some users →
      (∀ inbound ∈ inbounds, inbound.Settings.Password ≠ c.Password) →
      CreateShadowsocksUser env c w = (.returned none, w1) →
        shadowsocksInboundsOf w1
          = some (inbounds ++ [inboundOn (getNextPort inbounds) c.Password]) ∧
        rosterOf w1 = some (users ++ [{ c with Port := getNextPort inbounds }]) ∧
        w1.ufw = w.ufw ++ [.allow (getNextPort inbounds) .tcp,
                           .allow (getNextPort inbounds) .udp]) ∧
    (∀ (env : Env) (c : Client) (w : World),
      shadowsocksInboundsOf w = some [] → rosterOf w = some [] → c.Password = "abc123" →
      env.writeConfig = .ok → env.writeUsers = .ok →
      env.ufwRuns (.allow 10000 .tcp) = true → env.ufwRuns (.allow 10000 .udp) = true →
      ∃ w1, CreateShadowsocksUser env c w = (.returned none, w1) ∧
        shadowsocksInboundsOf w1 = some [inboundOn 10000 "abc123"] ∧
        rosterOf w1 = some [{ c with Port := 10000 }] ∧
        w1.ufw = w.ufw ++ [.allow 10000 .tcp, .allow 10000 .udp]) := by
  constructor
  · intro env c w w1 inbounds users hi hu _ h
    obtain ⟨d, hd, _, _, _, hw1⟩ := CreateShadowsocksUser_ok env c w w1 h
    have e1 := load_shadowsocksInboundsOf w d hd
    have e2 := load_rosterOf _ w d hd
    rw [hi] at e1
    rw [hu] at e2
    simp only [Option.some.injEq] at e1 e2
    subst e1
    subst e2
    subst hw1
    exact ⟨shadowsocksInboundsOf_written _ _ _ _, rosterOf_written _ _ _ _, rfl⟩
  · intro env c w hi hu hp hwc hwu htcp hudp
    obtain ⟨d, hd, e1, e2⟩ := load_of_shadowsocks w [] [] hi hu
    have hport : getNextPort d.inbounds = 10000 := by rw [e1]; rfl
    have hs := CreateShadowsocksUser_succeeds env c w d hd (by rw [e1]; simp) hwc hwu
      (by rw [hport]; decide) (by rw [hport]; exact htcp) (by rw [hport]; exact hudp)
    refine ⟨_, hs, ?_, ?_, ?_⟩
    · rw [shadowsocksInboundsOf_written, e1, hp]
      rfl
    · rw [rosterOf_written, e2, e1]
      rfl
    · rw [hport]

/-- Witness of C4: creating `alice` (password `abc123`) on the pair without
entries, then `bob` on the result. -/
theorem create_shadowsocks_appends_witness :
    (shadowsocksInboundsOf twoShadowsocksWorld
        = some ([inboundOn 10000 "abc123"] ++ [inboundOn (getNextPort [inboundOn 10000 "abc123"])
            bob.Password]) ∧
      rosterOf twoShadowsocksWorld
        = some ([{ alice with Port := 10000 }] ++
            [{ bob with Port := getNextPort [inboundOn 10000 "abc123"] }]) ∧
      twoShadowsocksWorld.ufw = [UfwCmd.allow 10000 .tcp, .allow 10000 .udp] ++
        [.allow (getNextPort [inboundOn 10000 "abc123"]) .tcp,
         .allow (getNextPort [inboundOn 10000 "abc123"]) .udp]) ∧
    (∃ w1, CreateShadowsocksUser calmEnv alice emptyShadowsocksWorld = (.returned none, w1) ∧
        shadowsocksInboundsOf w1 = some [inboundOn 10000 "abc123"] ∧
        rosterOf w1 = some [{ alice with Port := 10000 }] ∧
        w1.ufw = emptyShadowsocksWorld.ufw ++ [.allow 10000 .tcp, .allow 10000 .udp]) :=
  ⟨create_shadowsocks_appends.1 calmEnv bob oneShadowsocksWorld
      twoShadowsocksWorld [inboundOn 10000 "abc123"] [{ alice with Port := 10000 }]
      (by rfl) (by rfl) (by decide) (by rfl),
   create_shadowsocks_appends.2 calmEnv alice emptyShadowsocksWorld (by rfl) (by rfl) (by rfl)
      (by rfl) (by rfl) (by rfl) (by rfl)⟩

/-! ## Cardinality: claims -/

/-- C5: for either local protocol, from a document pair whose number of
inbound credential entries (vmess: clients of `inbounds[0]`; shadowsocks:
inbounds) equals its number of roster entries, every successful Create, Edit
or Delete leads to a pair in which the two numbers are equal again, and so does
every serialized sequence of successful calls. -/
theorem cardinality_preserved :
    (∀ (env : Env) (c : Client) (w w1 : World), ShadowsocksBalanced w →
      CreateShadowsocksUser env c w = (.returned none, w1) → ShadowsocksBalanced w1) ∧
    (∀ (env : Env) (c : Client) (w w1 : World) (r : Reply), ShadowsocksBalanced w →
      EditShadowsocksUser env c w = (.returned r, w1) → r.err = none →
      ShadowsocksBalanced w1) ∧
    (∀ (env : Env) (password deviceId : String) (w w1 : World) (r : Reply),
      ShadowsocksBalanced w →
      DeleteShadowsocksUser env password deviceId w = (.returned r, w1) → r.err = none →
      ShadowsocksBalanced w1) ∧
    (∀ (env : Env) (c : Client) (w w1 : World), VmessBalanced w →
      CreateVmessUser env c w = (.returned none, w1) → VmessBalanced w1) ∧
    (∀ (env : Env) (c : Client) (w w1 : World) (r : Reply), VmessBalanced w →
      EditVmessUser env c w = (.returned r, w1) → r.err = none → VmessBalanced w1) ∧
    (∀ (env : Env) (serverId deviceId : String) (w w1 : World) (r : Reply),
      VmessBalanced w →
      DeleteVmessUser env serverId deviceId w = (.returned r, w1) → r.err = none →
      VmessBalanced w1) ∧
    (∀ (calls : List (Env × Call)) (w w1 : World), ShadowsocksBalanced w →
      runCalls shadowsocksCall calls w = some w1 → ShadowsocksBalanced w1) ∧
    (∀ (calls : List (Env × Call)) (w w1 : World), VmessBalanced w →
      runCalls vmessCall calls w = some w1 → VmessBalanced w1) :=
  ⟨fun env c w w1 hb h => shadowsocks_create_balanced env c w w1 hb h,
   fun env c w w1 r hb h hr => shadowsocks_edit_balanced env c w w1 r hb h hr,
   fun env p dev w w1 r hb h hr => shadowsocks_delete_balanced env p dev w w1 r hb h hr,
   fun env c w w1 hb h => vmess_create_balanced env c w w1 hb h,
   fun env c w w1 r hb h hr => vmess_edit_balanced env c w w1 r hb h hr,
   fun env s dev w w1 r hb h hr => vmess_delete_balanced env s dev w w1 r hb h hr,
   runCalls_invariant shadowsocksCall ShadowsocksBalanced shadowsocksCall_balanced,
   runCalls_invariant vmessCall VmessBalanced vmessCall_balanced⟩

/-- Witness of C5: each operation once on a balanced pair, then a sequence of
four Shadowsocks calls from the pair without entries and a sequence of three
vmess calls. -/
theorem cardinality_preserved_witness :
    ShadowsocksBalanced twoShadowsocksWorld ∧
    ShadowsocksBalanced
      (EditShadowsocksUser calmEnv { alice with Username := "alice2" } twoShadowsocksWorld).2 ∧
    ShadowsocksBalanced
      (DeleteShadowsocksUser calmEnv "zzz999" "device-b" twoShadowsocksWorld).2 ∧
    VmessBalanced (CreateVmessUser calmEnv erin twoVmessWorld).2 ∧
    VmessBalanced (EditVmessUser calmEnv { dave with Username := "dave2" } twoVmessWorld).2 ∧
    VmessBalanced (DeleteVmessUser calmEnv "uuid-1" "device-a" twoVmessWorld).2 ∧
    ShadowsocksBalanced
      ((runCalls shadowsocksCall shadowsocksSession emptyShadowsocksWorld).getD
        emptyShadowsocksWorld) ∧
    VmessBalanced
      ((runCalls vmessCall vmessSession twoVmessWorld).getD twoVmessWorld) :=
  ⟨cardinality_preserved.1 calmEnv bob oneShadowsocksWorld twoShadowsocksWorld
      ⟨1, rfl, rfl⟩ (by rfl),
   cardinality_preserved.2.1 calmEnv { alice with Username := "alice2" } twoShadowsocksWorld _
      { client := some { alice with Port := 10000 }, status := 200, err := none }
      ⟨2, rfl, rfl⟩ (by rfl) rfl,
   cardinality_preserved.2.2.1 calmEnv "zzz999" "device-b" twoShadowsocksWorld _
      { client := some { bob with Port := 10001 }, status := 200, err := none }
      ⟨2, rfl, rfl⟩ (by rfl) rfl,
   cardinality_preserved.2.2.2.1 calmEnv erin twoVmessWorld _ ⟨2, rfl, rfl⟩ (by rfl),
   cardinality_preserved.2.2.2.2.1 calmEnv { dave with Username := "dave2" } twoVmessWorld _
      { client := some dave, status := 200, err := none } ⟨2, rfl, rfl⟩ (by rfl) rfl,
   cardinality_preserved.2.2.2.2.2.1 calmEnv "uuid-1" "device-a" twoVmessWorld _
      { client := some carol, status := 200, err := none } ⟨2, rfl, rfl⟩ (by rfl) rfl,
   cardinality_preserved.2.2.2.2.2.2.1 shadowsocksSession emptyShadowsocksWorld _ ⟨0, rfl, rfl⟩ (by rfl),
   cardinality_preserved.2.2.2.2.2.2.2 vmessSession twoVmessWorld _ ⟨2, rfl, rfl⟩ (by rfl)⟩

/-! ## Delete: the code at the failing inputs -/

/-- C6, the code at the failing input: Delete called with the identity of a
stored record (`abc123`, `uuid-1`) and a device id that is not the stored one
(`device-x`, stored `device-a`) returns status 200 with that record and removes
it from the roster, for both protocols. -/
theorem delete_wrong_device_removes_record :
    (DeleteShadowsocksUser calmEnv "abc123" "device-x" twoShadowsocksWorld).1
      = .returned { client := some { alice with Port := 10000 }, status := 200, err := none } ∧
    rosterOf (DeleteShadowsocksUser calmEnv "abc123" "device-x" twoShadowsocksWorld).2
      = some [{ bob with Port := 10001 }] ∧
    (DeleteVmessUser calmEnv "uuid-1" "device-x" twoVmessWorld).1
      = .returned { client := some carol, status := 200, err := none } ∧
    rosterOf (DeleteVmessUser calmEnv "uuid-1" "device-x" twoVmessWorld).2 = some [dave] ∧
    vmessClientsOf (DeleteVmessUser calmEnv "uuid-1" "device-x" twoVmessWorld).2
      = some [{ Id := "uuid-2", AlterId := 1 }] :=
  ⟨by rfl, by rfl, by rfl, by rfl, by rfl⟩

/-- C7, the code at the failing input: Delete called with an identity that no
stored record has (`nope`) and the device id of the last record (`device-b`)
returns status 200 with the last record, whose identity is not `nope`, and
removes it, for both protocols. -/
theorem delete_unknown_identity_removes_last :
    (DeleteShadowsocksUser calmEnv "nope" "device-b" twoShadowsocksWorld).1
      = .returned { client := some { bob with Port := 10001 }, status := 200, err := none } ∧
    rosterOf (DeleteShadowsocksUser calmEnv "nope" "device-b" twoShadowsocksWorld).2
      = some [{ alice with Port := 10000 }] ∧
    (DeleteVmessUser calmEnv "nope" "device-b" twoVmessWorld).1
      = .returned { client := some dave, status := 200, err := none } ∧
    rosterOf (DeleteVmessUser calmEnv "nope" "device-b" twoVmessWorld).2 = some [carol] ∧
    vmessClientsOf (DeleteVmessUser calmEnv "nope" "device-b" twoVmessWorld).2
      = some [{ Id := "uuid-1", AlterId := 1 }] :=
  ⟨by rfl, by rfl, by rfl, by rfl, by rfl⟩

/-- C8, the code at the failing input: deleting `alice` (index 0) with her own
password and device id succeeds, and the inbound of `bob` that stays in the
configuration document has lost its method, password, network and level: the
document no longer holds the previous inbounds with entry 0 removed. -/
theorem delete_shadowsocks_wipes_settings :
    (DeleteShadowsocksUser calmEnv "abc123" "device-a" twoShadowsocksWorld).1
      = .returned { client := some { alice with Port := 10000 }, status := 200, err := none } ∧
    shadowsocksInboundsOf twoShadowsocksWorld
      = some [inboundOn 10000 "abc123", inboundOn 10001 "zzz999"] ∧
    (DeleteShadowsocksUser calmEnv "abc123" "device-a" twoShadowsocksWorld).2.configFile
      = some (.obj [("log", .obj [("loglevel", .str "warning")]),
          ("inbounds", .arr [.obj [("port", .num 10001), ("listen", .str "0.0.0.0"),
            ("protocol", .str "shadowsocks"), ("settings", .obj [("clients", .null)]),
            ("streamSettings", .null)]])]) ∧
    shadowsocksInboundsOf (DeleteShadowsocksUser calmEnv "abc123" "device-a" twoShadowsocksWorld).2
      = some [{ Port := 10001, Listen := "0.0.0.0", Protocol := "shadowsocks",
                Settings := { Method := "", Password := "", Network := "", Level := 0,
                              Ota := false } }] ∧
    shadowsocksInboundsOf (DeleteShadowsocksUser calmEnv "abc123" "device-a" twoShadowsocksWorld).2
      ≠ some ([inboundOn 10000 "abc123", inboundOn 10001 "zzz999"].eraseIdx 0) :=
  ⟨by rfl, by rfl, by rfl, by rfl, by decide⟩

/-! ## Edit: claims -/

/-- C9: for either local protocol, on a document pair that parses, Edit called
with an identity that no existing entry has (vmess: no client of `inbounds[0]`
has the id; shadowsocks: no roster entry has the password) returns no record,
status 400 and the error `Bad Request`, and the world, both documents
included, is the one before the call. -/
theorem edit_unknown_identity_rejected :
    (∀ (env : Env) (client : Client) (w : World) (clients : List V2rayClient)
        (users : List Client),
      vmessClientsOf w = some clients → rosterOf w = some users →
      (∀ c ∈ clients, c.Id ≠ client.Id) →
      EditVmessUser env client w
        = (.returned { client := none, status := 400, err := some "Bad Request" }, w)) ∧
    (∀ (env : Env) (client : Client) (w : World) (inbounds : List ShadowsocksInbound)
        (users : List Client),
      shadowsocksInboundsOf w = some inbounds → rosterOf w = some users →
      (∀ c ∈ users, c.Password ≠ client.Password) →
      EditShadowsocksUser env client w
        = (.returned { client := none, status := 400, err := some "Bad Request" }, w)) := by
  constructor
  · intro env client w clients users hc hu hno
    cases hio : inboundsOf w with
    | none => simp [vmessClientsOf, hio] at hc
    | some inbounds =>
      obtain ⟨d, hd, e1, _⟩ := load_of_inbounds w inbounds users hio hu
      cases hinb : inbounds with
      | nil => simp [vmessClientsOf, hio, hinb] at hc
      | cons first others =>
        simp only [vmessClientsOf, hio, hinb, Option.some.injEq] at hc
        have hfi : findIndex (fun c : V2rayClient => decide (client.Id = c.Id))
            (elems first.Settings.Clients) = none := by
          apply findIndex_none
          intro x hx
          have := hno x (hc ▸ hx)
          simp only [decide_eq_false_iff_not]
          exact fun e => this e.symm
        unfold EditVmessUser
        simp only [hd, e1, hinb, hfi]
  · intro env client w inbounds users hi hu hno
    obtain ⟨d, hd, _, e2⟩ := load_of_shadowsocks w inbounds users hi hu
    have hfi : findIndex (fun c : Client => decide (client.Password = c.Password)) d.users
        = none := by
      apply findIndex_none
      intro x hx
      have := hno x (e2 ▸ hx)
      simp only [decide_eq_false_iff_not]
      exact fun e => this e.symm
    unfold EditShadowsocksUser
    simp only [hd, hfi]

/-- Witness of C9: `erin` (id `uuid-3`) is no client of `twoVmessWorld`, and
no roster entry of `twoShadowsocksWorld` has the password `nope`. -/
theorem edit_unknown_identity_rejected_witness :
    EditVmessUser calmEnv erin twoVmessWorld
      = (.returned { client := none, status := 400, err := some "Bad Request" },
         twoVmessWorld) ∧
    EditShadowsocksUser calmEnv { alice with Password := "nope" } twoShadowsocksWorld
      = (.returned { client := none, status := 400, err := some "Bad Request" },
         twoShadowsocksWorld) :=
  ⟨edit_unknown_identity_rejected.1 calmEnv erin twoVmessWorld
      [{ Id := "uuid-1", AlterId := 1 }, { Id := "uuid-2", AlterId := 1 }] [carol, dave]
      (by rfl) (by rfl) (by decide),
   edit_unknown_identity_rejected.2 calmEnv { alice with Password := "nope" }
      twoShadowsocksWorld [inboundOn 10000 "abc123", inboundOn 10001 "zzz999"]
      [{ alice with Port := 10000 }, { bob with Port := 10001 }]
      (by rfl) (by rfl) (by decide)⟩

/-- C10: for either local protocol, a successful Edit returns status 200 and
the roster record stored before the call at the edited index (the first index
whose identity is the supplied one), and afterwards the roster is the previous
one with that index holding a record with the new username, device id, start
date and expiry date. -/
theorem edit_returns_previous_record :
    (∀ (env : Env) (client : Client) (w w1 : World) (r : Reply) (users : List Client),
      rosterOf w = some users →
      EditShadowsocksUser env client w = (.returned r, w1) → r.err = none →
      r.status = 200 ∧
      ∃ (index : Nat) (old new : Client),
        findIndex (fun c : Client => client.Password = c.Password) users = some index ∧
        users[index]? = some old ∧ r.client = some old ∧
        rosterOf w1 = some (users.set index new) ∧
        new.Username = client.Username ∧ new.DeviceId = client.DeviceId ∧
        new.StartDate = client.StartDate ∧ new.ExpireDate = client.ExpireDate) ∧
    (∀ (env : Env) (client : Client) (w w1 : World) (r : Reply) (users : List Client)
        (clients : List V2rayClient),
      rosterOf w = some users → vmessClientsOf w = some clients →
      EditVmessUser env client w = (.returned r, w1) → r.err = none →
      r.status = 200 ∧
      ∃ (index : Nat) (old new : Client),
        findIndex (fun c : V2rayClient => client.Id = c.Id) clients = some index ∧
        users[index]? = some old ∧ r.client = some old ∧
        rosterOf w1 = some (users.set index new) ∧
        new.Username = client.Username ∧ new.DeviceId = client.DeviceId ∧
        new.StartDate = client.StartDate ∧ new.ExpireDate = client.ExpireDate) := by
  constructor
  · intro env client w w1 r users hu h hr
    obtain ⟨d, index, inbound, oldClient, hd, hidx, _, hold, hrep, hw1⟩ :=
      EditShadowsocksUser_ok env client w w1 r h hr
    have e2 := load_rosterOf _ w d hd
    rw [hu] at e2
    simp only [Option.some.injEq] at e2
    subst e2
    subst hw1
    subst hrep
    refine ⟨rfl, index, oldClient, shadowsocksModifiedClient client, hidx, hold, rfl,
      rosterOf_written _ _ _ _, rfl, rfl, rfl, rfl⟩
  · intro env client w w1 r users clients hu hc h hr
    obtain ⟨d, first, others, index, oldClient, hd, hinb, hidx, hold, hrep, hw1⟩ :=
      EditVmessUser_ok env client w w1 r h hr
    have e2 := load_rosterOf _ w d hd
    rw [hu] at e2
    simp only [Option.some.injEq] at e2
    subst e2
    have e1 : clients = (elems first.Settings.Clients) := by
      simp only [vmessClientsOf, load_inboundsOf w d hd, hinb, Option.some.injEq] at hc
      exact hc.symm
    subst e1
    subst hw1
    subst hrep
    refine ⟨rfl, index, oldClient, vmessModifiedClient client, hidx, hold, rfl,
      rosterOf_written _ _ _ _, rfl, rfl, rfl, rfl⟩

/-- Witness of C10: editing `alice` in `twoShadowsocksWorld` and `dave` in
`twoVmessWorld`, each with a new username. -/
theorem edit_returns_previous_record_witness :
    ((200 : Int) = 200 ∧
      ∃ (index : Nat) (old new : Client),
        findIndex (fun c : Client => ({ alice with Username := "alice2" } : Client).Password
          = c.Password) [{ alice with Port := 10000 }, { bob with Port := 10001 }]
          = some index ∧
        [{ alice with Port := 10000 }, { bob with Port := 10001 }][index]? = some old ∧
        some { alice with Port := 10000 } = some old ∧
        rosterOf (EditShadowsocksUser calmEnv { alice with Username := "alice2" }
            twoShadowsocksWorld).2
          = some ([{ alice with Port := 10000 }, { bob with Port := 10001 }].set index new) ∧
        new.Username = "alice2" ∧ new.DeviceId = "device-a" ∧
        new.StartDate = "2025-01-01" ∧ new.ExpireDate = "2025-02-01") ∧
    ((200 : Int) = 200 ∧
      ∃ (index : Nat) (old new : Client),
        findIndex (fun c : V2rayClient => ({ dave with Username := "dave2" } : Client).Id = c.Id)
          [{ Id := "uuid-1", AlterId := 1 }, { Id := "uuid-2", AlterId := 1 }] = some index ∧
        [carol, dave][index]? = some old ∧ some dave = some old ∧
        rosterOf (EditVmessUser calmEnv { dave with Username := "dave2" } twoVmessWorld).2
          = some ([carol, dave].set index new) ∧
        new.Username = "dave2" ∧ new.DeviceId = "device-b" ∧
        new.StartDate = "2025-01-01" ∧ new.ExpireDate = "2025-03-01") :=
  ⟨edit_returns_previous_record.1 calmEnv { alice with Username := "alice2" }
      twoShadowsocksWorld _
      { client := some { alice with Port := 10000 }, status := 200, err := none }
      [{ alice with Port := 10000 }, { bob with Port := 10001 }] (by rfl) (by rfl) rfl,
   edit_returns_previous_record.2 calmEnv { dave with Username := "dave2" } twoVmessWorld _
      { client := some dave, status := 200, err := none } [carol, dave]
      [{ Id := "uuid-1", AlterId := 1 }, { Id := "uuid-2", AlterId := 1 }]
      (by rfl) (by rfl) (by rfl) rfl⟩

/-! ## Edit and the assigned port -/

/-- C11, the code at the failing input: editing `alice` (roster port 10000)
and `dave` (roster port 443) succeeds and returns the previous record with
that port, and the roster entry written for the edited credential has port 0,
for both protocols. -/
theorem edit_zeroes_roster_port :
    (EditShadowsocksUser calmEnv { alice with Username := "alice2" } twoShadowsocksWorld).1
      = .returned { client := some { alice with Port := 10000 }, status := 200, err := none } ∧
    (rosterOf twoShadowsocksWorld).map (fun users => users.map (fun u => u.Port))
      = some [10000, 10001] ∧
    (rosterOf (EditShadowsocksUser calmEnv { alice with Username := "alice2" }
        twoShadowsocksWorld).2).map (fun users => users.map (fun u => u.Port))
      = some [0, 10001] ∧
    (EditVmessUser calmEnv { dave with Username := "dave2" } twoVmessWorld).1
      = .returned { client := some dave, status := 200, err := none } ∧
    dave.Port = 443 ∧
    (rosterOf (EditVmessUser calmEnv { dave with Username := "dave2" }
        twoVmessWorld).2).map (fun users => users.map (fun u => u.Port))
      = some [443, 0] :=
  ⟨by rfl, by rfl, by rfl, by rfl, by rfl, by rfl⟩

/-! ## Edit and the other inbounds, in the document -/

theorem decodeAll_getElem {α : Type} (elem : JSON → Option α) :
    ∀ (items : List JSON) (xs : List α), decodeAll elem items = some xs →
      ∀ (j : Nat) (raw : JSON), items[j]? = some raw →
        ∃ x, xs[j]? = some x ∧ elem raw = some x := by
  intro items
  induction items with
  | nil =>
    intro xs _ j raw hj
    simp at hj
  | cons item rest ih =>
    intro xs h j raw hj
    simp only [decodeAll] at h
    cases he : elem item with
    | none => simp [he] at h
    | some a =>
      cases hr : decodeAll elem rest with
      | none => simp [he, hr] at h
      | some as =>
        simp only [he, hr, Option.some.injEq] at h
        subst h
        cases j with
        | zero =>
          simp only [List.getElem?_cons_zero, Option.some.injEq] at hj
          subst hj
          exact ⟨a, by simp, he⟩
        | succ k =>
          simp only [List.getElem?_cons_succ] at hj
          obtain ⟨x, hx, hxe⟩ := ih as hr k raw hj
          exact ⟨x, by simpa using hx, hxe⟩

theorem rawInboundsOf_decoded (w : World) (inbounds : List ShadowsocksInbound)
    (h : shadowsocksInboundsOf w = some inbounds) :
    ∃ raw, rawInboundsOf w = some raw ∧
      decodeAll decodeShadowsocksInbound raw = some inbounds := by
  unfold shadowsocksInboundsOf at h
  unfold rawInboundsOf configValue
  cases hdoc : readDocument w.configFile with
  | none => simp [hdoc] at h
  | some configResult =>
    simp only [hdoc] at h ⊢
    cases hf : getField configResult "inbounds" with
    | none => simp [hf, unmarshalSlice] at h
    | some v =>
      rw [hf] at h
      cases v with
      | null =>
        simp only [unmarshalSlice, decodeSlice, Option.some.injEq] at h
        subst h
        exact ⟨[], rfl, rfl⟩
      | arr items => exact ⟨items, rfl, h⟩
      | bool b => simp [unmarshalSlice, decodeSlice] at h
      | num n => simp [unmarshalSlice, decodeSlice] at h
      | str s => simp [unmarshalSlice, decodeSlice] at h
      | obj m => simp [unmarshalSlice, decodeSlice] at h

theorem rawInboundsOf_written (m : List (String × JSON)) (u : Option JSON)
    (ufw : List UfwCmd) (items : List JSON) :
    rawInboundsOf
      { configFile := some (.obj (mapSet m "inbounds" (.arr items))),
        usersFile := u, ufw := ufw } = some items := by
  simp only [rawInboundsOf, configValue, readDocument, getField_mapSet_same]

/-- C12, amended: after a successful `EditShadowsocksUser` the `inbounds` array
of the configuration document has as many entries as before; the entry at the
edited index (the first roster index with the supplied password) is the
encoding of an inbound on the port the entry had before the edit, with the
settings of the supplied password; every other entry is the encoding of what
the entry before the edit decodes to as a `ShadowsocksInbound` (its `port`,
`listen`, `protocol` and the five Shadowsocks settings; members outside of
them are not written back), so that, read as `ShadowsocksInbound`, every other
inbound is the one that was there before, and an entry that stood in the file
as such an encoding, the way Create and Edit write it, is unchanged. -/
theorem edit_shadowsocks_keeps_inbound_ports (env : Env) (client : Client) (w w1 : World)
    (r : Reply) (inbounds : List ShadowsocksInbound) (users : List Client)
    (hi : shadowsocksInboundsOf w = some inbounds) (hu : rosterOf w = some users)
    (h : EditShadowsocksUser env client w = (.returned r, w1)) (hr : r.err = none) :
    ∃ (index : Nat) (old : ShadowsocksInbound) (after : List ShadowsocksInbound),
      findIndex (fun c : Client => client.Password = c.Password) users = some index ∧
      inbounds[index]? = some old ∧
      shadowsocksInboundsOf w1 = some after ∧
      after.length = inbounds.length ∧
      (after[index]?).map (fun inbound => inbound.Port) = some old.Port ∧
      (∀ j, j ≠ index → after[j]? = inbounds[j]?) ∧
      rawInboundsOf w1 = some (after.map encodeShadowsocksInbound) ∧
      (rawInboundsOf w).map List.length = (rawInboundsOf w1).map List.length ∧
      rawInboundAt w1 index
        = some (encodeShadowsocksInbound (inboundOn old.Port client.Password)) ∧
      (∀ (j : Nat) (entry : JSON), j ≠ index → rawInboundAt w j = some entry →
        ∃ x, decodeShadowsocksInbound entry = some x ∧ inbounds[j]? = some x ∧
          rawInboundAt w1 j = some (encodeShadowsocksInbound x)) ∧
      (∀ (j : Nat) (x : ShadowsocksInbound), j ≠ index →
        rawInboundAt w j = some (encodeShadowsocksInbound x) →
        rawInboundAt w1 j = some (encodeShadowsocksInbound x)) := by
  obtain ⟨d, index, inbound, oldClient, hd, hidx, hin, _, _, hw1⟩ :=
    EditShadowsocksUser_ok env client w w1 r h hr
  have e1 := load_shadowsocksInboundsOf w d hd
  have e2 := load_rosterOf _ w d hd
  rw [hi] at e1
  rw [hu] at e2
  simp only [Option.some.injEq] at e1 e2
  subst e1
  subst e2
  subst hw1
  have hlt : index < d.inbounds.length := by
    rcases Nat.lt_or_ge index d.inbounds.length with hlt | hge
    · exact hlt
    · rw [List.getElem?_eq_none hge] at hin
      cases hin
  obtain ⟨raw, hraw, hdec⟩ := rawInboundsOf_decoded w d.inbounds hi
  have hlen : raw.length = d.inbounds.length := (decodeAll_length _ _ _ hdec).symm
  have hother : ∀ (j : Nat) (entry : JSON), j ≠ index → rawInboundAt w j = some entry →
      ∃ x, decodeShadowsocksInbound entry = some x ∧ d.inbounds[j]? = some x ∧
        rawInboundAt
          { configFile := some (.obj (mapSet d.configResult "inbounds"
              (.arr ((d.inbounds.set index (inboundOn inbound.Port client.Password)).map
                encodeShadowsocksInbound)))),
            usersFile := some (.obj (mapSet d.userResult "clients"
              (.arr ((d.users.set index (shadowsocksModifiedClient client)).map
                encodeClient)))),
            ufw := w.ufw } j = some (encodeShadowsocksInbound x) := by
    intro j entry hj hentry
    simp only [rawInboundAt, hraw, Option.some_bind] at hentry
    obtain ⟨x, hx, hxe⟩ := decodeAll_getElem _ raw d.inbounds hdec j entry hentry
    refine ⟨x, hxe, hx, ?_⟩
    simp only [rawInboundAt, rawInboundsOf_written, Option.some_bind]
    simp [List.getElem?_map, List.getElem?_set, Ne.symm hj, hx]
  refine ⟨index, inbound, _, hidx, hin, shadowsocksInboundsOf_written _ _ _ _, ?_, ?_, ?_,
    rawInboundsOf_written _ _ _ _, ?_, ?_, hother, ?_⟩
  · simp
  · simp [List.getElem?_set, hlt, inboundOn]
  · intro j hj
    simp [List.getElem?_set, Ne.symm hj]
  · rw [hraw, rawInboundsOf_written]
    simp [hlen]
  · simp only [rawInboundAt, rawInboundsOf_written, Option.some_bind]
    simp [List.getElem?_map, List.getElem?_set, hlt]
  · intro j x hj hentry
    obtain ⟨y, hy, _, hafter⟩ := hother j _ hj hentry
    rw [decodeShadowsocksInbound_encode] at hy
    cases hy
    exact hafter

/-- Witness of C12: editing `alice` in `twoShadowsocksWorld`. -/
theorem edit_shadowsocks_keeps_inbound_ports_witness :
    ∃ (index : Nat) (old : ShadowsocksInbound) (after : List ShadowsocksInbound),
      findIndex (fun c : Client => ({ alice with Username := "alice2" } : Client).Password
        = c.Password) [{ alice with Port := 10000 }, { bob with Port := 10001 }] = some index ∧
      [inboundOn 10000 "abc123", inboundOn 10001 "zzz999"][index]? = some old ∧
      shadowsocksInboundsOf (EditShadowsocksUser calmEnv { alice with Username := "alice2" }
        twoShadowsocksWorld).2 = some after ∧
      after.length = [inboundOn 10000 "abc123", inboundOn 10001 "zzz999"].length ∧
      (after[index]?).map (fun inbound => inbound.Port) = some old.Port ∧
      (∀ j, j ≠ index →
        after[j]? = [inboundOn 10000 "abc123", inboundOn 10001 "zzz999"][j]?) ∧
      rawInboundsOf (EditShadowsocksUser calmEnv { alice with Username := "alice2" }
        twoShadowsocksWorld).2 = some (after.map encodeShadowsocksInbound) ∧
      (rawInboundsOf twoShadowsocksWorld).map List.length
        = (rawInboundsOf (EditShadowsocksUser calmEnv { alice with Username := "alice2" }
            twoShadowsocksWorld).2).map List.length ∧
      rawInboundAt (EditShadowsocksUser calmEnv { alice with Username := "alice2" }
          twoShadowsocksWorld).2 index
        = some (encodeShadowsocksInbound (inboundOn old.Port "abc123")) ∧
      (∀ (j : Nat) (entry : JSON), j ≠ index → rawInboundAt twoShadowsocksWorld j = some entry →
        ∃ x, decodeShadowsocksInbound entry = some x ∧
          [inboundOn 10000 "abc123", inboundOn 10001 "zzz999"][j]? = some x ∧
          rawInboundAt (EditShadowsocksUser calmEnv { alice with Username := "alice2" }
            twoShadowsocksWorld).2 j = some (encodeShadowsocksInbound x)) ∧
      (∀ (j : Nat) (x : ShadowsocksInbound), j ≠ index →
        rawInboundAt twoShadowsocksWorld j = some (encodeShadowsocksInbound x) →
        rawInboundAt (EditShadowsocksUser calmEnv { alice with Username := "alice2" }
          twoShadowsocksWorld).2 j = some (encodeShadowsocksInbound x)) :=
  edit_shadowsocks_keeps_inbound_ports calmEnv { alice with Username := "alice2" }
    twoShadowsocksWorld _
    { client := some { alice with Port := 10000 }, status := 200, err := none }
    [inboundOn 10000 "abc123", inboundOn 10001 "zzz999"]
    [{ alice with Port := 10000 }, { bob with Port := 10001 }]
    (by rfl) (by rfl) (by rfl) rfl

/-- C12, counterexample: the four calls of `createDeleteSession` (three Creates
and the Delete of the second credential) lead from the empty pair to
`afterDeleteWorld`, where the inbound on port 10002 stands at index 1 the way
`DeleteShadowsocksUser` wrote it, with the members `settings: {clients: null}`
and `streamSettings: null`.  Editing `alice`, found at index 0, succeeds, and
the entry at index 1 is no longer the one that was there: it has lost the
member `streamSettings` and its settings are now the five Shadowsocks members
with zero values. -/
theorem edit_rewrites_other_inbound_counterexample :
    runCalls shadowsocksCall createDeleteSession emptyShadowsocksWorld
      = some afterDeleteWorld ∧
    findIndex (fun c : Client => ({ alice with Username := "alice2" } : Client).Password
        = c.Password) [{ alice with Port := 10000 }, { frank with Port := 10002 }] = some 0 ∧
    rosterOf afterDeleteWorld
      = some [{ alice with Port := 10000 }, { frank with Port := 10002 }] ∧
    (EditShadowsocksUser calmEnv { alice with Username := "alice2" } afterDeleteWorld).1
      = .returned { client := some { alice with Port := 10000 }, status := 200, err := none } ∧
    rawInboundAt afterDeleteWorld 1 = some (encodeInbound (shadowsocksAsInbound 10002)) ∧
    rawInboundAt (EditShadowsocksUser calmEnv { alice with Username := "alice2" }
        afterDeleteWorld).2 1
      = some (encodeShadowsocksInbound (bareInbound 10002)) ∧
    hasMember "streamSettings" (encodeInbound (shadowsocksAsInbound 10002)) = true ∧
    hasMember "streamSettings" (encodeShadowsocksInbound (bareInbound 10002)) = false ∧
    rawInboundAt (EditShadowsocksUser calmEnv { alice with Username := "alice2" }
        afterDeleteWorld).2 1
      ≠ rawInboundAt afterDeleteWorld 1 :=
  ⟨by rfl, by rfl, by rfl, by rfl, by rfl, by rfl, by rfl, by rfl,
   fun h => Bool.noConfusion
     ((congrArg (fun entry => entry.map (hasMember "streamSettings")) h :
        some false = some true) |> Option.some.inj)⟩

/-! ## Create and the firewall -/

theorem CreateShadowsocksUser_firewall_fails (env : Env) (c : Client) (w : World)
    (d : Loaded ShadowsocksInbound) (hd : load decodeShadowsocksInbound w = some d)
    (hfree : ∀ i ∈ d.inbounds, i.Settings.Password ≠ c.Password)
    (hwc : env.writeConfig = .ok) (hwu : env.writeUsers = .ok)
    (hfw : (AllowPort env (getNextPort d.inbounds) w.ufw).1 = true) :
    CreateShadowsocksUser env c w = (.returned (some InternalServerErr),
      { configFile := some (.obj (mapSet d.configResult "inbounds"
               (.arr ((d.inbounds ++ [inboundOn (getNextPort d.inbounds) c.Password]).map
                 encodeShadowsocksInbound)))),
        usersFile := some (.obj (mapSet d.userResult "clients"
               (.arr ((d.users ++ [{ c with Port := getNextPort d.inbounds }]).map
                 encodeClient)))),
        ufw := (AllowPort env (getNextPort d.inbounds) w.ufw).2 }) := by
  have hany : d.inbounds.any (fun inbound => decide (inbound.Settings.Password = c.Password))
      = false := by
    rw [List.any_eq_false]
    intro i hi
    simpa using hfree i hi
  cases hap : AllowPort env (getNextPort d.inbounds) w.ufw with
  | mk failed ufw1 =>
    rw [hap] at hfw
    simp only at hfw
    subst hfw
    simp [CreateShadowsocksUser, hd, hany, writeBack, hwc, hwu, hap, inboundOn]

/-- C14 as stated fails: with every `ufw` command failing, creating `alice`
on the pair without entries returns an error, and both documents have been
rewritten and hold the new inbound and the new roster entry. -/
theorem create_firewall_failure_counterexample :
    (AllowPort stormEnv 10000 emptyShadowsocksWorld.ufw).1 = true ∧
    (CreateShadowsocksUser stormEnv alice emptyShadowsocksWorld).1
      = .returned (some InternalServerErr) ∧
    (CreateShadowsocksUser stormEnv alice emptyShadowsocksWorld).2.configFile
      ≠ emptyShadowsocksWorld.configFile ∧
    (CreateShadowsocksUser stormEnv alice emptyShadowsocksWorld).2.usersFile
      ≠ emptyShadowsocksWorld.usersFile := by
  refine ⟨by rfl, by rfl, ?_, ?_⟩
  · intro h
    have h2 := congrArg
      (fun f => shadowsocksInboundsOf { configFile := f, usersFile := none, ufw := [] }) h
    revert h2
    decide
  · intro h
    have h2 := congrArg
      (fun f => rosterOf { configFile := none, usersFile := f, ufw := [] }) h
    revert h2
    decide

/-- C14 as amended: `CreateShadowsocksUser` calls the firewall after the two
documents have been written; when both documents parse, no inbound has the
password, both writes succeed and the firewall call for the allocated port
fails, Create returns an error and the documents hold the prior inbounds and
roster entries followed by the new inbound and the new roster entry. -/
theorem create_firewall_failure_keeps_written (env : Env) (c : Client) (w : World)
    (inbounds : List ShadowsocksInbound) (users : List Client)
    (hi : shadowsocksInboundsOf w = some inbounds) (hu : rosterOf w = some users)
    (hfree : ∀ inbound ∈ inbounds, inbound.Settings.Password ≠ c.Password)
    (hwc : env.writeConfig = .ok) (hwu : env.writeUsers = .ok)
    (hfw : (AllowPort env (getNextPort inbounds) w.ufw).1 = true) :
    ∃ e w1, CreateShadowsocksUser env c w = (.returned (some e), w1) ∧
      shadowsocksInboundsOf w1
        = some (inbounds ++ [inboundOn (getNextPort inbounds) c.Password]) ∧
      rosterOf w1 = some (users ++ [{ c with Port := getNextPort inbounds }]) := by
  obtain ⟨d, hd, e1, e2⟩ := load_of_shadowsocks w inbounds users hi hu
  subst e1
  subst e2
  exact ⟨_, _, CreateShadowsocksUser_firewall_fails env c w d hd hfree hwc hwu hfw,
    shadowsocksInboundsOf_written _ _ _ _, rosterOf_written _ _ _ _⟩

/-- Witness of C14 as amended: creating `alice` on the pair without entries
while `ufw` fails. -/
theorem create_firewall_failure_keeps_written_witness :
    ∃ e w1, CreateShadowsocksUser stormEnv alice emptyShadowsocksWorld
        = (.returned (some e), w1) ∧
      shadowsocksInboundsOf w1 = some ([] ++ [inboundOn (getNextPort []) alice.Password]) ∧
      rosterOf w1 = some ([] ++ [{ alice with Port := getNextPort [] }]) :=
  create_firewall_failure_keeps_written stormEnv alice emptyShadowsocksWorld [] []
    (by rfl) (by rfl) (by simp) (by rfl) (by rfl) (by rfl)

/-! ## Top-level members: claims -/

theorem keepsOtherKeys_written (w : World) (cfg usr : List (String × JSON))
    (vi vc : JSON) (ufw : List UfwCmd)
    (h1 : readDocument w.configFile = some cfg) (h2 : readDocument w.usersFile = some usr)
    (h3 : (getField cfg "inbounds").isSome = true) (h4 : (getField usr "clients").isSome = true) :
    KeepsOtherKeys w { configFile := some (.obj (mapSet cfg "inbounds" vi)),
                       usersFile := some (.obj (mapSet usr "clients" vc)), ufw := ufw } := by
  refine ⟨?_, ?_, ?_, ?_, ?_, ?_⟩
  · intro key hk
    have e : configValue w key = getField cfg key := by simp only [configValue, h1]
    rw [e]
    simp only [configValue, readDocument]
    exact getField_mapSet_other _ _ _ _ hk
  · intro key hk
    have e : rosterValue w key = getField usr key := by simp only [rosterValue, h2]
    rw [e]
    simp only [rosterValue, readDocument]
    exact getField_mapSet_other _ _ _ _ hk
  · simp [configValue, h1, h3]
  · simp [configValue, readDocument, getField_mapSet_same]
  · simp [rosterValue, h2, h4]
  · simp [rosterValue, readDocument, getField_mapSet_same]

theorem load_members_present {ι : Type} (elem : JSON → Option ι) (w : World) (d : Loaded ι)
    (h : load elem w = some d) :
    (getField d.configResult "inbounds").isSome = true ∧
    (getField d.userResult "clients").isSome = true := by
  obtain ⟨_, _, h3, h4⟩ := load_some _ _ _ h
  constructor
  · cases hg : getField d.configResult "inbounds" with
    | none => simp [hg, unmarshalSlice] at h3
    | some v => rfl
  · cases hg : getField d.userResult "clients" with
    | none => simp [hg, unmarshalSlice] at h4
    | some v => rfl

theorem keepsOtherKeys_of_load {ι : Type} (elem : JSON → Option ι) (w : World) (d : Loaded ι)
    (h : load elem w = some d) (vi vc : JSON) (ufw : List UfwCmd) :
    KeepsOtherKeys w { configFile := some (.obj (mapSet d.configResult "inbounds" vi)),
                       usersFile := some (.obj (mapSet d.userResult "clients" vc)),
                       ufw := ufw } := by
  obtain ⟨h1, h2, _, _⟩ := load_some _ _ _ h
  obtain ⟨h3, h4⟩ := load_members_present elem w d h
  exact keepsOtherKeys_written w _ _ vi vc ufw h1 h2 h3 h4

/-- C15: for every successful Create, Edit or Delete on either local protocol,
every top-level member of the configuration document other than `inbounds` and
every top-level member of the roster document other than `clients` has
afterwards the JSON value it had before, a member that was absent is still
absent, and `inbounds` and `clients` are members before and after. -/
theorem other_top_level_keys_kept :
    (∀ (env : Env) (c : Client) (w w1 : World),
      CreateShadowsocksUser env c w = (.returned none, w1) → KeepsOtherKeys w w1) ∧
    (∀ (env : Env) (c : Client) (w w1 : World) (r : Reply),
      EditShadowsocksUser env c w = (.returned r, w1) → r.err = none → KeepsOtherKeys w w1) ∧
    (∀ (env : Env) (password deviceId : String) (w w1 : World) (r : Reply),
      DeleteShadowsocksUser env password deviceId w = (.returned r, w1) → r.err = none →
      KeepsOtherKeys w w1) ∧
    (∀ (env : Env) (c : Client) (w w1 : World),
      CreateVmessUser env c w = (.returned none, w1) → KeepsOtherKeys w w1) ∧
    (∀ (env : Env) (c : Client) (w w1 : World) (r : Reply),
      EditVmessUser env c w = (.returned r, w1) → r.err = none → KeepsOtherKeys w w1) ∧
    (∀ (env : Env) (serverId deviceId : String) (w w1 : World) (r : Reply),
      DeleteVmessUser env serverId deviceId w = (.returned r, w1) → r.err = none →
      KeepsOtherKeys w w1) := by
  refine ⟨?_, ?_, ?_, ?_, ?_, ?_⟩
  · intro env c w w1 h
    obtain ⟨d, hd, _, _, _, hw1⟩ := CreateShadowsocksUser_ok env c w w1 h
    subst hw1
    exact keepsOtherKeys_of_load _ w d hd _ _ _
  · intro env c w w1 r h hr
    obtain ⟨d, index, inbound, oldClient, hd, _, _, _, _, hw1⟩ :=
      EditShadowsocksUser_ok env c w w1 r h hr
    subst hw1
    exact keepsOtherKeys_of_load _ w d hd _ _ _
  · intro env password deviceId w w1 r h hr
    obtain ⟨d, user, hd, _, _, _, _, _, _, hw1⟩ :=
      DeleteShadowsocksUser_ok env password deviceId w w1 r h hr
    subst hw1
    exact keepsOtherKeys_of_load _ w d hd _ _ _
  · intro env c w w1 h
    obtain ⟨d, first, others, hd, _, _, hw1⟩ := CreateVmessUser_ok env c w w1 h
    subst hw1
    exact keepsOtherKeys_of_load _ w d hd _ _ _
  · intro env c w w1 r h hr
    obtain ⟨d, first, others, index, oldClient, hd, _, _, _, _, hw1⟩ :=
      EditVmessUser_ok env c w w1 r h hr
    subst hw1
    exact keepsOtherKeys_of_load _ w d hd _ _ _
  · intro env serverId deviceId w w1 r h hr
    obtain ⟨d, first, others, user, hd, _, _, _, _, _, hw1⟩ :=
      DeleteVmessUser_ok env serverId deviceId w w1 r h hr
    subst hw1
    exact keepsOtherKeys_of_load _ w d hd _ _ _

/-- Witness of C15: each of the six operations once; the member `log` of the
configuration document is the same before and after. -/
theorem other_top_level_keys_kept_witness :
    KeepsOtherKeys oneShadowsocksWorld twoShadowsocksWorld ∧
    KeepsOtherKeys twoShadowsocksWorld
      (EditShadowsocksUser calmEnv { alice with Username := "alice2" } twoShadowsocksWorld).2 ∧
    KeepsOtherKeys twoShadowsocksWorld
      (DeleteShadowsocksUser calmEnv "zzz999" "device-b" twoShadowsocksWorld).2 ∧
    KeepsOtherKeys twoVmessWorld (CreateVmessUser calmEnv erin twoVmessWorld).2 ∧
    KeepsOtherKeys twoVmessWorld
      (EditVmessUser calmEnv { dave with Username := "dave2" } twoVmessWorld).2 ∧
    KeepsOtherKeys twoVmessWorld
      (DeleteVmessUser calmEnv "uuid-1" "device-a" twoVmessWorld).2 :=
  ⟨other_top_level_keys_kept.1 calmEnv bob oneShadowsocksWorld twoShadowsocksWorld (by rfl),
   other_top_level_keys_kept.2.1 calmEnv { alice with Username := "alice2" }
      twoShadowsocksWorld _
      { client := some { alice with Port := 10000 }, status := 200, err := none } (by rfl) rfl,
   other_top_level_keys_kept.2.2.1 calmEnv "zzz999" "device-b" twoShadowsocksWorld _
      { client := some { bob with Port := 10001 }, status := 200, err := none } (by rfl) rfl,
   other_top_level_keys_kept.2.2.2.1 calmEnv erin twoVmessWorld _ (by rfl),
   other_top_level_keys_kept.2.2.2.2.1 calmEnv { dave with Username := "dave2" } twoVmessWorld _
      { client := some dave, status := 200, err := none } (by rfl) rfl,
   other_top_level_keys_kept.2.2.2.2.2 calmEnv "uuid-1" "device-a" twoVmessWorld _
      { client := some carol, status := 200, err := none } (by rfl) rfl⟩

/-! ## Index out of range: the code at the failing inputs -/

/-- C16, the code at the failing inputs: on document pairs that parse,
`DeleteShadowsocksUser` with an empty roster, `CreateVmessUser`, `EditVmessUser`
and `DeleteVmessUser` with an empty inbound list, `EditShadowsocksUser` with a
roster entry and no inbound, and `DeleteVmessUser` with clients and an empty
roster all panic on an index out of range instead of returning a value. -/
theorem operations_panic_out_of_range :
    DeleteShadowsocksUser calmEnv "abc123" "device-a" emptyShadowsocksWorld
      = (.panicked, emptyShadowsocksWorld) ∧
    CreateVmessUser calmEnv carol emptyVmessWorld = (.panicked, emptyVmessWorld) ∧
    EditVmessUser calmEnv carol emptyVmessWorld = (.panicked, emptyVmessWorld) ∧
    DeleteVmessUser calmEnv "uuid-1" "device-a" emptyVmessWorld
      = (.panicked, emptyVmessWorld) ∧
    EditShadowsocksUser calmEnv alice rosterOnlyShadowsocksWorld
      = (.panicked, rosterOnlyShadowsocksWorld) ∧
    DeleteVmessUser calmEnv "uuid-1" "device-a"
        { twoVmessWorld with usersFile := emptyVmessWorld.usersFile }
      = (.panicked, { twoVmessWorld with usersFile := emptyVmessWorld.usersFile }) :=
  ⟨by rfl, by rfl, by rfl, by rfl, by rfl, by rfl⟩

/-! ## Delete and the firewall -/

theorem decodeAll_cons_some {α : Type} (elem : JSON → Option α) (j : JSON) (rest : List JSON)
    (zs : List α) (h : decodeAll elem (j :: rest) = some zs) :
    ∃ a as, elem j = some a ∧ decodeAll elem rest = some as ∧ zs = a :: as := by
  simp only [decodeAll] at h
  split at h
  · cases h
  · rename_i a ha
    split at h
    · cases h
    · rename_i as has
      cases h
      exact ⟨a, as, ha, has, rfl⟩

theorem decoders_agree_on_port (j : JSON) (x : ShadowsocksInbound) (y : Inbound)
    (hx : decodeShadowsocksInbound j = some x) (hy : decodeInbound j = some y) :
    x.Port = y.Port := by
  cases j with
  | null =>
    simp only [decodeShadowsocksInbound, Option.some.injEq] at hx
    simp only [decodeInbound, Option.some.injEq] at hy
    subst hx
    subst hy
    rfl
  | obj m =>
    simp only [decodeShadowsocksInbound, bind, Option.bind_eq_some, pure,
      Option.some.injEq] at hx
    simp only [decodeInbound, bind, Option.bind_eq_some, pure, Option.some.injEq] at hy
    obtain ⟨p1, hp1, _, _, _, _, _, _, hx⟩ := hx
    obtain ⟨p2, hp2, _, _, _, _, _, _, hy⟩ := hy
    subst hx
    subst hy
    rw [hp1] at hp2
    exact Option.some.inj hp2
  | bool b => simp [decodeInbound] at hy
  | num n => simp [decodeInbound] at hy
  | str s => simp [decodeInbound] at hy
  | arr a => simp [decodeInbound] at hy

theorem decodeAll_ports_agree :
    ∀ (items : List JSON) (xs : List ShadowsocksInbound) (ys : List Inbound),
      decodeAll decodeShadowsocksInbound items = some xs →
      decodeAll decodeInbound items = some ys →
      xs.map (fun x => x.Port) = ys.map (fun y => y.Port) := by
  intro items
  induction items with
  | nil =>
    intro xs ys hx hy
    simp only [decodeAll, Option.some.injEq] at hx hy
    subst hx
    subst hy
    rfl
  | cons j rest ih =>
    intro xs ys hx hy
    obtain ⟨a, as, ha, has, e1⟩ := decodeAll_cons_some _ _ _ _ hx
    obtain ⟨b, bs, hb, hbs, e2⟩ := decodeAll_cons_some _ _ _ _ hy
    subst e1
    subst e2
    simp only [List.map_cons, List.cons.injEq]
    exact ⟨decoders_agree_on_port j a b ha hb, ih as bs has hbs⟩

theorem views_agree_on_ports (w : World) (xs : List ShadowsocksInbound) (ys : List Inbound)
    (hx : shadowsocksInboundsOf w = some xs) (hy : inboundsOf w = some ys) :
    xs.map (fun x => x.Port) = ys.map (fun y => y.Port) := by
  unfold shadowsocksInboundsOf at hx
  unfold inboundsOf at hy
  cases hr : readDocument w.configFile with
  | none => simp [hr] at hx
  | some cfg =>
    simp only [hr] at hx hy
    cases hg : getField cfg "inbounds" with
    | none => simp [hg, unmarshalSlice] at hx
    | some v =>
      simp only [hg, unmarshalSlice] at hx hy
      cases v with
      | null =>
        simp only [decodeSlice, Option.some.injEq] at hx hy
        subst hx
        subst hy
        rfl
      | arr items =>
        simp only [decodeSlice] at hx hy
        exact decodeAll_ports_agree items xs ys hx hy
      | bool b => simp [decodeSlice] at hx
      | num n => simp [decodeSlice] at hx
      | str s => simp [decodeSlice] at hx
      | obj m => simp [decodeSlice] at hx

theorem portsAgree_of_empty (w : World) (hi : shadowsocksInboundsOf w = some [])
    (hu : rosterOf w = some []) : PortsAgree w :=
  ⟨[], [], hi, hu, rfl, by intro i x u hx; simp at hx⟩

theorem portsAgree_create (env : Env) (c : Client) (w w1 : World) (hp : PortsAgree w)
    (h : CreateShadowsocksUser env c w = (.returned none, w1)) : PortsAgree w1 := by
  obtain ⟨d, hd, _, _, _, hw1⟩ := CreateShadowsocksUser_ok env c w w1 h
  obtain ⟨inbounds, users, hi, hu, hlen, hall⟩ := hp
  have e1 := load_shadowsocksInboundsOf w d hd
  have e2 := load_rosterOf _ w d hd
  rw [hi] at e1
  rw [hu] at e2
  simp only [Option.some.injEq] at e1 e2
  subst e1
  subst e2
  subst hw1
  refine ⟨_, _, shadowsocksInboundsOf_written _ _ _ _, rosterOf_written _ _ _ _, ?_, ?_⟩
  · simp [hlen]
  · intro i x u hx hu2
    rcases Nat.lt_or_ge i d.inbounds.length with hlt | hge
    · rw [List.getElem?_append_left hlt] at hx
      rw [List.getElem?_append_left (by omega)] at hu2
      exact hall i x u hx hu2
    · rw [List.getElem?_append_right hge] at hx
      rw [List.getElem?_append_right (by omega)] at hu2
      rw [hlen] at hx
      cases hk : i - d.users.length with
      | zero =>
        rw [hk] at hx hu2
        simp only [List.getElem?_cons_zero, Option.some.injEq] at hx hu2
        subst hx
        subst hu2
        left
        rfl
      | succ k =>
        rw [hk] at hx
        simp at hx

theorem portsAgree_edit (env : Env) (c : Client) (w w1 : World) (r : Reply)
    (hp : PortsAgree w) (h : EditShadowsocksUser env c w = (.returned r, w1))
    (hr : r.err = none) : PortsAgree w1 := by
  obtain ⟨d, index, inbound, oldClient, hd, _, _, _, _, hw1⟩ :=
    EditShadowsocksUser_ok env c w w1 r h hr
  obtain ⟨inbounds, users, hi, hu, hlen, hall⟩ := hp
  have e1 := load_shadowsocksInboundsOf w d hd
  have e2 := load_rosterOf _ w d hd
  rw [hi] at e1
  rw [hu] at e2
  simp only [Option.some.injEq] at e1 e2
  subst e1
  subst e2
  subst hw1
  refine ⟨_, _, shadowsocksInboundsOf_written _ _ _ _, rosterOf_written _ _ _ _, ?_, ?_⟩
  · simp [hlen]
  · intro i x u hx hu2
    by_cases hidx : index = i
    · subst hidx
      rw [List.getElem?_set] at hu2
      simp only [if_true] at hu2
      split_ifs at hu2 with hlt
      · simp only [Option.some.injEq] at hu2
        subst hu2
        right
        rfl
    · rw [List.getElem?_set, if_neg hidx] at hx
      rw [List.getElem?_set, if_neg hidx] at hu2
      exact hall i x u hx hu2

theorem runCalls_invariant_of (step : Env → Call → World → Option World) (P : World → Prop)
    (Q : Call → Prop)
    (hstep : ∀ env call w w1, Q call → P w → step env call w = some w1 → P w1) :
    ∀ (calls : List (Env × Call)) (w w1 : World), (∀ ec ∈ calls, Q ec.2) → P w →
      runCalls step calls w = some w1 → P w1 := by
  intro calls
  induction calls with
  | nil =>
    intro w w1 _ hp h
    simp only [runCalls, Option.some.injEq] at h
    exact h ▸ hp
  | cons ec rest ih =>
    intro w w1 hq hp h
    obtain ⟨env, call⟩ := ec
    simp only [runCalls] at h
    split at h
    · cases h
    · rename_i w2 hw2
      exact ih w2 w1 (fun e he => hq e (List.mem_cons_of_mem _ he))
        (hstep env call w w2 (hq (env, call) (List.mem_cons_self _ _)) hp hw2) h

theorem portsAgree_call (env : Env) (call : Call) (w w1 : World)
    (hq : call.isCreateOrEdit = true) (hp : PortsAgree w)
    (h : shadowsocksCall env call w = some w1) : PortsAgree w1 := by
  cases call with
  | create c =>
    simp only [shadowsocksCall] at h
    split at h
    · rename_i w2 heq
      cases h
      exact portsAgree_create env c w _ hp heq
    · cases h
  | edit c =>
    simp only [shadowsocksCall] at h
    split at h
    · rename_i r w2 heq
      split_ifs at h with hr
      cases h
      exact portsAgree_edit env c w _ r hp heq hr
    · cases h
  | delete identity deviceId => simp [Call.isCreateOrEdit] at hq

/-- C13: in every state reached from a Shadowsocks pair without entries by
successful Create and Edit calls, a successful `DeleteShadowsocksUser` removes
one inbound from the configuration document and runs `ufw delete allow`, for
tcp and udp, on the port of that removed inbound and on nothing else. -/
theorem delete_closes_removed_port (w0 : World) (calls : List (Env × Call)) (w : World)
    (env : Env) (password deviceId : String) (r : Reply) (w1 : World)
    (h0i : shadowsocksInboundsOf w0 = some []) (h0r : rosterOf w0 = some [])
    (hcalls : ∀ ec ∈ calls, ec.2.isCreateOrEdit = true)
    (hrun : runCalls shadowsocksCall calls w0 = some w)
    (h : DeleteShadowsocksUser env password deviceId w = (.returned r, w1))
    (hr : r.err = none) :
    ∃ (inbounds : List Inbound) (index : Nat) (removed : Inbound),
      inboundsOf w = some inbounds ∧ inbounds[index]? = some removed ∧
      inboundsOf w1 = some (inbounds.eraseIdx index) ∧
      w1.ufw = w.ufw ++ [.deleteAllow removed.Port .tcp, .deleteAllow removed.Port .udp] := by
  have hp : PortsAgree w :=
    runCalls_invariant_of shadowsocksCall PortsAgree (fun call => call.isCreateOrEdit = true)
      (fun env call w w1 hq hp h => portsAgree_call env call w w1 hq hp h)
      calls w0 w hcalls (portsAgree_of_empty w0 h0i h0r) hrun
  obtain ⟨d, user, hd, huser, _, hlt, hlo, _, _, hw1⟩ :=
    DeleteShadowsocksUser_ok env password deviceId w w1 r h hr
  obtain ⟨xs, users, hi, hu, hlen, hall⟩ := hp
  have e2 := load_rosterOf _ w d hd
  rw [hu] at e2
  simp only [Option.some.injEq] at e2
  subst e2
  have hio := load_inboundsOf w d hd
  have hports := views_agree_on_ports w xs d.inbounds hi hio
  have hxlen : xs.length = d.inbounds.length := by
    have := congrArg List.length hports
    simpa using this
  generalize rangeBreak (fun user : Client => decide (user.Password = password)) d.users
    = index at huser hlt hw1
  have hxlt : index < xs.length := by omega
  obtain ⟨x, hx⟩ : ∃ x, xs[index]? = some x := ⟨xs[index], List.getElem?_eq_getElem hxlt⟩
  obtain ⟨y, hy⟩ : ∃ y, d.inbounds[index]? = some y :=
    ⟨d.inbounds[index], List.getElem?_eq_getElem hlt⟩
  have hsame : x.Port = y.Port := by
    have h1 : (xs.map (fun x => x.Port))[index]? = (d.inbounds.map (fun y => y.Port))[index]? := by
      rw [hports]
    simp only [List.getElem?_map, hx, hy, Option.map_some', Option.some.injEq] at h1
    exact h1
  have huport : user.Port = y.Port := by
    rcases hall index _ user hx huser with hpeq | hzero
    · rw [hpeq, hsame]
    · omega
  refine ⟨d.inbounds, index, y, hio, hy, ?_, ?_⟩
  · rw [hw1]
    exact inboundsOf_written _ _ _ _
  · rw [hw1, huport]

/-- Witness of C13: after creating `alice` and `bob` and editing `alice`, the
delete of `bob` succeeds and closes port 10001, the port of the removed
inbound. -/
theorem delete_closes_removed_port_witness :
    ∃ (inbounds : List Inbound) (index : Nat) (removed : Inbound),
      inboundsOf ((runCalls shadowsocksCall createEditSession emptyShadowsocksWorld).getD
        emptyShadowsocksWorld) = some inbounds ∧
      inbounds[index]? = some removed ∧
      inboundsOf (DeleteShadowsocksUser calmEnv "zzz999" "device-b"
        ((runCalls shadowsocksCall createEditSession emptyShadowsocksWorld).getD
          emptyShadowsocksWorld)).2 = some (inbounds.eraseIdx index) ∧
      (DeleteShadowsocksUser calmEnv "zzz999" "device-b"
        ((runCalls shadowsocksCall createEditSession emptyShadowsocksWorld).getD
          emptyShadowsocksWorld)).2.ufw
        = ((runCalls shadowsocksCall createEditSession emptyShadowsocksWorld).getD
            emptyShadowsocksWorld).ufw ++
          [.deleteAllow removed.Port .tcp, .deleteAllow removed.Port .udp] :=
  delete_closes_removed_port emptyShadowsocksWorld createEditSession _ calmEnv "zzz999"
    "device-b" { client := some { bob with Port := 10001 }, status := 200, err := none } _
    (by rfl) (by rfl) (by decide) (by rfl) (by rfl) rfl

/-! ## Account types: claims -/

theorem isDigit_toNat (c : Char) (h : c.isDigit = true) : 48 ≤ c.toNat ∧ c.toNat ≤ 57 := by
  simp only [Char.isDigit, Bool.and_eq_true, decide_eq_true_eq] at h
  obtain ⟨h1, h2⟩ := h
  exact ⟨h1, h2⟩

theorem digitsValue_reverse :
    ∀ L : List Char, (∀ c ∈ L, c.isDigit = true) →
      digitsValue L.reverse
        = ((Nat.ofDigits (10 : Nat) (L.map (fun ch => ch.toNat - 48)) : Nat) : Int) := by
  intro L
  induction L with
  | nil => intro _; rfl
  | cons x rest ih =>
    intro h
    have hx := isDigit_toNat x (h x (List.mem_cons_self _ _))
    have hr := ih (fun c hc => h c (List.mem_cons_of_mem _ hc))
    unfold digitsValue at hr ⊢
    rw [List.reverse_cons, List.foldl_append]
    simp only [List.foldl_cons, List.foldl_nil, List.map_cons]
    rw [hr, Nat.ofDigits_cons]
    push_cast
    omega

theorem digitsValue_eq (ds : List Char) (h : ds.all Char.isDigit = true) :
    digitsValue ds
      = ((Nat.ofDigits (10 : Nat) (ds.reverse.map (fun ch => ch.toNat - 48)) : Nat) : Int) := by
  have := digitsValue_reverse ds.reverse (by
    intro c hc
    rw [List.all_eq_true] at h
    exact h c (List.mem_reverse.mp hc))
  simpa using this

theorem Atoi_of_chars (s : String) :
    Atoi s =
      (let cs := s.toList
       let ds := if cs.head? = some '-' ∨ cs.head? = some '+' then cs.tail else cs
       if ds = [] ∨ ds.all Char.isDigit = false then (0, true)
       else
         let v := if cs.head? = some '-' then - digitsValue ds else digitsValue ds
         if v > 9223372036854775807 then (9223372036854775807, true)
         else if v < -9223372036854775808 then (-9223372036854775808, true)
         else (v, false)) := by
  unfold Atoi
  simp

theorem decimalIntegerValue_of_chars (s : String) :
    decimalIntegerValue s =
      (if s.toList.head? = some '-' then
        (decimalDigitsValue s.toList.tail).map (fun n => - (n : Int))
       else if s.toList.head? = some '+' then
        (decimalDigitsValue s.toList.tail).map (fun n => (n : Int))
       else (decimalDigitsValue s.toList).map (fun n => (n : Int))) := by
  unfold decimalIntegerValue
  split
  · rename_i ds h
    rw [h]
    simp
  · rename_i ds h
    rw [h]
    simp
  · rename_i ds h1 h2
    cases hcs : s.toList with
    | nil => simp
    | cons c rest =>
      have hm : c ≠ '-' := fun e => h1 rest (by rw [hcs, e])
      have hp : c ≠ '+' := fun e => h2 rest (by rw [hcs, e])
      simp [hm, hp]

theorem decimalDigitsValue_none (ds : List Char) (h : ds = [] ∨ ds.all Char.isDigit = false) :
    decimalDigitsValue ds = none := by
  unfold decimalDigitsValue
  rcases h with h | h
  · simp [h]
  · simp [h]

theorem decimalDigitsValue_some (ds : List Char)
    (h : ¬ (ds = [] ∨ ds.all Char.isDigit = false)) :
    ∃ n : Nat, decimalDigitsValue ds = some n ∧ digitsValue ds = (n : Int) := by
  have h1 : ds ≠ [] := fun e => h (Or.inl e)
  have h2 : ds.all Char.isDigit = true := by
    cases hall : ds.all Char.isDigit with
    | true => rfl
    | false => exact absurd (Or.inr hall) h
  refine ⟨_, ?_, digitsValue_eq ds h2⟩
  unfold decimalDigitsValue
  rw [if_pos ⟨h1, h2⟩]

theorem Atoi_refines (s : String) :
    Atoi s =
      match decimalIntegerValue s with
      | none => (0, true)
      | some v =>
        if v > 9223372036854775807 then (9223372036854775807, true)
        else if v < -9223372036854775808 then (-9223372036854775808, true)
        else (v, false) := by
  rw [Atoi_of_chars, decimalIntegerValue_of_chars]
  simp only
  by_cases hm : s.toList.head? = some '-'
  · simp only [hm, true_or, if_true]
    by_cases hd : s.toList.tail = [] ∨ s.toList.tail.all Char.isDigit = false
    · rw [decimalDigitsValue_none _ hd, if_pos hd]
      rfl
    · obtain ⟨n, hn, hv⟩ := decimalDigitsValue_some _ hd
      rw [hn, if_neg hd, hv]
      rfl
  · by_cases hp : s.toList.head? = some '+'
    · simp only [hm, hp, or_true, if_true, if_false]
      by_cases hd : s.toList.tail = [] ∨ s.toList.tail.all Char.isDigit = false
      · rw [decimalDigitsValue_none _ hd, if_pos hd]
        rfl
      · obtain ⟨n, hn, hv⟩ := decimalDigitsValue_some _ hd
        rw [hn, if_neg hd, hv]
        rfl
    · simp only [hm, hp, or_self, if_false]
      by_cases hd : s.toList = [] ∨ s.toList.all Char.isDigit = false
      · rw [decimalDigitsValue_none _ hd, if_pos hd]
        rfl
      · obtain ⟨n, hn, hv⟩ := decimalDigitsValue_some _ hd
        rw [hn, if_neg hd, hv]
        rfl

theorem ParseAccountType_of_value (s : String) (v : Int)
    (hv : decimalIntegerValue s = some v) :
    ParseAccountType s =
      if v = 1 ∨ v = 2 ∨ v = 3 then (v, none)
      else if -9223372036854775808 ≤ v ∧ v ≤ 9223372036854775807 then
        (0, some ("unknown account type: " ++ formatInt v))
      else (0, some ("invalid account type: " ++ s)) := by
  have key := Atoi_refines s
  rw [hv] at key
  simp only at key
  unfold ParseAccountType
  rw [key]
  by_cases h1 : v > 9223372036854775807
  · have h3 : ¬ (v = 1 ∨ v = 2 ∨ v = 3) := by omega
    have h4 : ¬ (-9223372036854775808 ≤ v ∧ v ≤ 9223372036854775807) := by omega
    simp only [h1, if_true, h3, h4, if_false]
  · by_cases h2 : v < -9223372036854775808
    · have h3 : ¬ (v = 1 ∨ v = 2 ∨ v = 3) := by omega
      have h4 : ¬ (-9223372036854775808 ≤ v ∧ v ≤ 9223372036854775807) := by omega
      simp only [h1, h2, if_true, h3, h4, if_false]
    · have h4 : -9223372036854775808 ≤ v ∧ v ≤ 9223372036854775807 := by omega
      simp only [h1, h2, if_false, VmessAccountType, ShadowsocksAccountType, SstpAccountType,
        h4, and_self, if_true]

theorem ParseAccountType_of_none (s : String) (hv : decimalIntegerValue s = none) :
    ParseAccountType s = (0, some ("invalid account type: " ++ s)) := by
  have key := Atoi_refines s
  rw [hv] at key
  simp only at key
  unfold ParseAccountType
  rw [key]

/-- C17: `ParseAccountType(s)` returns a nil error exactly when `s` is a
decimal integer string (an optional sign, then decimal digits) whose value is
1, 2 or 3, and then returns that value, which is the variant vmess,
shadowsocks or sstp; for every other string it returns an error together with
the zero `AccountType`. -/
theorem parseAccountType_accepts_one_two_three (s : String) :
    (∀ a : AccountType, ParseAccountType s = (a, none) ↔
      (decimalIntegerValue s = some a ∧ (a = 1 ∨ a = 2 ∨ a = 3))) ∧
    ((¬ ∃ v : Int, decimalIntegerValue s = some v ∧ (v = 1 ∨ v = 2 ∨ v = 3)) →
      ∃ msg, ParseAccountType s = (0, some msg)) ∧
    VmessAccountType = 1 ∧ ShadowsocksAccountType = 2 ∧ SstpAccountType = 3 := by
  refine ⟨?_, ?_, rfl, rfl, rfl⟩
  · intro a
    cases hv : decimalIntegerValue s with
    | none =>
      rw [ParseAccountType_of_none s hv]
      simp
    | some v =>
      rw [ParseAccountType_of_value s v hv]
      by_cases h3 : v = 1 ∨ v = 2 ∨ v = 3
      · rw [if_pos h3]
        constructor
        · intro e
          simp only [Prod.mk.injEq, and_true] at e
          subst e
          exact ⟨rfl, h3⟩
        · intro e
          have e1 := Option.some.inj e.1
          subst e1
          rfl
      · rw [if_neg h3]
        constructor
        · intro e
          split_ifs at e <;> simp at e
        · intro e
          have e1 := Option.some.inj e.1
          subst e1
          exact absurd e.2 h3
  · intro hno
    cases hv : decimalIntegerValue s with
    | none => exact ⟨_, ParseAccountType_of_none s hv⟩
    | some v =>
      rw [ParseAccountType_of_value s v hv]
      have h3 : ¬ (v = 1 ∨ v = 2 ∨ v = 3) := fun h => hno ⟨v, hv, h⟩
      rw [if_neg h3]
      split_ifs
      · exact ⟨_, rfl⟩
      · exact ⟨_, rfl⟩

/-- Witness of C17: the strings `1`, `2`, `3`, `+2` and `03` are accepted with
their value; `0`, `4`, `-1`, the empty string, `vmess`, `1.0` and a blank
before the digit are rejected with the zero `AccountType`. -/
theorem parseAccountType_accepts_one_two_three_witness :
    ParseAccountType "1" = (VmessAccountType, none) ∧
    ParseAccountType "2" = (ShadowsocksAccountType, none) ∧
    ParseAccountType "3" = (SstpAccountType, none) ∧
    ParseAccountType "+2" = (2, none) ∧ ParseAccountType "03" = (3, none) ∧
    (∃ msg, ParseAccountType "0" = (0, some msg)) ∧
    (∃ msg, ParseAccountType "4" = (0, some msg)) ∧
    (∃ msg, ParseAccountType "-1" = (0, some msg)) ∧
    (∃ msg, ParseAccountType "" = (0, some msg)) ∧
    (∃ msg, ParseAccountType "vmess" = (0, some msg)) ∧
    (∃ msg, ParseAccountType "1.0" = (0, some msg)) ∧
    (∃ msg, ParseAccountType " 1" = (0, some msg)) :=
  ⟨((parseAccountType_accepts_one_two_three "1").1 1).mpr ⟨by decide, by decide⟩,
   ((parseAccountType_accepts_one_two_three "2").1 2).mpr ⟨by decide, by decide⟩,
   ((parseAccountType_accepts_one_two_three "3").1 3).mpr ⟨by decide, by decide⟩,
   ((parseAccountType_accepts_one_two_three "+2").1 2).mpr ⟨by decide, by decide⟩,
   ((parseAccountType_accepts_one_two_three "03").1 3).mpr ⟨by decide, by decide⟩,
   (parseAccountType_accepts_one_two_three "0").2.1 (by decide),
   (parseAccountType_accepts_one_two_three "4").2.1 (by decide),
   (parseAccountType_accepts_one_two_three "-1").2.1 (by decide),
   (parseAccountType_accepts_one_two_three "").2.1 (by decide),
   (parseAccountType_accepts_one_two_three "vmess").2.1 (by decide),
   (parseAccountType_accepts_one_two_three "1.0").2.1 (by decide),
   (parseAccountType_accepts_one_two_three " 1").2.1 (by decide)⟩

/-! ## Lemmas on the RFC 3339 date -/

theorem getYear_some (cs : List Char) (y : Nat) (rest : List Char)
    (h : getYear cs = some (y, rest)) :
    ∃ a b c d, cs = a :: b :: c :: d :: rest ∧ a.isDigit = true ∧ b.isDigit = true ∧
      c.isDigit = true ∧ d.isDigit = true ∧
      y = ((digitOf a * 10 + digitOf b) * 10 + digitOf c) * 10 + digitOf d := by
  unfold getYear at h
  split at h
  · rename_i a b c d rest2
    split_ifs at h with hd
    simp only [Option.some.injEq, Prod.mk.injEq] at h
    obtain ⟨h1, h2⟩ := h
    subst h2
    exact ⟨a, b, c, d, rfl, hd.1, hd.2.1, hd.2.2.1, hd.2.2.2, h1.symm⟩
  · cases h

theorem getnum_fixed_some (cs : List Char) (n : Nat) (rest : List Char)
    (h : getnum cs true = some (n, rest)) :
    ∃ a b, cs = a :: b :: rest ∧ a.isDigit = true ∧ b.isDigit = true ∧
      n = digitOf a * 10 + digitOf b := by
  unfold getnum at h
  split at h
  · cases h
  · simp at h
  · rename_i a b rest2
    split_ifs at h with ha hb hf
    · simp only [Option.some.injEq, Prod.mk.injEq] at h
      obtain ⟨h1, h2⟩ := h
      subst h2
      exact ⟨a, b, rfl, ha, hb, h1.symm⟩
    · exact absurd rfl hf

theorem expectChar_some (c : Char) (cs rest : List Char) (h : expectChar c cs = some rest) :
    cs = c :: rest := by
  unfold expectChar at h
  split at h
  · cases h
  · rename_i x rest2
    split_ifs at h with hx
    simp only [Option.some.injEq] at h
    subst h
    subst hx
    rfl

theorem parseDate_some (cs : List Char) (y m d : Nat) (rest : List Char)
    (h : parseDate cs = some ((y, m, d), rest)) :
    ∃ y1 y2 y3 y4 m1 m2 d1 d2,
      cs = y1 :: y2 :: y3 :: y4 :: '-' :: m1 :: m2 :: '-' :: d1 :: d2 :: rest ∧
      y1.isDigit = true ∧ y2.isDigit = true ∧ y3.isDigit = true ∧ y4.isDigit = true ∧
      m1.isDigit = true ∧ m2.isDigit = true ∧ d1.isDigit = true ∧ d2.isDigit = true ∧
      y = ((digitOf y1 * 10 + digitOf y2) * 10 + digitOf y3) * 10 + digitOf y4 ∧
      m = digitOf m1 * 10 + digitOf m2 ∧ d = digitOf d1 * 10 + digitOf d2 := by
  unfold parseDate at h
  cases hy : getYear cs with
  | none => simp [hy] at h
  | some yr =>
    obtain ⟨y0, cs1⟩ := yr
    simp only [hy, Option.bind_eq_bind, Option.some_bind] at h
    cases he1 : expectChar '-' cs1 with
    | none => simp [he1] at h
    | some cs2 =>
      simp only [he1, Option.some_bind] at h
      cases hm : getnum cs2 true with
      | none => simp [hm] at h
      | some mr =>
        obtain ⟨m0, cs3⟩ := mr
        simp only [hm, Option.some_bind] at h
        split_ifs at h with hrange
        · simp at h
        · simp only [Option.pure_def, Option.some_bind] at h
          cases he2 : expectChar '-' cs3 with
          | none => simp [he2] at h
          | some cs4 =>
            simp only [he2, Option.some_bind] at h
            cases hdd : getnum cs4 true with
            | none => simp [hdd] at h
            | some dr =>
              obtain ⟨d0, cs5⟩ := dr
              simp only [hdd, Option.some_bind, Option.some.injEq, Prod.mk.injEq] at h
              obtain ⟨⟨h1, h2, h3⟩, h4⟩ := h
              subst h1 h2 h3 h4
              obtain ⟨a, b, c, d, e1, ha, hb, hc, hd, ey⟩ := getYear_some _ _ _ hy
              have e2 := expectChar_some _ _ _ he1
              obtain ⟨m1, m2, e3, hm1, hm2, em⟩ := getnum_fixed_some _ _ _ hm
              have e4 := expectChar_some _ _ _ he2
              obtain ⟨d1, d2, e5, hd1, hd2, ed⟩ := getnum_fixed_some _ _ _ hdd
              refine ⟨a, b, c, d, m1, m2, d1, d2, ?_, ha, hb, hc, hd, hm1, hm2, hd1, hd2, ey,
                em, ed⟩
              rw [e1, e2, e3, e4, e5]

theorem parseRFC3339_date (s : String) (t : ParsedTime) (h : parseRFC3339 s = some t) :
    ∃ rest, parseDate s.toList = some ((t.year, t.month, t.day), rest) := by
  unfold parseRFC3339 at h
  split at h
  · cases h
  · rename_i year month day cs hp
    split at h
    · cases h
    · split_ifs at h
      simp only [Option.some.injEq] at h
      subst h
      exact ⟨cs, hp⟩

theorem digitOf_lt (c : Char) (h : c.isDigit = true) : digitOf c < 10 := by
  have := isDigit_toNat c h
  unfold digitOf
  omega

theorem digitChar_digitOf (c : Char) (h : c.isDigit = true) : digitChar (digitOf c) = c := by
  have h1 := isDigit_toNat c h
  unfold digitChar digitOf
  have e : 48 + (c.toNat - 48) = c.toNat := by omega
  rw [e]
  exact Char.ofNat_toNat c

theorem isDigit_ne_blank (c : Char) (h : c.isDigit = true) : c ≠ ' ' := by
  intro e
  subst e
  revert h
  decide

theorem appendInt_two (a b : Char) (ha : a.isDigit = true) (hb : b.isDigit = true) :
    appendInt (digitOf a * 10 + digitOf b) 2 = [a, b] := by
  have h1 := digitOf_lt a ha
  have h2 := digitOf_lt b hb
  unfold appendInt
  rw [if_pos ⟨rfl, by omega⟩]
  have e1 : (digitOf a * 10 + digitOf b) / 10 = digitOf a := by omega
  have e2 : (digitOf a * 10 + digitOf b) % 10 = digitOf b := by omega
  rw [e1, e2, digitChar_digitOf a ha, digitChar_digitOf b hb]

theorem appendInt_four (a b c d : Char) (ha : a.isDigit = true) (hb : b.isDigit = true)
    (hc : c.isDigit = true) (hd : d.isDigit = true) :
    appendInt (((digitOf a * 10 + digitOf b) * 10 + digitOf c) * 10 + digitOf d) 4
      = [a, b, c, d] := by
  have h1 := digitOf_lt a ha
  have h2 := digitOf_lt b hb
  have h3 := digitOf_lt c hc
  have h4 := digitOf_lt d hd
  unfold appendInt
  rw [if_neg (by omega), if_pos ⟨rfl, by omega⟩]
  have e1 : (((digitOf a * 10 + digitOf b) * 10 + digitOf c) * 10 + digitOf d) / 1000
      = digitOf a := by omega
  have e2 : (((digitOf a * 10 + digitOf b) * 10 + digitOf c) * 10 + digitOf d) / 100 % 10
      = digitOf b := by omega
  have e3 : (((digitOf a * 10 + digitOf b) * 10 + digitOf c) * 10 + digitOf d) / 10 % 10
      = digitOf c := by omega
  have e4 : (((digitOf a * 10 + digitOf b) * 10 + digitOf c) * 10 + digitOf d) % 10
      = digitOf d := by omega
  rw [e1, e2, e3, e4, digitChar_digitOf a ha, digitChar_digitOf b hb, digitChar_digitOf c hc,
    digitChar_digitOf d hd]

/-- The shape `YYYY-MM-DD` of a list of ten characters. -/
theorem firstField_timeString (localZone : Option String) (s : String) (t : ParsedTime)
    (h : parseRFC3339 s = some t) :
    firstField (timeString localZone t) = s.toList.take 10 ∧
    ∃ y1 y2 y3 y4 m1 m2 d1 d2,
      s.toList.take 10 = [y1, y2, y3, y4, '-', m1, m2, '-', d1, d2] ∧
      y1.isDigit = true ∧ y2.isDigit = true ∧ y3.isDigit = true ∧ y4.isDigit = true ∧
      m1.isDigit = true ∧ m2.isDigit = true ∧ d1.isDigit = true ∧ d2.isDigit = true := by
  obtain ⟨rest, hp⟩ := parseRFC3339_date s t h
  obtain ⟨y1, y2, y3, y4, m1, m2, d1, d2, hcs, hy1, hy2, hy3, hy4, hm1, hm2, hd1, hd2, ey, em,
    ed⟩ := parseDate_some _ _ _ _ _ hp
  have htake : s.toList.take 10 = [y1, y2, y3, y4, '-', m1, m2, '-', d1, d2] := by
    rw [hcs]
    rfl
  refine ⟨?_, y1, y2, y3, y4, m1, m2, d1, d2, htake, hy1, hy2, hy3, hy4, hm1, hm2, hd1, hd2⟩
  rw [htake]
  unfold timeString
  rw [ey, em, ed, appendInt_four y1 y2 y3 y4 hy1 hy2 hy3 hy4, appendInt_two m1 m2 hm1 hm2,
    appendInt_two d1 d2 hd1 hd2]
  have n1 := isDigit_ne_blank y1 hy1
  have n2 := isDigit_ne_blank y2 hy2
  have n3 := isDigit_ne_blank y3 hy3
  have n4 := isDigit_ne_blank y4 hy4
  have n5 := isDigit_ne_blank m1 hm1
  have n6 := isDigit_ne_blank m2 hm2
  have n7 := isDigit_ne_blank d1 hd1
  have n8 := isDigit_ne_blank d2 hd2
  simp [firstField, List.takeWhile, n1, n2, n3, n4, n5, n6, n7, n8]

/-! ## The remote store: claims -/

/-- C18: for each of `CreateSSTPUser`, `DeleteSSTPUser` and `GetSSTPUsers`,
whenever the body of the answer decodes to a response whose `id` is not the
correlation id sent in the request, the operation returns no result and the
error `Different Request IDs.`, whatever else the response holds; the id sent
in the request is the one compared. -/
theorem correlation_mismatch_rejected :
    (∀ (env : Remote) (name desc password expire : String) (body : JSON)
        (response : CreateUserResponse),
      env.post env.SSTPServerURL env.SSTPAdminPassword
        (createUserRequest env name desc password expire) = .answered (some body) →
      decodeCreateUserResponse body = some response → response.ID ≠ env.newId →
      CreateSSTPUser env name desc password expire = (none, some "Different Request IDs.")) ∧
    (∀ (env : Remote) (username : String) (body : JSON) (response : DeleteUserResponse),
      env.post env.SSTPServerURL env.SSTPAdminPassword (deleteUserRequest env username)
        = .answered (some body) →
      decodeDeleteUserResponse body = some response → response.ID ≠ env.newId →
      DeleteSSTPUser env username = (none, some "Different Request IDs.")) ∧
    (∀ (env : Remote) (body : JSON) (response : EnumUserResponse),
      env.post env.SSTPServerURL env.SSTPAdminPassword (enumUserRequest env)
        = .answered (some body) →
      decodeEnumUserResponse body = some response → response.ID ≠ env.newId →
      GetSSTPUsers env = (none, some "Different Request IDs.")) ∧
    (∀ (env : Remote) (name desc password expire username : String),
      decodeString (match createUserRequest env name desc password expire with
        | .obj m => getField m "id" | _ => none) = some env.newId ∧
      decodeString (match deleteUserRequest env username with
        | .obj m => getField m "id" | _ => none) = some env.newId ∧
      decodeString (match enumUserRequest env with
        | .obj m => getField m "id" | _ => none) = some env.newId) := by
  refine ⟨?_, ?_, ?_, ?_⟩
  · intro env name desc password expire body response hpost hdec hid
    unfold CreateSSTPUser
    simp only [hpost, Option.some_bind, hdec, hid, ne_eq, not_false_eq_true, if_true]
  · intro env username body response hpost hdec hid
    unfold DeleteSSTPUser
    simp only [hpost, Option.some_bind, hdec, hid, ne_eq, not_false_eq_true, if_true]
  · intro env body response hpost hdec hid
    unfold GetSSTPUsers
    simp only [hpost, Option.some_bind, hdec, hid, ne_eq, not_false_eq_true, if_true]
  · intro env name desc password expire username
    simp [createUserRequest, deleteUserRequest, enumUserRequest, encodeRequest, getField,
      decodeString]

/-- Witness of C18: the remote store hands out the id `req-1` and answers with
well-formed responses under the id `other`. -/
theorem correlation_mismatch_rejected_witness :
    CreateSSTPUser (answering (userAnswer "other")) "u1" "" "pw" "2025-03-09T23:59:59Z"
      = (none, some "Different Request IDs.") ∧
    DeleteSSTPUser (answering (userAnswer "other")) "u1"
      = (none, some "Different Request IDs.") ∧
    GetSSTPUsers (answering (enumAnswer "other")) = (none, some "Different Request IDs.") :=
  ⟨correlation_mismatch_rejected.1 (answering (userAnswer "other")) "u1" "" "pw"
      "2025-03-09T23:59:59Z" (userAnswer "other")
      { JSONRPC := "2.0", ID := "other",
        Result := { createUserParams.zero with HubName := "default", Name := "u1" } }
      (by rfl) (by rfl) (by decide),
   correlation_mismatch_rejected.2.1 (answering (userAnswer "other")) "u1" (userAnswer "other")
      { JSONRPC := "2.0", ID := "other", Result := { HubName := "default", Name := "u1" } }
      (by rfl) (by rfl) (by decide),
   correlation_mismatch_rejected.2.2.1 (answering (enumAnswer "other")) (enumAnswer "other")
      { JSONRPC := "2.0", ID := "other",
        Result := { HubName := "default",
                    UserList := [{ Name := "u1", Note := "",
                                   Expires := "2025-03-09T23:59:59.000Z", IsExpires := true },
                                 { Name := "u2", Note := "", Expires := "never",
                                   IsExpires := false }] } }
      (by rfl) (by rfl) (by decide)⟩

/-! ## The form of the timestamps `time.Parse` takes -/

theorem rfcMonthDays_eq (year month : Nat) (h1 : 1 ≤ month) (h2 : month ≤ 12) :
    rfcMonthDays year month = daysIn month year := by
  interval_cases month <;> simp [rfcMonthDays, daysIn, rfcLeapYear, isLeap]

theorem getnum_two (a b : Char) (rest : List Char) (fixed : Bool) (ha : a.isDigit = true)
    (hb : b.isDigit = true) :
    getnum (a :: b :: rest) fixed = some (fieldValue a b, rest) := by
  simp [getnum, ha, hb, fieldValue]

theorem getZone_accepts (cs : List Char) :
    (∃ utc offset, getZone cs = some (utc, offset, [])) ↔ isLayoutOffset cs = true := by
  rcases cs with _ | ⟨z, _ | ⟨h1, _ | ⟨h2, _ | ⟨c, _ | ⟨m1, _ | ⟨m2, _ | ⟨x, r⟩⟩⟩⟩⟩⟩⟩
  · simp [getZone, isLayoutOffset]
  · by_cases hz : z = 'Z' <;> simp [getZone, isLayoutOffset, hz]
  · by_cases hz : z = 'Z' <;> simp [getZone, isLayoutOffset, hz]
  · by_cases hz : z = 'Z' <;> simp [getZone, isLayoutOffset, hz]
  · by_cases hz : z = 'Z' <;> simp [getZone, isLayoutOffset, hz]
  · by_cases hz : z = 'Z' <;> simp [getZone, isLayoutOffset, hz]
  · by_cases hz : z = 'Z'
    · subst hz
      simp [getZone, isLayoutOffset]
    · simp only [getZone, hz, if_false, isLayoutOffset]
      by_cases hc : c = ':'
      · by_cases ha : h1.isDigit = true
        · by_cases hb : h2.isDigit = true
          · by_cases hm1 : m1.isDigit = true
            · by_cases hm2 : m2.isDigit = true
              · simp only [hc, getnum_two _ _ _ _ ha hb, getnum_two _ _ _ _ hm1 hm2, if_true]
                by_cases hr : fieldValue h1 h2 > 24 ∨ fieldValue m1 m2 > 60
                · simp only [hr, if_true]
                  rcases hr with hr | hr <;> simp [hr, ha, hb, hm1, hm2]
                · simp only [hr, if_false]
                  have hr1 : fieldValue h1 h2 ≤ 24 := by omega
                  have hr2 : fieldValue m1 m2 ≤ 60 := by omega
                  by_cases hp : z = '+'
                  · simp [hp, ha, hb, hm1, hm2, hr1, hr2]
                  · by_cases hn : z = '-'
                    · simp [hn, ha, hb, hm1, hm2, hr1, hr2]
                    · simp [hp, hn]
              · simp [hc, getnum, ha, hb, hm1, hm2]
            · simp [hc, getnum, ha, hb, hm1]
          · simp [hc, getnum, ha, hb]
        · simp [hc, getnum, ha]
      · simp [hc]
  · by_cases hz : z = 'Z'
    · subst hz
      simp [getZone, isLayoutOffset]
    · simp only [getZone, hz, if_false, isLayoutOffset]
      constructor
      · rintro ⟨utc, offset, h⟩
        generalize getnum [h1, h2] true = g1 at h
        generalize getnum [m1, m2] true = g2 at h
        rcases g1 with _ | ⟨hr, r1⟩ <;> rcases g2 with _ | ⟨mm, r2⟩ <;>
          split_ifs at h <;> simp at h
      · intro h
        cases h

theorem isLayoutOffset_head (m : Char) (rest : List Char)
    (h : isLayoutOffset (m :: rest) = true) : m = 'Z' ∨ m = '+' ∨ m = '-' := by
  rcases rest with _ | ⟨h1, _ | ⟨h2, _ | ⟨c, _ | ⟨m1, _ | ⟨m2, _ | ⟨x, r⟩⟩⟩⟩⟩⟩
  · simp [isLayoutOffset] at h
    exact Or.inl h
  · simp [isLayoutOffset] at h
  · simp [isLayoutOffset] at h
  · simp [isLayoutOffset] at h
  · simp [isLayoutOffset] at h
  · simp only [isLayoutOffset, Bool.and_eq_true, Bool.or_eq_true, decide_eq_true_eq] at h
    exact Or.inr h.1.1.1.1.1.1.1
  · simp [isLayoutOffset] at h

theorem getFraction_accepts (cs : List Char) :
    (∃ utc offset, getZone (getFraction cs).2 = some (utc, offset, []))
      ↔ isLayoutSecfracOffset cs = true := by
  rcases cs with _ | ⟨m, _ | ⟨d, rest⟩⟩
  · simp [getFraction, getZone, isLayoutSecfracOffset]
  · simp only [getFraction, isLayoutSecfracOffset]
    rw [getZone_accepts]
    split_ifs with hm
    · constructor
      · intro h
        rcases isLayoutOffset_head _ _ h with e | e | e <;> rcases hm with hm | hm <;>
          rw [hm] at e <;> exact absurd e (by decide)
      · intro h
        cases h
    · rfl
  · simp only [getFraction, isLayoutSecfracOffset]
    by_cases hm : m = '.' ∨ m = ','
    · by_cases hd : d.isDigit = true
      · rw [if_pos ⟨hm, hd⟩, if_pos hm, getZone_accepts]
        simp [hd]
      · rw [if_neg (fun h => hd h.2), if_pos hm, getZone_accepts]
        constructor
        · intro h
          rcases isLayoutOffset_head _ _ h with e | e | e <;> rcases hm with hm | hm <;>
            rw [hm] at e <;> exact absurd e (by decide)
        · intro h
          simp [hd] at h
    · rw [if_neg (fun h => hm h.1), if_neg hm, getZone_accepts]

theorem expectChar_iff (c : Char) (cs rest : List Char) :
    expectChar c cs = some rest ↔ cs = c :: rest := by
  constructor
  · exact expectChar_some c cs rest
  · intro h
    subst h
    simp [expectChar]

theorem getnum_fixed_iff (cs : List Char) (n : Nat) (rest : List Char) :
    getnum cs true = some (n, rest) ↔
      ∃ a b, cs = a :: b :: rest ∧ a.isDigit = true ∧ b.isDigit = true ∧ n = fieldValue a b := by
  constructor
  · exact getnum_fixed_some cs n rest
  · rintro ⟨a, b, hcs, ha, hb, hn⟩
    subst hcs
    subst hn
    exact getnum_two a b rest true ha hb

theorem getnum_free_iff (cs : List Char) (n : Nat) (rest : List Char) :
    getnum cs false = some (n, rest) ↔
      (∃ a b, cs = a :: b :: rest ∧ a.isDigit = true ∧ b.isDigit = true ∧ n = fieldValue a b) ∨
      (∃ a, cs = a :: rest ∧ a.isDigit = true ∧ n = digitOf a ∧
        ∀ b r, rest = b :: r → b.isDigit = false) := by
  constructor
  · intro h
    unfold getnum at h
    split at h
    · cases h
    · rename_i a
      split_ifs at h with ha
      simp only [Option.some.injEq, Prod.mk.injEq] at h
      obtain ⟨h1, h2⟩ := h
      subst h1 h2
      exact Or.inr ⟨a, rfl, ha.1, rfl, fun b r e => by cases e⟩
    · rename_i a b rest2
      split_ifs at h with ha hb hf
      · simp only [Option.some.injEq, Prod.mk.injEq] at h
        obtain ⟨h1, h2⟩ := h
        subst h1 h2
        exact Or.inl ⟨a, b, rfl, ha, hb, rfl⟩
      · simp only [Option.some.injEq, Prod.mk.injEq] at h
        obtain ⟨h1, h2⟩ := h
        subst h1 h2
        refine Or.inr ⟨a, rfl, ha, rfl, ?_⟩
        intro b2 r e
        simp only [List.cons.injEq] at e
        rw [← e.1]
        simpa using hb
  · rintro (⟨a, b, hcs, ha, hb, hn⟩ | ⟨a, hcs, ha, hn, hnext⟩)
    · subst hcs
      subst hn
      exact getnum_two a b rest false ha hb
    · subst hcs
      subst hn
      rcases rest with _ | ⟨b, r⟩
      · simp [getnum, ha]
      · have hb := hnext b r rfl
        simp [getnum, ha, hb]

theorem parseClock_some_iff (cs : List Char) :
    (∃ r, parseClock cs = some r) ↔
      ∃ c1 hour c2 c3 minute c4 c5 second c6,
        expectChar 'T' cs = some c1 ∧ getnum c1 false = some (hour, c2) ∧ hour < 24 ∧
        expectChar ':' c2 = some c3 ∧ getnum c3 true = some (minute, c4) ∧ minute < 60 ∧
        expectChar ':' c4 = some c5 ∧ getnum c5 true = some (second, c6) ∧ second < 60 ∧
        ∃ utc offset, getZone (getFraction c6).2 = some (utc, offset, []) := by
  unfold parseClock
  simp only [Option.bind_eq_bind, Option.pure_def, ite_not, Option.none_bind, Option.some_bind]
  constructor
  · rintro ⟨r, h⟩
    cases h1 : expectChar 'T' cs with
    | none => simp [h1] at h
    | some c1 =>
      simp only [h1, Option.some_bind] at h
      cases h2 : getnum c1 false with
      | none => simp [h2] at h
      | some p2 =>
        obtain ⟨hour, c2⟩ := p2
        simp only [h2, Option.some_bind] at h
        split_ifs at h with hh
        cases h3 : expectChar ':' c2 with
        | none => simp [h3] at h
        | some c3 =>
          simp only [h3, Option.some_bind] at h
          cases h4 : getnum c3 true with
          | none => simp [h4] at h
          | some p4 =>
            obtain ⟨minute, c4⟩ := p4
            simp only [h4, Option.some_bind] at h
            split_ifs at h with hm
            cases h5 : expectChar ':' c4 with
            | none => simp [h5] at h
            | some c5 =>
              simp only [h5, Option.some_bind] at h
              cases h6 : getnum c5 true with
              | none => simp [h6] at h
              | some p6 =>
                obtain ⟨second, c6⟩ := p6
                simp only [h6, Option.some_bind] at h
                split_ifs at h with hs
                cases h7 : getZone (getFraction c6).2 with
                | none => simp [h7] at h
                | some p7 =>
                  obtain ⟨utc, offset, c7⟩ := p7
                  simp only [h7, Option.some_bind] at h
                  split_ifs at h with he
                  simp only at he
                  subst he
                  exact ⟨c1, hour, c2, c3, minute, c4, c5, second, c6, rfl, h2, by omega, h3,
                    h4, by omega, h5, h6, by omega, utc, offset, h7⟩
  · rintro ⟨c1, hour, c2, c3, minute, c4, c5, second, c6, h1, h2, hh, h3, h4, hm, h5, h6, hs,
      utc, offset, h7⟩
    have nh : ¬ 24 ≤ hour := by omega
    have nm : ¬ 60 ≤ minute := by omega
    have ns : ¬ 60 ≤ second := by omega
    simp [h1, h2, nh, h3, h4, nm, h5, h6, ns, h7]

theorem minuteOn_accepts (c2 : List Char) :
    (∃ c3 minute c4 c5 second c6,
        expectChar ':' c2 = some c3 ∧ getnum c3 true = some (minute, c4) ∧ minute < 60 ∧
        expectChar ':' c4 = some c5 ∧ getnum c5 true = some (second, c6) ∧ second < 60 ∧
        ∃ utc offset, getZone (getFraction c6).2 = some (utc, offset, []))
      ↔ isLayoutMinuteOn c2 = true := by
  constructor
  · rintro ⟨c3, minute, c4, c5, second, c6, h3, h4, hm, h5, h6, hs, hz⟩
    rw [expectChar_iff] at h3 h5
    rw [getnum_fixed_iff] at h4 h6
    obtain ⟨n1, n2, e4, hn1, hn2, em⟩ := h4
    obtain ⟨s1, s2, e6, hs1, hs2, es⟩ := h6
    subst h3 e4 h5 e6 em es
    have hz2 := (getFraction_accepts c6).1 hz
    have hm2 : fieldValue n1 n2 ≤ 59 := by omega
    have hs3 : fieldValue s1 s2 ≤ 59 := by omega
    simp [isLayoutMinuteOn, hn1, hn2, hs1, hs2, hm2, hs3, hz2]
  · intro h
    rcases c2 with _ | ⟨k1, _ | ⟨n1, _ | ⟨n2, _ | ⟨k2, _ | ⟨s1, _ | ⟨s2, c6⟩⟩⟩⟩⟩⟩
    · simp [isLayoutMinuteOn] at h
    · simp [isLayoutMinuteOn] at h
    · simp [isLayoutMinuteOn] at h
    · simp [isLayoutMinuteOn] at h
    · simp [isLayoutMinuteOn] at h
    · simp [isLayoutMinuteOn] at h
    · simp only [isLayoutMinuteOn, Bool.and_eq_true, decide_eq_true_eq] at h
      obtain ⟨⟨⟨⟨⟨⟨⟨⟨e1, hn1⟩, hn2⟩, e2⟩, hs1⟩, hs2⟩, hm⟩, hs⟩, hz⟩ := h
      subst e1 e2
      exact ⟨_, _, _, _, _, _, (expectChar_iff _ _ _).2 rfl,
        getnum_two n1 n2 _ true hn1 hn2, by omega, (expectChar_iff _ _ _).2 rfl,
        getnum_two s1 s2 _ true hs1 hs2, by omega, (getFraction_accepts c6).2 hz⟩

theorem parseClock_accepts (cs : List Char) :
    (∃ r, parseClock cs = some r) ↔ ∃ rest, cs = 'T' :: rest ∧ isLayoutTime rest = true := by
  rw [parseClock_some_iff]
  constructor
  · rintro ⟨c1, hour, c2, c3, minute, c4, c5, second, c6, h1, h2, hh, hrest⟩
    have hmin : isLayoutMinuteOn c2 = true :=
      (minuteOn_accepts c2).1 ⟨c3, minute, c4, c5, second, c6, hrest⟩
    rw [expectChar_iff] at h1
    refine ⟨c1, h1, ?_⟩
    rw [getnum_free_iff] at h2
    rcases h2 with ⟨a, b, e, ha, hb, hn⟩ | ⟨a, e, ha, hn, hnext⟩
    · subst e hn
      have hh2 : fieldValue a b ≤ 23 := by omega
      simp [isLayoutTime, ha, hb, hh2, hmin]
    · subst e
      rcases c2 with _ | ⟨b, r⟩
      · simp [isLayoutMinuteOn] at hmin
      · have hb := hnext b r rfl
        simp [isLayoutTime, ha, hb, hmin]
  · rintro ⟨rest, hcs, h⟩
    subst hcs
    rcases rest with _ | ⟨h1, _ | ⟨h2, r⟩⟩
    · simp [isLayoutTime] at h
    · simp [isLayoutTime] at h
    · simp only [isLayoutTime, Bool.and_eq_true] at h
      obtain ⟨ha, h⟩ := h
      by_cases hb : h2.isDigit = true
      · rw [if_pos hb] at h
        simp only [Bool.and_eq_true, decide_eq_true_eq] at h
        obtain ⟨c3, minute, c4, c5, second, c6, hrest⟩ := (minuteOn_accepts r).2 h.2
        exact ⟨_, _, _, c3, minute, c4, c5, second, c6, (expectChar_iff _ _ _).2 rfl,
          getnum_two h1 h2 r false ha hb, by omega, hrest⟩
      · rw [if_neg hb] at h
        obtain ⟨c3, minute, c4, c5, second, c6, hrest⟩ := (minuteOn_accepts (h2 :: r)).2 h
        have hd := digitOf_lt h1 ha
        refine ⟨_, digitOf h1, h2 :: r, c3, minute, c4, c5, second, c6,
          (expectChar_iff _ _ _).2 rfl, ?_, by omega, hrest⟩
        rw [getnum_free_iff]
        refine Or.inr ⟨h1, rfl, ha, rfl, ?_⟩
        intro b r2 e
        simp only [List.cons.injEq] at e
        rw [← e.1]
        simpa using hb

theorem parseDate_eval (y1 y2 y3 y4 m1 m2 d1 d2 : Char) (rest : List Char)
    (hy1 : y1.isDigit = true) (hy2 : y2.isDigit = true) (hy3 : y3.isDigit = true)
    (hy4 : y4.isDigit = true) (hm1 : m1.isDigit = true) (hm2 : m2.isDigit = true)
    (hd1 : d1.isDigit = true) (hd2 : d2.isDigit = true) :
    parseDate (y1 :: y2 :: y3 :: y4 :: '-' :: m1 :: m2 :: '-' :: d1 :: d2 :: rest)
      = if fieldValue m1 m2 = 0 ∨ 12 < fieldValue m1 m2 then none
        else some ((yearValue y1 y2 y3 y4, fieldValue m1 m2, fieldValue d1 d2), rest) := by
  unfold parseDate
  simp only [getYear, hy1, hy2, hy3, hy4, and_self, if_true, Option.bind_eq_bind,
    Option.some_bind, expectChar, getnum_two _ _ _ _ hm1 hm2]
  split_ifs with hr
  · rfl
  · simp only [Option.pure_def, Option.some_bind, expectChar, if_true,
      getnum_two _ _ _ _ hd1 hd2]
    rfl

theorem parseRFC3339_accepts (s : String) :
    (∃ t, parseRFC3339 s = some t) ↔ isLayoutTimestamp s = true := by
  constructor
  · rintro ⟨t, h⟩
    obtain ⟨cs, hp⟩ := parseRFC3339_date s t h
    obtain ⟨y1, y2, y3, y4, m1, m2, d1, d2, hcs, hy1, hy2, hy3, hy4, hm1, hm2, hd1, hd2, ey, em,
      ed⟩ := parseDate_some _ _ _ _ _ hp
    have hp2 := hp
    rw [hcs, parseDate_eval y1 y2 y3 y4 m1 m2 d1 d2 cs hy1 hy2 hy3 hy4 hm1 hm2 hd1 hd2] at hp2
    split_ifs at hp2 with hrange
    unfold parseRFC3339 at h
    rw [hp] at h
    simp only at h
    cases hc : parseClock cs with
    | none => simp [hc] at h
    | some r =>
      obtain ⟨hour, minute, second, fraction, utc, zoneOffset⟩ := r
      simp only [hc] at h
      split_ifs at h with hday
      obtain ⟨rest, hrest, htime⟩ := (parseClock_accepts cs).1 ⟨_, hc⟩
      subst hrest
      have hmonth1 : 1 ≤ fieldValue m1 m2 := by omega
      have hmonth2 : fieldValue m1 m2 ≤ 12 := by omega
      have hday1 : 1 ≤ fieldValue d1 d2 := by
        have : t.day = fieldValue d1 d2 := ed
        omega
      have hday2 : fieldValue d1 d2 ≤ rfcMonthDays (yearValue y1 y2 y3 y4) (fieldValue m1 m2) := by
        rw [rfcMonthDays_eq _ _ hmonth1 hmonth2]
        have e1 : t.day = fieldValue d1 d2 := ed
        have e2 : t.month = fieldValue m1 m2 := em
        have e3 : t.year = yearValue y1 y2 y3 y4 := ey
        rw [← e1, ← e2, ← e3]
        omega
      unfold isLayoutTimestamp
      rw [hcs]
      simp [isFullDate, hy1, hy2, hy3, hy4, hm1, hm2, hd1, hd2, hmonth1, hmonth2, hday1, hday2,
        htime]
  · intro h
    unfold isLayoutTimestamp at h
    split at h
    · rename_i y1 y2 y3 y4 dash1 m1 m2 dash2 d1 d2 tee rest hcs
      simp only [isFullDate, Bool.and_eq_true, decide_eq_true_eq] at h
      obtain ⟨⟨⟨⟨⟨⟨⟨⟨⟨⟨⟨⟨⟨⟨⟨hy1, hy2⟩, hy3⟩, hy4⟩, e1⟩, hm1⟩, hm2⟩, e2⟩, hd1⟩, hd2⟩, hmonth1⟩,
        hmonth2⟩, hday1⟩, hday2⟩, et⟩, htime⟩ := h
      subst e1 e2 et
      obtain ⟨r, hc⟩ := (parseClock_accepts ('T' :: rest)).2 ⟨rest, rfl, htime⟩
      obtain ⟨hour, minute, second, fraction, utc, zoneOffset⟩ := r
      have hrange : ¬ (fieldValue m1 m2 = 0 ∨ 12 < fieldValue m1 m2) := by omega
      rw [rfcMonthDays_eq _ _ hmonth1 hmonth2] at hday2
      have hday : ¬ (fieldValue d1 d2 < 1 ∨
          fieldValue d1 d2 > daysIn (fieldValue m1 m2) (yearValue y1 y2 y3 y4)) := by omega
      unfold parseRFC3339
      rw [hcs, parseDate_eval y1 y2 y3 y4 m1 m2 d1 d2 _ hy1 hy2 hy3 hy4 hm1 hm2 hd1 hd2,
        if_neg hrange]
      simp only [hc, if_neg hday]
      exact ⟨_, rfl⟩
    · cases h

theorem getLast_suffix (a b : List Char) (hb : b ≠ []) : (a ++ b).getLast? = b.getLast? := by
  rw [List.getLast?_append]
  cases hl : b.getLast? with
  | none => exact absurd (List.getLast?_eq_none_iff.1 hl) hb
  | some x => rfl

theorem isTimeOffset_layout (x : List Char) (h : isTimeOffset x = true)
    (hz : x.getLast? ≠ some 'z') : isLayoutOffset x = true := by
  rcases x with _ | ⟨z, _ | ⟨h1, _ | ⟨h2, _ | ⟨c, _ | ⟨m1, _ | ⟨m2, _ | ⟨y, r⟩⟩⟩⟩⟩⟩⟩
  · simp [isTimeOffset] at h
  · simp only [isTimeOffset, Bool.or_eq_true, decide_eq_true_eq] at h
    rcases h with h | h
    · simp [isLayoutOffset, h]
    · subst h
      exact absurd rfl hz
  · simp [isTimeOffset] at h
  · simp [isTimeOffset] at h
  · simp [isTimeOffset] at h
  · simp [isTimeOffset] at h
  · simp only [isTimeOffset, Bool.and_eq_true, Bool.or_eq_true, decide_eq_true_eq] at h
    obtain ⟨⟨⟨⟨⟨⟨⟨hs, ha⟩, hb⟩, hc⟩, hm1⟩, hm2⟩, hh⟩, hm⟩ := h
    have hh2 : fieldValue h1 h2 ≤ 24 := by omega
    have hm3 : fieldValue m1 m2 ≤ 60 := by omega
    simp only [isLayoutOffset, Bool.and_eq_true, Bool.or_eq_true, decide_eq_true_eq]
    exact ⟨⟨⟨⟨⟨⟨⟨hs, ha⟩, hb⟩, hc⟩, hm1⟩, hm2⟩, hh2⟩, hm3⟩
  · simp [isTimeOffset] at h

theorem isTimeOffset_head (m : Char) (rest : List Char)
    (h : isTimeOffset (m :: rest) = true) : m = 'Z' ∨ m = 'z' ∨ m = '+' ∨ m = '-' := by
  rcases rest with _ | ⟨h1, _ | ⟨h2, _ | ⟨c, _ | ⟨m1, _ | ⟨m2, _ | ⟨x, r⟩⟩⟩⟩⟩⟩
  · simp only [isTimeOffset, Bool.or_eq_true, decide_eq_true_eq] at h
    rcases h with h | h
    · exact Or.inl h
    · exact Or.inr (Or.inl h)
  · simp [isTimeOffset] at h
  · simp [isTimeOffset] at h
  · simp [isTimeOffset] at h
  · simp [isTimeOffset] at h
  · simp only [isTimeOffset, Bool.and_eq_true, Bool.or_eq_true, decide_eq_true_eq] at h
    exact Or.inr (Or.inr h.1.1.1.1.1.1.1)
  · simp [isTimeOffset] at h

theorem isSecfracOffset_layout (cs : List Char) (h : isSecfracOffset cs = true)
    (hz : cs.getLast? ≠ some 'z') : isLayoutSecfracOffset cs = true := by
  rcases cs with _ | ⟨mark, rest⟩
  · simp [isSecfracOffset] at h
  · simp only [isSecfracOffset] at h
    simp only [isLayoutSecfracOffset]
    by_cases hm : mark = '.'
    · rw [if_pos hm] at h
      rw [if_pos (Or.inl hm)]
      rcases rest with _ | ⟨d, r⟩
      · cases h
      · simp only [Bool.and_eq_true] at h ⊢
        refine ⟨h.1, isTimeOffset_layout _ h.2 ?_⟩
        have hne : List.dropWhile Char.isDigit (d :: r) ≠ [] := by
          intro e
          rw [e] at h
          simp [isTimeOffset] at h
        have hsplit : mark :: d :: r
            = (mark :: List.takeWhile Char.isDigit (d :: r))
              ++ List.dropWhile Char.isDigit (d :: r) := by
          rw [List.cons_append, List.takeWhile_append_dropWhile]
        rw [hsplit, getLast_suffix _ _ hne] at hz
        exact hz
    · rw [if_neg hm] at h
      have hc : ¬ (mark = '.' ∨ mark = ',') := by
        rintro (e | e)
        · exact hm e
        · rcases isTimeOffset_head _ _ h with e2 | e2 | e2 | e2 <;> rw [e] at e2 <;>
            exact absurd e2 (by decide)
      rw [if_neg hc]
      exact isTimeOffset_layout _ h hz

theorem fieldValue_sixty (a b : Char) (ha : a.isDigit = true) (hb : b.isDigit = true)
    (h : fieldValue a b = 60) : a = '6' ∧ b = '0' := by
  have h1 := digitOf_lt a ha
  have h2 := digitOf_lt b hb
  unfold fieldValue at h
  have e1 : digitOf a = 6 := by omega
  have e2 : digitOf b = 0 := by omega
  have c1 := digitChar_digitOf a ha
  have c2 := digitChar_digitOf b hb
  rw [e1] at c1
  rw [e2] at c2
  exact ⟨c1.symm, c2.symm⟩

theorem isRFC3339_layout (s : String) (h : isRFC3339 s = true)
    (ht : s.toList[10]? = some 'T') (hz : s.toList.getLast? ≠ some 'z')
    (hs : secondsField s ≠ ['6', '0']) : isLayoutTimestamp s = true := by
  unfold isRFC3339 at h
  unfold isLayoutTimestamp
  unfold secondsField at hs
  split at h
  · rename_i y1 y2 y3 y4 dash1 m1 m2 dash2 d1 d2 tee rest hcs
    rw [hcs] at ht hz hs
    simp only [Bool.and_eq_true] at h
    obtain ⟨⟨hdate, _⟩, htime⟩ := h
    simp only [List.getElem?_cons_succ, List.getElem?_cons_zero, Option.some.injEq] at ht
    subst ht
    simp only [hdate, decide_True, Bool.and_true, Bool.true_and]
    rcases rest with _ | ⟨h1, _ | ⟨h2, _ | ⟨c1, _ | ⟨n1, _ | ⟨n2, _ | ⟨c2, _ | ⟨s1, _ | ⟨s2,
      rest2⟩⟩⟩⟩⟩⟩⟩⟩
    · simp [isFullTime] at htime
    · simp [isFullTime] at htime
    · simp [isFullTime] at htime
    · simp [isFullTime] at htime
    · simp [isFullTime] at htime
    · simp [isFullTime] at htime
    · simp [isFullTime] at htime
    · simp [isFullTime] at htime
    · simp only [isFullTime, Bool.and_eq_true, decide_eq_true_eq] at htime
      obtain ⟨⟨⟨⟨⟨⟨⟨⟨⟨⟨⟨ha, hb⟩, e1⟩, hn1⟩, hn2⟩, e2⟩, hs1⟩, hs2⟩, hh⟩, hm⟩, hsec⟩, hoff⟩ := htime
      have hsec2 : fieldValue s1 s2 ≤ 59 := by
        rcases Nat.lt_or_ge (fieldValue s1 s2) 60 with hlt | hge
        · omega
        · have e60 : fieldValue s1 s2 = 60 := by omega
          obtain ⟨e3, e4⟩ := fieldValue_sixty s1 s2 hs1 hs2 e60
          subst e3 e4
          exact absurd rfl hs
      have hne : rest2 ≠ [] := by
        intro e
        rw [e] at hoff
        simp [isSecfracOffset] at hoff
      have hsplit : y1 :: y2 :: y3 :: y4 :: dash1 :: m1 :: m2 :: dash2 :: d1 :: d2 :: 'T' :: h1 ::
          h2 :: c1 :: n1 :: n2 :: c2 :: s1 :: s2 :: rest2
          = [y1, y2, y3, y4, dash1, m1, m2, dash2, d1, d2, 'T', h1, h2, c1, n1, n2, c2, s1, s2]
            ++ rest2 := rfl
      rw [hsplit, getLast_suffix _ _ hne] at hz
      have hlay := isSecfracOffset_layout rest2 hoff hz
      simp only [isLayoutTime, ha, hb, if_true, Bool.true_and, Bool.and_eq_true,
        decide_eq_true_eq, isLayoutMinuteOn]
      exact ⟨hh, ⟨⟨⟨⟨⟨⟨⟨e1, hn1⟩, hn2⟩, e2⟩, hs1⟩, hs2⟩, hm⟩, hsec2⟩, hlay⟩
  · cases h

theorem parseSSTPDate_of_parsed (localZone : ParsedTime → Option String) (s : String)
    (t : ParsedTime) (h : parseRFC3339 s = some t) :
    parseSSTPDate localZone s = String.mk (s.toList.take 10) ∧
    (parseSSTPDate localZone s).length = 10 ∧
    ∃ y1 y2 y3 y4 m1 m2 d1 d2,
      (parseSSTPDate localZone s).toList = [y1, y2, y3, y4, '-', m1, m2, '-', d1, d2] ∧
      y1.isDigit = true ∧ y2.isDigit = true ∧ y3.isDigit = true ∧ y4.isDigit = true ∧
      m1.isDigit = true ∧ m2.isDigit = true ∧ d1.isDigit = true ∧ d2.isDigit = true ∧
      t.year = ((digitOf y1 * 10 + digitOf y2) * 10 + digitOf y3) * 10 + digitOf y4 ∧
      t.month = digitOf m1 * 10 + digitOf m2 ∧ t.day = digitOf d1 * 10 + digitOf d2 := by
  obtain ⟨hf, y1, y2, y3, y4, m1, m2, d1, d2, htake, hy1, hy2, hy3, hy4, hm1, hm2, hd1,
    hd2⟩ := firstField_timeString (localZone t) s t h
  obtain ⟨rest, hp⟩ := parseRFC3339_date s t h
  obtain ⟨a1, a2, a3, a4, b1, b2, c1, c2, hcs, _, _, _, _, _, _, _, _, ey, em, ed⟩ :=
    parseDate_some _ _ _ _ _ hp
  have hres : parseSSTPDate localZone s = String.mk (s.toList.take 10) := by
    unfold parseSSTPDate
    rw [h]
    simp only
    rw [hf]
  have hsame : [y1, y2, y3, y4, '-', m1, m2, '-', d1, d2]
      = [a1, a2, a3, a4, '-', b1, b2, '-', c1, c2] := by
    rw [← htake, hcs]
    rfl
  simp only [List.cons.injEq, and_true, true_and] at hsame
  obtain ⟨e1, e2, e3, e4, e5, e6, e7, e8⟩ := hsame
  subst e1 e2 e3 e4 e5 e6 e7 e8
  refine ⟨hres, ?_, y1, y2, y3, y4, m1, m2, d1, d2, ?_, hy1, hy2, hy3, hy4, hm1, hm2, hd1,
    hd2, ey, em, ed⟩
  · rw [hres, htake]
    rfl
  · rw [hres, htake]
    rfl

theorem parseSSTPDate_of_layout (localZone : ParsedTime → Option String) (s : String)
    (h : isLayoutTimestamp s = true) :
    parseSSTPDate localZone s = String.mk (s.toList.take 10) ∧
    ∃ y1 y2 y3 y4 m1 m2 d1 d2,
      (parseSSTPDate localZone s).toList = [y1, y2, y3, y4, '-', m1, m2, '-', d1, d2] ∧
      isFullDate y1 y2 y3 y4 '-' m1 m2 '-' d1 d2 = true := by
  obtain ⟨t, ht⟩ := (parseRFC3339_accepts s).2 h
  obtain ⟨hres, _, _⟩ := parseSSTPDate_of_parsed localZone s t ht
  refine ⟨hres, ?_⟩
  rw [hres]
  unfold isLayoutTimestamp at h
  split at h
  · rename_i y1 y2 y3 y4 dash1 m1 m2 dash2 d1 d2 tee rest hcs
    simp only [Bool.and_eq_true] at h
    obtain ⟨⟨hdate, _⟩, _⟩ := h
    have hd := hdate
    simp only [isFullDate, Bool.and_eq_true, decide_eq_true_eq] at hd
    obtain ⟨⟨⟨⟨⟨⟨⟨⟨⟨⟨⟨⟨⟨_, _⟩, _⟩, _⟩, e1⟩, _⟩, _⟩, e2⟩, _⟩, _⟩, _⟩, _⟩, _⟩, _⟩ := hd
    subst e1 e2
    exact ⟨y1, y2, y3, y4, m1, m2, d1, d2, by rw [hcs]; rfl, hdate⟩
  · cases h

/-- C19, amended: for every expiry string that is a valid RFC 3339 timestamp
written with the capital `T`, with a zone that is not the lower-case `z`, and
with a seconds field other than `60`, `parseSSTPDate` returns exactly its date
part, the first ten characters `YYYY-MM-DD` (no time of day and no zone
offset).  More generally it returns the date part of every string of the form
`time.Parse` takes under the layout RFC3339 (`isLayoutTimestamp`: the same
timestamps, and besides them an hour of one digit, a comma before the
fraction, an offset of up to 24 hours and 60 minutes), and it returns every
other string unchanged.  `GetSSTPUsers`, when it succeeds, returns the decoded
user list with `parseSSTPDate` applied to the expiry of every entry.  The last
part gives the year, month and day `time.Parse` has read as the values of the
digits returned. -/
theorem parseSSTPDate_date_part :
    (∀ (localZone : ParsedTime → Option String) (s : String),
      isRFC3339 s = true → s.toList[10]? = some 'T' → s.toList.getLast? ≠ some 'z' →
      secondsField s ≠ ['6', '0'] →
      parseSSTPDate localZone s = String.mk (s.toList.take 10) ∧
      (parseSSTPDate localZone s).length = 10) ∧
    (∀ (localZone : ParsedTime → Option String) (s : String),
      isLayoutTimestamp s = true →
      parseSSTPDate localZone s = String.mk (s.toList.take 10) ∧
      ∃ y1 y2 y3 y4 m1 m2 d1 d2,
        (parseSSTPDate localZone s).toList = [y1, y2, y3, y4, '-', m1, m2, '-', d1, d2] ∧
        isFullDate y1 y2 y3 y4 '-' m1 m2 '-' d1 d2 = true) ∧
    (∀ (localZone : ParsedTime → Option String) (s : String),
      isLayoutTimestamp s = false → parseSSTPDate localZone s = s) ∧
    (∀ (env : Remote) (users : List UserInfo),
      GetSSTPUsers env = (some users, none) →
      ∃ (body : JSON) (response : EnumUserResponse),
        env.post env.SSTPServerURL env.SSTPAdminPassword (enumUserRequest env)
          = .answered (some body) ∧
        decodeEnumUserResponse body = some response ∧
        users.length = response.Result.UserList.length ∧
        ∀ (i : Nat) (user : UserInfo), response.Result.UserList[i]? = some user →
          users[i]? = some { user with Expires := parseSSTPDate env.localZone user.Expires }) ∧
    (∀ (localZone : ParsedTime → Option String) (s : String) (t : ParsedTime),
      parseRFC3339 s = some t →
      parseSSTPDate localZone s = String.mk (s.toList.take 10) ∧
      (parseSSTPDate localZone s).length = 10 ∧
      ∃ y1 y2 y3 y4 m1 m2 d1 d2,
        (parseSSTPDate localZone s).toList = [y1, y2, y3, y4, '-', m1, m2, '-', d1, d2] ∧
        y1.isDigit = true ∧ y2.isDigit = true ∧ y3.isDigit = true ∧ y4.isDigit = true ∧
        m1.isDigit = true ∧ m2.isDigit = true ∧ d1.isDigit = true ∧ d2.isDigit = true ∧
        t.year = ((digitOf y1 * 10 + digitOf y2) * 10 + digitOf y3) * 10 + digitOf y4 ∧
        t.month = digitOf m1 * 10 + digitOf m2 ∧ t.day = digitOf d1 * 10 + digitOf d2)
    := by
  refine ⟨?_, parseSSTPDate_of_layout, ?_, ?_, parseSSTPDate_of_parsed⟩
  · intro localZone s h ht hz hs
    obtain ⟨t, hp⟩ := (parseRFC3339_accepts s).2 (isRFC3339_layout s h ht hz hs)
    obtain ⟨h1, h2, _⟩ := parseSSTPDate_of_parsed localZone s t hp
    exact ⟨h1, h2⟩
  · intro localZone s h
    have hn : parseRFC3339 s = none := by
      cases hp : parseRFC3339 s with
      | none => rfl
      | some t =>
        have := (parseRFC3339_accepts s).1 ⟨t, hp⟩
        rw [h] at this
        cases this
    unfold parseSSTPDate
    rw [hn]
  · intro env users h
    unfold GetSSTPUsers at h
    split at h
    · simp at h
    · rename_i body hpost
      split at h
      · simp at h
      · rename_i response hdec
        simp only at h
        split_ifs at h with hid
        · simp at h
        · simp only [Prod.mk.injEq, Option.some.injEq, and_true] at h
          cases hb : body with
          | none => simp [hb] at hdec
          | some j =>
            rw [hb] at hpost hdec
            simp only [Option.some_bind] at hdec
            refine ⟨j, response, hpost, hdec, ?_, ?_⟩
            · rw [← h]
              simp
            · intro i user hi
              rw [← h]
              simp [List.getElem?_map, hi]

/-- Witness of C19: a timestamp of RFC 3339 with a fractional second and an
offset, a timestamp with an hour of one digit, two strings that are returned
unchanged, a user list with one entry of each kind, and the fields read from
the first timestamp. -/
theorem parseSSTPDate_date_part_witness :
    (parseSSTPDate (fun _ => none) "2025-03-09T23:59:59.120+09:00"
        = String.mk ("2025-03-09T23:59:59.120+09:00".toList.take 10) ∧
      (parseSSTPDate (fun _ => none) "2025-03-09T23:59:59.120+09:00").length = 10) ∧
    "2025-03-09T23:59:59.120+09:00".toList.take 10 = "2025-03-09".toList ∧
    parseSSTPDate (fun _ => none) "2025-03-09T1:02:03Z"
      = String.mk ("2025-03-09T1:02:03Z".toList.take 10) ∧
    parseSSTPDate (fun _ => none) "never" = "never" ∧
    parseSSTPDate (fun _ => none) "2025-03-09 23:59:59" = "2025-03-09 23:59:59" ∧
    GetSSTPUsers (answering (enumAnswer "req-1"))
      = (some [{ Name := "u1", Note := "", Expires := "2025-03-09", IsExpires := true },
               { Name := "u2", Note := "", Expires := "never", IsExpires := false }], none) ∧
    parseSSTPDate (fun _ => none) "2025-03-09T23:59:59.120+09:00"
      = String.mk ("2025-03-09T23:59:59.120+09:00".toList.take 10) :=
  ⟨parseSSTPDate_date_part.1 (fun _ => none) "2025-03-09T23:59:59.120+09:00"
      (by decide) (by decide) (by decide) (by decide),
   by rfl,
   (parseSSTPDate_date_part.2.1 (fun _ => none) "2025-03-09T1:02:03Z" (by decide)).1,
   parseSSTPDate_date_part.2.2.1 (fun _ => none) "never" (by decide),
   parseSSTPDate_date_part.2.2.1 (fun _ => none) "2025-03-09 23:59:59" (by decide),
   by rfl,
   (parseSSTPDate_date_part.2.2.2.2 (fun _ => none) "2025-03-09T23:59:59.120+09:00"
      { year := 2025, month := 3, day := 9, hour := 23, minute := 59, second := 59,
        fraction := ['1', '2', '0'], utc := false, zoneOffset := 32400 } (by rfl)).1⟩

/-- C19, counterexample: `1990-12-31T23:59:60Z`, the leap second of RFC 3339
section 5.8, and `2025-03-09t23:59:59z`, written in lower case, are valid
RFC 3339 timestamps and `parseSSTPDate` returns them whole, not their date
part; `2025-03-09T1:02:03Z`, with an hour of one digit, and
`2025-03-09T23:59:59,5Z`, with a comma before the fraction, are no RFC 3339
timestamps and `parseSSTPDate` does not return them unchanged. -/
theorem parseSSTPDate_rfc3339_counterexample :
    (isRFC3339 "1990-12-31T23:59:60Z" = true ∧
      parseSSTPDate (fun _ => none) "1990-12-31T23:59:60Z" = "1990-12-31T23:59:60Z" ∧
      parseSSTPDate (fun _ => none) "1990-12-31T23:59:60Z" ≠ "1990-12-31") ∧
    (isRFC3339 "2025-03-09t23:59:59z" = true ∧
      parseSSTPDate (fun _ => none) "2025-03-09t23:59:59z" = "2025-03-09t23:59:59z" ∧
      parseSSTPDate (fun _ => none) "2025-03-09t23:59:59z" ≠ "2025-03-09") ∧
    (isRFC3339 "2025-03-09T1:02:03Z" = false ∧
      parseSSTPDate (fun _ => none) "2025-03-09T1:02:03Z" = "2025-03-09" ∧
      parseSSTPDate (fun _ => none) "2025-03-09T1:02:03Z" ≠ "2025-03-09T1:02:03Z") ∧
    (isRFC3339 "2025-03-09T23:59:59,5Z" = false ∧
      parseSSTPDate (fun _ => none) "2025-03-09T23:59:59,5Z" = "2025-03-09" ∧
      parseSSTPDate (fun _ => none) "2025-03-09T23:59:59,5Z" ≠ "2025-03-09T23:59:59,5Z") :=
  ⟨⟨by decide, by rfl, by decide⟩, ⟨by decide, by rfl, by decide⟩,
   ⟨by decide, by rfl, by decide⟩, ⟨by decide, by rfl, by decide⟩⟩

/-! ## Descriptors: claims -/

theorem utf8_append (a b : String) : utf8 (a ++ b) = utf8 a ++ utf8 b := by
  unfold utf8
  have e : (a ++ b).toList = a.toList ++ b.toList := by
    cases a
    cases b
    rfl
  rw [e, List.foldr_append]
  generalize (List.foldr (fun c bytes => utf8EncodeChar c ++ bytes) [] b.toList) = tail
  induction a.toList with
  | nil => rfl
  | cons c rest ih => simp only [List.foldr_cons, List.append_assoc, ih]

/-- C20: for every credential whose password has at least four bytes,
`GenerateShadowsocksURI` returns, with a nil error, exactly
`ss://` + stdBase64(`aes-128-gcm:` + password) + `@` + host + `:` +
decimal(port) + `#` + queryEscape(label), where the label is
`valid before (<expireDate>) <first host label>-<region>-` followed by the last
four bytes of the password. -/
theorem shadowsocks_uri_format (cfg : Config) (data : Client)
    (h : 4 ≤ (utf8 data.Password).length) :
    ∃ front tail : List Nat,
      utf8 data.Password = front ++ tail ∧ tail.length = 4 ∧
      GenerateShadowsocksURI cfg data = .returned
        ("ss://" ++ String.mk (base64Encode (utf8 ("aes-128-gcm:" ++ data.Password))) ++ "@" ++
          cfg.WebHost ++ ":" ++ formatInt data.Port ++ "#" ++
          String.mk (queryEscape
            (utf8 ("valid before (" ++ data.ExpireDate ++ ") " ++ firstLabel cfg.WebHost ++
              "-" ++ cfg.WebHostRegion ++ "-") ++ tail)),
         none) := by
  refine ⟨(utf8 data.Password).take ((utf8 data.Password).length - 4),
    (utf8 data.Password).drop ((utf8 data.Password).length - 4), ?_, ?_, ?_⟩
  · exact (List.take_append_drop _ _).symm
  · rw [List.length_drop]
    omega
  · have hne : data.Password ≠ "" := by
      intro e
      rw [e] at h
      revert h
      decide
    unfold GenerateShadowsocksURI
    simp only [if_neg (Nat.not_lt.mpr h), if_neg hne, shadowsocksLabel, utf8_append,
      ShadowsocksPrefix]
    rfl

/-- Witness of C20: the descriptor of `alice` (password `abc123`, port 10000,
expiry 2025-02-01) on the host `sg1.example.com` in region `sg`. -/
theorem shadowsocks_uri_format_witness :
    (∃ front tail : List Nat,
      utf8 "abc123" = front ++ tail ∧ tail.length = 4 ∧
      GenerateShadowsocksURI exampleConfig { alice with Port := 10000 } = .returned
        ("ss://" ++ String.mk (base64Encode (utf8 ("aes-128-gcm:" ++ "abc123"))) ++ "@" ++
          "sg1.example.com" ++ ":" ++ formatInt 10000 ++ "#" ++
          String.mk (queryEscape
            (utf8 ("valid before (" ++ "2025-02-01" ++ ") " ++ firstLabel "sg1.example.com" ++
              "-" ++ "sg" ++ "-") ++ tail)),
         none)) ∧
    GenerateShadowsocksURI exampleConfig { alice with Port := 10000 } = .returned
      ("ss://YWVzLTEyOC1nY206YWJjMTIz@sg1.example.com:10000#valid+before+%282025-02-01%29+sg1-sg-c123",
       none) :=
  ⟨shadowsocks_uri_format exampleConfig { alice with Port := 10000 } (by decide), by rfl⟩

/-! ## Delete: the located index and the guard -/

theorem rangeBreakFrom_eq {α : Type} (p : α → Bool) (xs : List α) :
    ∀ index i : Nat, rangeBreakFrom p index i xs =
      match findIndex p xs with
      | some k => i + k
      | none => if xs.length = 0 then index else i + (xs.length - 1) := by
  induction xs with
  | nil => intro index i; simp [rangeBreakFrom, findIndex]
  | cons x rest ih =>
    intro index i
    by_cases hp : p x = true
    · simp [rangeBreakFrom, findIndex, hp]
    · simp only [rangeBreakFrom, findIndex, hp, if_false, Bool.false_eq_true]
      rw [ih i (i + 1)]
      cases hf : findIndex p rest with
      | some k =>
        show i + 1 + k = i + (k + 1)
        omega
      | none =>
        cases rest with
        | nil => simp
        | cons y ys =>
          simp only [Option.map_none', List.length_cons]
          show i + 1 + (ys.length + 1 - 1) = i + (ys.length + 1 + 1 - 1)
          omega

/-- The search loop of Delete computes the located index of the specification. -/
theorem rangeBreak_eq_locatedIndex {α : Type} (p : α → Bool) (xs : List α) :
    rangeBreak p xs = locatedIndex p xs := by
  unfold rangeBreak locatedIndex
  rw [rangeBreakFrom_eq]
  cases hf : findIndex p xs with
  | some k => simp
  | none =>
    cases xs with
    | nil => simp
    | cons y ys => simp

theorem locatedIndex_lt {α : Type} (p : α → Bool) (xs : List α) (h : xs ≠ []) :
    locatedIndex p xs < xs.length := by
  unfold locatedIndex
  have hpos : 0 < xs.length := List.length_pos.mpr h
  cases hf : findIndex p xs with
  | some k => exact findIndex_lt p xs k hf
  | none => simp only; omega

theorem writeBack_ok (env : Env) (configResult userResult : List (String × JSON)) (w : World)
    (hwc : env.writeConfig = .ok) (hwu : env.writeUsers = .ok) :
    writeBack env configResult userResult w =
      (true, { w with configFile := some (.obj configResult),
                      usersFile := some (.obj userResult) }) := by
  simp [writeBack, hwc, hwu]

theorem DeleteShadowsocksUser_guard (env : Env) (password deviceId : String) (w : World)
    (inbounds : List Inbound) (users : List Client)
    (hi : inboundsOf w = some inbounds) (hu : rosterOf w = some users) (hne : users ≠ []) :
    ∃ user, users[locatedIndex (fun u : Client => decide (u.Password = password)) users]?
        = some user ∧
      ((user.Password ≠ password ∧ user.DeviceId ≠ deviceId) →
        DeleteShadowsocksUser env password deviceId w = (.returned forbiddenReply, w)) ∧
      (¬ (user.Password ≠ password ∧ user.DeviceId ≠ deviceId) →
        (∀ r, (DeleteShadowsocksUser env password deviceId w).1 = .returned r →
          r.status ≠ 403) ∧
        (users.length ≤ inbounds.length → env.writeConfig = .ok → env.writeUsers = .ok →
          inboundsOf (DeleteShadowsocksUser env password deviceId w).2
            = some (inbounds.eraseIdx
                (locatedIndex (fun u : Client => decide (u.Password = password)) users)) ∧
          rosterOf (DeleteShadowsocksUser env password deviceId w).2
            = some (users.eraseIdx
                (locatedIndex (fun u : Client => decide (u.Password = password)) users)))) := by
  obtain ⟨d, hd, hdi, hdu⟩ := load_of_inbounds w inbounds users hi hu
  have hlt := locatedIndex_lt (fun u : Client => decide (u.Password = password)) users hne
  obtain ⟨user, huser⟩ :
      ∃ x, users[locatedIndex (fun u : Client => decide (u.Password = password)) users]? = some x :=
    ⟨users[locatedIndex (fun u : Client => decide (u.Password = password)) users],
      List.getElem?_eq_getElem hlt⟩
  refine ⟨user, huser, ?_, ?_⟩
  · intro hg
    unfold DeleteShadowsocksUser
    simp only [hd, rangeBreak_eq_locatedIndex, hdu, huser, if_pos hg]
    rfl
  · intro hg
    constructor
    · intro r hr
      unfold DeleteShadowsocksUser at hr
      simp only [hd, rangeBreak_eq_locatedIndex, hdu, huser, if_neg hg] at hr
      split_ifs at hr with hlen
      split at hr
      · cases hr
        decide
      · split at hr
        · cases hr
          decide
        · cases hr
          simp
    · intro hlen hwc hwu
      have hnot : ¬ (locatedIndex (fun u : Client => decide (u.Password = password)) users + 1
          > d.inbounds.length) := by
        rw [hdi]
        omega
      unfold DeleteShadowsocksUser
      simp only [hd, rangeBreak_eq_locatedIndex, hdu, hdi, huser, if_neg hg, writeBack_ok env _ _ w hwc hwu]
      rw [hdi] at hnot
      simp only [if_neg hnot]
      split
      · exact ⟨inboundsOf_written _ _ _ _, rosterOf_written _ _ _ _⟩
      · exact ⟨inboundsOf_written _ _ _ _, rosterOf_written _ _ _ _⟩

theorem DeleteVmessUser_guard (env : Env) (serverId deviceId : String) (w : World)
    (first : Inbound) (others : List Inbound) (users : List Client)
    (hi : inboundsOf w = some (first :: others)) (hu : rosterOf w = some users)
    (hne : users ≠ []) (hlen : (elems first.Settings.Clients).length = users.length) :
    ∃ user, users[locatedIndex (fun c : V2rayClient => decide (c.Id = serverId))
        (elems first.Settings.Clients)]? = some user ∧
      ((user.Id ≠ serverId ∧ user.DeviceId ≠ deviceId) →
        DeleteVmessUser env serverId deviceId w = (.returned forbiddenReply, w)) ∧
      (¬ (user.Id ≠ serverId ∧ user.DeviceId ≠ deviceId) →
        (∀ r, (DeleteVmessUser env serverId deviceId w).1 = .returned r → r.status ≠ 403) ∧
        (env.writeConfig = .ok → env.writeUsers = .ok →
          vmessClientsOf (DeleteVmessUser env serverId deviceId w).2
            = some ((elems first.Settings.Clients).eraseIdx
                (locatedIndex (fun c : V2rayClient => decide (c.Id = serverId))
                  (elems first.Settings.Clients))) ∧
          rosterOf (DeleteVmessUser env serverId deviceId w).2
            = some (users.eraseIdx
                (locatedIndex (fun c : V2rayClient => decide (c.Id = serverId))
                  (elems first.Settings.Clients))))) := by
  obtain ⟨d, hd, hdi, hdu⟩ := load_of_inbounds w (first :: others) users hi hu
  have hcne : elems first.Settings.Clients ≠ [] := by
    intro e
    rw [e] at hlen
    exact hne (List.length_eq_zero.mp hlen.symm)
  have hlt := locatedIndex_lt (fun c : V2rayClient => decide (c.Id = serverId))
    (elems first.Settings.Clients) hcne
  have hlt2 : locatedIndex (fun c : V2rayClient => decide (c.Id = serverId))
    (elems first.Settings.Clients) < users.length := by omega
  obtain ⟨user, huser⟩ :
      ∃ x, users[locatedIndex (fun c : V2rayClient => decide (c.Id = serverId))
        (elems first.Settings.Clients)]? = some x :=
    ⟨users[locatedIndex (fun c : V2rayClient => decide (c.Id = serverId))
        (elems first.Settings.Clients)], List.getElem?_eq_getElem hlt2⟩
  refine ⟨user, huser, ?_, ?_⟩
  · intro hg
    unfold DeleteVmessUser
    simp only [hd, hdi, rangeBreak_eq_locatedIndex, hdu, huser, if_pos hg]
    rfl
  · intro hg
    constructor
    · intro r hr
      unfold DeleteVmessUser at hr
      simp only [hd, hdi, rangeBreak_eq_locatedIndex, hdu, huser, if_neg hg] at hr
      split_ifs at hr with hl
      split at hr
      · cases hr
        decide
      · cases hr
        simp
    · intro hwc hwu
      have hnot : ¬ (locatedIndex (fun c : V2rayClient => decide (c.Id = serverId))
          (elems first.Settings.Clients) + 1 > (elems first.Settings.Clients).length) := by
        omega
      unfold DeleteVmessUser
      simp only [hd, hdi, rangeBreak_eq_locatedIndex, hdu, huser, if_neg hg, if_neg hnot,
        writeBack_ok env _ _ w hwc hwu]
      refine ⟨?_, rosterOf_written _ _ _ _⟩
      simp only [vmessClientsOf, inboundsOf_written, elems_some]

theorem locatedIndex_aligned (clients : List V2rayClient) (users : List Client)
    (serverId : String) (h : clients.map (fun c => c.Id) = users.map (fun u => u.Id)) :
    locatedIndex (fun c : V2rayClient => decide (c.Id = serverId)) clients
      = locatedIndex (fun u : Client => decide (u.Id = serverId)) users := by
  have hlen : clients.length = users.length := by
    have := congrArg List.length h
    simpa using this
  have hfind : ∀ (cs : List V2rayClient) (us : List Client),
      cs.map (fun c => c.Id) = us.map (fun u => u.Id) →
      findIndex (fun c : V2rayClient => decide (c.Id = serverId)) cs
        = findIndex (fun u : Client => decide (u.Id = serverId)) us := by
    intro cs
    induction cs with
    | nil =>
      intro us hus
      cases us with
      | nil => rfl
      | cons u rest => simp at hus
    | cons c rest ih =>
      intro us hus
      cases us with
      | nil => simp at hus
      | cons u urest =>
        simp only [List.map_cons, List.cons.injEq] at hus
        simp only [findIndex, hus.1, ih urest hus.2]
  unfold locatedIndex
  rw [hfind clients users h, hlen]

/-! ## Delete: the guard as written -/

/-- C27, amended: for either local protocol, on a document pair that parses and
whose roster is not empty (vmess: with as many clients in `inbounds[0]` as roster
entries), let `user` be the roster entry at the located index, the first index
whose identity equals the supplied one or the last index when none does
(shadowsocks: located among the roster passwords; vmess: among the client ids
of `inbounds[0]`, which on a pair whose clients and roster carry the same ids
in the same order is the index located in the roster, third part).  When the
identity of `user` and its device id both differ from the supplied ones, Delete
returns status 403 with `User's not found` and the world is the one before the
call; otherwise no reply of Delete has status 403 and, when both writes
succeed (shadowsocks: and there is an inbound at that index), the entry at
that index is gone from both documents. -/
theorem delete_forbidden_exactly_when_both_differ :
    (∀ (env : Env) (password deviceId : String) (w : World) (inbounds : List Inbound)
        (users : List Client),
      inboundsOf w = some inbounds → rosterOf w = some users → users ≠ [] →
      ∃ user, users[locatedIndex (fun u : Client => decide (u.Password = password)) users]?
          = some user ∧
        ((user.Password ≠ password ∧ user.DeviceId ≠ deviceId) →
          DeleteShadowsocksUser env password deviceId w = (.returned forbiddenReply, w)) ∧
        (¬ (user.Password ≠ password ∧ user.DeviceId ≠ deviceId) →
          (∀ r, (DeleteShadowsocksUser env password deviceId w).1 = .returned r →
            r.status ≠ 403) ∧
          (users.length ≤ inbounds.length → env.writeConfig = .ok → env.writeUsers = .ok →
            inboundsOf (DeleteShadowsocksUser env password deviceId w).2
              = some (inbounds.eraseIdx
                  (locatedIndex (fun u : Client => decide (u.Password = password)) users)) ∧
            rosterOf (DeleteShadowsocksUser env password deviceId w).2
              = some (users.eraseIdx
                  (locatedIndex (fun u : Client => decide (u.Password = password)) users))))) ∧
    (∀ (env : Env) (serverId deviceId : String) (w : World) (first : Inbound)
        (others : List Inbound) (users : List Client),
      inboundsOf w = some (first :: others) → rosterOf w = some users → users ≠ [] →
      (elems first.Settings.Clients).length = users.length →
      ∃ user, users[locatedIndex (fun c : V2rayClient => decide (c.Id = serverId))
          (elems first.Settings.Clients)]? = some user ∧
        ((user.Id ≠ serverId ∧ user.DeviceId ≠ deviceId) →
          DeleteVmessUser env serverId deviceId w = (.returned forbiddenReply, w)) ∧
        (¬ (user.Id ≠ serverId ∧ user.DeviceId ≠ deviceId) →
          (∀ r, (DeleteVmessUser env serverId deviceId w).1 = .returned r → r.status ≠ 403) ∧
          (env.writeConfig = .ok → env.writeUsers = .ok →
            vmessClientsOf (DeleteVmessUser env serverId deviceId w).2
              = some ((elems first.Settings.Clients).eraseIdx
                  (locatedIndex (fun c : V2rayClient => decide (c.Id = serverId))
                    (elems first.Settings.Clients))) ∧
            rosterOf (DeleteVmessUser env serverId deviceId w).2
              = some (users.eraseIdx
                  (locatedIndex (fun c : V2rayClient => decide (c.Id = serverId))
                    (elems first.Settings.Clients)))))) ∧
    (∀ (clients : List V2rayClient) (users : List Client) (serverId : String),
      clients.map (fun c => c.Id) = users.map (fun u => u.Id) →
      locatedIndex (fun c : V2rayClient => decide (c.Id = serverId)) clients
        = locatedIndex (fun u : Client => decide (u.Id = serverId)) users) :=
  ⟨DeleteShadowsocksUser_guard, DeleteVmessUser_guard, locatedIndex_aligned⟩

/-- Witness of C27 on `twoShadowsocksWorld` and `twoVmessWorld`: an unknown
identity with an unknown device id is refused with status 403 and nothing is
written; an unknown identity with the device id of the last entry removes the
last entry. -/
theorem delete_forbidden_exactly_when_both_differ_witness :
    DeleteShadowsocksUser calmEnv "nope" "device-x" twoShadowsocksWorld
      = (.returned forbiddenReply, twoShadowsocksWorld) ∧
    rosterOf (DeleteShadowsocksUser calmEnv "nope" "device-b" twoShadowsocksWorld).2
      = some [{ alice with Port := 10000 }] ∧
    DeleteVmessUser calmEnv "nope" "device-x" twoVmessWorld
      = (.returned forbiddenReply, twoVmessWorld) ∧
    vmessClientsOf (DeleteVmessUser calmEnv "nope" "device-b" twoVmessWorld).2
      = some [{ Id := "uuid-1", AlterId := 1 }] ∧
    locatedIndex (fun c : V2rayClient => decide (c.Id = "uuid-2"))
        [{ Id := "uuid-1", AlterId := 1 }, { Id := "uuid-2", AlterId := 1 }]
      = locatedIndex (fun u : Client => decide (u.Id = "uuid-2")) [carol, dave] := by
  obtain ⟨u1, hu1, hforbid1, _⟩ := delete_forbidden_exactly_when_both_differ.1 calmEnv
    "nope" "device-x" twoShadowsocksWorld [shadowsocksAsInbound 10000, shadowsocksAsInbound 10001]
    [{ alice with Port := 10000 }, { bob with Port := 10001 }] (by rfl) (by rfl) (by simp)
  obtain ⟨u2, hu2, _, hremove2⟩ := delete_forbidden_exactly_when_both_differ.1 calmEnv
    "nope" "device-b" twoShadowsocksWorld [shadowsocksAsInbound 10000, shadowsocksAsInbound 10001]
    [{ alice with Port := 10000 }, { bob with Port := 10001 }] (by rfl) (by rfl) (by simp)
  obtain ⟨u3, hu3, hforbid3, _⟩ := delete_forbidden_exactly_when_both_differ.2.1 calmEnv
    "nope" "device-x" twoVmessWorld vmessFirstInbound [] [carol, dave] (by rfl) (by rfl)
    (by simp) (by rfl)
  obtain ⟨u4, hu4, _, hremove4⟩ := delete_forbidden_exactly_when_both_differ.2.1 calmEnv
    "nope" "device-b" twoVmessWorld vmessFirstInbound [] [carol, dave] (by rfl) (by rfl)
    (by simp) (by rfl)
  have e1 : u1 = { bob with Port := 10001 } := (Option.some.inj hu1).symm
  have e2 : u2 = { bob with Port := 10001 } := (Option.some.inj hu2).symm
  have e3 : u3 = dave := (Option.some.inj hu3).symm
  have e4 : u4 = dave := (Option.some.inj hu4).symm
  subst e1 e2 e3 e4
  exact ⟨hforbid1 (by decide), ((hremove2 (by decide)).2 (by decide) rfl rfl).2,
    hforbid3 (by decide), ((hremove4 (by decide)).2 rfl rfl).1,
    delete_forbidden_exactly_when_both_differ.2.2 _ _ "uuid-2" (by rfl)⟩

/-- C27, counterexample: three calls with a roster that is not empty and an
entry at the located index that is not in the Forbidden case, none of which
removes the entry, and a fourth call in the Forbidden case that returns no
status.  On the Shadowsocks pair with the one roster entry of
`alice` and no inbound, Delete called with her password and her device id
panics at `slices.Delete(inbounds, 0, 1)` and her entry is still in the roster.
On `twoShadowsocksWorld`, when the write of the configuration document fails,
the same call returns status 500 and the roster still holds her entry.  On
`twoVmessWorld`, with the clients `uuid-1` and `uuid-2` and the roster entries
of `carol` and `dave`, Delete called with `uuid-1` and the device id of `carol`
locates index 0 in the roster and in the clients, and when the write of the
roster fails it returns status 500 and the roster still holds her entry.  On
the vmess pair with the same two clients and the one roster entry of `carol`,
Delete called with
`uuid-2` and `device-b` locates index 0 in the roster, where the id and the
device id both differ, and the call panics at `users[index]` with the index 1 it
located among the clients: no status 403 is returned. -/
theorem delete_not_removed_counterexample :
    rosterOf rosterOnlyShadowsocksWorld = some [{ alice with Port := 10000 }] ∧
    locatedIndex (fun u : Client => decide (u.Password = "abc123"))
      [{ alice with Port := 10000 }] = 0 ∧
    ¬ (({ alice with Port := 10000 } : Client).Password ≠ "abc123" ∧
       ({ alice with Port := 10000 } : Client).DeviceId ≠ "device-a") ∧
    DeleteShadowsocksUser calmEnv "abc123" "device-a" rosterOnlyShadowsocksWorld
      = (.panicked, rosterOnlyShadowsocksWorld) ∧
    (DeleteShadowsocksUser
        { calmEnv with writeConfig := .failed twoShadowsocksWorld.configFile }
        "abc123" "device-a" twoShadowsocksWorld).1
      = .returned { client := none, status := 500, err := some "Internal server error" } ∧
    rosterOf (DeleteShadowsocksUser
        { calmEnv with writeConfig := .failed twoShadowsocksWorld.configFile }
        "abc123" "device-a" twoShadowsocksWorld).2
      = some [{ alice with Port := 10000 }, { bob with Port := 10001 }] ∧
    locatedIndex (fun u : Client => decide (u.Id = "uuid-1")) [carol, dave] = 0 ∧
    ¬ (carol.Id ≠ "uuid-1" ∧ carol.DeviceId ≠ "device-a") ∧
    (DeleteVmessUser { calmEnv with writeUsers := .failed twoVmessWorld.usersFile }
        "uuid-1" "device-a" twoVmessWorld).1
      = .returned { client := none, status := 500, err := some "Internal server error" } ∧
    rosterOf (DeleteVmessUser { calmEnv with writeUsers := .failed twoVmessWorld.usersFile }
        "uuid-1" "device-a" twoVmessWorld).2
      = some [carol, dave] ∧
    rosterOf { twoVmessWorld with
        usersFile := some (.obj [("clients", .arr [encodeClient carol])]) } = some [carol] ∧
    locatedIndex (fun u : Client => decide (u.Id = "uuid-2")) [carol] = 0 ∧
    (carol.Id ≠ "uuid-2" ∧ carol.DeviceId ≠ "device-b") ∧
    DeleteVmessUser calmEnv "uuid-2" "device-b"
        { twoVmessWorld with usersFile := some (.obj [("clients", .arr [encodeClient carol])]) }
      = (.panicked, { twoVmessWorld with
          usersFile := some (.obj [("clients", .arr [encodeClient carol])]) }) :=
  ⟨by rfl, by rfl, by decide, by rfl, by rfl, by rfl, by rfl, by decide, by rfl, by rfl,
   by rfl, by rfl, by decide, by rfl⟩

/-! ## The empty password -/

/-- C28, the code at the failing input: with an empty password
`GenerateShadowsocksURI` does not return: `data.Password[len(data.Password)-4:]`
(line 493) is evaluated before the check of line 497 and panics, so neither the
error `password is required for Shadowsocks URI` nor a descriptor is returned,
whatever the configuration and the other fields are. -/
theorem empty_password_panics_before_check :
    (∀ (cfg : Config) (data : Client),
      GenerateShadowsocksURI cfg { data with Password := "" } = .panicked) ∧
    GenerateShadowsocksURI exampleConfig { alice with Password := "" }
      ≠ .returned ("", some "password is required for Shadowsocks URI") :=
  ⟨fun _ _ => rfl, fun h => Outcome.noConfusion
    ((rfl : GenerateShadowsocksURI exampleConfig { alice with Password := "" } = .panicked).symm.trans
      h)⟩

/-! ## Edit and the password -/

theorem findIndex_some {α : Type} (p : α → Bool) :
    ∀ (xs : List α) (i : Nat), findIndex p xs = some i →
      ∃ x, xs[i]? = some x ∧ p x = true := by
  intro xs
  induction xs with
  | nil => intro i h; simp [findIndex] at h
  | cons x rest ih =>
    intro i h
    simp only [findIndex] at h
    split_ifs at h with hp
    · simp only [Option.some.injEq] at h
      subst h
      exact ⟨x, by simp, hp⟩
    · cases hr : findIndex p rest with
      | none => simp [hr] at h
      | some j =>
        simp only [hr, Option.map_some', Option.some.injEq] at h
        subst h
        obtain ⟨y, hy, hpy⟩ := ih j hr
        exact ⟨y, by simpa using hy, hpy⟩

/-- C29, what the code does instead: whenever `EditShadowsocksUser` succeeds,
the record it returns is the roster entry whose password equals the password of
the input credential (that is how the entry is found, line 247), and the entry
written at that index of the roster and the inbound written at that index of
the configuration document carry that same password: no successful edit
stores a password different from the password of the returned previous
record. -/
theorem edit_shadowsocks_keeps_password (env : Env) (client : Client) (w w1 : World)
    (r : Reply) (h : EditShadowsocksUser env client w = (.returned r, w1))
    (hr : r.err = none) :
    ∃ (index : Nat) (old stored : Client) (inbound : ShadowsocksInbound),
      r.client = some old ∧ old.Password = client.Password ∧
      (rosterOf w1).bind (fun users => users[index]?) = some stored ∧
      stored.Password = old.Password ∧
      (shadowsocksInboundsOf w1).bind (fun inbounds => inbounds[index]?) = some inbound ∧
      inbound.Settings.Password = old.Password := by
  obtain ⟨d, index, inbound, oldClient, hd, hidx, hin, hold, hrep, hw1⟩ :=
    EditShadowsocksUser_ok env client w w1 r h hr
  obtain ⟨x, hx, hpx⟩ := findIndex_some _ _ _ hidx
  rw [hold] at hx
  cases hx
  have hpw : oldClient.Password = client.Password := by
    have := hpx
    simp only [decide_eq_true_eq] at this
    exact this.symm
  have hi1 : index < d.users.length := findIndex_lt _ _ _ hidx
  have hi2 : index < d.inbounds.length := by
    by_contra hcon
    rw [List.getElem?_eq_none (by omega)] at hin
    cases hin
  subst hw1
  subst hrep
  refine ⟨index, oldClient, shadowsocksModifiedClient client,
    inboundOn inbound.Port client.Password, rfl, hpw, ?_, hpw.symm, ?_, hpw.symm⟩
  · rw [rosterOf_written]
    simp [hi1]
  · rw [shadowsocksInboundsOf_written]
    simp [hi2]

/-- Witness of C29: editing `alice` in `twoShadowsocksWorld` under her password
`abc123`, the only password under which her record is found. -/
theorem edit_shadowsocks_keeps_password_witness :
    (∃ (index : Nat) (old stored : Client) (inbound : ShadowsocksInbound),
      some ({ alice with Port := 10000 } : Client) = some old ∧ old.Password = "abc123" ∧
      (rosterOf (EditShadowsocksUser calmEnv { alice with Username := "alice2" }
          twoShadowsocksWorld).2).bind (fun users => users[index]?) = some stored ∧
      stored.Password = old.Password ∧
      (shadowsocksInboundsOf (EditShadowsocksUser calmEnv { alice with Username := "alice2" }
          twoShadowsocksWorld).2).bind (fun inbounds => inbounds[index]?) = some inbound ∧
      inbound.Settings.Password = old.Password) ∧
    (EditShadowsocksUser calmEnv { alice with Password := "new-secret" } twoShadowsocksWorld).1
      = .returned { client := none, status := 400, err := some "Bad Request" } :=
  ⟨edit_shadowsocks_keeps_password calmEnv { alice with Username := "alice2" }
      twoShadowsocksWorld _
      { client := some { alice with Port := 10000 }, status := 200, err := none } (by rfl) rfl,
   by rfl⟩

/-! ## Create, then Delete -/

theorem findIndex_append_last {α : Type} (p : α → Bool) (x : α) (hx : p x = true) :
    ∀ xs : List α, (∀ y ∈ xs, p y = false) → findIndex p (xs ++ [x]) = some xs.length := by
  intro xs
  induction xs with
  | nil => intro _; simp [findIndex, hx]
  | cons y rest ih =>
    intro h
    have hy : p y = false := h y (List.mem_cons_self _ _)
    have hr := ih (fun z hz => h z (List.mem_cons_of_mem _ hz))
    simp [findIndex, hy, hr]

theorem eraseIdx_append_last {α : Type} (x : α) :
    ∀ xs : List α, (xs ++ [x]).eraseIdx xs.length = xs := by
  intro xs
  induction xs with
  | nil => rfl
  | cons y rest ih => simp [List.eraseIdx, ih]

theorem elems_some_withClients (first : Inbound) (clients : List V2rayClient) :
    elems (withClients first clients).Settings.Clients = clients := rfl

theorem DeleteVmessUser_succeeds (env : Env) (serverId deviceId : String) (w : World)
    (d : Loaded Inbound) (first : Inbound) (others : List Inbound) (user : Client)
    (hd : load decodeInbound w = some d) (hinb : d.inbounds = first :: others)
    (huser : d.users[locatedIndex (fun c : V2rayClient => decide (c.Id = serverId))
      (elems first.Settings.Clients)]? = some user)
    (hg : ¬ (user.Id ≠ serverId ∧ user.DeviceId ≠ deviceId))
    (hlt : locatedIndex (fun c : V2rayClient => decide (c.Id = serverId))
      (elems first.Settings.Clients) < (elems first.Settings.Clients).length)
    (hwc : env.writeConfig = .ok) (hwu : env.writeUsers = .ok) :
    DeleteVmessUser env serverId deviceId w =
      (.returned { client := some user, status := 200, err := none },
       { configFile := some (.obj (mapSet d.configResult "inbounds"
           (.arr ((withClients first ((elems first.Settings.Clients).eraseIdx
             (locatedIndex (fun c : V2rayClient => decide (c.Id = serverId))
               (elems first.Settings.Clients))) :: others).map encodeInbound)))),
         usersFile := some (.obj (mapSet d.userResult "clients"
           (.arr ((d.users.eraseIdx
             (locatedIndex (fun c : V2rayClient => decide (c.Id = serverId))
               (elems first.Settings.Clients))).map encodeClient)))),
         ufw := w.ufw }) := by
  have hnot : ¬ (locatedIndex (fun c : V2rayClient => decide (c.Id = serverId))
      (elems first.Settings.Clients) + 1 > (elems first.Settings.Clients).length) := by
    omega
  unfold DeleteVmessUser
  simp only [hd, hinb, rangeBreak_eq_locatedIndex, huser, if_neg hg, if_neg hnot,
    writeBack_ok env _ _ w hwc hwu]
  rfl

/-- C30: on a vmess document pair that parses, with at least one inbound and
as many clients in `inbounds[0]` as roster entries, when `CreateVmessUser(c)`
succeeds (so the id of `c` is not among those clients) and the two writes of
the Delete call succeed, `DeleteVmessUser(c.Id, c.DeviceId)` on the resulting
pair returns status 200 with `c` whose port is the configured v2ray port (the
value `strconv.Atoi` gives for the flag), and afterwards the client list of
`inbounds[0]` and the roster are the ones before the Create. -/
theorem vmess_delete_undoes_create (envC envD : Env) (c : Client) (w w1 : World)
    (first : Inbound) (others : List Inbound) (users : List Client)
    (hi : inboundsOf w = some (first :: others)) (hu : rosterOf w = some users)
    (hlen : (elems first.Settings.Clients).length = users.length)
    (hc : CreateVmessUser envC c w = (.returned none, w1))
    (hwc : envD.writeConfig = .ok) (hwu : envD.writeUsers = .ok) :
    (∀ client ∈ elems first.Settings.Clients, client.Id ≠ c.Id) ∧
    (DeleteVmessUser envD c.Id c.DeviceId w1).1
      = .returned { client := some { c with Port := (Atoi envC.V2rayPort).1 }, status := 200,
                    err := none } ∧
    vmessClientsOf (DeleteVmessUser envD c.Id c.DeviceId w1).2 = vmessClientsOf w ∧
    rosterOf (DeleteVmessUser envD c.Id c.DeviceId w1).2 = rosterOf w := by
  obtain ⟨d, first1, others1, hd, hinb, hfresh, hw1⟩ := CreateVmessUser_ok envC c w w1 hc
  have e1 := load_inboundsOf w d hd
  rw [hi, hinb] at e1
  simp only [Option.some.injEq, List.cons.injEq] at e1
  obtain ⟨ef, eo⟩ := e1
  subst ef
  subst eo
  have e2 := load_rosterOf _ w d hd
  rw [hu] at e2
  simp only [Option.some.injEq] at e2
  subst e2
  have hload : load decodeInbound w1 = some
      { configResult := mapSet d.configResult "inbounds"
          (.arr ((withClients first ((elems first.Settings.Clients) ++
            [{ Id := c.Id, AlterId := DefaultAlterID }]) :: others).map encodeInbound)),
        userResult := mapSet d.userResult "clients"
          (.arr ((d.users ++ [{ c with Port := (Atoi envC.V2rayPort).1 }]).map encodeClient)),
        inbounds := withClients first ((elems first.Settings.Clients) ++
            [{ Id := c.Id, AlterId := DefaultAlterID }]) :: others,
        users := d.users ++ [{ c with Port := (Atoi envC.V2rayPort).1 }] } := by
    subst hw1
    exact load_of _ _ _ _ _ _ rfl rfl
      (unmarshalSlice_written _ _ decodeInbound_encode _ _ _)
      (unmarshalSlice_written _ _ decodeClient_encodeClient _ _ _)
  have hfalse : ∀ y ∈ elems first.Settings.Clients,
      (fun user : V2rayClient => decide (user.Id = c.Id)) y = false := by
    intro y hy
    simpa using hfresh y hy
  have hidx : locatedIndex (fun user : V2rayClient => decide (user.Id = c.Id))
      (elems first.Settings.Clients ++ [{ Id := c.Id, AlterId := DefaultAlterID }])
      = d.users.length := by
    unfold locatedIndex
    rw [findIndex_append_last _ _ (by simp) _ hfalse]
    exact hlen
  have hvm : vmessClientsOf w = some (elems first.Settings.Clients) := by
    simp only [vmessClientsOf, hi]
  have hget : (d.users ++ [{ c with Port := (Atoi envC.V2rayPort).1 }])[d.users.length]?
      = some { c with Port := (Atoi envC.V2rayPort).1 } := by
    simp
  have hrun := DeleteVmessUser_succeeds envD c.Id c.DeviceId w1 _ _ _ _ hload rfl
    (by rw [elems_some_withClients, hidx]; exact hget) (by simp)
    (by rw [elems_some_withClients, hidx, List.length_append, hlen]; simp) hwc hwu
  rw [hrun, elems_some_withClients, hidx]
  refine ⟨hfresh, rfl, ?_, ?_⟩
  · rw [hvm]
    simp only [vmessClientsOf, inboundsOf_written, withClients, elems_some]
    rw [← hlen, eraseIdx_append_last]
  · rw [hu, rosterOf_written, eraseIdx_append_last]

/-- Witness of C30: `erin` (id `uuid-3`) is created in `twoVmessWorld` with the
flag `443` and deleted again; the reply carries `erin` with port 443 and the
pair holds the clients `uuid-1`, `uuid-2` and the roster `carol`, `dave`
again. -/
theorem vmess_delete_undoes_create_witness :
    (∀ client ∈ elems vmessFirstInbound.Settings.Clients, client.Id ≠ erin.Id) ∧
    (DeleteVmessUser calmEnv "uuid-3" "device-c" (CreateVmessUser calmEnv erin twoVmessWorld).2).1
      = .returned { client := some { erin with Port := 443 }, status := 200, err := none } ∧
    vmessClientsOf
        (DeleteVmessUser calmEnv "uuid-3" "device-c" (CreateVmessUser calmEnv erin twoVmessWorld).2).2
      = vmessClientsOf twoVmessWorld ∧
    rosterOf
        (DeleteVmessUser calmEnv "uuid-3" "device-c" (CreateVmessUser calmEnv erin twoVmessWorld).2).2
      = rosterOf twoVmessWorld :=
  vmess_delete_undoes_create calmEnv calmEnv erin twoVmessWorld
    (CreateVmessUser calmEnv erin twoVmessWorld).2 vmessFirstInbound [] [carol, dave]
    (by rfl) (by rfl) (by rfl) (by rfl) rfl rfl

/-! ## Lemmas on characters and bytes -/

theorem toNat_ofNat (n : Nat) (h : n < 55296) : (Char.ofNat n).toNat = n := by
  have hv : n.isValidChar := Or.inl h
  unfold Char.ofNat
  rw [dif_pos hv]
  rfl

theorem char_range (c : Char) : c.toNat < 55296 ∨ (57343 < c.toNat ∧ c.toNat < 1114112) :=
  c.valid

theorem char_eq_of_toNat (c d : Char) (h : c.toNat = d.toNat) : c = d := by
  rw [← Char.ofNat_toNat c, ← Char.ofNat_toNat d, h]

theorem toList_append (a b : String) : (a ++ b).toList = a.toList ++ b.toList := by
  cases a
  cases b
  rfl

theorem utf8EncodeChar_lt (c : Char) : ∀ b ∈ utf8EncodeChar c, b < 256 := by
  intro b hb
  have hr := char_range c
  unfold utf8EncodeChar at hb
  split_ifs at hb <;> simp at hb <;> omega

theorem utf8_cons (c : Char) (cs : List Char) :
    utf8 (String.mk (c :: cs)) = utf8EncodeChar c ++ utf8 (String.mk cs) := rfl

theorem utf8_lt (s : String) : ∀ b ∈ utf8 s, b < 256 := by
  cases s with
  | mk cs =>
    induction cs with
    | nil => intro b hb; simp [utf8] at hb
    | cons c rest ih =>
      intro b hb
      rw [utf8_cons, List.mem_append] at hb
      rcases hb with h | h
      · exact utf8EncodeChar_lt c b h
      · exact ih b h

/-! ## Lemmas on base64 -/

theorem base64Char_toNat (i : Nat) (h : i < 64) :
    (base64Char i).toNat =
      if i < 26 then 65 + i else if i < 52 then 71 + i else if i < 62 then i - 4
      else if i = 62 then 43 else 47 := by
  unfold base64Char
  split_ifs
  · exact toNat_ofNat _ (by omega)
  · rw [toNat_ofNat _ (by omega)]
    omega
  · rw [toNat_ofNat _ (by omega)]
    omega
  · rfl
  · rfl

theorem base64Value_base64Char (i : Nat) (h : i < 64) : base64Value (base64Char i) = some i := by
  have ht := base64Char_toNat i h
  unfold base64Value
  by_cases h1 : i < 26
  · rw [if_pos h1] at ht
    rw [if_pos (by omega), ht]
    congr 1
    omega
  · rw [if_neg h1] at ht
    by_cases h2 : i < 52
    · rw [if_pos h2] at ht
      rw [if_neg (by omega), if_pos (by omega), ht]
      congr 1
      omega
    · rw [if_neg h2] at ht
      by_cases h3 : i < 62
      · rw [if_pos h3] at ht
        rw [if_neg (by omega), if_neg (by omega), if_pos (by omega), ht]
        congr 1
        omega
      · rw [if_neg h3] at ht
        by_cases h4 : i = 62
        · subst h4
          rfl
        · have h5 : i = 63 := by omega
          subst h5
          rfl

theorem base64Char_ne (i : Nat) (h : i < 64) (c : Char) (hc : c.toNat = 61 ∨ c.toNat = 64) :
    base64Char i ≠ c := by
  intro e
  have ht := base64Char_toNat i h
  rw [e] at ht
  split_ifs at ht <;> omega

theorem base64Decode_encode :
    ∀ (n : Nat) (bs : List Nat), bs.length ≤ n → (∀ b ∈ bs, b < 256) →
      base64Decode (base64Encode bs) = some bs := by
  intro n
  induction n using Nat.strong_induction_on with
  | _ n ih =>
    intro bs hn hlt
    match bs, hn, hlt with
    | [], _, _ => rfl
    | [a], _, hlt =>
      have ha : a < 256 := hlt a (by simp)
      simp only [base64Encode, base64Decode, base64Value_base64Char (a / 4) (by omega),
        base64Value_base64Char (a % 4 * 16) (by omega)]
      simp
      omega
    | [a, b], _, hlt =>
      have ha : a < 256 := hlt a (by simp)
      have hb : b < 256 := hlt b (by simp)
      have hne : base64Char (b % 16 * 4) ≠ '=' :=
        base64Char_ne _ (by omega) '=' (Or.inl rfl)
      simp only [base64Encode, base64Decode, base64Value_base64Char (a / 4) (by omega),
        base64Value_base64Char (a % 4 * 16 + b / 16) (by omega),
        base64Value_base64Char (b % 16 * 4) (by omega)]
      simp [hne]
      omega
    | a :: b :: c :: rest, hn, hlt =>
      have ha : a < 256 := hlt a (by simp)
      have hb : b < 256 := hlt b (by simp)
      have hc : c < 256 := hlt c (by simp)
      have hne3 : base64Char (b % 16 * 4 + c / 64) ≠ '=' :=
        base64Char_ne _ (by omega) '=' (Or.inl rfl)
      have hne4 : base64Char (c % 64) ≠ '=' :=
        base64Char_ne _ (by omega) '=' (Or.inl rfl)
      have hrest := ih rest.length (by simp at hn; omega) rest (le_refl _)
        (fun x hx => hlt x (by simp [hx]))
      simp only [base64Encode, base64Decode, base64Value_base64Char (a / 4) (by omega),
        base64Value_base64Char (a % 4 * 16 + b / 16) (by omega),
        base64Value_base64Char (b % 16 * 4 + c / 64) (by omega),
        base64Value_base64Char (c % 64) (by omega), hrest]
      simp [hne3, hne4]
      omega

theorem base64Encode_mem (c : Char) :
    ∀ (n : Nat) (bs : List Nat), bs.length ≤ n → (∀ b ∈ bs, b < 256) →
      c ∈ base64Encode bs → c = '=' ∨ ∃ i, i < 64 ∧ c = base64Char i := by
  intro n
  induction n using Nat.strong_induction_on with
  | _ n ih =>
    intro bs hn hlt hc
    match bs, hn, hlt, hc with
    | [], _, _, hc => simp [base64Encode] at hc
    | [a], _, hlt, hc =>
      have ha : a < 256 := hlt a (by simp)
      simp only [base64Encode, List.mem_cons, List.mem_singleton, List.not_mem_nil,
        or_false] at hc
      rcases hc with h | h | h | h
      · exact Or.inr ⟨_, by omega, h⟩
      · exact Or.inr ⟨a % 4 * 16, by omega, h⟩
      · exact Or.inl h
      · exact Or.inl h
    | [a, b], _, hlt, hc =>
      have ha : a < 256 := hlt a (by simp)
      have hb : b < 256 := hlt b (by simp)
      simp only [base64Encode, List.mem_cons, List.mem_singleton, List.not_mem_nil,
        or_false] at hc
      rcases hc with h | h | h | h
      · exact Or.inr ⟨_, by omega, h⟩
      · exact Or.inr ⟨a % 4 * 16 + b / 16, by omega, h⟩
      · exact Or.inr ⟨b % 16 * 4, by omega, h⟩
      · exact Or.inl h
    | a :: b :: c1 :: rest, hn, hlt, hc =>
      have ha : a < 256 := hlt a (by simp)
      have hb : b < 256 := hlt b (by simp)
      have hc1 : c1 < 256 := hlt c1 (by simp)
      simp only [base64Encode, List.mem_cons] at hc
      rcases hc with h | h | h | h | h
      · exact Or.inr ⟨_, by omega, h⟩
      · exact Or.inr ⟨a % 4 * 16 + b / 16, by omega, h⟩
      · exact Or.inr ⟨b % 16 * 4 + c1 / 64, by omega, h⟩
      · exact Or.inr ⟨c1 % 64, by omega, h⟩
      · exact ih rest.length (by simp at hn; omega) rest (le_refl _)
          (fun x hx => hlt x (by simp [hx])) h

/-- No `@` among the characters of a base64 text. -/
theorem base64Encode_no_at (bs : List Nat) (hlt : ∀ b ∈ bs, b < 256) :
    ∀ c ∈ base64Encode bs, c ≠ '@' := by
  intro c hc e
  rcases base64Encode_mem c bs.length bs (le_refl _) hlt hc with h | ⟨i, hi, h⟩
  · rw [e] at h
    revert h
    decide
  · exact base64Char_ne i hi '@' (Or.inr rfl) (h.symm.trans e)

/-! ## Lemmas on the cuts of a text -/

theorem beforeFirst_append {α : Type} [DecidableEq α] (x : α) (xs ys : List α)
    (h : ∀ y ∈ xs, y ≠ x) : beforeFirst x (xs ++ x :: ys) = xs := by
  unfold beforeFirst
  induction xs with
  | nil => simp [List.takeWhile]
  | cons a rest ih =>
    have ha : a ≠ x := h a (List.mem_cons_self _ _)
    simp only [List.cons_append, List.takeWhile, ha, ne_eq, not_false_eq_true, decide_True]
    exact congrArg (List.cons a) (ih (fun y hy => h y (List.mem_cons_of_mem _ hy)))

theorem afterFirst_append {α : Type} [DecidableEq α] (x : α) (xs ys : List α)
    (h : ∀ y ∈ xs, y ≠ x) : afterFirst x (xs ++ x :: ys) = ys := by
  unfold afterFirst
  induction xs with
  | nil => simp [List.dropWhile]
  | cons a rest ih =>
    have ha : a ≠ x := h a (List.mem_cons_self _ _)
    simp only [List.cons_append, List.dropWhile, ha, ne_eq, not_false_eq_true, decide_True]
    exact ih (fun y hy => h y (List.mem_cons_of_mem _ hy))

theorem beforeLast_append {α : Type} [DecidableEq α] (x : α) (xs ys : List α)
    (h : ∀ y ∈ ys, y ≠ x) : beforeLast x (xs ++ x :: ys) = xs := by
  unfold beforeLast
  have e : (xs ++ x :: ys).reverse = ys.reverse ++ x :: xs.reverse := by simp
  rw [e, afterFirst_append x _ _ (fun y hy => h y (List.mem_reverse.mp hy)), List.reverse_reverse]

theorem afterLast_append {α : Type} [DecidableEq α] (x : α) (xs ys : List α)
    (h : ∀ y ∈ ys, y ≠ x) : afterLast x (xs ++ x :: ys) = ys := by
  unfold afterLast
  have e : (xs ++ x :: ys).reverse = ys.reverse ++ x :: xs.reverse := by simp
  rw [e, beforeFirst_append x _ _ (fun y hy => h y (List.mem_reverse.mp hy)), List.reverse_reverse]

theorem stripStart_append (start rest : String) :
    stripStart start (start ++ rest) = some rest.toList := by
  unfold stripStart
  rw [toList_append]
  have h : start.toList.isPrefixOf (start.toList ++ rest.toList) = true := by
    rw [List.isPrefixOf_iff_prefix]
    exact List.prefix_append _ _
  rw [if_pos h, List.drop_left]

/-! ## Lemmas on `%d` -/

theorem digitChar_spec (k : Nat) (h : k < 10) :
    (Nat.digitChar k).isDigit = true ∧ (Nat.digitChar k).toNat - 48 = k := by
  interval_cases k <;> exact ⟨rfl, rfl⟩

theorem toDigitsCore_spec :
    ∀ (fuel n : Nat) (ds : List Char), n < fuel →
      ∃ front, Nat.toDigitsCore 10 fuel n ds = front ++ ds ∧ front ≠ [] ∧
        front.all Char.isDigit = true ∧
        Nat.ofDigits 10 (front.reverse.map (fun ch => ch.toNat - 48)) = n := by
  intro fuel
  induction fuel with
  | zero => intro n ds h; omega
  | succ fuel ih =>
    intro n ds h
    obtain ⟨hd1, hd2⟩ := digitChar_spec (n % 10) (Nat.mod_lt _ (by decide))
    unfold Nat.toDigitsCore
    by_cases h0 : n / 10 = 0
    · simp only [h0, if_true]
      refine ⟨[Nat.digitChar (n % 10)], rfl, by simp, by simp [hd1], ?_⟩
      simp only [List.reverse_singleton, List.map_cons, List.map_nil, hd2, Nat.ofDigits_singleton]
      omega
    · simp only [h0, if_false]
      obtain ⟨front, e1, e2, e3, e4⟩ := ih (n / 10) (Nat.digitChar (n % 10) :: ds) (by omega)
      refine ⟨front ++ [Nat.digitChar (n % 10)], ?_, by simp, ?_, ?_⟩
      · rw [e1]
        simp
      · simp [e3, hd1]
      · rw [List.reverse_append, List.reverse_singleton, List.singleton_append, List.map_cons,
          Nat.ofDigits_cons, e4, hd2]
        omega

theorem toDigits_spec (n : Nat) :
    Nat.toDigits 10 n ≠ [] ∧ (Nat.toDigits 10 n).all Char.isDigit = true ∧
      Nat.ofDigits 10 ((Nat.toDigits 10 n).reverse.map (fun ch => ch.toNat - 48)) = n := by
  obtain ⟨front, e1, e2, e3, e4⟩ := toDigitsCore_spec (n + 1) n [] (by omega)
  unfold Nat.toDigits
  rw [e1, List.append_nil]
  exact ⟨e2, e3, e4⟩

theorem decimalDigitsValue_toDigits (n : Nat) :
    decimalDigitsValue (Nat.toDigits 10 n) = some n := by
  obtain ⟨e2, e3, e4⟩ := toDigits_spec n
  unfold decimalDigitsValue
  rw [if_pos ⟨e2, e3⟩, e4]

theorem isDigit_ne (c : Char) (h : c.isDigit = true) (d : Char)
    (hd : d.toNat < 48 ∨ 57 < d.toNat) : c ≠ d := by
  intro e
  have := isDigit_toNat c h
  rw [e] at this
  omega

theorem formatInt_ofNat (m : Nat) : (formatInt (Int.ofNat m)).toList = Nat.toDigits 10 m := rfl

theorem formatInt_negSucc (m : Nat) :
    (formatInt (Int.negSucc m)).toList = '-' :: Nat.toDigits 10 (m + 1) := rfl

/-- Reading the decimal text of `%d` gives the number back. -/
theorem decimalIntegerValue_formatInt (p : Int) : decimalIntegerValue (formatInt p) = some p := by
  rw [decimalIntegerValue_of_chars]
  cases p with
  | ofNat m =>
    obtain ⟨e2, e3, _⟩ := toDigits_spec m
    have hval := decimalDigitsValue_toDigits m
    rw [formatInt_ofNat]
    cases hds : Nat.toDigits 10 m with
    | nil => exact absurd hds e2
    | cons c rest =>
      rw [hds] at e3 hval
      have hc : c.isDigit = true := by
        simp only [List.all_cons, Bool.and_eq_true] at e3
        exact e3.1
      have h1 : c ≠ '-' := isDigit_ne c hc '-' (Or.inl (by decide))
      have h2 : c ≠ '+' := isDigit_ne c hc '+' (Or.inl (by decide))
      simp only [List.head?_cons, Option.some.injEq, h1, h2, if_false, hval]
      rfl
  | negSucc m =>
    have hval := decimalDigitsValue_toDigits (m + 1)
    rw [formatInt_negSucc]
    simp only [List.head?_cons, if_true, List.tail_cons, hval]
    rfl

/-- The text of `%d` holds digits and at most a sign: no `:` and no `#`. -/
theorem formatInt_chars (p : Int) :
    ∀ c ∈ (formatInt p).toList, c = '-' ∨ c.isDigit = true := by
  intro c hc
  cases p with
  | ofNat m =>
    obtain ⟨_, e3, _⟩ := toDigits_spec m
    rw [formatInt_ofNat] at hc
    rw [List.all_eq_true] at e3
    exact Or.inr (e3 c hc)
  | negSucc m =>
    obtain ⟨_, e3, _⟩ := toDigits_spec (m + 1)
    rw [formatInt_negSucc] at hc
    rw [List.all_eq_true] at e3
    rcases List.mem_cons.mp hc with h | h
    · exact Or.inl h
    · exact Or.inr (e3 c h)

theorem formatInt_no_colon (p : Int) : ∀ c ∈ (formatInt p).toList, c ≠ ':' := by
  intro c hc
  rcases formatInt_chars p c hc with h | h
  · rw [h]
    decide
  · exact isDigit_ne c h ':' (Or.inr (by decide))

/-! ## Lemmas on query escaping -/

theorem hexChar_toNat (i : Nat) (h : i < 16) :
    (hexChar i).toNat = if i < 10 then 48 + i else 55 + i := by
  unfold hexChar
  split_ifs
  · exact toNat_ofNat _ (by omega)
  · exact toNat_ofNat _ (by omega)

theorem hexValue_hexChar (i : Nat) (h : i < 16) : hexValue (hexChar i) = some i := by
  have ht := hexChar_toNat i h
  unfold hexValue
  by_cases h1 : i < 10
  · rw [if_pos h1] at ht
    rw [if_pos (by omega), ht]
    congr 1
    omega
  · rw [if_neg h1] at ht
    rw [if_neg (by omega), if_pos (by omega), ht]
    congr 1
    omega

theorem isUnreserved_lt (b : Nat) (h : isUnreserved b = true) :
    b < 128 ∧ b ≠ 43 ∧ b ≠ 37 ∧ b ≠ 35 := by
  simp only [isUnreserved, Bool.or_eq_true, Bool.and_eq_true, decide_eq_true_eq] at h
  omega

/-- Unescaping undoes `url.QueryEscape` on bytes. -/
theorem queryUnescape_queryEscape (bs : List Nat) (hlt : ∀ b ∈ bs, b < 256) :
    queryUnescape (queryEscape bs) = some bs := by
  induction bs with
  | nil => rfl
  | cons b rest ih =>
    have hb : b < 256 := hlt b (List.mem_cons_self _ _)
    have hrest := ih (fun x hx => hlt x (List.mem_cons_of_mem _ hx))
    unfold queryEscape
    by_cases hu : isUnreserved b = true
    · obtain ⟨h1, h2, h3, _⟩ := isUnreserved_lt b hu
      have ht : (Char.ofNat b).toNat = b := toNat_ofNat b (by omega)
      have hp : Char.ofNat b ≠ '+' := fun e => h2 (by rw [← ht, e]; rfl)
      have hq : Char.ofNat b ≠ '%' := fun e => h3 (by rw [← ht, e]; rfl)
      rw [if_pos hu]
      unfold queryUnescape
      rw [if_neg hp, if_neg hq, ht, if_pos h1, hrest]
      rfl
    · rw [if_neg hu]
      by_cases h32 : b = 32
      · rw [if_pos h32]
        unfold queryUnescape
        rw [if_pos rfl, hrest, h32]
        rfl
      · rw [if_neg h32]
        unfold queryUnescape
        rw [if_neg (by decide), if_pos rfl]
        simp only [hexValue_hexChar (b / 16) (by omega), hexValue_hexChar (b % 16) (by omega),
          hrest]
        congr 2
        omega

/-- Nothing `url.QueryEscape` writes is a `#`. -/
theorem queryEscape_no_hash (bs : List Nat) (hlt : ∀ b ∈ bs, b < 256) :
    ∀ c ∈ queryEscape bs, c ≠ '#' := by
  induction bs with
  | nil => intro c hc; simp [queryEscape] at hc
  | cons b rest ih =>
    have hb : b < 256 := hlt b (List.mem_cons_self _ _)
    have hrest := ih (fun x hx => hlt x (List.mem_cons_of_mem _ hx))
    intro c hc
    unfold queryEscape at hc
    have hhex : ∀ i, i < 16 → hexChar i ≠ '#' := by
      intro i hi e
      have ht := hexChar_toNat i hi
      rw [e] at ht
      have e35 : ('#' : Char).toNat = 35 := rfl
      rw [e35] at ht
      split_ifs at ht <;> omega
    split_ifs at hc with hu h32
    · obtain ⟨h1, _, _, h4⟩ := isUnreserved_lt b hu
      rcases List.mem_cons.mp hc with h | h
      · intro e
        apply h4
        rw [← toNat_ofNat b (by omega), ← h, e]
        rfl
      · exact hrest c h
    · rcases List.mem_cons.mp hc with h | h
      · rw [h]
        decide
      · exact hrest c h
    · simp only [List.mem_cons] at hc
      rcases hc with h | h | h | h
      · rw [h]
        decide
      · rw [h]
        exact hhex _ (by omega)
      · rw [h]
        exact hhex _ (by omega)
      · exact hrest c h

/-! ## Plain Shadowsocks descriptors read back -/

theorem stripStart_of_toList (start s : String) (rest : List Char)
    (h : s.toList = start.toList ++ rest) : stripStart start s = some rest := by
  unfold stripStart
  have hp : start.toList.isPrefixOf s.toList = true := by
    rw [List.isPrefixOf_iff_prefix, h]
    exact List.prefix_append _ _
  rw [if_pos hp, h, List.drop_left]

theorem shadowsocksLabel_lt (expireDate subDomain region : String) (tail : List Nat)
    (ht : ∀ b ∈ tail, b < 256) :
    ∀ b ∈ shadowsocksLabel expireDate subDomain region tail, b < 256 := by
  intro b hb
  simp only [shadowsocksLabel, List.mem_append] at hb
  rcases hb with ((((((h | h) | h) | h) | h) | h) | h) | h
  · exact utf8_lt _ b h
  · exact utf8_lt _ b h
  · exact utf8_lt _ b h
  · exact utf8_lt _ b h
  · exact utf8_lt _ b h
  · exact utf8_lt _ b h
  · exact utf8_lt _ b h
  · exact ht b h

theorem drop_lt (bs : List Nat) (n : Nat) (h : ∀ b ∈ bs, b < 256) : ∀ b ∈ bs.drop n, b < 256 :=
  fun b hb => h b (List.mem_of_mem_drop hb)

/-- The text of a Shadowsocks descriptor built around a base64 part, a host, a
port and an escaped label, cut at its separators. -/
theorem shadowsocks_text_cuts (secret : List Nat) (host : String) (port : Int)
    (label : List Nat) (uri : String) (hs : ∀ b ∈ secret, b < 256)
    (hl : ∀ b ∈ label, b < 256)
    (huri : uri = ShadowsocksPrefix ++ String.mk (base64Encode secret) ++ "@" ++ host ++ ":" ++
      formatInt port ++ "#" ++ String.mk (queryEscape label)) :
    stripStart "ss://" uri = some (base64Encode secret ++ '@' :: (host.toList ++ ':' ::
      ((formatInt port).toList ++ '#' :: queryEscape label))) ∧
    (base64Decode (beforeFirst '@' (base64Encode secret ++ '@' :: (host.toList ++ ':' ::
      ((formatInt port).toList ++ '#' :: queryEscape label))))) = some secret ∧
    shadowsocksPortOf uri = some port ∧
    shadowsocksLabelOf uri = some label := by
  have htl : uri.toList = "ss://".toList ++ (base64Encode secret ++ '@' :: (host.toList ++ ':' ::
      ((formatInt port).toList ++ '#' :: queryEscape label))) := by
    rw [huri]
    simp only [toList_append, ShadowsocksPrefix]
    simp
  have hstrip := stripStart_of_toList "ss://" uri _ htl
  have hbody : base64Encode secret ++ '@' :: (host.toList ++ ':' ::
      ((formatInt port).toList ++ '#' :: queryEscape label))
      = (base64Encode secret ++ '@' :: (host.toList ++ ':' :: (formatInt port).toList)) ++
        '#' :: queryEscape label := by
    simp
  have hall : uri.toList = ("ss://".toList ++ (base64Encode secret ++ '@' :: (host.toList ++
      ':' :: (formatInt port).toList))) ++ '#' :: queryEscape label := by
    rw [htl]
    simp
  have hfront : base64Encode secret ++ '@' :: (host.toList ++ ':' :: (formatInt port).toList)
      = (base64Encode secret ++ '@' :: host.toList) ++ ':' :: (formatInt port).toList := by
    simp
  refine ⟨hstrip, ?_, ?_, ?_⟩
  · rw [beforeFirst_append '@' _ _ (base64Encode_no_at secret hs)]
    exact base64Decode_encode secret.length secret (le_refl _) hs
  · unfold shadowsocksPortOf
    rw [hstrip]
    simp only
    rw [hbody, beforeLast_append '#' _ _ (queryEscape_no_hash label hl), hfront,
      afterLast_append ':' _ _ (formatInt_no_colon port)]
    exact decimalIntegerValue_formatInt port
  · unfold shadowsocksLabelOf
    rw [hall, afterLast_append '#' _ _ (queryEscape_no_hash label hl)]
    exact queryUnescape_queryEscape label hl

theorem afterFirst_method (password : String) :
    afterFirst 58 (utf8 ("aes-128-gcm" ++ ":" ++ password)) = utf8 password := by
  rw [utf8_append, utf8_append]
  have e : utf8 "aes-128-gcm" ++ utf8 ":" ++ utf8 password
      = [97, 101, 115, 45, 49, 50, 56, 45, 103, 99, 109] ++ 58 :: utf8 password := by
    have e1 : utf8 "aes-128-gcm" = [97, 101, 115, 45, 49, 50, 56, 45, 103, 99, 109] := by rfl
    have e2 : utf8 ":" = [58] := by rfl
    rw [e1, e2]
    simp
  rw [e]
  exact afterFirst_append 58 _ _ (by decide)

theorem GenerateShadowsocksURI_ok (cfg : Config) (data : Client) (uri : String)
    (h : GenerateShadowsocksURI cfg data = .returned (uri, none)) :
    4 ≤ (utf8 data.Password).length ∧
    uri = ShadowsocksPrefix ++ String.mk (base64Encode (utf8 ("aes-128-gcm" ++ ":" ++ data.Password))) ++
      "@" ++ cfg.WebHost ++ ":" ++ formatInt data.Port ++ "#" ++
      String.mk (queryEscape (shadowsocksLabel data.ExpireDate (firstLabel cfg.WebHost)
        cfg.WebHostRegion ((utf8 data.Password).drop ((utf8 data.Password).length - 4)))) := by
  unfold GenerateShadowsocksURI at h
  simp only at h
  split_ifs at h with h1 h2
  · simp at h
  · simp only [Outcome.returned.injEq, Prod.mk.injEq, and_true] at h
    exact ⟨by omega, h.symm⟩

/-- What the three readers give on a Shadowsocks descriptor built from a
password, a host, a port and a label. -/
theorem shadowsocks_text_reads (password host : String) (port : Int) (label : List Nat)
    (uri : String) (hl : ∀ b ∈ label, b < 256)
    (huri : uri = ShadowsocksPrefix ++
      String.mk (base64Encode (utf8 ("aes-128-gcm" ++ ":" ++ password))) ++ "@" ++ host ++ ":" ++
      formatInt port ++ "#" ++ String.mk (queryEscape label)) :
    shadowsocksSecretOf uri = some (utf8 password) ∧ shadowsocksPortOf uri = some port ∧
    shadowsocksLabelOf uri = some label := by
  obtain ⟨hstrip, hdec, hport, hlabel⟩ := shadowsocks_text_cuts
    (utf8 ("aes-128-gcm" ++ ":" ++ password)) host port label uri (utf8_lt _) hl huri
  refine ⟨?_, hport, hlabel⟩
  unfold shadowsocksSecretOf
  rw [hstrip]
  simp only
  rw [hdec, Option.map_some', afterFirst_method]

/-- C21: for every credential for which `GenerateShadowsocksURI` returns a
descriptor with a nil error, reading the descriptor back gives the credential:
after `ss://`, the text before `@` base64-decodes to bytes whose part after
the first `:` is the password, and the decimal number between the last `:`
before the `#` of the label and that `#` is the port. -/
theorem shadowsocks_decoding_recovers (cfg : Config) (data : Client) (uri : String)
    (h : GenerateShadowsocksURI cfg data = .returned (uri, none)) :
    shadowsocksSecretOf uri = some (utf8 data.Password) ∧
    shadowsocksPortOf uri = some data.Port := by
  obtain ⟨_, huri⟩ := GenerateShadowsocksURI_ok cfg data uri h
  obtain ⟨hsecret, hport, _⟩ := shadowsocks_text_reads data.Password cfg.WebHost data.Port _ uri
    (shadowsocksLabel_lt _ _ _ _ (drop_lt _ _ (utf8_lt _))) huri
  exact ⟨hsecret, hport⟩

/-- Witness of C21: the descriptor of `alice` on port 10000 carries the bytes of
`abc123` and the port 10000. -/
theorem shadowsocks_decoding_recovers_witness :
    shadowsocksSecretOf
        "ss://YWVzLTEyOC1nY206YWJjMTIz@sg1.example.com:10000#valid+before+%282025-02-01%29+sg1-sg-c123"
      = some (utf8 "abc123") ∧
    shadowsocksPortOf
        "ss://YWVzLTEyOC1nY206YWJjMTIz@sg1.example.com:10000#valid+before+%282025-02-01%29+sg1-sg-c123"
      = some 10000 :=
  shadowsocks_decoding_recovers exampleConfig { alice with Port := 10000 } _ (by rfl)

/-! ## Lemmas on `json.Marshal` and on reading its text back -/

theorem runeLength_pos (b : Nat) (h : runeLength b ≠ 0) : 194 ≤ b ∧ b ≤ 244 := by
  unfold runeLength at h
  split_ifs at h <;> omega

theorem acceptsSecond_range (b b1 : Nat) (h : acceptsSecond b b1 = true) :
    128 ≤ b1 ∧ b1 ≤ 191 := by
  unfold acceptsSecond at h
  split_ifs at h <;> simp only [Bool.and_eq_true, decide_eq_true_eq] at h <;> omega

theorem isContinuation_range (b : Nat) (h : isContinuation b = true) : 128 ≤ b ∧ b ≤ 191 := by
  simpa [isContinuation] using h

theorem marshalStringBody_ascii (b : Nat) (rest : List Nat) (h : b < 128) :
    marshalStringBody (b :: rest) = marshalAscii b ++ marshalStringBody rest := by
  rw [marshalStringBody.eq_def]
  simp only [h, if_true]

theorem toValidUTF8_ascii (b : Nat) (rest : List Nat) (h : b < 128) :
    toValidUTF8 (b :: rest) = b :: toValidUTF8 rest := by
  rw [toValidUTF8.eq_def]
  simp only [h, if_true]

theorem marshalStringBody_two (b b1 : Nat) (rest : List Nat) (h : ¬ b < 128)
    (h2 : runeLength b = 2 ∧ acceptsSecond b b1 = true) :
    marshalStringBody (b :: b1 :: rest) = b :: b1 :: marshalStringBody rest := by
  rw [marshalStringBody.eq_def]
  simp only [h, if_false, if_pos h2]

theorem toValidUTF8_two (b b1 : Nat) (rest : List Nat) (h : ¬ b < 128)
    (h2 : runeLength b = 2 ∧ acceptsSecond b b1 = true) :
    toValidUTF8 (b :: b1 :: rest) = b :: b1 :: toValidUTF8 rest := by
  rw [toValidUTF8.eq_def]
  simp only [h, if_false, if_pos h2]

theorem marshalStringBody_three (b b1 b2 : Nat) (rest : List Nat) (h : ¬ b < 128)
    (h2 : ¬ (runeLength b = 2 ∧ acceptsSecond b b1 = true))
    (h3 : runeLength b = 3 ∧ acceptsSecond b b1 = true ∧ isContinuation b2 = true) :
    marshalStringBody (b :: b1 :: b2 :: rest) =
      (if b = 226 ∧ b1 = 128 ∧ (b2 = 168 ∨ b2 = 169) then
        [92, 117, 50, 48, 50, hexLower (b2 % 16)]
       else [b, b1, b2]) ++ marshalStringBody rest := by
  rw [marshalStringBody.eq_def]
  simp only [h, if_false, if_neg h2, if_pos h3]

theorem toValidUTF8_three (b b1 b2 : Nat) (rest : List Nat) (h : ¬ b < 128)
    (h2 : ¬ (runeLength b = 2 ∧ acceptsSecond b b1 = true))
    (h3 : runeLength b = 3 ∧ acceptsSecond b b1 = true ∧ isContinuation b2 = true) :
    toValidUTF8 (b :: b1 :: b2 :: rest) = b :: b1 :: b2 :: toValidUTF8 rest := by
  rw [toValidUTF8.eq_def]
  simp only [h, if_false, if_neg h2, if_pos h3]

theorem marshalStringBody_four (b b1 b2 b3 : Nat) (rest : List Nat) (h : ¬ b < 128)
    (h2 : ¬ (runeLength b = 2 ∧ acceptsSecond b b1 = true))
    (h3 : ¬ (runeLength b = 3 ∧ acceptsSecond b b1 = true ∧ isContinuation b2 = true))
    (h4 : runeLength b = 4 ∧ acceptsSecond b b1 = true ∧ isContinuation b2 = true ∧
      isContinuation b3 = true) :
    marshalStringBody (b :: b1 :: b2 :: b3 :: rest) =
      b :: b1 :: b2 :: b3 :: marshalStringBody rest := by
  rw [marshalStringBody.eq_def]
  simp only [h, if_false, if_neg h2, if_neg h3, if_pos h4]

theorem toValidUTF8_four (b b1 b2 b3 : Nat) (rest : List Nat) (h : ¬ b < 128)
    (h2 : ¬ (runeLength b = 2 ∧ acceptsSecond b b1 = true))
    (h3 : ¬ (runeLength b = 3 ∧ acceptsSecond b b1 = true ∧ isContinuation b2 = true))
    (h4 : runeLength b = 4 ∧ acceptsSecond b b1 = true ∧ isContinuation b2 = true ∧
      isContinuation b3 = true) :
    toValidUTF8 (b :: b1 :: b2 :: b3 :: rest) = b :: b1 :: b2 :: b3 :: toValidUTF8 rest := by
  rw [toValidUTF8.eq_def]
  simp only [h, if_false, if_neg h2, if_neg h3, if_pos h4]

/-- Every other case: the first byte starts no well-formed character. -/
theorem marshalStringBody_invalid (b : Nat) (rest : List Nat) (h : ¬ b < 128)
    (h2 : ∀ b1 r1, rest = b1 :: r1 → ¬ (runeLength b = 2 ∧ acceptsSecond b b1 = true))
    (h3 : ∀ b1 b2 r2, rest = b1 :: b2 :: r2 →
      ¬ (runeLength b = 3 ∧ acceptsSecond b b1 = true ∧ isContinuation b2 = true))
    (h4 : ∀ b1 b2 b3 r3, rest = b1 :: b2 :: b3 :: r3 →
      ¬ (runeLength b = 4 ∧ acceptsSecond b b1 = true ∧ isContinuation b2 = true ∧
        isContinuation b3 = true)) :
    marshalStringBody (b :: rest) = replacementEscape ++ marshalStringBody rest ∧
    toValidUTF8 (b :: rest) = [239, 191, 189] ++ toValidUTF8 rest := by
  match rest, h2, h3, h4 with
  | [], _, _, _ =>
    constructor
    · rw [marshalStringBody.eq_def]
      simp only [h, if_false]
    · rw [toValidUTF8.eq_def]
      simp only [h, if_false]
  | [b1], h2, _, _ =>
    have k2 := h2 b1 [] rfl
    constructor
    · rw [marshalStringBody.eq_def]
      simp only [h, if_false, if_neg k2]
    · rw [toValidUTF8.eq_def]
      simp only [h, if_false, if_neg k2]
  | [b1, b2], h2, h3, _ =>
    have k2 := h2 b1 [b2] rfl
    have k3 := h3 b1 b2 [] rfl
    constructor
    · rw [marshalStringBody.eq_def]
      simp only [h, if_false, if_neg k2, if_neg k3]
    · rw [toValidUTF8.eq_def]
      simp only [h, if_false, if_neg k2, if_neg k3]
  | b1 :: b2 :: b3 :: r3, h2, h3, h4 =>
    have k2 := h2 b1 (b2 :: b3 :: r3) rfl
    have k3 := h3 b1 b2 (b3 :: r3) rfl
    have k4 := h4 b1 b2 b3 r3 rfl
    constructor
    · rw [marshalStringBody.eq_def]
      simp only [h, if_false, if_neg k2, if_neg k3, if_neg k4]
    · rw [toValidUTF8.eq_def]
      simp only [h, if_false, if_neg k2, if_neg k3, if_neg k4]

/-- What the first character of a non-empty string does to `json.Marshal` and
to the bytes read back: one of five cases. -/
theorem marshal_step (b : Nat) (rest : List Nat) :
    (b < 128 ∧ marshalStringBody (b :: rest) = marshalAscii b ++ marshalStringBody rest ∧
      toValidUTF8 (b :: rest) = b :: toValidUTF8 rest) ∨
    (∃ b1 r, rest = b1 :: r ∧ 128 ≤ b ∧ b ≤ 244 ∧ 128 ≤ b1 ∧ b1 ≤ 191 ∧
      marshalStringBody (b :: rest) = b :: b1 :: marshalStringBody r ∧
      toValidUTF8 (b :: rest) = b :: b1 :: toValidUTF8 r) ∨
    (∃ b1 b2 r, rest = b1 :: b2 :: r ∧ 128 ≤ b ∧ b ≤ 244 ∧ 128 ≤ b1 ∧ b1 ≤ 191 ∧
      128 ≤ b2 ∧ b2 ≤ 191 ∧
      marshalStringBody (b :: rest) =
        (if b = 226 ∧ b1 = 128 ∧ (b2 = 168 ∨ b2 = 169) then
          [92, 117, 50, 48, 50, hexLower (b2 % 16)]
         else [b, b1, b2]) ++ marshalStringBody r ∧
      toValidUTF8 (b :: rest) = b :: b1 :: b2 :: toValidUTF8 r) ∨
    (∃ b1 b2 b3 r, rest = b1 :: b2 :: b3 :: r ∧ 128 ≤ b ∧ b ≤ 244 ∧ 128 ≤ b1 ∧ b1 ≤ 191 ∧
      128 ≤ b2 ∧ b2 ≤ 191 ∧ 128 ≤ b3 ∧ b3 ≤ 191 ∧
      marshalStringBody (b :: rest) = b :: b1 :: b2 :: b3 :: marshalStringBody r ∧
      toValidUTF8 (b :: rest) = b :: b1 :: b2 :: b3 :: toValidUTF8 r) ∨
    (marshalStringBody (b :: rest) = replacementEscape ++ marshalStringBody rest ∧
      toValidUTF8 (b :: rest) = [239, 191, 189] ++ toValidUTF8 rest) := by
  by_cases h : b < 128
  · exact Or.inl ⟨h, marshalStringBody_ascii b rest h, toValidUTF8_ascii b rest h⟩
  · by_cases c2 : ∃ b1 r1, rest = b1 :: r1 ∧ runeLength b = 2 ∧ acceptsSecond b b1 = true
    · obtain ⟨b1, r1, e, k⟩ := c2
      subst e
      have hb := runeLength_pos b (by omega)
      have h1 := acceptsSecond_range b b1 k.2
      exact Or.inr (Or.inl ⟨b1, r1, rfl, by omega, hb.2, h1.1, h1.2,
        marshalStringBody_two b b1 r1 h k, toValidUTF8_two b b1 r1 h k⟩)
    · have n2 : ∀ b1 r1, rest = b1 :: r1 → ¬ (runeLength b = 2 ∧ acceptsSecond b b1 = true) :=
        fun b1 r1 e k => c2 ⟨b1, r1, e, k⟩
      by_cases c3 : ∃ b1 b2 r2, rest = b1 :: b2 :: r2 ∧
          runeLength b = 3 ∧ acceptsSecond b b1 = true ∧ isContinuation b2 = true
      · obtain ⟨b1, b2, r2, e, k⟩ := c3
        subst e
        have hb := runeLength_pos b (by omega)
        have h1 := acceptsSecond_range b b1 k.2.1
        have h2 := isContinuation_range b2 k.2.2
        exact Or.inr (Or.inr (Or.inl ⟨b1, b2, r2, rfl, by omega, hb.2, h1.1, h1.2, h2.1, h2.2,
          marshalStringBody_three b b1 b2 r2 h (n2 b1 _ rfl) k,
          toValidUTF8_three b b1 b2 r2 h (n2 b1 _ rfl) k⟩))
      · have n3 : ∀ b1 b2 r2, rest = b1 :: b2 :: r2 →
            ¬ (runeLength b = 3 ∧ acceptsSecond b b1 = true ∧ isContinuation b2 = true) :=
          fun b1 b2 r2 e k => c3 ⟨b1, b2, r2, e, k⟩
        by_cases c4 : ∃ b1 b2 b3 r3, rest = b1 :: b2 :: b3 :: r3 ∧
            runeLength b = 4 ∧ acceptsSecond b b1 = true ∧ isContinuation b2 = true ∧
              isContinuation b3 = true
        · obtain ⟨b1, b2, b3, r3, e, k⟩ := c4
          subst e
          have hb := runeLength_pos b (by omega)
          have h1 := acceptsSecond_range b b1 k.2.1
          have h2 := isContinuation_range b2 k.2.2.1
          have h3 := isContinuation_range b3 k.2.2.2
          exact Or.inr (Or.inr (Or.inr (Or.inl ⟨b1, b2, b3, r3, rfl, by omega, hb.2, h1.1, h1.2,
            h2.1, h2.2, h3.1, h3.2,
            marshalStringBody_four b b1 b2 b3 r3 h (n2 b1 _ rfl) (n3 b1 b2 _ rfl) k,
            toValidUTF8_four b b1 b2 b3 r3 h (n2 b1 _ rfl) (n3 b1 b2 _ rfl) k⟩)))
        · have n4 : ∀ b1 b2 b3 r3, rest = b1 :: b2 :: b3 :: r3 →
              ¬ (runeLength b = 4 ∧ acceptsSecond b b1 = true ∧ isContinuation b2 = true ∧
                isContinuation b3 = true) :=
            fun b1 b2 b3 r3 e k => c4 ⟨b1, b2, b3, r3, e, k⟩
          exact Or.inr (Or.inr (Or.inr (Or.inr (marshalStringBody_invalid b rest h n2 n3 n4))))

/-! ### Reading one piece -/

theorem readStringBody_copy (b : Nat) (more : List Nat) (h1 : b ≠ 34) (h2 : b ≠ 92)
    (h3 : ¬ b < 32) :
    readStringBody (b :: more) =
      (readStringBody more).map (fun r => (b :: r.1, r.2)) := by
  rw [readStringBody.eq_def]
  simp only [h1, h2, h3, if_false]
  cases readStringBody more with
  | none => rfl
  | some r => rfl

theorem readStringBody_short (e v : Nat) (more : List Nat) (he : e ≠ 117)
    (hv : shortEscape e = some v) :
    readStringBody (92 :: e :: more) =
      (readStringBody more).map (fun r => (v :: r.1, r.2)) := by
  rw [readStringBody.eq_def]
  simp only [he, hv, if_false, if_true, Nat.reduceEqDiff]
  cases readStringBody more with
  | none => rfl
  | some r => rfl

theorem readStringBody_rune (h1 h2 h3 h4 v1 v2 v3 v4 : Nat) (more : List Nat)
    (e1 : hexDigitValue h1 = some v1) (e2 : hexDigitValue h2 = some v2)
    (e3 : hexDigitValue h3 = some v3) (e4 : hexDigitValue h4 = some v4) :
    readStringBody (92 :: 117 :: h1 :: h2 :: h3 :: h4 :: more) =
      (readStringBody more).map
        (fun r => (escapedRune (((v1 * 16 + v2) * 16 + v3) * 16 + v4) ++ r.1, r.2)) := by
  rw [readStringBody.eq_def]
  simp only [e1, e2, e3, e4, if_false, if_true, Nat.reduceEqDiff]
  cases readStringBody more with
  | none => rfl
  | some r => rfl

theorem hexDigitValue_hexLower (i : Nat) (h : i < 16) : hexDigitValue (hexLower i) = some i := by
  unfold hexDigitValue hexLower
  by_cases h1 : i < 10
  · rw [if_pos h1, if_pos (by omega)]
    congr 1
    omega
  · rw [if_neg h1, if_neg (by omega), if_neg (by omega), if_pos (by omega)]
    congr 1
    omega

theorem escapedRune_ascii (b : Nat) (h : b < 128) : escapedRune b = [b] := by
  unfold escapedRune
  rw [if_neg (by omega)]
  unfold utf8EncodeChar
  rw [toNat_ofNat b (by omega), if_pos h]

/-- Reading what `json.Marshal` writes for a byte below 128 gives the byte. -/
theorem readStringBody_marshalAscii (b : Nat) (more : List Nat) (h : b < 128) :
    readStringBody (marshalAscii b ++ more) =
      (readStringBody more).map (fun r => (b :: r.1, r.2)) := by
  unfold marshalAscii
  split_ifs with c1 c2 c3 c4 c5
  · rcases c1 with e | e
    · subst e
      exact readStringBody_short 34 34 more (by decide) rfl
    · subst e
      exact readStringBody_short 92 92 more (by decide) rfl
  · subst c2
    exact readStringBody_short 110 10 more (by decide) rfl
  · subst c3
    exact readStringBody_short 114 13 more (by decide) rfl
  · subst c4
    exact readStringBody_short 116 9 more (by decide) rfl
  · have e := readStringBody_rune 48 48 (hexLower (b / 16)) (hexLower (b % 16)) 0 0 (b / 16)
      (b % 16) more rfl rfl (hexDigitValue_hexLower _ (by omega))
      (hexDigitValue_hexLower _ (by omega))
    have hv : ((0 * 16 + 0) * 16 + b / 16) * 16 + b % 16 = b := by omega
    rw [hv, escapedRune_ascii b h] at e
    exact e
  · exact readStringBody_copy b more (by omega) (by omega) (by omega)

theorem escapedRune_replacement : escapedRune (((15 * 16 + 15) * 16 + 15) * 16 + 13)
    = [239, 191, 189] := by
  rfl

theorem escapedRune_separator (b2 : Nat) (h : b2 = 168 ∨ b2 = 169) :
    escapedRune (((2 * 16 + 0) * 16 + 2) * 16 + b2 % 16) = [226, 128, b2] := by
  rcases h with e | e <;> subst e <;> rfl

/-- Reading what `json.Marshal` writes for a string gives the bytes of the
string, with U+FFFD for the bytes that start no well-formed character. -/
theorem readStringBody_marshal :
    ∀ (n : Nat) (bs : List Nat), bs.length ≤ n → ∀ tail : List Nat,
      readStringBody (marshalStringBody bs ++ 34 :: tail) = some (toValidUTF8 bs, tail) := by
  intro n
  induction n using Nat.strong_induction_on with
  | _ n ih =>
    intro bs hn tail
    cases bs with
    | nil =>
      rw [marshalStringBody.eq_def, toValidUTF8.eq_def]
      rw [List.nil_append, readStringBody.eq_def]
      simp only [if_true]
    | cons b rest =>
      simp only [List.length_cons] at hn
      rcases marshal_step b rest with ⟨h, em, ev⟩ | ⟨b1, r, e, k1, k2, k3, k4, em, ev⟩ |
        ⟨b1, b2, r, e, k1, k2, k3, k4, k5, k6, em, ev⟩ |
        ⟨b1, b2, b3, r, e, k1, k2, k3, k4, k5, k6, k7, k8, em, ev⟩ | ⟨em, ev⟩
      · rw [em, ev, List.append_assoc, readStringBody_marshalAscii b _ h,
          ih rest.length (by omega) rest (le_refl _) tail]
        rfl
      · subst e
        simp only [List.length_cons] at hn
        rw [em, ev, List.cons_append, List.cons_append,
          readStringBody_copy b _ (by omega) (by omega) (by omega),
          readStringBody_copy b1 _ (by omega) (by omega) (by omega),
          ih r.length (by omega) r (le_refl _) tail]
        rfl
      · subst e
        simp only [List.length_cons] at hn
        rw [em, ev, List.append_assoc]
        by_cases hs : b = 226 ∧ b1 = 128 ∧ (b2 = 168 ∨ b2 = 169)
        · rw [if_pos hs]
          have e := readStringBody_rune 50 48 50 (hexLower (b2 % 16)) 2 0 2 (b2 % 16)
            (marshalStringBody r ++ 34 :: tail) rfl rfl rfl
            (hexDigitValue_hexLower _ (by omega))
          rw [escapedRune_separator b2 hs.2.2, ih r.length (by omega) r (le_refl _) tail] at e
          rw [hs.1, hs.2.1]
          exact e
        · rw [if_neg hs]
          simp only [List.cons_append, List.nil_append]
          rw [readStringBody_copy b _ (by omega) (by omega) (by omega),
            readStringBody_copy b1 _ (by omega) (by omega) (by omega),
            readStringBody_copy b2 _ (by omega) (by omega) (by omega),
            ih r.length (by omega) r (le_refl _) tail]
          rfl
      · subst e
        simp only [List.length_cons] at hn
        rw [em, ev]
        simp only [List.cons_append]
        rw [readStringBody_copy b _ (by omega) (by omega) (by omega),
          readStringBody_copy b1 _ (by omega) (by omega) (by omega),
          readStringBody_copy b2 _ (by omega) (by omega) (by omega),
          readStringBody_copy b3 _ (by omega) (by omega) (by omega),
          ih r.length (by omega) r (le_refl _) tail]
        rfl
      · rw [em, ev, List.append_assoc]
        have e := readStringBody_rune 102 102 102 100 15 15 15 13
          (marshalStringBody rest ++ 34 :: tail) rfl rfl rfl rfl
        rw [escapedRune_replacement, ih rest.length (by omega) rest (le_refl _) tail] at e
        exact e

theorem hexLower_lt (i : Nat) (h : i < 16) : hexLower i < 128 := by
  unfold hexLower
  split_ifs <;> omega

theorem marshalAscii_lt (b : Nat) (h : b < 128) : ∀ x ∈ marshalAscii b, x < 256 := by
  intro x hx
  have h1 := hexLower_lt (b / 16) (by omega)
  have h2 := hexLower_lt (b % 16) (by omega)
  unfold marshalAscii at hx
  split_ifs at hx <;> simp at hx <;> omega

/-- Every byte `json.Marshal` writes for a string is below 256. -/
theorem marshalStringBody_lt :
    ∀ (n : Nat) (bs : List Nat), bs.length ≤ n → ∀ x ∈ marshalStringBody bs, x < 256 := by
  intro n
  induction n using Nat.strong_induction_on with
  | _ n ih =>
    intro bs hn x hx
    cases bs with
    | nil =>
      rw [marshalStringBody.eq_def] at hx
      simp at hx
    | cons b rest =>
      simp only [List.length_cons] at hn
      rcases marshal_step b rest with ⟨h, em, _⟩ | ⟨b1, r, e, k1, k2, k3, k4, em, _⟩ |
        ⟨b1, b2, r, e, k1, k2, k3, k4, k5, k6, em, _⟩ |
        ⟨b1, b2, b3, r, e, k1, k2, k3, k4, k5, k6, k7, k8, em, _⟩ | ⟨em, _⟩
      · rw [em, List.mem_append] at hx
        rcases hx with h1 | h1
        · exact marshalAscii_lt b h x h1
        · exact ih rest.length (by omega) rest (le_refl _) x h1
      · subst e
        simp only [List.length_cons] at hn
        rw [em] at hx
        simp only [List.mem_cons] at hx
        rcases hx with h1 | h1 | h1
        · omega
        · omega
        · exact ih r.length (by omega) r (le_refl _) x h1
      · subst e
        simp only [List.length_cons] at hn
        rw [em, List.mem_append] at hx
        rcases hx with h1 | h1
        · have hh := hexLower_lt (b2 % 16) (by omega)
          split_ifs at h1 <;> simp at h1 <;> omega
        · exact ih r.length (by omega) r (le_refl _) x h1
      · subst e
        simp only [List.length_cons] at hn
        rw [em] at hx
        simp only [List.mem_cons] at hx
        rcases hx with h1 | h1 | h1 | h1 | h1
        · omega
        · omega
        · omega
        · omega
        · exact ih r.length (by omega) r (le_refl _) x h1
      · rw [em, List.mem_append] at hx
        rcases hx with h1 | h1
        · simp [replacementEscape] at h1
          omega
        · exact ih rest.length (by omega) rest (le_refl _) x h1

/-- The bytes of a text are well-formed: they are read back as they are. -/
theorem toValidUTF8_utf8EncodeChar (c : Char) (rest : List Nat) :
    toValidUTF8 (utf8EncodeChar c ++ rest) = utf8EncodeChar c ++ toValidUTF8 rest := by
  have hr := char_range c
  unfold utf8EncodeChar
  split_ifs with h1 h2 h3
  · exact toValidUTF8_ascii _ _ h1
  · have hlen : runeLength (192 + c.toNat / 64) = 2 := by
      unfold runeLength
      rw [if_pos (by omega)]
    have hacc : acceptsSecond (192 + c.toNat / 64) (128 + c.toNat % 64) = true := by
      unfold acceptsSecond
      rw [if_neg (by omega), if_neg (by omega), if_neg (by omega), if_neg (by omega)]
      simp only [Bool.and_eq_true, decide_eq_true_eq]
      omega
    exact toValidUTF8_two _ _ rest (by omega) ⟨hlen, hacc⟩
  · have hlen : runeLength (224 + c.toNat / 4096) = 3 := by
      unfold runeLength
      rw [if_neg (by omega), if_pos (by omega)]
    have hacc : acceptsSecond (224 + c.toNat / 4096) (128 + c.toNat / 64 % 64) = true := by
      unfold acceptsSecond
      split_ifs <;> simp only [Bool.and_eq_true, decide_eq_true_eq] <;> omega
    have hcont : isContinuation (128 + c.toNat % 64) = true := by
      simp only [isContinuation, Bool.and_eq_true, decide_eq_true_eq]
      omega
    exact toValidUTF8_three _ _ _ rest (by omega) (by rw [hlen]; simp) ⟨hlen, hacc, hcont⟩
  · have hlen : runeLength (240 + c.toNat / 262144) = 4 := by
      unfold runeLength
      rw [if_neg (by omega), if_neg (by omega), if_pos (by omega)]
    have hacc : acceptsSecond (240 + c.toNat / 262144) (128 + c.toNat / 4096 % 64) = true := by
      unfold acceptsSecond
      split_ifs <;> simp only [Bool.and_eq_true, decide_eq_true_eq] <;> omega
    have hc2 : isContinuation (128 + c.toNat / 64 % 64) = true := by
      simp only [isContinuation, Bool.and_eq_true, decide_eq_true_eq]
      omega
    have hc3 : isContinuation (128 + c.toNat % 64) = true := by
      simp only [isContinuation, Bool.and_eq_true, decide_eq_true_eq]
      omega
    exact toValidUTF8_four _ _ _ _ rest (by omega) (by rw [hlen]; simp) (by rw [hlen]; simp)
      ⟨hlen, hacc, hc2, hc3⟩

theorem toValidUTF8_utf8 (s : String) : toValidUTF8 (utf8 s) = utf8 s := by
  cases s with
  | mk cs =>
    induction cs with
    | nil => rfl
    | cons c rest ih => rw [utf8_cons, toValidUTF8_utf8EncodeChar, ih]

/-! ## Reading an object back -/

theorem readString_marshalString (bs tail : List Nat) :
    readString (marshalString bs ++ tail) = some (toValidUTF8 bs, tail) := by
  unfold marshalString
  simp only [List.cons_append, List.append_assoc, List.singleton_append, readString]
  exact readStringBody_marshal bs.length bs (le_refl _) tail

/-- The pair of byte strings a member is read back as. -/
theorem readMembers_marshalMembers :
    ∀ (ms : List (List Nat × List Nat)) (fuel : Nat), ms ≠ [] → ms.length ≤ fuel →
      readMembers fuel (marshalMembers ms)
        = some (ms.map (fun m => (toValidUTF8 m.1, toValidUTF8 m.2))) := by
  intro ms
  induction ms with
  | nil => intro fuel h; exact absurd rfl h
  | cons m rest ih =>
    intro fuel _ hf
    cases fuel with
    | zero => simp at hf
    | succ fuel =>
      cases rest with
      | nil =>
        simp only [marshalMembers, marshalMember, List.append_assoc, List.cons_append,
          readMembers, readString_marshalString, List.map_cons, List.map_nil]
      | cons m2 rest2 =>
        have hrec := ih fuel (by simp) (by simpa using hf)
        simp only [marshalMembers, marshalMember, List.append_assoc, List.cons_append,
          readMembers, readString_marshalString]
        simp only [marshalMembers, marshalMember] at hrec
        rw [hrec]
        simp

theorem marshalMembers_length (ms : List (List Nat × List Nat)) :
    ms.length ≤ (marshalMembers ms).length := by
  induction ms with
  | nil => simp
  | cons m rest ih =>
    cases rest with
    | nil => simp [marshalMembers]
    | cons m2 rest2 =>
      simp only [marshalMembers, List.length_append, List.length_cons] at ih ⊢
      omega

/-- Reading the object `json.Marshal` wrote gives its members back. -/
theorem readObject_marshalObject (ms : List (List Nat × List Nat)) :
    readObject (marshalObject ms)
      = some (ms.map (fun m => (toValidUTF8 m.1, toValidUTF8 m.2))) := by
  cases ms with
  | nil => rfl
  | cons m rest =>
    have hlen := marshalMembers_length (m :: rest)
    have hhead : ∃ more, marshalMembers (m :: rest) = 34 :: more := by
      cases rest with
      | nil => exact ⟨_, by simp [marshalMembers, marshalMember, marshalString]; rfl⟩
      | cons m2 rest2 => exact ⟨_, by simp [marshalMembers, marshalMember, marshalString]; rfl⟩
    obtain ⟨more, hmore⟩ := hhead
    have hread := readMembers_marshalMembers (m :: rest)
      (marshalObject (m :: rest)).length (by simp) (by
        simp only [marshalObject, List.length_cons] at hlen ⊢
        omega)
    unfold readObject
    simp only [marshalObject] at hread ⊢
    rw [hmore] at hread ⊢
    simp only
    exact hread

theorem marshalObject_lt (ms : List (List Nat × List Nat)) :
    ∀ x ∈ marshalObject ms, x < 256 := by
  have hstr : ∀ bs : List Nat, ∀ x ∈ marshalString bs, x < 256 := by
    intro bs x hx
    simp only [marshalString, List.mem_cons, List.mem_append, List.mem_singleton,
      List.not_mem_nil, or_false] at hx
    rcases hx with h | h | h
    · omega
    · exact marshalStringBody_lt bs.length bs (le_refl _) x h
    · omega
  have hmem : ∀ m : List Nat × List Nat, ∀ x ∈ marshalMember m, x < 256 := by
    intro m x hx
    simp only [marshalMember, List.mem_append, List.mem_cons] at hx
    rcases hx with h | h | h
    · exact hstr _ x h
    · omega
    · exact hstr _ x h
  have hms : ∀ ms : List (List Nat × List Nat), ∀ x ∈ marshalMembers ms, x < 256 := by
    intro ms
    induction ms with
    | nil =>
      intro x hx
      simp [marshalMembers] at hx
      omega
    | cons m rest ih =>
      intro x hx
      cases rest with
      | nil =>
        simp only [marshalMembers, List.mem_append, List.mem_singleton] at hx
        rcases hx with h | h
        · exact hmem m x h
        · omega
      | cons m2 rest2 =>
        simp only [marshalMembers, List.mem_append, List.mem_cons] at hx ih
        rcases hx with h | h | h
        · exact hmem m x h
        · omega
        · exact ih x h
  intro x hx
  simp only [marshalObject, List.mem_cons] at hx
  rcases hx with h | h
  · omega
  · exact hms ms x h

/-! ## Plain vmess descriptors read back -/

theorem utf8_ne_nil (s : String) (h : s ≠ "") : utf8 s ≠ [] := by
  cases s with
  | mk cs =>
    cases cs with
    | nil => exact absurd rfl h
    | cons c rest =>
      rw [utf8_cons]
      intro e
      have hlen := congrArg List.length e
      have hc : 0 < (utf8EncodeChar c).length := by
        unfold utf8EncodeChar
        split_ifs <;> simp
      simp only [List.length_append, List.length_nil] at hlen
      omega

theorem utf8_length_ne_nil (s : String) (h : ¬ (utf8 s).length < 4) : utf8 s ≠ [] := by
  intro e
  rw [e] at h
  simp at h

/-- The members of the object of a plain descriptor. -/
theorem vmessMembers_plain (cfg : Config) (data : Client) (h : utf8 data.Id ≠ []) :
    vmessMembers (vmessTemplate cfg data "") =
      [(utf8 "add", utf8 cfg.WebHost), (utf8 "aid", utf8 "1"), (utf8 "alpn", []),
       (utf8 "fp", []), (utf8 "host", utf8 "www.youtube.com"), (utf8 "id", utf8 data.Id),
       (utf8 "net", utf8 "tcp"), (utf8 "path", utf8 "/"), (utf8 "port", utf8 cfg.V2rayPort),
       (utf8 "ps", vmessLabel data.ExpireDate (firstLabel cfg.WebHost) cfg.WebHostRegion
          ((utf8 data.Id).drop ((utf8 data.Id).length - 4))),
       (utf8 "scy", utf8 "none"), (utf8 "sni", []), (utf8 "tls", []),
       (utf8 "type", utf8 "http"), (utf8 "v", utf8 "2")] := by
  unfold vmessMembers vmessTemplate
  simp only [if_neg h]
  rfl

/-- The members of the object of the inner descriptor of a locked descriptor. -/
theorem vmessMembers_locked (cfg : Config) (data : Client) (h : utf8 data.Id ≠ [])
    (hd : utf8 data.DeviceId ≠ []) :
    vmessMembers (vmessTemplate cfg data data.DeviceId) =
      [(utf8 "add", utf8 cfg.WebHost), (utf8 "aid", utf8 "1"), (utf8 "alpn", []),
       (utf8 "deviceID", utf8 data.DeviceId),
       (utf8 "fp", []), (utf8 "host", utf8 "www.youtube.com"), (utf8 "id", utf8 data.Id),
       (utf8 "net", utf8 "tcp"), (utf8 "path", utf8 "/"), (utf8 "port", utf8 cfg.V2rayPort),
       (utf8 "ps", vmessLabel data.ExpireDate (firstLabel cfg.WebHost) cfg.WebHostRegion
          ((utf8 data.Id).drop ((utf8 data.Id).length - 4))),
       (utf8 "scy", utf8 "none"), (utf8 "sni", []), (utf8 "tls", []),
       (utf8 "type", utf8 "http"), (utf8 "v", utf8 "2")] := by
  unfold vmessMembers vmessTemplate
  simp only [if_neg h, if_neg hd]
  rfl

/-- The object a text `vmess://` + base64(object) carries. -/
theorem vmessObjectOf_marshal (ms : List (List Nat × List Nat)) :
    vmessObjectOf (VmessPrefix ++ String.mk (base64Encode (marshalObject ms)))
      = some (ms.map (fun m => (toValidUTF8 m.1, toValidUTF8 m.2))) := by
  unfold vmessObjectOf
  have e : stripStart "vmess://" (VmessPrefix ++ String.mk (base64Encode (marshalObject ms)))
      = some (base64Encode (marshalObject ms)) := stripStart_append _ _
  rw [e]
  simp only
  rw [base64Decode_encode _ _ (le_refl _) (marshalObject_lt ms)]
  exact readObject_marshalObject ms

theorem GenerateVmessURI_ok (cfg : Config) (data : Client) (uri : String)
    (h : GenerateVmessURI cfg data = .returned (uri, none)) :
    ¬ (utf8 data.Id).length < 4 ∧
    uri = VmessPrefix ++
      String.mk (base64Encode (marshalObject (vmessMembers (vmessTemplate cfg data "")))) := by
  unfold GenerateVmessURI at h
  split_ifs at h with h1
  simp only [Outcome.returned.injEq, Prod.mk.injEq, and_true] at h
  exact ⟨h1, h.symm⟩

theorem GenerateVmessLockedURI_ok (cfg : Config) (data : Client) (locked : String)
    (h : GenerateVmessLockedURI cfg data = .returned (locked, none)) :
    data.DeviceId ≠ "" ∧ ¬ (utf8 data.Id).length < 4 ∧
    locked = V2boxLockedPrefix ++ String.mk (base64Encode (utf8 (VmessPrefix ++
      String.mk (base64Encode
        (marshalObject (vmessMembers (vmessTemplate cfg data data.DeviceId))))))) := by
  unfold GenerateVmessLockedURI at h
  split_ifs at h with h1 h2
  · simp at h
  · simp only [Outcome.returned.injEq, Prod.mk.injEq, and_true] at h
    exact ⟨h1, h2, h.symm⟩

theorem GenerateShadowsocksLockedURI_ok (cfg : Config) (data : Client) (locked : String)
    (h : GenerateShadowsocksLockedURI cfg data = .returned (locked, none)) :
    data.DeviceId ≠ "" ∧ ¬ (utf8 data.Password).length < 4 ∧
    locked = V2boxLockedPrefix ++ String.mk (base64Encode (utf8 (ShadowsocksPrefix ++
      String.mk (base64Encode (utf8 ("aes-128-gcm" ++ ":" ++ data.Password))) ++ "@" ++
      cfg.WebHost ++ ":" ++ formatInt data.Port ++ "#" ++
      String.mk (queryEscape
        (shadowsocksLabel data.ExpireDate (firstLabel cfg.WebHost) cfg.WebHostRegion
          ((utf8 data.Password).drop ((utf8 data.Password).length - 4)) ++
          utf8 " [locked:" ++ utf8 data.DeviceId ++ utf8 "]"))))) := by
  unfold GenerateShadowsocksLockedURI at h
  split_ifs at h with h1 h2
  · simp at h
  · simp only [Outcome.returned.injEq, Prod.mk.injEq, and_true] at h
    exact ⟨h1, h2, h.symm⟩

theorem lockedInnerOf_wrap (inner : String) :
    lockedInnerOf (V2boxLockedPrefix ++ String.mk (base64Encode (utf8 inner)))
      = some (utf8 inner) := by
  unfold lockedInnerOf
  have e : stripStart "v2box://locked="
      (V2boxLockedPrefix ++ String.mk (base64Encode (utf8 inner)))
      = some (base64Encode (utf8 inner)) := stripStart_append _ _
  rw [e]
  exact base64Decode_encode _ _ (le_refl _) (utf8_lt inner)

/-! ### The flag read as a number -/

theorem utf8_ascii (cs : List Char) (h : ∀ c ∈ cs, c.toNat < 128) :
    (utf8 (String.mk cs)).map Char.ofNat = cs := by
  induction cs with
  | nil => rfl
  | cons c rest ih =>
    have hc : c.toNat < 128 := h c (List.mem_cons_self _ _)
    have e : utf8EncodeChar c = [c.toNat] := by
      unfold utf8EncodeChar
      rw [if_pos hc]
    rw [utf8_cons, e, List.singleton_append, List.map_cons, Char.ofNat_toNat,
      ih (fun x hx => h x (List.mem_cons_of_mem _ hx))]

theorem decimalDigitsValue_ascii (ds : List Char) (v : Nat)
    (h : decimalDigitsValue ds = some v) : ∀ c ∈ ds, c.toNat < 128 := by
  unfold decimalDigitsValue at h
  split_ifs at h with hd
  intro c hc
  have := isDigit_toNat c ((List.all_eq_true.mp hd.2) c hc)
  omega

theorem decimalIntegerValue_ascii (s : String) (v : Int)
    (h : decimalIntegerValue s = some v) : ∀ c ∈ s.toList, c.toNat < 128 := by
  rw [decimalIntegerValue_of_chars] at h
  intro c hc
  cases hs : s.toList with
  | nil =>
    rw [hs] at hc
    simp at hc
  | cons x rest =>
    rw [hs] at h hc
    simp only [List.head?_cons, Option.some.injEq, List.tail_cons] at h
    have hrest : ∀ ds : List Char, ∀ f : Int → Int,
        Option.map f (do let a ← decimalDigitsValue ds; pure (a : Int)) = some v →
          ∀ c ∈ ds, c.toNat < 128 := by
      intro ds f hf
      cases hv : decimalDigitsValue ds with
      | none => rw [hv] at hf; simp at hf
      | some n => exact decimalDigitsValue_ascii ds n hv
    split_ifs at h with h1 h2
    · rcases List.mem_cons.mp hc with e | e
      · rw [e, h1]
        decide
      · exact hrest rest _ h c e
    · rcases List.mem_cons.mp hc with e | e
      · rw [e, h2]
        decide
      · exact hrest rest _ h c e
    · exact hrest (x :: rest) _ h c hc

/-- The bytes of a flag that `strconv.Atoi` accepts spell the number it
returns. -/
theorem decimalOfBytes_flag (s : String) (h : (Atoi s).2 = false) :
    decimalOfBytes (utf8 s) = some (Atoi s).1 := by
  have hr := Atoi_refines s
  cases hv : decimalIntegerValue s with
  | none =>
    rw [hv] at hr
    rw [hr] at h
    simp at h
  | some v =>
    rw [hv] at hr
    simp only at hr
    have hval : (Atoi s).1 = v := by
      rw [hr]
      rw [hr] at h
      split_ifs at h ⊢
      all_goals simp at h ⊢
    unfold decimalOfBytes
    have hasc := decimalIntegerValue_ascii s v hv
    have e : (utf8 s).map Char.ofNat = s.toList := utf8_ascii s.toList hasc
    rw [e, hval]
    exact hv

/-! ## Plain vmess descriptors: claims -/

set_option maxRecDepth 100000 in
/-- C22, counterexample: the roster entry `EditVmessUser` leaves for `dave` has
the id `uuid-2` and the port 0; with the flag `V2rayPort` set to `443`,
`GenerateVmessURI` succeeds on it and the object of the descriptor has the id
`uuid-2` and the port member `443`, whose decimal value 443 is not the port
of the credential. -/
theorem vmess_port_counterexample :
    GenerateVmessURI exampleConfig editedDave = .returned
      ("vmess://eyJhZGQiOiJzZzEuZXhhbXBsZS5jb20iLCJhaWQiOiIxIiwiYWxwbiI6IiIsImZwIjoiIiwiaG9zdCI6Ind3dy55b3V0dWJlLmNvbSIsImlkIjoidXVpZC0yIiwibmV0IjoidGNwIiwicGF0aCI6Ii8iLCJwb3J0IjoiNDQzIiwicHMiOiJ2YWxpZCBiZWZvcmUgKDIwMjUtMDMtMDEpIHNnMS1zZy1pZC0yIiwic2N5Ijoibm9uZSIsInNuaSI6IiIsInRscyI6IiIsInR5cGUiOiJodHRwIiwidiI6IjIifQ==",
       none) ∧
    vmessMemberOf
      "vmess://eyJhZGQiOiJzZzEuZXhhbXBsZS5jb20iLCJhaWQiOiIxIiwiYWxwbiI6IiIsImZwIjoiIiwiaG9zdCI6Ind3dy55b3V0dWJlLmNvbSIsImlkIjoidXVpZC0yIiwibmV0IjoidGNwIiwicGF0aCI6Ii8iLCJwb3J0IjoiNDQzIiwicHMiOiJ2YWxpZCBiZWZvcmUgKDIwMjUtMDMtMDEpIHNnMS1zZy1pZC0yIiwic2N5Ijoibm9uZSIsInNuaSI6IiIsInRscyI6IiIsInR5cGUiOiJodHRwIiwidiI6IjIifQ=="
      "id" = some (utf8 editedDave.Id) ∧
    vmessPortOf
      "vmess://eyJhZGQiOiJzZzEuZXhhbXBsZS5jb20iLCJhaWQiOiIxIiwiYWxwbiI6IiIsImZwIjoiIiwiaG9zdCI6Ind3dy55b3V0dWJlLmNvbSIsImlkIjoidXVpZC0yIiwibmV0IjoidGNwIiwicGF0aCI6Ii8iLCJwb3J0IjoiNDQzIiwicHMiOiJ2YWxpZCBiZWZvcmUgKDIwMjUtMDMtMDEpIHNnMS1zZy1pZC0yIiwic2N5Ijoibm9uZSIsInNuaSI6IiIsInRscyI6IiIsInR5cGUiOiJodHRwIiwidiI6IjIifQ=="
      = some 443 ∧
    editedDave.Port = 0 ∧
    vmessPortOf
      "vmess://eyJhZGQiOiJzZzEuZXhhbXBsZS5jb20iLCJhaWQiOiIxIiwiYWxwbiI6IiIsImZwIjoiIiwiaG9zdCI6Ind3dy55b3V0dWJlLmNvbSIsImlkIjoidXVpZC0yIiwibmV0IjoidGNwIiwicGF0aCI6Ii8iLCJwb3J0IjoiNDQzIiwicHMiOiJ2YWxpZCBiZWZvcmUgKDIwMjUtMDMtMDEpIHNnMS1zZy1pZC0yIiwic2N5Ijoibm9uZSIsInNuaSI6IiIsInRscyI6IiIsInR5cGUiOiJodHRwIiwidiI6IjIifQ=="
      ≠ some editedDave.Port := by
  refine ⟨by rfl, by rfl, by rfl, by rfl, ?_⟩
  intro h
  have e : vmessPortOf
      "vmess://eyJhZGQiOiJzZzEuZXhhbXBsZS5jb20iLCJhaWQiOiIxIiwiYWxwbiI6IiIsImZwIjoiIiwiaG9zdCI6Ind3dy55b3V0dWJlLmNvbSIsImlkIjoidXVpZC0yIiwibmV0IjoidGNwIiwicGF0aCI6Ii8iLCJwb3J0IjoiNDQzIiwicHMiOiJ2YWxpZCBiZWZvcmUgKDIwMjUtMDMtMDEpIHNnMS1zZy1pZC0yIiwic2N5Ijoibm9uZSIsInNuaSI6IiIsInRscyI6IiIsInR5cGUiOiJodHRwIiwidiI6IjIifQ=="
      = some 443 := by rfl
  rw [e] at h
  revert h
  decide

/-- C22, amended: for every credential for which `GenerateVmessURI` returns a
descriptor with a nil error, reading the descriptor back (after `vmess://`, the
text is base64-decoded and read as a JSON object) gives a member `id` equal to
the id of the credential and a member `port` equal to the text of the flag
`V2rayPort`, whatever port the credential record holds; when `strconv.Atoi`
accepts the flag, the decimal value of that member is the number `Atoi`
returns, which is the port `CreateVmessUser` assigns. -/
theorem vmess_decoding_recovers_id_and_flag (cfg : Config) (data : Client) (uri : String)
    (h : GenerateVmessURI cfg data = .returned (uri, none)) :
    vmessMemberOf uri "id" = some (utf8 data.Id) ∧
    vmessMemberOf uri "port" = some (utf8 cfg.V2rayPort) ∧
    ((Atoi cfg.V2rayPort).2 = false → vmessPortOf uri = some (Atoi cfg.V2rayPort).1) := by
  obtain ⟨hlen, huri⟩ := GenerateVmessURI_ok cfg data uri h
  have hobj := vmessObjectOf_marshal (vmessMembers (vmessTemplate cfg data ""))
  rw [← huri, vmessMembers_plain cfg data (utf8_length_ne_nil _ hlen)] at hobj
  have hid : vmessMemberOf uri "id" = some (utf8 data.Id) := by
    unfold vmessMemberOf
    rw [hobj]
    calc _ = some (toValidUTF8 (utf8 data.Id)) := by rfl
      _ = _ := by rw [toValidUTF8_utf8]
  have hport : vmessMemberOf uri "port" = some (utf8 cfg.V2rayPort) := by
    unfold vmessMemberOf
    rw [hobj]
    calc _ = some (toValidUTF8 (utf8 cfg.V2rayPort)) := by rfl
      _ = _ := by rw [toValidUTF8_utf8]
  refine ⟨hid, hport, ?_⟩
  intro hflag
  unfold vmessPortOf
  rw [hport]
  exact decimalOfBytes_flag cfg.V2rayPort hflag

set_option maxRecDepth 100000 in
/-- Witness of C22: the descriptor of `carol` (id `uuid-1`) under the flag
`443`. -/
theorem vmess_decoding_recovers_id_and_flag_witness :
    vmessMemberOf
      "vmess://eyJhZGQiOiJzZzEuZXhhbXBsZS5jb20iLCJhaWQiOiIxIiwiYWxwbiI6IiIsImZwIjoiIiwiaG9zdCI6Ind3dy55b3V0dWJlLmNvbSIsImlkIjoidXVpZC0xIiwibmV0IjoidGNwIiwicGF0aCI6Ii8iLCJwb3J0IjoiNDQzIiwicHMiOiJ2YWxpZCBiZWZvcmUgKDIwMjUtMDItMDEpIHNnMS1zZy1pZC0xIiwic2N5Ijoibm9uZSIsInNuaSI6IiIsInRscyI6IiIsInR5cGUiOiJodHRwIiwidiI6IjIifQ=="
      "id" = some (utf8 "uuid-1") ∧
    vmessMemberOf
      "vmess://eyJhZGQiOiJzZzEuZXhhbXBsZS5jb20iLCJhaWQiOiIxIiwiYWxwbiI6IiIsImZwIjoiIiwiaG9zdCI6Ind3dy55b3V0dWJlLmNvbSIsImlkIjoidXVpZC0xIiwibmV0IjoidGNwIiwicGF0aCI6Ii8iLCJwb3J0IjoiNDQzIiwicHMiOiJ2YWxpZCBiZWZvcmUgKDIwMjUtMDItMDEpIHNnMS1zZy1pZC0xIiwic2N5Ijoibm9uZSIsInNuaSI6IiIsInRscyI6IiIsInR5cGUiOiJodHRwIiwidiI6IjIifQ=="
      "port" = some (utf8 "443") ∧
    (Atoi "443").2 = false ∧
    vmessPortOf
      "vmess://eyJhZGQiOiJzZzEuZXhhbXBsZS5jb20iLCJhaWQiOiIxIiwiYWxwbiI6IiIsImZwIjoiIiwiaG9zdCI6Ind3dy55b3V0dWJlLmNvbSIsImlkIjoidXVpZC0xIiwibmV0IjoidGNwIiwicGF0aCI6Ii8iLCJwb3J0IjoiNDQzIiwicHMiOiJ2YWxpZCBiZWZvcmUgKDIwMjUtMDItMDEpIHNnMS1zZy1pZC0xIiwic2N5Ijoibm9uZSIsInNuaSI6IiIsInRscyI6IiIsInR5cGUiOiJodHRwIiwidiI6IjIifQ=="
      = some 443 :=
  ⟨(vmess_decoding_recovers_id_and_flag exampleConfig carol _ (by rfl)).1,
   (vmess_decoding_recovers_id_and_flag exampleConfig carol _ (by rfl)).2.1,
   by rfl,
   (vmess_decoding_recovers_id_and_flag exampleConfig carol _ (by rfl)).2.2 (by rfl)⟩

/-! ## Locked descriptors: claims -/

/-- C23, the code at the failing inputs: a vmess credential with the device id
`device-a` and the three-byte id `abc`, and a Shadowsocks credential with the
device id `device-a` and the three-byte password `abc`, make the locked
generators panic on the slice `[len-4:]` (vmess.go:418, shadowsocks.go:458):
no locked descriptor is returned although the device id is not empty, and so
it is for every credential with a device id and an identity of fewer than four
bytes.  The rest of the claim holds: with an empty device id both generators
return their missing-device error and no descriptor, and with a device id and
an identity of at least four bytes they return a descriptor and a nil
error. -/
theorem locked_generation_panics_on_short_identity :
    shortIdClient.DeviceId = "device-a" ∧
    GenerateVmessLockedURI exampleConfig shortIdClient = .panicked ∧
    shortPasswordClient.DeviceId = "device-a" ∧
    GenerateShadowsocksLockedURI exampleConfig shortPasswordClient = .panicked ∧
    (∀ (cfg : Config) (data : Client), data.DeviceId = "" →
      GenerateVmessLockedURI cfg data
        = .returned ("", some "unable to generate locked QR without device id") ∧
      GenerateShadowsocksLockedURI cfg data
        = .returned ("", some "unable to generate locked URI without device id")) ∧
    (∀ (cfg : Config) (data : Client), data.DeviceId ≠ "" →
      (4 ≤ (utf8 data.Id).length →
        ∃ uri, GenerateVmessLockedURI cfg data = .returned (uri, none)) ∧
      (4 ≤ (utf8 data.Password).length →
        ∃ uri, GenerateShadowsocksLockedURI cfg data = .returned (uri, none))) ∧
    (∀ (cfg : Config) (data : Client), data.DeviceId ≠ "" →
      ((utf8 data.Id).length < 4 → GenerateVmessLockedURI cfg data = .panicked) ∧
      ((utf8 data.Password).length < 4 →
        GenerateShadowsocksLockedURI cfg data = .panicked)) := by
  refine ⟨rfl, by rfl, rfl, by rfl, ?_, ?_, ?_⟩
  · intro cfg data h
    constructor
    · unfold GenerateVmessLockedURI
      rw [if_pos h]
    · unfold GenerateShadowsocksLockedURI
      rw [if_pos h]
  · intro cfg data h
    constructor
    · intro hlen
      unfold GenerateVmessLockedURI
      rw [if_neg h, if_neg (by omega)]
      exact ⟨_, rfl⟩
    · intro hlen
      unfold GenerateShadowsocksLockedURI
      rw [if_neg h, if_neg (by omega)]
      exact ⟨_, rfl⟩
  · intro cfg data h
    constructor
    · intro hlen
      unfold GenerateVmessLockedURI
      rw [if_neg h, if_pos hlen]
    · intro hlen
      unfold GenerateShadowsocksLockedURI
      rw [if_neg h, if_pos hlen]

theorem containsBytes_middle (needle front back : List Nat) :
    containsBytes needle (front ++ needle ++ back) = true := by
  unfold containsBytes
  rw [List.any_eq_true]
  refine ⟨needle ++ back, ?_, ?_⟩
  · rw [List.mem_tails, List.append_assoc]
    exact List.suffix_append _ _
  · rw [List.isPrefixOf_iff_prefix]
    exact List.prefix_append _ _

theorem lockedLabel_lt (data : Client) (cfg : Config) :
    ∀ b ∈ shadowsocksLabel data.ExpireDate (firstLabel cfg.WebHost) cfg.WebHostRegion
        ((utf8 data.Password).drop ((utf8 data.Password).length - 4)) ++
        utf8 " [locked:" ++ utf8 data.DeviceId ++ utf8 "]", b < 256 := by
  intro b hb
  simp only [List.mem_append] at hb
  rcases hb with ((h | h) | h) | h
  · exact shadowsocksLabel_lt _ _ _ _ (drop_lt _ _ (utf8_lt _)) b h
  · exact utf8_lt _ b h
  · exact utf8_lt _ b h
  · exact utf8_lt _ b h

/-- The object the inner descriptor of a locked vmess descriptor carries. -/
theorem vmess_locked_object (cfg : Config) (data : Client)
    (hlen : ¬ (utf8 data.Id).length < 4) (hdev : data.DeviceId ≠ "") :
    vmessObjectOf (VmessPrefix ++ String.mk (base64Encode
        (marshalObject (vmessMembers (vmessTemplate cfg data data.DeviceId))))) =
      some (List.map (fun m => (toValidUTF8 m.1, toValidUTF8 m.2))
        [(utf8 "add", utf8 cfg.WebHost), (utf8 "aid", utf8 "1"), (utf8 "alpn", []),
         (utf8 "deviceID", utf8 data.DeviceId),
         (utf8 "fp", []), (utf8 "host", utf8 "www.youtube.com"), (utf8 "id", utf8 data.Id),
         (utf8 "net", utf8 "tcp"), (utf8 "path", utf8 "/"), (utf8 "port", utf8 cfg.V2rayPort),
         (utf8 "ps", vmessLabel data.ExpireDate (firstLabel cfg.WebHost) cfg.WebHostRegion
            ((utf8 data.Id).drop ((utf8 data.Id).length - 4))),
         (utf8 "scy", utf8 "none"), (utf8 "sni", []), (utf8 "tls", []),
         (utf8 "type", utf8 "http"), (utf8 "v", utf8 "2")]) := by
  rw [vmessObjectOf_marshal,
    vmessMembers_locked cfg data (utf8_length_ne_nil _ hlen) (utf8_ne_nil _ hdev)]

/-- The object a plain vmess descriptor carries. -/
theorem vmess_plain_object (cfg : Config) (data : Client)
    (hlen : ¬ (utf8 data.Id).length < 4) :
    vmessObjectOf (VmessPrefix ++ String.mk (base64Encode
        (marshalObject (vmessMembers (vmessTemplate cfg data ""))))) =
      some (List.map (fun m => (toValidUTF8 m.1, toValidUTF8 m.2))
        [(utf8 "add", utf8 cfg.WebHost), (utf8 "aid", utf8 "1"), (utf8 "alpn", []),
         (utf8 "fp", []), (utf8 "host", utf8 "www.youtube.com"), (utf8 "id", utf8 data.Id),
         (utf8 "net", utf8 "tcp"), (utf8 "path", utf8 "/"), (utf8 "port", utf8 cfg.V2rayPort),
         (utf8 "ps", vmessLabel data.ExpireDate (firstLabel cfg.WebHost) cfg.WebHostRegion
            ((utf8 data.Id).drop ((utf8 data.Id).length - 4))),
         (utf8 "scy", utf8 "none"), (utf8 "sni", []), (utf8 "tls", []),
         (utf8 "type", utf8 "http"), (utf8 "v", utf8 "2")]) := by
  rw [vmessObjectOf_marshal, vmessMembers_plain cfg data (utf8_length_ne_nil _ hlen)]

set_option maxRecDepth 100000 in
/-- C24, counterexample: the locked vmess descriptor of `carol` (id `uuid-1`,
device id `device-a`) decodes to an inner descriptor whose member `ps` is
`valid before (2025-02-01) sg1-sg-id-1`: the device id does not occur in the
label. -/
theorem locked_vmess_label_counterexample :
    GenerateVmessLockedURI exampleConfig carol = .returned
      ("v2box://locked=dm1lc3M6Ly9leUpoWkdRaU9pSnpaekV1WlhoaGJYQnNaUzVqYjIwaUxDSmhhV1FpT2lJeElpd2lZV3h3YmlJNklpSXNJbVJsZG1salpVbEVJam9pWkdWMmFXTmxMV0VpTENKbWNDSTZJaUlzSW1odmMzUWlPaUozZDNjdWVXOTFkSFZpWlM1amIyMGlMQ0pwWkNJNkluVjFhV1F0TVNJc0ltNWxkQ0k2SW5SamNDSXNJbkJoZEdnaU9pSXZJaXdpY0c5eWRDSTZJalEwTXlJc0luQnpJam9pZG1Gc2FXUWdZbVZtYjNKbElDZ3lNREkxTFRBeUxUQXhLU0J6WnpFdGMyY3RhV1F0TVNJc0luTmplU0k2SW01dmJtVWlMQ0p6Ym1raU9pSWlMQ0owYkhNaU9pSWlMQ0owZVhCbElqb2lhSFIwY0NJc0luWWlPaUl5SW4wPQ==",
       none) ∧
    lockedInnerOf
      "v2box://locked=dm1lc3M6Ly9leUpoWkdRaU9pSnpaekV1WlhoaGJYQnNaUzVqYjIwaUxDSmhhV1FpT2lJeElpd2lZV3h3YmlJNklpSXNJbVJsZG1salpVbEVJam9pWkdWMmFXTmxMV0VpTENKbWNDSTZJaUlzSW1odmMzUWlPaUozZDNjdWVXOTFkSFZpWlM1amIyMGlMQ0pwWkNJNkluVjFhV1F0TVNJc0ltNWxkQ0k2SW5SamNDSXNJbkJoZEdnaU9pSXZJaXdpY0c5eWRDSTZJalEwTXlJc0luQnpJam9pZG1Gc2FXUWdZbVZtYjNKbElDZ3lNREkxTFRBeUxUQXhLU0J6WnpFdGMyY3RhV1F0TVNJc0luTmplU0k2SW01dmJtVWlMQ0p6Ym1raU9pSWlMQ0owYkhNaU9pSWlMQ0owZVhCbElqb2lhSFIwY0NJc0luWWlPaUl5SW4wPQ=="
      = some (utf8
        "vmess://eyJhZGQiOiJzZzEuZXhhbXBsZS5jb20iLCJhaWQiOiIxIiwiYWxwbiI6IiIsImRldmljZUlEIjoiZGV2aWNlLWEiLCJmcCI6IiIsImhvc3QiOiJ3d3cueW91dHViZS5jb20iLCJpZCI6InV1aWQtMSIsIm5ldCI6InRjcCIsInBhdGgiOiIvIiwicG9ydCI6IjQ0MyIsInBzIjoidmFsaWQgYmVmb3JlICgyMDI1LTAyLTAxKSBzZzEtc2ctaWQtMSIsInNjeSI6Im5vbmUiLCJzbmkiOiIiLCJ0bHMiOiIiLCJ0eXBlIjoiaHR0cCIsInYiOiIyIn0=") ∧
    vmessMemberOf
      "vmess://eyJhZGQiOiJzZzEuZXhhbXBsZS5jb20iLCJhaWQiOiIxIiwiYWxwbiI6IiIsImRldmljZUlEIjoiZGV2aWNlLWEiLCJmcCI6IiIsImhvc3QiOiJ3d3cueW91dHViZS5jb20iLCJpZCI6InV1aWQtMSIsIm5ldCI6InRjcCIsInBhdGgiOiIvIiwicG9ydCI6IjQ0MyIsInBzIjoidmFsaWQgYmVmb3JlICgyMDI1LTAyLTAxKSBzZzEtc2ctaWQtMSIsInNjeSI6Im5vbmUiLCJzbmkiOiIiLCJ0bHMiOiIiLCJ0eXBlIjoiaHR0cCIsInYiOiIyIn0="
      "ps" = some (utf8 "valid before (2025-02-01) sg1-sg-id-1") ∧
    containsBytes (utf8 carol.DeviceId) (utf8 "valid before (2025-02-01) sg1-sg-id-1") = false :=
  ⟨by rfl, by rfl, by rfl, by rfl⟩

/-- C24, amended: for every credential for which locked generation succeeds,
stripping `v2box://locked=` and base64-decoding the locked descriptor gives the
bytes of an inner descriptor.  For Shadowsocks the URL-unescaped text after
its `#` contains the device id of the credential.  For vmess the device id is
the member `deviceID` of its JSON object, and the member `ps` is the one of
the plain descriptor of the same credential. -/
theorem locked_descriptor_carries_device_id :
    (∀ (cfg : Config) (data : Client) (locked : String),
      GenerateShadowsocksLockedURI cfg data = .returned (locked, none) →
      ∃ (inner : String) (label : List Nat), lockedInnerOf locked = some (utf8 inner) ∧
        shadowsocksLabelOf inner = some label ∧
        containsBytes (utf8 data.DeviceId) label = true) ∧
    (∀ (cfg : Config) (data : Client) (locked : String),
      GenerateVmessLockedURI cfg data = .returned (locked, none) →
      ∃ inner plain : String, lockedInnerOf locked = some (utf8 inner) ∧
        vmessMemberOf inner "deviceID" = some (utf8 data.DeviceId) ∧
        GenerateVmessURI cfg data = .returned (plain, none) ∧
        vmessMemberOf inner "ps" = vmessMemberOf plain "ps") := by
  constructor
  · intro cfg data locked h
    obtain ⟨_, _, hlocked⟩ := GenerateShadowsocksLockedURI_ok cfg data locked h
    obtain ⟨_, _, hlabel⟩ := shadowsocks_text_reads data.Password cfg.WebHost data.Port _ _
      (lockedLabel_lt data cfg) rfl
    refine ⟨_, _, ?_, hlabel, ?_⟩
    · rw [hlocked]
      exact lockedInnerOf_wrap _
    · exact containsBytes_middle _ _ _
  · intro cfg data locked h
    obtain ⟨hdev, hlen, hlocked⟩ := GenerateVmessLockedURI_ok cfg data locked h
    have hplain : GenerateVmessURI cfg data = .returned
        (VmessPrefix ++ String.mk (base64Encode
          (marshalObject (vmessMembers (vmessTemplate cfg data "")))), none) := by
      unfold GenerateVmessURI
      rw [if_neg hlen]
    refine ⟨VmessPrefix ++ String.mk (base64Encode
      (marshalObject (vmessMembers (vmessTemplate cfg data data.DeviceId)))), _, ?_, ?_, hplain, ?_⟩
    · rw [hlocked]
      exact lockedInnerOf_wrap _
    · unfold vmessMemberOf
      rw [vmess_locked_object cfg data hlen hdev]
      calc _ = some (toValidUTF8 (utf8 data.DeviceId)) := by rfl
        _ = _ := by rw [toValidUTF8_utf8]
    · unfold vmessMemberOf
      rw [vmess_locked_object cfg data hlen hdev, vmess_plain_object cfg data hlen]
      rfl

set_option maxRecDepth 100000 in
/-- Witness of C24: the locked descriptors of `alice` (password `abc123`, port
10000, device id `device-a`) and of `carol` (id `uuid-1`, device id
`device-a`). -/
theorem locked_descriptor_carries_device_id_witness :
    (∃ (inner : String) (label : List Nat),
      lockedInnerOf
        "v2box://locked=c3M6Ly9ZV1Z6TFRFeU9DMW5ZMjA2WVdKak1USXpAc2cxLmV4YW1wbGUuY29tOjEwMDAwI3ZhbGlkK2JlZm9yZSslMjgyMDI1LTAyLTAxJTI5K3NnMS1zZy1jMTIzKyU1QmxvY2tlZCUzQWRldmljZS1hJTVE"
        = some (utf8 inner) ∧
      shadowsocksLabelOf inner = some label ∧
      containsBytes (utf8 "device-a") label = true) ∧
    (∃ inner plain : String,
      lockedInnerOf
        "v2box://locked=dm1lc3M6Ly9leUpoWkdRaU9pSnpaekV1WlhoaGJYQnNaUzVqYjIwaUxDSmhhV1FpT2lJeElpd2lZV3h3YmlJNklpSXNJbVJsZG1salpVbEVJam9pWkdWMmFXTmxMV0VpTENKbWNDSTZJaUlzSW1odmMzUWlPaUozZDNjdWVXOTFkSFZpWlM1amIyMGlMQ0pwWkNJNkluVjFhV1F0TVNJc0ltNWxkQ0k2SW5SamNDSXNJbkJoZEdnaU9pSXZJaXdpY0c5eWRDSTZJalEwTXlJc0luQnpJam9pZG1Gc2FXUWdZbVZtYjNKbElDZ3lNREkxTFRBeUxUQXhLU0J6WnpFdGMyY3RhV1F0TVNJc0luTmplU0k2SW01dmJtVWlMQ0p6Ym1raU9pSWlMQ0owYkhNaU9pSWlMQ0owZVhCbElqb2lhSFIwY0NJc0luWWlPaUl5SW4wPQ=="
        = some (utf8 inner) ∧
      vmessMemberOf inner "deviceID" = some (utf8 "device-a") ∧
      GenerateVmessURI exampleConfig carol = .returned (plain, none) ∧
      vmessMemberOf inner "ps" = vmessMemberOf plain "ps") :=
  ⟨locked_descriptor_carries_device_id.1 exampleConfig { alice with Port := 10000 } _ (by rfl),
   locked_descriptor_carries_device_id.2 exampleConfig carol _ (by rfl)⟩

theorem mk_queryEscape_no_hash (label : List Nat) (hl : ∀ b ∈ label, b < 256) :
    ∀ c ∈ (String.mk (queryEscape label)).toList, c ≠ '#' :=
  queryEscape_no_hash label hl

/-- C25: for every credential for which locked generation succeeds, the locked
descriptor is `v2box://locked=` followed by the standard base64 text of the
bytes of an inner descriptor, and the plain generator succeeds on the same
credential.  For Shadowsocks the inner and the plain descriptor are the same
text `ss://` + base64(`aes-128-gcm:` + password) + `@` + host + `:` + port up
to the `#` that starts their labels (no label holds a `#`), and both read back
as the password and the port of the credential.  For vmess the inner
descriptor starts with `vmess://` and the members `id`, `add` and `port` of
its object are those of the plain descriptor: the id of the credential, the
host and the flag `V2rayPort`. -/
theorem locked_wraps_plain_family :
    (∀ (cfg : Config) (data : Client) (locked : String),
      GenerateShadowsocksLockedURI cfg data = .returned (locked, none) →
      ∃ inner plain common labelInner labelPlain : String,
        locked = V2boxLockedPrefix ++ String.mk (base64Encode (utf8 inner)) ∧
        lockedInnerOf locked = some (utf8 inner) ∧
        GenerateShadowsocksURI cfg data = .returned (plain, none) ∧
        common = ShadowsocksPrefix ++
          String.mk (base64Encode (utf8 ("aes-128-gcm" ++ ":" ++ data.Password))) ++ "@" ++
          cfg.WebHost ++ ":" ++ formatInt data.Port ∧
        inner = common ++ "#" ++ labelInner ∧ plain = common ++ "#" ++ labelPlain ∧
        (∀ c ∈ labelInner.toList, c ≠ '#') ∧ (∀ c ∈ labelPlain.toList, c ≠ '#') ∧
        shadowsocksSecretOf inner = some (utf8 data.Password) ∧
        shadowsocksSecretOf plain = some (utf8 data.Password) ∧
        shadowsocksPortOf inner = some data.Port ∧
        shadowsocksPortOf plain = some data.Port) ∧
    (∀ (cfg : Config) (data : Client) (locked : String),
      GenerateVmessLockedURI cfg data = .returned (locked, none) →
      ∃ inner plain text : String,
        locked = V2boxLockedPrefix ++ String.mk (base64Encode (utf8 inner)) ∧
        lockedInnerOf locked = some (utf8 inner) ∧
        inner = VmessPrefix ++ text ∧
        GenerateVmessURI cfg data = .returned (plain, none) ∧
        vmessMemberOf inner "id" = some (utf8 data.Id) ∧
        vmessMemberOf plain "id" = some (utf8 data.Id) ∧
        vmessMemberOf inner "add" = some (utf8 cfg.WebHost) ∧
        vmessMemberOf plain "add" = some (utf8 cfg.WebHost) ∧
        vmessMemberOf inner "port" = some (utf8 cfg.V2rayPort) ∧
        vmessMemberOf plain "port" = some (utf8 cfg.V2rayPort)) := by
  constructor
  · intro cfg data locked h
    obtain ⟨_, hlen, hlocked⟩ := GenerateShadowsocksLockedURI_ok cfg data locked h
    have hne : data.Password ≠ "" := by
      intro e
      rw [e] at hlen
      exact hlen (by decide)
    have hplain : GenerateShadowsocksURI cfg data = .returned
        (ShadowsocksPrefix ++
          String.mk (base64Encode (utf8 ("aes-128-gcm" ++ ":" ++ data.Password))) ++ "@" ++
          cfg.WebHost ++ ":" ++ formatInt data.Port ++ "#" ++
          String.mk (queryEscape
            (shadowsocksLabel data.ExpireDate (firstLabel cfg.WebHost) cfg.WebHostRegion
              ((utf8 data.Password).drop ((utf8 data.Password).length - 4)))), none) := by
      unfold GenerateShadowsocksURI
      simp only [if_neg hlen, if_neg hne]
    obtain ⟨hs1, hp1, _⟩ := shadowsocks_text_reads data.Password cfg.WebHost data.Port _ _
      (lockedLabel_lt data cfg) rfl
    obtain ⟨hs2, hp2, _⟩ := shadowsocks_text_reads data.Password cfg.WebHost data.Port _ _
      (shadowsocksLabel_lt data.ExpireDate (firstLabel cfg.WebHost) cfg.WebHostRegion _
        (drop_lt _ ((utf8 data.Password).length - 4) (utf8_lt data.Password))) rfl
    exact ⟨_, _, _, _, _, hlocked, by rw [hlocked]; exact lockedInnerOf_wrap _, hplain, rfl,
      rfl, rfl, mk_queryEscape_no_hash _ (lockedLabel_lt data cfg),
      mk_queryEscape_no_hash _ (shadowsocksLabel_lt _ _ _ _ (drop_lt _ _ (utf8_lt _))),
      hs1, hs2, hp1, hp2⟩
  · intro cfg data locked h
    obtain ⟨hdev, hlen, hlocked⟩ := GenerateVmessLockedURI_ok cfg data locked h
    have hplain : GenerateVmessURI cfg data = .returned
        (VmessPrefix ++ String.mk (base64Encode
          (marshalObject (vmessMembers (vmessTemplate cfg data "")))), none) := by
      unfold GenerateVmessURI
      rw [if_neg hlen]
    refine ⟨VmessPrefix ++ String.mk (base64Encode
      (marshalObject (vmessMembers (vmessTemplate cfg data data.DeviceId)))), _,
      String.mk (base64Encode
        (marshalObject (vmessMembers (vmessTemplate cfg data data.DeviceId)))),
      hlocked, by rw [hlocked]; exact lockedInnerOf_wrap _, rfl, hplain, ?_, ?_, ?_, ?_, ?_, ?_⟩
    · unfold vmessMemberOf
      rw [vmess_locked_object cfg data hlen hdev]
      calc _ = some (toValidUTF8 (utf8 data.Id)) := by rfl
        _ = _ := by rw [toValidUTF8_utf8]
    · unfold vmessMemberOf
      rw [vmess_plain_object cfg data hlen]
      calc _ = some (toValidUTF8 (utf8 data.Id)) := by rfl
        _ = _ := by rw [toValidUTF8_utf8]
    · unfold vmessMemberOf
      rw [vmess_locked_object cfg data hlen hdev]
      calc _ = some (toValidUTF8 (utf8 cfg.WebHost)) := by rfl
        _ = _ := by rw [toValidUTF8_utf8]
    · unfold vmessMemberOf
      rw [vmess_plain_object cfg data hlen]
      calc _ = some (toValidUTF8 (utf8 cfg.WebHost)) := by rfl
        _ = _ := by rw [toValidUTF8_utf8]
    · unfold vmessMemberOf
      rw [vmess_locked_object cfg data hlen hdev]
      calc _ = some (toValidUTF8 (utf8 cfg.V2rayPort)) := by rfl
        _ = _ := by rw [toValidUTF8_utf8]
    · unfold vmessMemberOf
      rw [vmess_plain_object cfg data hlen]
      calc _ = some (toValidUTF8 (utf8 cfg.V2rayPort)) := by rfl
        _ = _ := by rw [toValidUTF8_utf8]

set_option maxRecDepth 100000 in
/-- Witness of C25: the locked descriptors of `alice` (port 10000) and of
`carol` on the host `sg1.example.com`. -/
theorem locked_wraps_plain_family_witness :
    (∃ inner plain common labelInner labelPlain : String,
      "v2box://locked=c3M6Ly9ZV1Z6TFRFeU9DMW5ZMjA2WVdKak1USXpAc2cxLmV4YW1wbGUuY29tOjEwMDAwI3ZhbGlkK2JlZm9yZSslMjgyMDI1LTAyLTAxJTI5K3NnMS1zZy1jMTIzKyU1QmxvY2tlZCUzQWRldmljZS1hJTVE"
        = V2boxLockedPrefix ++ String.mk (base64Encode (utf8 inner)) ∧
      lockedInnerOf
        "v2box://locked=c3M6Ly9ZV1Z6TFRFeU9DMW5ZMjA2WVdKak1USXpAc2cxLmV4YW1wbGUuY29tOjEwMDAwI3ZhbGlkK2JlZm9yZSslMjgyMDI1LTAyLTAxJTI5K3NnMS1zZy1jMTIzKyU1QmxvY2tlZCUzQWRldmljZS1hJTVE"
        = some (utf8 inner) ∧
      GenerateShadowsocksURI exampleConfig { alice with Port := 10000 }
        = .returned (plain, none) ∧
      common = ShadowsocksPrefix ++
        String.mk (base64Encode (utf8 ("aes-128-gcm" ++ ":" ++ "abc123"))) ++ "@" ++
        "sg1.example.com" ++ ":" ++ formatInt 10000 ∧
      inner = common ++ "#" ++ labelInner ∧ plain = common ++ "#" ++ labelPlain ∧
      (∀ c ∈ labelInner.toList, c ≠ '#') ∧ (∀ c ∈ labelPlain.toList, c ≠ '#') ∧
      shadowsocksSecretOf inner = some (utf8 "abc123") ∧
      shadowsocksSecretOf plain = some (utf8 "abc123") ∧
      shadowsocksPortOf inner = some 10000 ∧
      shadowsocksPortOf plain = some 10000) ∧
    (∃ inner plain text : String,
      "v2box://locked=dm1lc3M6Ly9leUpoWkdRaU9pSnpaekV1WlhoaGJYQnNaUzVqYjIwaUxDSmhhV1FpT2lJeElpd2lZV3h3YmlJNklpSXNJbVJsZG1salpVbEVJam9pWkdWMmFXTmxMV0VpTENKbWNDSTZJaUlzSW1odmMzUWlPaUozZDNjdWVXOTFkSFZpWlM1amIyMGlMQ0pwWkNJNkluVjFhV1F0TVNJc0ltNWxkQ0k2SW5SamNDSXNJbkJoZEdnaU9pSXZJaXdpY0c5eWRDSTZJalEwTXlJc0luQnpJam9pZG1Gc2FXUWdZbVZtYjNKbElDZ3lNREkxTFRBeUxUQXhLU0J6WnpFdGMyY3RhV1F0TVNJc0luTmplU0k2SW01dmJtVWlMQ0p6Ym1raU9pSWlMQ0owYkhNaU9pSWlMQ0owZVhCbElqb2lhSFIwY0NJc0luWWlPaUl5SW4wPQ=="
        = V2boxLockedPrefix ++ String.mk (base64Encode (utf8 inner)) ∧
      lockedInnerOf
        "v2box://locked=dm1lc3M6Ly9leUpoWkdRaU9pSnpaekV1WlhoaGJYQnNaUzVqYjIwaUxDSmhhV1FpT2lJeElpd2lZV3h3YmlJNklpSXNJbVJsZG1salpVbEVJam9pWkdWMmFXTmxMV0VpTENKbWNDSTZJaUlzSW1odmMzUWlPaUozZDNjdWVXOTFkSFZpWlM1amIyMGlMQ0pwWkNJNkluVjFhV1F0TVNJc0ltNWxkQ0k2SW5SamNDSXNJbkJoZEdnaU9pSXZJaXdpY0c5eWRDSTZJalEwTXlJc0luQnpJam9pZG1Gc2FXUWdZbVZtYjNKbElDZ3lNREkxTFRBeUxUQXhLU0J6WnpFdGMyY3RhV1F0TVNJc0luTmplU0k2SW01dmJtVWlMQ0p6Ym1raU9pSWlMQ0owYkhNaU9pSWlMQ0owZVhCbElqb2lhSFIwY0NJc0luWWlPaUl5SW4wPQ=="
        = some (utf8 inner) ∧
      inner = VmessPrefix ++ text ∧
      GenerateVmessURI exampleConfig carol = .returned (plain, none) ∧
      vmessMemberOf inner "id" = some (utf8 "uuid-1") ∧
      vmessMemberOf plain "id" = some (utf8 "uuid-1") ∧
      vmessMemberOf inner "add" = some (utf8 "sg1.example.com") ∧
      vmessMemberOf plain "add" = some (utf8 "sg1.example.com") ∧
      vmessMemberOf inner "port" = some (utf8 "443") ∧
      vmessMemberOf plain "port" = some (utf8 "443")) :=
  ⟨locked_wraps_plain_family.1 exampleConfig { alice with Port := 10000 } _ (by rfl),
   locked_wraps_plain_family.2 exampleConfig carol _ (by rfl)⟩

/-! ## Calls that run at the same time: lemmas -/

theorem load_snapshot {ι : Type} (elem : JSON → Option ι) (w : World) :
    load elem { configFile := w.configFile, usersFile := w.usersFile, ufw := [] }
      = load elem w := rfl

theorem shadowsocksPlan_snapshot (call : Call) (w : World) :
    shadowsocksPlan call { configFile := w.configFile, usersFile := w.usersFile, ufw := [] }
      = shadowsocksPlan call w := by
  cases call <;> rfl

theorem vmessPlan_snapshot (port : String) (call : Call) (w : World) :
    vmessPlan port call { configFile := w.configFile, usersFile := w.usersFile, ufw := [] }
      = vmessPlan port call w := by
  cases call <;> rfl

theorem runSchedule_append (planOf : Env → Call → World → Option Plan) :
    ∀ (s1 s2 : List Turn) (race : Race),
      runSchedule planOf (s1 ++ s2) race = runSchedule planOf s2 (runSchedule planOf s1 race) := by
  intro s1
  induction s1 with
  | nil => intro s2 race; rfl
  | cons t rest ih =>
    intro s2 race
    cases t
    · exact ih s2 _
    · exact ih s2 _

theorem first_alone (planOf : Env → Call → World → Option Plan) (env : Env) (call : Call)
    (other : Thread) (w : World) :
    runSchedule planOf [.first, .first, .first, .first, .first]
        { first := .start env call, second := other, world := w }
      = { first := .done, second := other,
          world := worldAfterPlan env
            (planOf env call { configFile := w.configFile, usersFile := w.usersFile, ufw := [] })
            w } := by
  simp only [runSchedule, stepThread]
  cases hp : planOf env call { configFile := w.configFile, usersFile := w.usersFile, ufw := [] } with
  | none => simp only [worldAfterPlan, stepThread]
  | some plan =>
    simp only [worldAfterPlan, writeBack]
    cases hc : env.writeConfig with
    | failed left => simp only [stepThread, hc]
    | ok =>
      cases hu : env.writeUsers with
      | failed left => simp only [stepThread, hc, hu]
      | ok =>
        simp only [stepThread, hc, hu]
        cases hf : plan.firewall <;> simp only [stepThread, hf]

theorem second_alone (planOf : Env → Call → World → Option Plan) (env : Env) (call : Call)
    (other : Thread) (w : World) :
    runSchedule planOf [.second, .second, .second, .second, .second]
        { first := other, second := .start env call, world := w }
      = { first := other, second := .done,
          world := worldAfterPlan env
            (planOf env call { configFile := w.configFile, usersFile := w.usersFile, ufw := [] })
            w } := by
  simp only [runSchedule, stepThread]
  cases hp : planOf env call { configFile := w.configFile, usersFile := w.usersFile, ufw := [] } with
  | none => simp only [worldAfterPlan, stepThread]
  | some plan =>
    simp only [worldAfterPlan, writeBack]
    cases hc : env.writeConfig with
    | failed left => simp only [stepThread, hc]
    | ok =>
      cases hu : env.writeUsers with
      | failed left => simp only [stepThread, hc, hu]
      | ok =>
        simp only [stepThread, hc, hu]
        cases hf : plan.firewall <;> simp only [stepThread, hf]

theorem shadowsocksWorldAfter_plan (env : Env) (call : Call) (w : World) :
    shadowsocksWorldAfter env call w = worldAfterPlan env (shadowsocksPlan call w) w := by
  cases call with
  | create c =>
    simp only [shadowsocksWorldAfter, CreateShadowsocksUser, shadowsocksPlan]
    cases hd : load decodeShadowsocksInbound w with
    | none => rfl
    | some d =>
      simp only
      split_ifs with hany
      · rfl
      · simp only [worldAfterPlan]
        generalize writeBack env _ _ w = res
        obtain ⟨ok, w1⟩ := res
        cases ok with
        | false => rfl
        | true =>
          simp only
          generalize AllowPort env _ w1.ufw = fw
          obtain ⟨failed, ufw⟩ := fw
          cases failed <;> rfl
  | edit client =>
    simp only [shadowsocksWorldAfter, EditShadowsocksUser, shadowsocksPlan]
    cases hd : load decodeShadowsocksInbound w with
    | none => rfl
    | some d =>
      simp only
      cases hidx : findIndex (fun c => decide (client.Password = c.Password)) d.users with
      | none => rfl
      | some index =>
        simp only
        cases hin : d.inbounds[index]? with
        | none => rfl
        | some inbound =>
          simp only
          cases hus : d.users[index]? with
          | none => rfl
          | some oldClient =>
            simp only [worldAfterPlan]
            generalize writeBack env _ _ w = res
            obtain ⟨ok, w1⟩ := res
            cases ok <;> rfl
  | delete password deviceId =>
    simp only [shadowsocksWorldAfter, DeleteShadowsocksUser, shadowsocksPlan]
    cases hd : load decodeInbound w with
    | none => rfl
    | some d =>
      simp only
      cases hus : d.users[rangeBreak (fun user : Client => decide (user.Password = password))
          d.users]? with
      | none => rfl
      | some user =>
        simp only
        split_ifs with hg hl
        · rfl
        · rfl
        · simp only [worldAfterPlan]
          generalize writeBack env _ _ w = res
          obtain ⟨ok, w1⟩ := res
          cases ok with
          | false => rfl
          | true =>
            simp only
            generalize DeletePort env _ w1.ufw = fw
            obtain ⟨failed, ufw⟩ := fw
            cases failed <;> rfl

theorem vmessWorldAfter_plan (env : Env) (call : Call) (w : World) :
    vmessWorldAfter env call w = worldAfterPlan env (vmessPlan env.V2rayPort call w) w := by
  cases call with
  | create c =>
    simp only [vmessWorldAfter, CreateVmessUser, vmessPlan]
    cases hd : load decodeInbound w with
    | none => rfl
    | some d =>
      simp only
      cases hi : d.inbounds with
      | nil => rfl
      | cons first others =>
        simp only
        split_ifs with hany
        · rfl
        · simp only [worldAfterPlan]
          generalize writeBack env _ _ w = res
          obtain ⟨ok, w1⟩ := res
          cases ok <;> rfl
  | edit client =>
    simp only [vmessWorldAfter, EditVmessUser, vmessPlan]
    cases hd : load decodeInbound w with
    | none => rfl
    | some d =>
      simp only
      cases hi : d.inbounds with
      | nil => rfl
      | cons first others =>
        simp only
        cases hidx : findIndex (fun c : V2rayClient => decide (client.Id = c.Id))
            (elems first.Settings.Clients) with
        | none => rfl
        | some index =>
          simp only
          cases hus : d.users[index]? with
          | none => rfl
          | some oldClient =>
            simp only [worldAfterPlan]
            generalize writeBack env _ _ w = res
            obtain ⟨ok, w1⟩ := res
            cases ok <;> rfl
  | delete serverId deviceId =>
    simp only [vmessWorldAfter, DeleteVmessUser, vmessPlan]
    cases hd : load decodeInbound w with
    | none => rfl
    | some d =>
      simp only
      cases hi : d.inbounds with
      | nil => rfl
      | cons first others =>
        simp only
        cases hus : d.users[rangeBreak (fun user : V2rayClient => decide (user.Id = serverId))
            (elems first.Settings.Clients)]? with
        | none => rfl
        | some user =>
          simp only
          split_ifs with hg hl
          · rfl
          · rfl
          · simp only [worldAfterPlan]
            generalize writeBack env _ _ w = res
            obtain ⟨ok, w1⟩ := res
            cases ok <;> rfl

theorem shadowsocksCall_worldAfter (env : Env) (call : Call) (w w1 : World)
    (h : shadowsocksCall env call w = some w1) : shadowsocksWorldAfter env call w = w1 := by
  cases call with
  | create c =>
    simp only [shadowsocksCall] at h
    split at h
    · rename_i w2 heq
      cases h
      simp only [shadowsocksWorldAfter, heq]
    · cases h
  | edit c =>
    simp only [shadowsocksCall] at h
    split at h
    · rename_i r w2 heq
      split_ifs at h
      cases h
      simp only [shadowsocksWorldAfter, heq]
    · cases h
  | delete identity deviceId =>
    simp only [shadowsocksCall] at h
    split at h
    · rename_i r w2 heq
      split_ifs at h
      cases h
      simp only [shadowsocksWorldAfter, heq]
    · cases h

theorem vmessCall_worldAfter (env : Env) (call : Call) (w w1 : World)
    (h : vmessCall env call w = some w1) : vmessWorldAfter env call w = w1 := by
  cases call with
  | create c =>
    simp only [vmessCall] at h
    split at h
    · rename_i w2 heq
      cases h
      simp only [vmessWorldAfter, heq]
    · cases h
  | edit c =>
    simp only [vmessCall] at h
    split at h
    · rename_i r w2 heq
      split_ifs at h
      cases h
      simp only [vmessWorldAfter, heq]
    · cases h
  | delete identity deviceId =>
    simp only [vmessCall] at h
    split at h
    · rename_i r w2 heq
      split_ifs at h
      cases h
      simp only [vmessWorldAfter, heq]
    · cases h

theorem shadowsocks_first_alone (env : Env) (call : Call) (other : Thread) (w : World) :
    runSchedule shadowsocksPlanOf [.first, .first, .first, .first, .first]
        { first := .start env call, second := other, world := w }
      = { first := .done, second := other, world := shadowsocksWorldAfter env call w } := by
  rw [first_alone, shadowsocksWorldAfter_plan]
  simp only [shadowsocksPlanOf, shadowsocksPlan_snapshot]

theorem shadowsocks_second_alone (env : Env) (call : Call) (other : Thread) (w : World) :
    runSchedule shadowsocksPlanOf [.second, .second, .second, .second, .second]
        { first := other, second := .start env call, world := w }
      = { first := other, second := .done, world := shadowsocksWorldAfter env call w } := by
  rw [second_alone, shadowsocksWorldAfter_plan]
  simp only [shadowsocksPlanOf, shadowsocksPlan_snapshot]

theorem vmess_first_alone (env : Env) (call : Call) (other : Thread) (w : World) :
    runSchedule vmessPlanOf [.first, .first, .first, .first, .first]
        { first := .start env call, second := other, world := w }
      = { first := .done, second := other, world := vmessWorldAfter env call w } := by
  rw [first_alone, vmessWorldAfter_plan]
  simp only [vmessPlanOf, vmessPlan_snapshot]

theorem vmess_second_alone (env : Env) (call : Call) (other : Thread) (w : World) :
    runSchedule vmessPlanOf [.second, .second, .second, .second, .second]
        { first := other, second := .start env call, world := w }
      = { first := other, second := .done, world := vmessWorldAfter env call w } := by
  rw [second_alone, vmessWorldAfter_plan]
  simp only [vmessPlanOf, vmessPlan_snapshot]

theorem serialSchedule_split :
    serialSchedule = [.first, .first, .first, .first, .first]
      ++ [.second, .second, .second, .second, .second] := rfl

/-- C26, amended: the operations take no lock, and two calls on the same
document pair are serialized only when one has returned before the other
starts.  A call whose five steps (two reads, two writes, the firewall call) are
taken with no step of another call between them leaves the world the operation
leaves; under the schedule that runs one call to its end and then the other,
the two calls leave the world of the second operation applied to the world of
the first; and when the pair had as many inbounds (vmess: clients of
`inbounds[0]`) as roster entries and both calls succeed, it has as many of the
one as of the other afterwards, with the update of each call in place.
Schedules that interleave the steps of the two calls are not excluded by the
code. -/
theorem serialized_calls_keep_balance :
    (∀ (env : Env) (call : Call) (other : Thread) (w : World),
      runSchedule shadowsocksPlanOf [.first, .first, .first, .first, .first]
          { first := .start env call, second := other, world := w }
        = { first := .done, second := other, world := shadowsocksWorldAfter env call w }) ∧
    (∀ (env : Env) (call : Call) (other : Thread) (w : World),
      runSchedule vmessPlanOf [.first, .first, .first, .first, .first]
          { first := .start env call, second := other, world := w }
        = { first := .done, second := other, world := vmessWorldAfter env call w }) ∧
    (∀ (envA envB : Env) (callA callB : Call) (w : World),
      runSchedule shadowsocksPlanOf serialSchedule
          { first := .start envA callA, second := .start envB callB, world := w }
        = { first := .done, second := .done,
            world := shadowsocksWorldAfter envB callB (shadowsocksWorldAfter envA callA w) }) ∧
    (∀ (envA envB : Env) (callA callB : Call) (w : World),
      runSchedule vmessPlanOf serialSchedule
          { first := .start envA callA, second := .start envB callB, world := w }
        = { first := .done, second := .done,
            world := vmessWorldAfter envB callB (vmessWorldAfter envA callA w) }) ∧
    (∀ (envA envB : Env) (callA callB : Call) (w wA wB : World),
      ShadowsocksBalanced w → shadowsocksCall envA callA w = some wA →
      shadowsocksCall envB callB wA = some wB →
      (runSchedule shadowsocksPlanOf serialSchedule
          { first := .start envA callA, second := .start envB callB, world := w }).world = wB ∧
      ShadowsocksBalanced wB) ∧
    (∀ (envA envB : Env) (callA callB : Call) (w wA wB : World),
      VmessBalanced w → vmessCall envA callA w = some wA → vmessCall envB callB wA = some wB →
      (runSchedule vmessPlanOf serialSchedule
          { first := .start envA callA, second := .start envB callB, world := w }).world = wB ∧
      VmessBalanced wB) := by
  have hs : ∀ (envA envB : Env) (callA callB : Call) (w : World),
      runSchedule shadowsocksPlanOf serialSchedule
          { first := .start envA callA, second := .start envB callB, world := w }
        = { first := .done, second := .done,
            world := shadowsocksWorldAfter envB callB (shadowsocksWorldAfter envA callA w) } := by
    intro envA envB callA callB w
    rw [serialSchedule_split, runSchedule_append, shadowsocks_first_alone,
      shadowsocks_second_alone]
  have hv : ∀ (envA envB : Env) (callA callB : Call) (w : World),
      runSchedule vmessPlanOf serialSchedule
          { first := .start envA callA, second := .start envB callB, world := w }
        = { first := .done, second := .done,
            world := vmessWorldAfter envB callB (vmessWorldAfter envA callA w) } := by
    intro envA envB callA callB w
    rw [serialSchedule_split, runSchedule_append, vmess_first_alone, vmess_second_alone]
  refine ⟨shadowsocks_first_alone, vmess_first_alone, hs, hv, ?_, ?_⟩
  · intro envA envB callA callB w wA wB hb hA hB
    rw [hs, shadowsocksCall_worldAfter envA callA w wA hA,
      shadowsocksCall_worldAfter envB callB wA wB hB]
    exact ⟨rfl, shadowsocksCall_balanced envB callB wA wB
      (shadowsocksCall_balanced envA callA w wA hb hA) hB⟩
  · intro envA envB callA callB w wA wB hb hA hB
    rw [hv, vmessCall_worldAfter envA callA w wA hA, vmessCall_worldAfter envB callB wA wB hB]
    exact ⟨rfl, vmessCall_balanced envB callB wA wB
      (vmessCall_balanced envA callA w wA hb hA) hB⟩

/-- Witness of C26: the Create of `frank` and then the Delete of `bob` on
`twoShadowsocksWorld`, and the Create of `erin` and then the Delete of `dave` on
`twoVmessWorld`, one call after the other. -/
theorem serialized_calls_keep_balance_witness :
    ((runSchedule shadowsocksPlanOf serialSchedule shadowsocksRace).world
        = (DeleteShadowsocksUser calmEnv "zzz999" "device-b"
            (CreateShadowsocksUser calmEnv frank twoShadowsocksWorld).2).2 ∧
      ShadowsocksBalanced (DeleteShadowsocksUser calmEnv "zzz999" "device-b"
        (CreateShadowsocksUser calmEnv frank twoShadowsocksWorld).2).2) ∧
    ((runSchedule vmessPlanOf serialSchedule vmessRace).world
        = (DeleteVmessUser calmEnv "uuid-2" "device-b"
            (CreateVmessUser calmEnv erin twoVmessWorld).2).2 ∧
      VmessBalanced (DeleteVmessUser calmEnv "uuid-2" "device-b"
        (CreateVmessUser calmEnv erin twoVmessWorld).2).2) :=
  ⟨serialized_calls_keep_balance.2.2.2.2.1 calmEnv calmEnv (.create frank)
      (.delete "zzz999" "device-b") twoShadowsocksWorld
      (CreateShadowsocksUser calmEnv frank twoShadowsocksWorld).2
      (DeleteShadowsocksUser calmEnv "zzz999" "device-b"
        (CreateShadowsocksUser calmEnv frank twoShadowsocksWorld).2).2
      ⟨2, by rfl, by rfl⟩ (by rfl) (by rfl),
   serialized_calls_keep_balance.2.2.2.2.2 calmEnv calmEnv (.create erin)
      (.delete "uuid-2" "device-b") twoVmessWorld
      (CreateVmessUser calmEnv erin twoVmessWorld).2
      (DeleteVmessUser calmEnv "uuid-2" "device-b"
        (CreateVmessUser calmEnv erin twoVmessWorld).2).2
      ⟨2, by rfl, by rfl⟩ (by rfl) (by rfl)⟩

/-- C26, counterexample: two calls on `twoShadowsocksWorld`, which holds two
inbounds and two roster entries: the Create of `frank` and the Delete of `bob`,
in calm surroundings.  Under `interleavedSchedule` both calls read the two
files before either writes; the Create writes the configuration document, the
Delete writes the configuration document and the roster, and the Create writes
the roster.  Both calls have returned; the configuration document holds one
inbound, on port 10000 (the inbound the Create added is lost), and the roster
holds three entries (the removal the Delete made is lost); one after the other
the same two calls leave two inbounds and two roster entries.  The same
schedule on `twoVmessWorld` with the Create of `erin` and the Delete of `dave`
leaves one client in `inbounds[0]` and three roster entries. -/
theorem interleaved_calls_lose_update_counterexample :
    (inboundCount twoShadowsocksWorld = some 2 ∧ rosterCount twoShadowsocksWorld = some 2) ∧
    (runSchedule shadowsocksPlanOf interleavedSchedule shadowsocksRace).first.isDone = true ∧
    (runSchedule shadowsocksPlanOf interleavedSchedule shadowsocksRace).second.isDone = true ∧
    inboundCount (runSchedule shadowsocksPlanOf interleavedSchedule shadowsocksRace).world
      = some 1 ∧
    rosterCount (runSchedule shadowsocksPlanOf interleavedSchedule shadowsocksRace).world
      = some 3 ∧
    inboundsOf (runSchedule shadowsocksPlanOf interleavedSchedule shadowsocksRace).world
      = some [shadowsocksAsInbound 10000] ∧
    rosterOf (runSchedule shadowsocksPlanOf interleavedSchedule shadowsocksRace).world
      = some [{ alice with Port := 10000 }, { bob with Port := 10001 },
              { frank with Port := 10002 }] ∧
    ¬ ShadowsocksBalanced
        (runSchedule shadowsocksPlanOf interleavedSchedule shadowsocksRace).world ∧
    (inboundCount (runSchedule shadowsocksPlanOf serialSchedule shadowsocksRace).world = some 2 ∧
      rosterOf (runSchedule shadowsocksPlanOf serialSchedule shadowsocksRace).world
        = some [{ alice with Port := 10000 }, { frank with Port := 10002 }]) ∧
    (vmessClientCount twoVmessWorld = some 2 ∧ rosterCount twoVmessWorld = some 2) ∧
    (runSchedule vmessPlanOf interleavedSchedule vmessRace).first.isDone = true ∧
    (runSchedule vmessPlanOf interleavedSchedule vmessRace).second.isDone = true ∧
    vmessClientsOf (runSchedule vmessPlanOf interleavedSchedule vmessRace).world
      = some [{ Id := "uuid-1", AlterId := 1 }] ∧
    rosterOf (runSchedule vmessPlanOf interleavedSchedule vmessRace).world
      = some [carol, dave, { erin with Port := 443 }] ∧
    ¬ VmessBalanced (runSchedule vmessPlanOf interleavedSchedule vmessRace).world :=
  ⟨⟨by rfl, by rfl⟩, by rfl, by rfl, by rfl, by rfl, by rfl, by rfl,
   fun ⟨n, h1, h2⟩ => by
     have e1 : (some 1 : Option Nat) = some n :=
       (rfl : inboundCount (runSchedule shadowsocksPlanOf interleavedSchedule
         shadowsocksRace).world = some 1).symm.trans h1
     have e2 : (some 3 : Option Nat) = some n :=
       (rfl : rosterCount (runSchedule shadowsocksPlanOf interleavedSchedule
         shadowsocksRace).world = some 3).symm.trans h2
     have := Option.some.inj e1
     have := Option.some.inj e2
     omega,
   ⟨by rfl, by rfl⟩, ⟨by rfl, by rfl⟩, by rfl, by rfl, by rfl, by rfl,
   fun ⟨n, h1, h2⟩ => by
     have e1 : (some 1 : Option Nat) = some n :=
       (rfl : vmessClientCount (runSchedule vmessPlanOf interleavedSchedule
         vmessRace).world = some 1).symm.trans h1
     have e2 : (some 3 : Option Nat) = some n :=
       (rfl : rosterCount (runSchedule vmessPlanOf interleavedSchedule
         vmessRace).world = some 3).symm.trans h2
     have := Option.some.inj e1
     have := Option.some.inj e2
     omega⟩

end Lothone
